import Mathlib

/-! # MotionPlus: the per-device frame loop (src/motion_loop.cpp)

A shallow embedding of the image ring, the frame classification and the event
correlation of `motion_loop.cpp`, followed by the properties proved about it.

Conventions of the embedding
* C `int` values are mathematical integers (`Int`); the configuration parser
  bounds every value that is added or incremented here, so no sum leaves the
  range of `int`.
* `cam->imgs.image_ring` is a `List ctx_image_data`; `image_ring[i]` is
  `ring_at ring i`, an in-place write to `image_ring[i]` is `ring_upd ring i f`.
* `cam->current_image` points into the ring or is `NULL`: it is the index of
  the slot it points to, or `none`.  The C behaviour of an access outside the
  ring or through `NULL` is undefined; here such a read gives a zeroed frame and
  such a write does nothing, and the theorems state when accesses are in range.
* Calls into other modules (`cam->event`, `cam->dbse_exec`, `pic_save_preview`,
  ...) do not return anything the loop reads; they are recorded, in call order,
  in `ctx_dev.calls`.
* Clock readings (`clock_gettime`) are arguments of the function that reads them.
* Logging, drawing into the image planes and the formatting of the event
  strings (`eventid`, `text_event_string`) are left out: nothing in the loop
  reads their result.
-/

namespace MotionPlus

/-! ## Data model -/

/-- Modelled from the spec: the `IMAGE_*` bit masks are declared in
`motionplus.hpp`, which is not part of the sources at hand; the spec gives
`flags` as the bitset {TRIGGER, MOTION, PRECAP, POSTCAP, SAVE, SAVED} in which
several flags may be set at once.  One field per bit. -/
structure image_flags where
  trigger : Bool := false
  motion : Bool := false
  precap : Bool := false
  postcap : Bool := false
  save : Bool := false
  saved : Bool := false
deriving DecidableEq

/-- Bitwise or of two flag words (`|`). -/
def image_flags.lor (a b : image_flags) : image_flags :=
  { trigger := a.trigger || b.trigger, motion := a.motion || b.motion,
    precap := a.precap || b.precap, postcap := a.postcap || b.postcap,
    save := a.save || b.save, saved := a.saved || b.saved }

/-- Bitwise and of two flag words (`&`). -/
def image_flags.land (a b : image_flags) : image_flags :=
  { trigger := a.trigger && b.trigger, motion := a.motion && b.motion,
    precap := a.precap && b.precap, postcap := a.postcap && b.postcap,
    save := a.save && b.save, saved := a.saved && b.saved }

instance : OrOp image_flags := ⟨image_flags.lor⟩
instance : AndOp image_flags := ⟨image_flags.land⟩

/-- The flag word 0. -/
def IMAGE_NONE : image_flags := {}
def IMAGE_TRIGGER : image_flags := { trigger := true }
def IMAGE_MOTION : image_flags := { motion := true }
def IMAGE_PRECAP : image_flags := { precap := true }
def IMAGE_POSTCAP : image_flags := { postcap := true }
def IMAGE_SAVE : image_flags := { save := true }
def IMAGE_SAVED : image_flags := { saved := true }

/-- C truth value of a flag word: `if (flags & X)` is `(flags &&& X).test`. -/
def image_flags.test (a : image_flags) : Bool :=
  a.trigger || a.motion || a.precap || a.postcap || a.save || a.saved

/-- Modelled from the spec: the `NEWIMG_*` masks of `motionplus.hpp` (absent),
the preview policy "first/best/center" of the spec plus the plain on/off
setting, one field per bit. -/
structure newimg_flags where
  bit_on : Bool := false
  bit_first : Bool := false
  bit_best : Bool := false
  bit_center : Bool := false
deriving DecidableEq

def NEWIMG_OFF : newimg_flags := {}
def NEWIMG_ON : newimg_flags := { bit_on := true }
def NEWIMG_FIRST : newimg_flags := { bit_first := true }
def NEWIMG_BEST : newimg_flags := { bit_best := true }
def NEWIMG_CENTER : newimg_flags := { bit_center := true }

/-- The C `struct timespec`. -/
structure timespec where
  tv_sec : Int := 0
  tv_nsec : Int := 0
deriving DecidableEq

/-- The fields of `ctx_coord` (centroid and standard deviations) read by the loop. -/
structure ctx_coord where
  x : Int := 0
  y : Int := 0
  stddev_x : Int := 0
  stddev_y : Int := 0
  stddev_xy : Int := 0
deriving DecidableEq

/-- One frame record, `ctx_image_data`. -/
structure ctx_image_data where
  image_norm : List Nat := []
  image_high : List Nat := []
  diffs : Int := 0
  flags : image_flags := {}
  cent_dist : Int := 0
  location : ctx_coord := {}
  total_labels : Int := 0
  imgts : timespec := {}
  monots : timespec := {}
  shot : Int := 0
deriving DecidableEq

instance : Inhabited ctx_image_data := ⟨{}⟩

/-- Modelled from the spec: the event kinds of the notification contract; the
enumeration `motion_event` is declared in `motionplus.hpp` (absent). -/
inductive motion_event where
  | EVENT_START | EVENT_MOTION | EVENT_END
  | EVENT_IMAGE_DETECTED | EVENT_IMAGEM_DETECTED | EVENT_IMAGE_PREVIEW
  | EVENT_CAMERA_LOST | EVENT_CAMERA_FOUND
  | EVENT_MOVIE_START | EVENT_MOVIE_END
  | EVENT_AREA_DETECTED | EVENT_SECDETECT | EVENT_STREAM
  | EVENT_IMAGE_SNAPSHOT | EVENT_TLAPSE_START | EVENT_TLAPSE_END
  | EVENT_IMAGE | EVENT_IMAGEM
deriving DecidableEq

open motion_event

/-- Modelled from the spec: the device status {Init, Opened, Closed, Reset};
the enumeration is declared in `motionplus.hpp` (absent). -/
inductive device_status where
  | STATUS_CLOSED | STATUS_INIT | STATUS_OPENED | STATUS_RESET
deriving DecidableEq

/-- Modelled from the spec: the capture transports, selected once at
initialisation; the enumeration is declared in `motionplus.hpp` (absent). -/
inductive camera_type where
  | CAMERA_TYPE_UNKNOWN | CAMERA_TYPE_V4L2 | CAMERA_TYPE_LIBCAM | CAMERA_TYPE_NETCAM
deriving DecidableEq

/-- A call that leaves the loop: `cam->event(kind, img, ...)` with the ring slot
of `img` when one is passed, `cam->dbse_exec(..., action)`, the other
collaborators, and the start (`libcam_start`, `netcam_start`, `v4l2_start`) and
the cleanup (`libcam_cleanup`, `netcam_cleanup`, `v4l2_cleanup`) of a capture
backend. -/
inductive ext_call where
  | event (kind : motion_event) (img : Option Int)
  | dbse_exec (action : String)
  | pic_save_preview (img : Int)
  | movie_reset_start_time
  | algsec_detect
  | exec_command
  | cam_start (kind : camera_type)
  | cam_cleanup (kind : camera_type)
deriving DecidableEq

/-- The fields of `ctx_config` (conf.hpp) read by the loop and by the main thread. -/
structure ctx_config where
  watchdog_tmo : Int := 0
  watchdog_kill : Int := 0
  framerate : Int := 0
  emulate_motion : Bool := false
  threshold : Int := 0
  threshold_maximum : Int := 0
  noise_level : Int := 0
  area_detect : List Char := []
  minimum_motion_frames : Int := 0
  event_gap : Int := 0
  pre_capture : Int := 0
  post_capture : Int := 0
  picture_output_motion : String := "off"
  movie_max_time : Int := 0
  stream_motion : Bool := false
  ptz_auto_track : Bool := false
  ptz_wait : Int := 0
  ptz_move_track : String := ""
  pause : Bool := false
  movie_passthrough : Bool := false
  setup_mode : Bool := false
  device_id : Int := 0
  device_tmo : Int := 0
  width : Int := 0
  height : Int := 0
  snapshot_interval : Int := 0
  webcontrol_port : Int := 0

/-- The image bookkeeping of a device, `cam->imgs`. -/
structure ctx_images where
  image_ring : List ctx_image_data := []
  ring_size : Int := 0
  ring_in : Int := 0
  ring_out : Int := 0
  image_preview : ctx_image_data := {}
  width : Int := 0
  height : Int := 0
  size_norm : Int := 0
  size_high : Int := 0
  motionsize : Int := 0
  width_high : Int := 0
  height_high : Int := 0
  image_virgin : List Nat := []
  image_vprvcy : List Nat := []

/-- Modelled from the spec: the part of the network-camera helper (`ctx_netcam`,
netcam.hpp, absent) that the watchdog touches: the request to finish and the
helper thread's report that it has finished. -/
structure ctx_netcam where
  finish : Bool := false
  handler_finished : Bool := false
deriving DecidableEq

/-- The per-device state, `ctx_dev`. -/
structure ctx_dev where
  conf : ctx_config := {}
  imgs : ctx_images := {}
  current_image : Option Int := none
  event_nr : Int := 0
  prev_event : Int := 0
  event_stop : Bool := false
  event_user : Bool := false
  detecting_motion : Bool := false
  postcap : Int := 0
  startup_frames : Int := 0
  threshold : Int := 0
  threshold_maximum : Int := 0
  noise : Int := 0
  lasttime : Int := 0
  frame_curr_ts : timespec := {}
  frame_last_ts : timespec := {}
  shots : Int := 0
  lastrate : Int := 0
  watchdog : Int := 0
  info_diff_cnt : Int := 0
  info_diff_tot : Int := 0
  info_sdev_min : Int := 0
  info_sdev_max : Int := 0
  info_sdev_tot : Int := 0
  new_img : newimg_flags := {}
  algsec_inuse : Bool := false
  algsec_isdetected : Bool := false
  movie_norm : Bool := false
  movie_start_time : Int := 0
  track_posx : Int := 0
  track_posy : Int := 0
  frame_skip : Int := 0
  areadetect_eventnbr : Int := 0
  area_minx : List Int := []
  area_maxx : List Int := []
  area_miny : List Int := []
  area_maxy : List Int := []
  passflag : Bool := false
  pause : Bool := false
  movie_passthrough : Bool := false
  camera_type : camera_type := camera_type.CAMERA_TYPE_UNKNOWN
  device_status : device_status := device_status.STATUS_CLOSED
  frame_wait : List Int := []
  running_dev : Bool := false
  finish_dev : Bool := false
  restart_dev : Bool := false
  netcam : Option ctx_netcam := none
  netcam_high : Option ctx_netcam := none
  libcam : Bool := false
  v4l2cam : Bool := false
  device_id : Int := 0
  snapshot : Bool := false
  missing_frame_counter : Int := 0
  lost_connection : Int := 0
  connectionlosttime : timespec := {}
  text_scale : Int := 0
  calls : List ext_call := []

/-! ## The image ring -/

/-- The slot `image_ring[i]`. -/
def ring_at (ring : List ctx_image_data) (i : Int) : ctx_image_data :=
  ring.getD i.toNat default

/-- The ring after `image_ring[i]` has been rewritten in place by `f`. -/
def ring_upd (ring : List ctx_image_data) (i : Int)
    (f : ctx_image_data → ctx_image_data) : List ctx_image_data :=
  ring.set i.toNat (f (ring_at ring i))

/-- The slot `cam->current_image` points to. -/
def ctx_dev.cur (cam : ctx_dev) : ctx_image_data :=
  match cam.current_image with
  | some i => ring_at cam.imgs.image_ring i
  | none => default

/-- A write through `cam->current_image`. -/
def ctx_dev.upd_cur (cam : ctx_dev) (f : ctx_image_data → ctx_image_data) : ctx_dev :=
  match cam.current_image with
  | some i => { cam with imgs := { cam.imgs with image_ring := ring_upd cam.imgs.image_ring i f } }
  | none => cam

/-- `img->flags |= m`. -/
def set_flags (m : image_flags) (img : ctx_image_data) : ctx_image_data :=
  { img with flags := img.flags ||| m }

/-- Record a call to a collaborator. -/
def ctx_dev.call (cam : ctx_dev) (c : ext_call) : ctx_dev :=
  { cam with calls := cam.calls ++ [c] }

/-- `mlp_ring_resize`: `tmp i` is what `mymalloc` (util.cpp, not part of the
sources at hand) left in slot `i` of the new array before the image planes are
attached and filled with 0x80. -/
def mlp_ring_resize (cam : ctx_dev) (tmp : Nat → ctx_image_data) : ctx_dev :=
  let new_size := cam.conf.pre_capture + cam.conf.minimum_motion_frames
  let new_size := if new_size < 1 then 1 else new_size
  let ring := (List.range new_size.toNat).map (fun i =>
    { tmp i with
      image_norm := List.replicate cam.imgs.size_norm.toNat 0x80,
      image_high := if cam.imgs.size_high > 0
                    then List.replicate cam.imgs.size_high.toNat 0x80
                    else (tmp i).image_high })
  { cam with
    imgs := { cam.imgs with image_ring := ring, ring_size := new_size, ring_in := 0, ring_out := 0 },
    current_image := none }

/-- `mlp_resetimages`: `realtime` and `monotonic` are the two clock readings. -/
def mlp_resetimages (cam : ctx_dev) (realtime monotonic : timespec) : ctx_dev :=
  let ring_in := cam.imgs.ring_in + 1
  let ring_in := if ring_in ≥ cam.imgs.ring_size then 0 else ring_in
  let ring_out :=
    if ring_in = cam.imgs.ring_out then
      (if cam.imgs.ring_out + 1 ≥ cam.imgs.ring_size then 0 else cam.imgs.ring_out + 1)
    else cam.imgs.ring_out
  let cam := { cam with imgs := { cam.imgs with ring_in := ring_in, ring_out := ring_out },
                        current_image := some ring_in }
  cam.upd_cur (fun img =>
    { img with diffs := 0, flags := IMAGE_NONE, cent_dist := 0, location := {},
               total_labels := 0, imgts := realtime, monots := monotonic, shot := cam.shots })

/-- `(a & m) != 0` for the preview policy word. -/
def newimg_flags.has (a m : newimg_flags) : Bool :=
  (a.bit_on && m.bit_on) || (a.bit_first && m.bit_first) ||
  (a.bit_best && m.bit_best) || (a.bit_center && m.bit_center)

/-- Bitwise or of two preview policy words. -/
def newimg_flags.lor (a b : newimg_flags) : newimg_flags :=
  { bit_on := a.bit_on || b.bit_on, bit_first := a.bit_first || b.bit_first,
    bit_best := a.bit_best || b.bit_best, bit_center := a.bit_center || b.bit_center }

instance : OrOp newimg_flags := ⟨newimg_flags.lor⟩

/-- Modelled from the spec: `pic_save_preview` (picture.cpp, not part of the
sources at hand) stores the frame as the preview candidate of the event. -/
def pic_save_preview (cam : ctx_dev) (img : Int) : ctx_dev :=
  { cam with imgs := { cam.imgs with image_preview := ring_at cam.imgs.image_ring img } }.call
    (ext_call.pic_save_preview img)

/-- One pass of the body of the `do ... while` of `mlp_ring_process`, entered
with the slot at `ring_out` flagged SAVE and not SAVED. -/
def mlp_ring_process_body (cam : ctx_dev) : ctx_dev :=
  let out := cam.imgs.ring_out
  let cam := { cam with current_image := some out }
  let cam := if (ring_at cam.imgs.image_ring out).shot < cam.conf.framerate
    then cam.call (ext_call.event EVENT_IMAGE_DETECTED (some out)) else cam
  let cam := { cam with imgs := { cam.imgs with
    image_ring := ring_upd cam.imgs.image_ring out (set_flags IMAGE_SAVED) } }
  let cam := if ((ring_at cam.imgs.image_ring out).flags &&& IMAGE_MOTION).test then
      let cam := if cam.new_img.has NEWIMG_BEST then
          (if (ring_at cam.imgs.image_ring out).diffs > cam.imgs.image_preview.diffs
           then pic_save_preview cam out else cam)
        else cam
      if cam.new_img.has NEWIMG_CENTER then
          (if (ring_at cam.imgs.image_ring out).cent_dist < cam.imgs.image_preview.cent_dist
           then pic_save_preview cam out else cam)
        else cam
    else cam
  let ring_out : Int := cam.imgs.ring_out + 1
  let ring_out : Int := if ring_out ≥ cam.imgs.ring_size then 0 else ring_out
  { cam with imgs := { cam.imgs with ring_out := ring_out } }

/-- The `do ... while` of `mlp_ring_process`, at most `fuel` passes; `none`
when the loop has not left after `fuel` passes. -/
def mlp_ring_process_loop : Nat → ctx_dev → Option ctx_dev
  | 0, _ => none
  | fuel + 1, cam =>
    if (ring_at cam.imgs.image_ring cam.imgs.ring_out).flags &&& (IMAGE_SAVE ||| IMAGE_SAVED)
        ≠ IMAGE_SAVE then
      some cam
    else
      let cam := mlp_ring_process_body cam
      if cam.imgs.ring_out ≠ cam.imgs.ring_in then mlp_ring_process_loop fuel cam
      else some cam

/-- `mlp_ring_process`.  Every pass of the loop marks a slot SAVED that was not,
so one pass more than the ring has slots is enough for the loop to leave
(`mlp_ring_process_loop_isSome`); the second branch is never taken. -/
def mlp_ring_process (cam : ctx_dev) : ctx_dev :=
  let saved_current_image := cam.current_image
  match mlp_ring_process_loop (cam.imgs.image_ring.length + 1) cam with
  | some cam => { cam with current_image := saved_current_image }
  | none => cam

/-- `mlp_info_reset`. -/
def mlp_info_reset (cam : ctx_dev) : ctx_dev :=
  { cam with info_diff_cnt := 0, info_diff_tot := 0, info_sdev_min := 99999999,
             info_sdev_max := 0, info_sdev_tot := 0 }

/-- `mlp_detected_trigger`; `img` is the ring slot of the frame. -/
def mlp_detected_trigger (cam : ctx_dev) (img : Int) : ctx_dev :=
  if ((ring_at cam.imgs.image_ring img).flags &&& IMAGE_TRIGGER).test then
    let cam := if cam.event_nr ≠ cam.prev_event then
        let cam := mlp_info_reset cam
        let cam := { cam with prev_event := cam.event_nr }
        let cam := if cam.algsec_inuse then { cam with algsec_isdetected := false } else cam
        let cam := cam.call (ext_call.event EVENT_START (some img))
        let cam := cam.call (ext_call.dbse_exec "event_start")
        if cam.new_img.has (NEWIMG_FIRST ||| NEWIMG_BEST ||| NEWIMG_CENTER) then
          pic_save_preview cam img
        else cam
      else cam
    cam.call (ext_call.event EVENT_MOTION none)
  else cam

/-- `mlp_track_center`. -/
def mlp_track_center (cam : ctx_dev) : ctx_dev :=
  if cam.conf.ptz_auto_track && decide (cam.conf.ptz_move_track ≠ "") then
    { cam with track_posx := 0, track_posy := 0, frame_skip := cam.conf.ptz_wait }.call
      ext_call.exec_command
  else cam

/-- `mlp_track_move`. -/
def mlp_track_move (cam : ctx_dev) (cent : ctx_coord) : ctx_dev :=
  if cam.conf.ptz_auto_track && decide (cam.conf.ptz_move_track ≠ "") then
    { cam with track_posx := cam.track_posx + cent.x, track_posy := cam.track_posy + cent.y,
               frame_skip := cam.conf.ptz_wait }.call ext_call.exec_command
  else cam

/-- `mlp_detected`; `img` is the ring slot of the frame.  `distX` and `distY`
are `unsigned int`: they and the sum of their squares are taken modulo `2^32`.
The call of `draw_locate` (draw.cpp, not part of the sources at hand) is left out. -/
def mlp_detected (cam : ctx_dev) (img : Int) : ctx_dev :=
  let cam := if cam.new_img.has NEWIMG_CENTER then
      let distX : Int :=
        ((Int.tdiv cam.imgs.width 2 - (ring_at cam.imgs.image_ring img).location.x).natAbs : Int)
          % 4294967296
      let distY : Int :=
        ((Int.tdiv cam.imgs.height 2 - (ring_at cam.imgs.image_ring img).location.y).natAbs : Int)
          % 4294967296
      let ring := ring_upd cam.imgs.image_ring img
        (fun i => { i with cent_dist := (distX * distX + distY * distY) % 4294967296 })
      { cam with imgs := { cam.imgs with image_ring := ring } }
    else cam
  let cam := mlp_detected_trigger cam img
  let cam := if (ring_at cam.imgs.image_ring img).shot < cam.conf.framerate then
      let cam := if cam.conf.stream_motion && !cam.conf.setup_mode
                    && decide ((ring_at cam.imgs.image_ring img).shot ≠ 1)
        then cam.call (ext_call.event EVENT_STREAM (some img)) else cam
      if cam.conf.picture_output_motion ≠ "off"
        then cam.call (ext_call.event EVENT_IMAGEM_DETECTED none) else cam
    else cam
  mlp_track_move cam (ring_at cam.imgs.image_ring img).location

/-- `mlp_init_values`: `now1`, `now2` are the two readings of the steady clock,
`motapp_pause` is the process-wide pause switch. -/
def mlp_init_values (cam : ctx_dev) (now1 now2 : timespec) (motapp_pause : Bool) : ctx_dev :=
  let cam := { cam with event_nr := 1, prev_event := 0, watchdog := cam.conf.watchdog_tmo,
                        frame_curr_ts := now1, frame_last_ts := now2,
                        noise := cam.conf.noise_level, passflag := false,
                        threshold := cam.conf.threshold,
                        device_status := device_status.STATUS_CLOSED,
                        startup_frames := (cam.conf.framerate * 2) + cam.conf.pre_capture
                                            + cam.conf.minimum_motion_frames,
                        movie_passthrough := cam.conf.movie_passthrough }
  let cam := if cam.camera_type ≠ camera_type.CAMERA_TYPE_NETCAM ∧ cam.movie_passthrough = true
    then { cam with movie_passthrough := false } else cam
  if motapp_pause then { cam with pause := true } else { cam with pause := cam.conf.pause }

/-- The test of the loop over `area_detect` in `mlp_areadetect`: some configured
area (characters '1'..'9') strictly contains the centroid. -/
def area_hit (cam : ctx_dev) : Bool :=
  cam.conf.area_detect.any (fun c =>
    let z : Int := (c.toNat : Int) - 49
    decide (z ≥ 0 ∧ z < 9) &&
    decide (cam.cur.location.x > cam.area_minx.getD z.toNat 0 ∧
            cam.cur.location.x < cam.area_maxx.getD z.toNat 0 ∧
            cam.cur.location.y > cam.area_miny.getD z.toNat 0 ∧
            cam.cur.location.y < cam.area_maxy.getD z.toNat 0))

/-- `mlp_areadetect`. -/
def mlp_areadetect (cam : ctx_dev) : ctx_dev :=
  if cam.conf.area_detect ≠ [] ∧ cam.event_nr ≠ cam.areadetect_eventnbr ∧
      (cam.cur.flags &&& IMAGE_TRIGGER).test = true then
    if area_hit cam then
      { cam.call (ext_call.event EVENT_AREA_DETECTED none) with areadetect_eventnbr := cam.event_nr }
    else cam
  else cam

/-- `mlp_prepare`: `now` is the reading of the steady clock. -/
def mlp_prepare (cam : ctx_dev) (now : timespec) : ctx_dev :=
  let cam := { cam with watchdog := cam.conf.watchdog_tmo,
                        frame_last_ts := cam.frame_curr_ts, frame_curr_ts := now }
  let cam := if cam.conf.pre_capture < 0
    then { cam with conf := { cam.conf with pre_capture := 0 } } else cam
  let cam := if cam.frame_last_ts.tv_sec ≠ cam.frame_curr_ts.tv_sec
    then { cam with lastrate := cam.shots + 1, shots := -1 } else cam
  let cam := { cam with shots := cam.shots + 1 }
  if cam.startup_frames > 0 then { cam with startup_frames := cam.startup_frames - 1 } else cam

/-- The loop `for (indx = 0; indx < ring_size; indx++) image_ring[indx].flags |= IMAGE_SAVE`. -/
def ring_save_all (ring : List ctx_image_data) (ring_size : Int) : List ctx_image_data :=
  (List.range ring_size.toNat).foldl
    (fun r (indx : Nat) => ring_upd r (Int.ofNat indx) (set_flags IMAGE_SAVE)) ring

/-- The statements of `mlp_actions_emulate` before its call of `mlp_detected`. -/
def mlp_actions_emulate_mark (cam : ctx_dev) : ctx_dev :=
  let cam := if cam.detecting_motion = false ∧ cam.movie_norm = true
    then cam.call ext_call.movie_reset_start_time else cam
  let cam := { cam with detecting_motion := true }
  let cam := if cam.conf.post_capture > 0 then { cam with postcap := cam.conf.post_capture } else cam
  let cam := cam.upd_cur (set_flags (IMAGE_TRIGGER ||| IMAGE_SAVE))
  { cam with imgs := { cam.imgs with
    image_ring := ring_save_all cam.imgs.image_ring cam.imgs.ring_size } }

/-- `mlp_actions_emulate`. -/
def mlp_actions_emulate (cam : ctx_dev) : ctx_dev :=
  let cam := mlp_actions_emulate_mark cam
  match cam.current_image with
  | some img => mlp_detected cam img
  | none => cam

/-- The counting loop of `mlp_actions_motion`: `n` passes are left, `pos` is
the slot looked at next, `frame_count` the MOTION flags seen so far. -/
def motion_frame_count (ring : List ctx_image_data) (ring_size : Int) :
    Nat → Int → Int → Int
  | 0, _, frame_count => frame_count
  | n + 1, pos, frame_count =>
    let frame_count := if ((ring_at ring pos).flags &&& IMAGE_MOTION).test
      then frame_count + 1 else frame_count
    let pos := if pos = 0 then ring_size - 1 else pos - 1
    motion_frame_count ring ring_size n pos frame_count

/-- The statements of `mlp_actions_motion` before its call of `mlp_detected`. -/
def mlp_actions_motion_mark (cam : ctx_dev) : ctx_dev :=
  let frame_count := motion_frame_count cam.imgs.image_ring cam.imgs.ring_size
    cam.conf.minimum_motion_frames.toNat cam.imgs.ring_in 0
  if frame_count ≥ cam.conf.minimum_motion_frames then
    let cam := cam.upd_cur (set_flags (IMAGE_TRIGGER ||| IMAGE_SAVE))
    let cam := if cam.detecting_motion = false ∧ cam.movie_norm = true
      then cam.call ext_call.movie_reset_start_time else cam
    let cam := { cam with detecting_motion := true, postcap := cam.conf.post_capture }
    { cam with imgs := { cam.imgs with
        image_ring := ring_save_all cam.imgs.image_ring cam.imgs.ring_size } }
  else if cam.postcap > 0 then
    let cam := cam.upd_cur (set_flags (IMAGE_POSTCAP ||| IMAGE_SAVE))
    { cam with postcap := cam.postcap - 1 }
  else
    cam.upd_cur (set_flags IMAGE_PRECAP)

/-- `mlp_actions_motion`. -/
def mlp_actions_motion (cam : ctx_dev) : ctx_dev :=
  let cam := mlp_actions_motion_mark cam
  match cam.current_image with
  | some img => mlp_detected cam img
  | none => cam

/-- The first `if` of `mlp_actions_event`: the event gap has elapsed since the
last frame flagged SAVE. -/
def mlp_actions_event_gap (cam : ctx_dev) : ctx_dev :=
  if cam.conf.event_gap > 0 ∧
      (cam.frame_curr_ts.tv_sec - cam.lasttime) ≥ cam.conf.event_gap
    then { cam with event_stop := true } else cam

/-- The block of `mlp_actions_event` under `if (cam->event_nr == cam->prev_event)`,
from after the call of `mlp_ring_process` to `cam->event_nr++`. -/
def mlp_actions_event_end (cam : ctx_dev) : ctx_dev :=
  let cam := if cam.imgs.image_preview.diffs ≠ 0 then
      let cam := cam.call (ext_call.event EVENT_IMAGE_PREVIEW none)
      { cam with imgs := { cam.imgs with
          image_preview := { cam.imgs.image_preview with diffs := 0 } } }
    else cam
  let cam := cam.call (ext_call.event EVENT_END none)
  let cam := cam.call (ext_call.dbse_exec "event_end")
  let cam := mlp_track_center cam
  let cam := if cam.algsec_inuse then
      let cam := if cam.algsec_isdetected
        then cam.call (ext_call.event EVENT_SECDETECT none) else cam
      { cam with algsec_isdetected := false }
    else cam
  { cam with postcap := 0, event_nr := cam.event_nr + 1 }

/-- The second `if` of `mlp_actions_event`: a requested stop closes the event
when `event_nr` equals `prev_event`, and the request is consumed. -/
def mlp_actions_event_stop (cam : ctx_dev) : ctx_dev :=
  if cam.event_stop then
    let cam := if cam.event_nr = cam.prev_event
      then mlp_actions_event_end (mlp_ring_process cam) else cam
    { cam with event_stop := false, event_user := false }
  else cam

/-- The third `if` of `mlp_actions_event`: the movie of a long event is closed
and reopened. -/
def mlp_actions_event_movie (cam : ctx_dev) : ctx_dev :=
  if cam.conf.movie_max_time > 0 ∧ cam.event_nr = cam.prev_event ∧
      (cam.frame_curr_ts.tv_sec - cam.movie_start_time) ≥ cam.conf.movie_max_time ∧
      (cam.cur.flags &&& IMAGE_POSTCAP).test = false ∧
      (cam.cur.flags &&& IMAGE_PRECAP).test = false then
    let cam := cam.call (ext_call.event EVENT_MOVIE_END none)
    let cam := mlp_info_reset cam
    cam.call (ext_call.event EVENT_MOVIE_START none)
  else cam

/-- `mlp_actions_event`: its three `if` statements in order. -/
def mlp_actions_event (cam : ctx_dev) : ctx_dev :=
  mlp_actions_event_movie (mlp_actions_event_stop (mlp_actions_event_gap cam))

/-- The classification at the head of `mlp_actions` (the first `if`). -/
def mlp_actions_classify (cam : ctx_dev) : ctx_dev :=
  if cam.cur.diffs > cam.threshold ∧ cam.cur.diffs < cam.threshold_maximum then
    let cam := cam.upd_cur (set_flags IMAGE_MOTION)
    let cam := { cam with info_diff_cnt := cam.info_diff_cnt + 1,
                          info_diff_tot := cam.info_diff_tot + cam.cur.diffs,
                          info_sdev_tot := cam.info_sdev_tot + cam.cur.location.stddev_xy }
    let cam := if cam.info_sdev_min > cam.cur.location.stddev_xy
      then { cam with info_sdev_min := cam.cur.location.stddev_xy } else cam
    if cam.info_sdev_max < cam.cur.location.stddev_xy
      then { cam with info_sdev_max := cam.cur.location.stddev_xy } else cam
  else cam

/-- The trigger step of `mlp_actions` (the `if ... else if ... else` chain). -/
def mlp_actions_trigger (cam : ctx_dev) : ctx_dev :=
  if (cam.conf.emulate_motion || cam.event_user) ∧ cam.startup_frames = 0 then
    mlp_actions_emulate cam
  else if (cam.cur.flags &&& IMAGE_MOTION).test = true ∧ cam.startup_frames = 0 then
    mlp_actions_motion cam
  else if cam.postcap > 0 then
    let cam := cam.upd_cur (set_flags (IMAGE_POSTCAP ||| IMAGE_SAVE))
    { cam with postcap := cam.postcap - 1 }
  else
    let cam := cam.upd_cur (set_flags IMAGE_PRECAP)
    let cam := if cam.conf.event_gap = 0 ∧ cam.detecting_motion = true
      then { cam with event_stop := true } else cam
    { cam with detecting_motion := false }

/-- The two `if` statements of `mlp_actions` that follow the trigger step:
`lasttime` is set from a frame flagged SAVE, and the secondary detector is
called while the device is detecting. -/
def mlp_actions_lasttime (cam : ctx_dev) : ctx_dev :=
  let cam := if (cam.cur.flags &&& IMAGE_SAVE).test
    then { cam with lasttime := cam.cur.monots.tv_sec } else cam
  if cam.detecting_motion then cam.call ext_call.algsec_detect else cam

/-- `mlp_actions`. -/
def mlp_actions (cam : ctx_dev) : ctx_dev :=
  let cam := mlp_actions_classify cam
  let cam := mlp_actions_trigger cam
  let cam := mlp_actions_lasttime cam
  let cam := mlp_areadetect cam
  let cam := mlp_ring_process cam
  mlp_actions_event cam

/-! ## Views used to state what a step leaves alone -/

/-- A frame record without its SAVED bit and its `cent_dist`. -/
def ctx_image_data.core (img : ctx_image_data) : ctx_image_data :=
  { img with flags := { img.flags with saved := false }, cent_dist := 0 }

/-- What the bookkeeping after the trigger step of `mlp_actions` never writes. -/
structure dev_core where
  conf : ctx_config
  ring : List ctx_image_data
  ring_size : Int
  ring_in : Int
  threshold : Int
  threshold_maximum : Int
  startup_frames : Int
  detecting_motion : Bool
  frame_curr_ts : timespec

/-- The part of the device state that only the classification, the trigger
step and the recycling of a slot write: the configuration, the ring without the
SAVED bits and `cent_dist`, its size and produce cursor, the thresholds, the
startup counter, the detecting switch and the time of the prepare phase. -/
def ctx_dev.core (cam : ctx_dev) : dev_core :=
  { conf := cam.conf, ring := cam.imgs.image_ring.map ctx_image_data.core,
    ring_size := cam.imgs.ring_size, ring_in := cam.imgs.ring_in,
    threshold := cam.threshold, threshold_maximum := cam.threshold_maximum,
    startup_frames := cam.startup_frames, detecting_motion := cam.detecting_motion,
    frame_curr_ts := cam.frame_curr_ts }

/-- The event number, the stop switches, the post-capture budget and the time
of the last frame flagged SAVE. -/
structure dev_ctl where
  event_nr : Int
  event_stop : Bool
  event_user : Bool
  postcap : Int
  lasttime : Int

/-- The part of the device state that only the trigger step, the `lasttime`
update of `mlp_actions` and `mlp_actions_event` write. -/
def ctx_dev.ctl (cam : ctx_dev) : dev_ctl :=
  { event_nr := cam.event_nr, event_stop := cam.event_stop, event_user := cam.event_user,
    postcap := cam.postcap, lasttime := cam.lasttime }

/-- An outside call that reports the start of an event: `cam->event(EVENT_START, ...)`
or `cam->dbse_exec(..., "event_start")`. -/
def is_event_start : ext_call → Bool
  | ext_call.event EVENT_START _ => true
  | ext_call.dbse_exec action => action == "event_start"
  | _ => false

/-- The number of the last opened event and the start reports made so far. -/
structure dev_opened where
  prev_event : Int
  starts : List ext_call

/-- The part of the device state that only `mlp_detected_trigger` writes. -/
def ctx_dev.opened (cam : ctx_dev) : dev_opened :=
  { prev_event := cam.prev_event, starts := cam.calls.filter is_event_start }

/-- The event counters are equal or `event_nr` is one ahead of `prev_event`. -/
def event_inv (cam : ctx_dev) : Prop :=
  cam.event_nr - cam.prev_event = 0 ∨ cam.event_nr - cam.prev_event = 1

instance (cam : ctx_dev) : Decidable (event_inv cam) := by
  unfold event_inv; infer_instance

/-- A device with an open event (`event_nr = prev_event = 4`), a stop request
pending and a ring of two slots, the current one flagged TRIGGER. -/
def cam_open_event : ctx_dev :=
  { imgs := { image_ring := [{}, { flags := IMAGE_TRIGGER ||| IMAGE_SAVE }],
              ring_size := 2, ring_in := 1, ring_out := 0 },
    current_image := some 1, event_nr := 4, prev_event := 4, event_stop := true }

/-- The value of `frame_count` after the counting loop of `mlp_actions_motion`. -/
def ctx_dev.frame_count (cam : ctx_dev) : Int :=
  motion_frame_count cam.imgs.image_ring cam.imgs.ring_size
    cam.conf.minimum_motion_frames.toNat cam.imgs.ring_in 0

/-- The produce cursor after one step forward with wrap-around. -/
def next_slot (ring_size x : Int) : Int := if x + 1 ≥ ring_size then 0 else x + 1


/-- A ring of three slots with the produce cursor on the last slot and the
consume cursor on the first. -/
def ring3_full : ctx_dev :=
  { imgs := { image_ring := [{ diffs := 7 }, { diffs := 8 }, { diffs := 9 }],
              ring_size := 3, ring_in := 2, ring_out := 0 } }


/-! ## Frames fed to the loop -/

/-- What one iteration of the loop brings to a frame between `mlp_resetimages`
and `mlp_actions`: the two clock readings of `mlp_resetimages` and the score
`diffs` that capture, detection and tuning leave on the current frame. -/
structure frame_input where
  realtime : timespec := {}
  monotonic : timespec := {}
  diffs : Int := 0

/-- One frame: `mlp_resetimages`, the score, `mlp_actions`. -/
def frame_step (cam : ctx_dev) (f : frame_input) : ctx_dev :=
  mlp_actions ((mlp_resetimages cam f.realtime f.monotonic).upd_cur
    (fun img => { img with diffs := f.diffs }))

/-- A sequence of frames, each through `frame_step`. -/
def run_frames (cam : ctx_dev) (frames : List frame_input) : ctx_dev :=
  frames.foldl frame_step cam

/-- The count as the spec words it: the MOTION flags over the trailing window of
`m` slots, walking backward with wrap-around from slot `pos` (the slots
`pos`, `pos - 1`, ..., `pos - (m - 1)` modulo `ring_size`). -/
def window_motion_count (ring : List ctx_image_data) (ring_size pos : Int) (m : Nat) : Nat :=
  (List.range m).countP
    (fun (k : Nat) => (ring_at ring ((pos - Int.ofNat k) % ring_size)).flags.motion)

/-- A device past its startup frames whose last three frames, in slots 1, 2 and
3 of a ring of four, are MOTION; the current frame is slot 3, three consecutive
MOTION frames are required, the post-capture setting is 5. -/
def cam_three_motion : ctx_dev :=
  { imgs := { image_ring := [{}, { flags := IMAGE_MOTION }, { flags := IMAGE_MOTION },
                             { flags := IMAGE_MOTION }],
              ring_size := 4, ring_in := 3, ring_out := 0 },
    current_image := some 3,
    conf := { minimum_motion_frames := 3, pre_capture := 1, post_capture := 5 } }

/-- The state handed to `mlp_actions` by `frame_step`. -/
def frame_scored (cam : ctx_dev) (f : frame_input) : ctx_dev :=
  (mlp_resetimages cam f.realtime f.monotonic).upd_cur (fun img => { img with diffs := f.diffs })

/-- The ring has `ring_size` slots and the produce cursor is inside it. -/
def ring_ok (cam : ctx_dev) : Prop :=
  (cam.imgs.image_ring.length : Int) = cam.imgs.ring_size ∧
  0 ≤ cam.imgs.ring_in ∧ cam.imgs.ring_in < cam.imgs.ring_size

/-- The state `frame_step` has after the classification at the head of `mlp_actions`. -/
def frame_classified (cam : ctx_dev) (f : frame_input) : ctx_dev :=
  mlp_actions_classify (frame_scored cam f)

/-- The part of `dev_core` that the trigger step does not write either: all but
the ring and the detecting switch. -/
def dev_core.cfg (c : dev_core) : dev_core :=
  { c with ring := [], detecting_motion := false }

/-- The state `S` reached from `base` by `k` consecutive MOTION frames that
followed a frame that was not MOTION: the ring and the settings are in place,
the `k` newest slots (walking backward from `ring_in`) are MOTION, and, while
`k` is below `minimum_motion_frames`, the slot before them is not. -/
def motion_run (base S : ctx_dev) (k : Nat) : Prop :=
  ring_ok S ∧ S.conf = base.conf ∧ S.imgs.ring_size = base.imgs.ring_size ∧
  S.threshold = base.threshold ∧ S.threshold_maximum = base.threshold_maximum ∧
  S.startup_frames = 0 ∧ S.event_user = false ∧
  (∀ t : Nat, t < k →
    (ring_at S.imgs.image_ring
      ((S.imgs.ring_in - Int.ofNat t) % S.imgs.ring_size)).flags.motion = true) ∧
  ((k : Int) < base.conf.minimum_motion_frames →
    (ring_at S.imgs.image_ring
      ((S.imgs.ring_in - Int.ofNat k) % S.imgs.ring_size)).flags.motion = false)

/-- The number of slots flagged SAVE and not SAVED: what `mlp_ring_process` has
still to hand over. -/
def ring_pending (ring : List ctx_image_data) : Nat :=
  ring.countP (fun img => img.flags.save && !img.flags.saved)

/-- Ring `r2` carries the SAVE bits of ring `r1`, and SAVED in `r2` only where
`r1` had SAVED or SAVE. -/
def saved_from_save (r1 r2 : List ctx_image_data) : Prop :=
  ∀ j : Int, (ring_at r2 j).flags.save = (ring_at r1 j).flags.save ∧
    ((ring_at r2 j).flags.saved = true →
      (ring_at r1 j).flags.saved = true ∨ (ring_at r1 j).flags.save = true)

/-! ## Concrete device states used to instantiate the theorems -/

/-- A device past its startup frames with a user-forced trigger pending: a ring
of two blank slots, the current frame in slot 1. -/
def cam_forced : ctx_dev :=
  { imgs := { image_ring := [{}, {}], ring_size := 2, ring_in := 1, ring_out := 0 },
    current_image := some 1, event_user := true, startup_frames := 0,
    conf := { minimum_motion_frames := 1, pre_capture := 1 } }

/-- A device past its startup frames with a quiet current frame in slot 1 of a
ring of two, a post-capture budget of 3, detecting. -/
def cam_quiet_budget : ctx_dev :=
  { imgs := { image_ring := [{}, {}], ring_size := 2, ring_in := 1, ring_out := 0 },
    current_image := some 1, postcap := 3, detecting_motion := true,
    threshold := 10, threshold_maximum := 1000 }

/-- A device still inside its startup frames, with `emulate_motion` set, a
user-forced trigger pending and a current frame whose score is a motion score. -/
def cam_startup : ctx_dev :=
  { imgs := { image_ring := [{}, { diffs := 50 }], ring_size := 2, ring_in := 1, ring_out := 0 },
    current_image := some 1, event_user := true, startup_frames := 3,
    event_nr := 1, prev_event := 0,
    threshold := 10, threshold_maximum := 1000,
    conf := { emulate_motion := true, minimum_motion_frames := 1, pre_capture := 1 } }

/-- A freshly recycled current frame with a motion score, in slot 1 of a ring of two. -/
def cam_scored : ctx_dev :=
  { imgs := { image_ring := [{}, { diffs := 50 }], ring_size := 2, ring_in := 1, ring_out := 0 },
    current_image := some 1, threshold := 10, threshold_maximum := 1000,
    conf := { minimum_motion_frames := 1, pre_capture := 1 } }

/-- A device past its startup frames, two consecutive MOTION frames required
and one frame of pre-capture (a ring of three blank slots), thresholds 10 and
1000, a post-capture setting of 2. -/
def cam_two_needed : ctx_dev :=
  { imgs := { image_ring := [{}, {}, {}], ring_size := 3, ring_in := 0, ring_out := 0 },
    current_image := some 0, threshold := 10, threshold_maximum := 1000,
    conf := { minimum_motion_frames := 2, pre_capture := 1, post_capture := 2 } }

/-- Two frames with the motion scores 50 and 60. -/
def two_motion_frames : List frame_input := [{ diffs := 50 }, { diffs := 60 }]

/-- The settings of the four-frame scenario: two frames of pre-capture, two
consecutive MOTION frames required, thresholds 10 and 1000, one frame of
post-capture, startup frames elapsed, no forced trigger. -/
def cam_scenario : ctx_dev :=
  { threshold := 10, threshold_maximum := 1000, startup_frames := 0,
    conf := { pre_capture := 2, minimum_motion_frames := 2, post_capture := 1 } }

/-- A frame with the score `d`, both clock readings at 0. -/
def scored_frame (d : Int) : frame_input := { diffs := d }

/-! ## The event lifecycle in the call log -/

/-- The lifecycle reports among the calls: `true` for `cam->event(EVENT_START, ...)`
(an event is opened), `false` for `cam->event(EVENT_END, ...)` (an event is closed). -/
def lifecycle_mark : ext_call → Option Bool
  | ext_call.event EVENT_START _ => some true
  | ext_call.event EVENT_END _ => some false
  | _ => none

/-- The event counters and the lifecycle reports made so far, in call order. -/
structure dev_life where
  event_nr : Int
  prev_event : Int
  trace : List Bool

/-- The part of the device state that the opening and the closing of events write. -/
def ctx_dev.life (cam : ctx_dev) : dev_life :=
  { event_nr := cam.event_nr, prev_event := cam.prev_event,
    trace := cam.calls.filterMap lifecycle_mark }

/-- An event is opened: `prev_event` catches up with `event_nr`, `event_start` is reported. -/
def dev_life.opened (l : dev_life) : dev_life :=
  { l with prev_event := l.event_nr, trace := l.trace ++ [true] }

/-- An event is closed: `event_end` is reported, `event_nr` moves one ahead. -/
def dev_life.closed (l : dev_life) : dev_life :=
  { l with event_nr := l.event_nr + 1, trace := l.trace ++ [false] }

/-- A device right after `mlp_init_values` (`event_nr = 1`, `prev_event = 0`)
whose frame in slot 0 is flagged TRIGGER and SAVE. -/
def cam_first_trigger : ctx_dev :=
  { imgs := { image_ring := [{ flags := IMAGE_TRIGGER ||| IMAGE_SAVE }],
              ring_size := 1, ring_in := 0, ring_out := 0 },
    current_image := some 0, event_nr := 1, prev_event := 0 }

/-- The event gap has run out at `mlp_actions_event`: `event_gap > 0` and
`frame_curr_ts` is at least `event_gap` seconds after `lasttime`. -/
def gap_elapsed (cam : ctx_dev) : Prop :=
  cam.conf.event_gap > 0 ∧ (cam.frame_curr_ts.tv_sec - cam.lasttime) ≥ cam.conf.event_gap

instance (cam : ctx_dev) : Decidable (gap_elapsed cam) := by
  unfold gap_elapsed; infer_instance

/-- The state `mlp_actions` hands to `mlp_actions_event`. -/
def actions_before_event (cam : ctx_dev) : ctx_dev :=
  mlp_ring_process (mlp_areadetect (mlp_actions_lasttime
    (mlp_actions_trigger (mlp_actions_classify cam))))

/-- The device `cam_first_trigger` with a user-forced trigger pending. -/
def cam_forced_closed : ctx_dev := { cam_first_trigger with event_user := true }

/-- The lifecycle reports `tr` alternate strictly, the first of them being
`e` (`true`: an opening, `false`: a closure). -/
def alternates : Bool → List Bool → Bool
  | _, [] => true
  | e, x :: xs => (x == e) && alternates (!e) xs

/-- A run of the per-frame pipeline between two initialisations, seen from
`mlp_actions`: each iteration of the loop calls `mlp_actions` once, on a state `e`
that the rest of the loop and the other threads made out of the previous one
without touching `event_nr`, `prev_event` or the lifecycle reports (nothing but
`mlp_detected_trigger`, `mlp_actions_event`, `mlp_init_values` and `mlp_cleanup`
writes or makes them). -/
inductive pipeline_run : ctx_dev → ctx_dev → Prop
  | start (c : ctx_dev) : pipeline_run c c
  | frame (c m e : ctx_dev) : pipeline_run c m → e.life = m.life → pipeline_run c (mlp_actions e)

/-- The lifecycle `l` continues the reports `base` made before initialisation by
reports `tr` that alternate from an opening on, with `event_nr` one more than
the closures and `prev_event` the number of openings. -/
def life_inv (base : List Bool) (l : dev_life) : Prop :=
  ∃ tr : List Bool, l.trace = base ++ tr ∧ alternates true tr = true ∧
    l.event_nr = 1 + (tr.count false : Int) ∧ l.prev_event = (tr.count true : Int) ∧
    (tr.count true = tr.count false ∨ tr.count true = tr.count false + 1)

/-- One iteration of the loop as far as the event lifecycle goes: the reading
of the steady clock by `mlp_prepare`, and the frame. -/
structure tick_input where
  now : timespec := {}
  frame : frame_input := {}

/-- One iteration: `mlp_prepare`, `mlp_resetimages`, the score, `mlp_actions`. -/
def tick_step (cam : ctx_dev) (t : tick_input) : ctx_dev :=
  frame_step (mlp_prepare cam t.now) t.frame

/-- A sequence of iterations. -/
def run_ticks (cam : ctx_dev) (ticks : List tick_input) : ctx_dev :=
  ticks.foldl tick_step cam

/-- A device before `mlp_init_values`: a ring of one slot, thresholds 10 and
1000, one MOTION frame required, no event gap, frame rate 0 (one startup frame). -/
def cam_fresh : ctx_dev :=
  { imgs := { image_ring := [{}], ring_size := 1, ring_in := 0, ring_out := 0 },
    threshold_maximum := 1000,
    conf := { threshold := 10, minimum_motion_frames := 1 } }

/-- Two iterations: a frame with the motion score 50, then a quiet frame (score 5). -/
def ticks_motion_quiet : List tick_input :=
  [{ frame := { diffs := 50 } }, { frame := { diffs := 5 } }]

/-- A detecting device with an open event (`event_nr = prev_event = 1`), no event
gap, a post-capture budget of 3 left, thresholds 10 and 1000, on a ring of two
blank slots. -/
def cam_detecting_budget : ctx_dev :=
  { imgs := { image_ring := [{}, {}], ring_size := 2, ring_in := 0, ring_out := 0 },
    current_image := some 0, detecting_motion := true, event_nr := 1, prev_event := 1,
    postcap := 3, threshold := 10, threshold_maximum := 1000 }

/-- The device `cam_detecting_budget` with no post-capture budget left. -/
def cam_detecting_spent : ctx_dev := { cam_detecting_budget with postcap := 0 }

/-- A device with an open event (`event_nr = prev_event = 1`), an event gap of
5 seconds, the last frame flagged SAVE taken at second 100, no budget left,
thresholds 10 and 1000, on a ring of two blank slots. -/
def cam_gap_open : ctx_dev :=
  { imgs := { image_ring := [{}, {}], ring_size := 2, ring_in := 0, ring_out := 0 },
    current_image := some 0, event_nr := 1, prev_event := 1, lasttime := 100,
    threshold := 10, threshold_maximum := 1000,
    conf := { event_gap := 5, minimum_motion_frames := 1, pre_capture := 1 } }

/-- Three iterations with quiet frames (score 0), at seconds 102, 105 and 110. -/
def ticks_quiet : List tick_input :=
  [{ now := { tv_sec := 102 } }, { now := { tv_sec := 105 } }, { now := { tv_sec := 110 } }]

/-! ## The cursors of the ring -/

/-- The cursor predicate of the ring: at least one slot, both cursors inside. -/
def ring_inv (cam : ctx_dev) : Prop :=
  cam.imgs.ring_size ≥ 1 ∧
  (0 ≤ cam.imgs.ring_in ∧ cam.imgs.ring_in < cam.imgs.ring_size) ∧
  (0 ≤ cam.imgs.ring_out ∧ cam.imgs.ring_out < cam.imgs.ring_size)

instance (cam : ctx_dev) : Decidable (ring_inv cam) := by
  unfold ring_inv; infer_instance

/-- The number of passes after which the consume cursor, moving forward with
wrap-around, meets the produce cursor: between 1 and `ring_size`. -/
def ring_dist (cam : ctx_dev) : Int :=
  if cam.imgs.ring_out < cam.imgs.ring_in then cam.imgs.ring_in - cam.imgs.ring_out
  else cam.imgs.ring_in - cam.imgs.ring_out + cam.imgs.ring_size

/-- The slot is flagged SAVE and not SAVED: `mlp_ring_process` has it to hand over. -/
def slot_pending (img : ctx_image_data) : Bool := img.flags.save && !img.flags.saved

/-- The number of image-detected notifications in the call log that were made
for slot `j` (the slot a cursor value `i` addresses is `i.toNat`, as in `ring_at`). -/
def notified (j : Nat) (calls : List ext_call) : Nat :=
  calls.countP (fun c => match c with
    | ext_call.event EVENT_IMAGE_DETECTED (some i) => i.toNat == j
    | _ => false)

/-- The size of the ring, its cursors and the length of the slot array. -/
structure dev_cursors where
  ring_size : Int
  ring_in : Int
  ring_out : Int
  len : Nat

/-- The part of the device state that only `mlp_ring_resize`, `mlp_resetimages`
and `mlp_ring_process` write. -/
def ctx_dev.cursors (cam : ctx_dev) : dev_cursors :=
  { ring_size := cam.imgs.ring_size, ring_in := cam.imgs.ring_in,
    ring_out := cam.imgs.ring_out, len := cam.imgs.image_ring.length }

/-- The cursor predicate together with the slot array having `ring_size`
slots: every access `image_ring[ring_in]`, `image_ring[ring_out]` is in bounds. -/
def ring_bounds (cam : ctx_dev) : Prop :=
  ring_inv cam ∧ (cam.imgs.image_ring.length : Int) = cam.imgs.ring_size

/-- The life of slot `j` between two recyclings by `mlp_resetimages`: any number
of calls of `mlp_ring_process`, each on a state `e` made out of the previous one
by steps that neither clear the SAVED flag of the slot (only the recycling
rewrites the flags) nor make an image-detected notification for it (only
`mlp_ring_process` makes them). -/
inductive process_run (j : Nat) : ctx_dev → ctx_dev → Prop
  | start (c : ctx_dev) : process_run j c c
  | call (c m e : ctx_dev) : process_run j c m →
      ((ring_at m.imgs.image_ring j).flags.saved = true →
        (ring_at e.imgs.image_ring j).flags.saved = true) →
      notified j e.calls = notified j m.calls →
      process_run j c (mlp_ring_process e)

/-- A ring of two slots, slot 0 flagged SAVE and due for a notification
(`shot` below the frame rate), both cursors on slot 0. -/
def cam_one_pending : ctx_dev :=
  { imgs := { image_ring := [{ flags := IMAGE_SAVE }, {}],
              ring_size := 2, ring_in := 0, ring_out := 0 },
    conf := { framerate := 5 } }

/-- The slots flagged SAVE and not SAVED are exactly the first `k` slots from
the consume cursor, in ring order with wrap-around. -/
def pending_run (cam : ctx_dev) (k : Nat) : Prop :=
  (∀ t : Nat, t < k →
    slot_pending (ring_at cam.imgs.image_ring
      ((cam.imgs.ring_out + (t : Int)) % cam.imgs.ring_size)) = true) ∧
  (∀ j : Nat, slot_pending (ring_at cam.imgs.image_ring j) = true →
    ∃ t : Nat, t < k ∧ ((cam.imgs.ring_out + (t : Int)) % cam.imgs.ring_size).toNat = j)

/-- A ring of three slots with `ring_in = 2` and `ring_out = 0`, slots 0 and 1
flagged SAVE, an open event and a stop request pending. -/
def cam_two_pending : ctx_dev :=
  { imgs := { image_ring := [{ flags := IMAGE_SAVE }, { flags := IMAGE_SAVE }, {}],
              ring_size := 3, ring_in := 2, ring_out := 0 },
    current_image := some 2, event_nr := 4, prev_event := 4, event_stop := true }

/-! ## The frame pacer (`mlp_frametiming`) -/

/-- The loop `for (indx = 0; indx < AVGCNT-1; indx++) frame_wait[indx] = frame_wait[indx+1]`. -/
def frame_wait_shift (AVGCNT : Nat) (frame_wait : List Int) : List Int :=
  (List.range (AVGCNT - 1)).foldl (fun w indx => w.set indx (w.getD (indx + 1) 0)) frame_wait

/-- The sum `avgtime` over the `AVGCNT` samples, divided by `AVGCNT` (C division). -/
def frame_wait_avg (AVGCNT : Nat) (frame_wait : List Int) : Int :=
  Int.tdiv ((List.range AVGCNT).foldl (fun avgtime indx => avgtime + frame_wait.getD indx 0) 0)
    AVGCNT

/-- Modelled from the spec: `SLEEP(sec, nsec)` (a macro of `motionplus.hpp`,
absent) suspends the thread for the time given; what is modelled is the time
asked for.  This is the `if (avgtime > 0)` at the end of `mlp_frametiming`, with
`avgtime` in microseconds: no sleep, the average, or one second. -/
def frametiming_sleep (avgtime : Int) : Option timespec :=
  if avgtime > 0 then
    let avgtime := avgtime * 1000
    if avgtime > 999999999 then some { tv_sec := 1, tv_nsec := 0 }
    else some { tv_sec := 0, tv_nsec := avgtime }
  else none

/-- `mlp_frametiming`: `ts2` is the reading of the steady clock; the result is
the new device state and the sleep asked for.  The length `AVGCNT` of the
history and the element type of `frame_wait` are declared in `motionplus.hpp`
(absent): `AVGCNT` is a parameter, and so is `to_wait`, the conversion of the
`long` value of the sample to the element type when it is stored (the identity
on every value the element type holds). -/
def mlp_frametiming (AVGCNT : Nat) (to_wait : Int → Int) (cam : ctx_dev) (ts2 : timespec) :
    ctx_dev × Option timespec :=
  let frame_wait := frame_wait_shift AVGCNT cam.frame_wait
  let frame_wait := frame_wait.set (AVGCNT - 1)
    (if cam.conf.framerate ≠ 0 then Int.tdiv 1000000 cam.conf.framerate else 0)
  let frame_wait := frame_wait.set (AVGCNT - 1)
    (to_wait (frame_wait.getD (AVGCNT - 1) 0
      - 1000000 * (ts2.tv_sec - cam.frame_curr_ts.tv_sec)
      - Int.tdiv (ts2.tv_nsec - cam.frame_curr_ts.tv_nsec) 1000))
  let avgtime := frame_wait_avg AVGCNT frame_wait
  ({ cam with frame_wait := frame_wait, passflag := true }, frametiming_sleep avgtime)

/-- One tick of the pacer with no processing time: the clock reads `now` both
in `mlp_prepare` (`frame_curr_ts`) and in `mlp_frametiming`. -/
def pacer_tick (AVGCNT : Nat) (to_wait : Int → Int) (cam : ctx_dev) (now : timespec) : ctx_dev :=
  (mlp_frametiming AVGCNT to_wait { cam with frame_curr_ts := now } now).1

/-- Consecutive ticks of the pacer with no processing time. -/
def pacer_ticks (AVGCNT : Nat) (to_wait : Int → Int) (cam : ctx_dev) (nows : List timespec) :
    ctx_dev :=
  nows.foldl (pacer_tick AVGCNT to_wait) cam

/-- A pacer with a history of three samples 100, 200000 and 900000 microseconds
and a frame rate of 4 frames a second. -/
def cam_pacer : ctx_dev :=
  { frame_wait := [100, 200000, 900000], conf := { framerate := 4 } }

/-- The last `n` samples of the history of `AVGCNT` samples are `v`. -/
def pacer_filled (AVGCNT : Nat) (v : Int) (n : Nat) (cam : ctx_dev) : Prop :=
  cam.frame_wait.length = AVGCNT ∧
    ∀ j, AVGCNT - n ≤ j → j < AVGCNT → cam.frame_wait.getD j 0 = v

/-! ## The watchdog of the main thread (`motpls_watchdog`, motionplus.cpp) -/

/-- The mutexes `motpls_watchdog` releases; those of a device carry the index
of the device in `cam_list`. -/
inductive app_mutex where
  | mutex_camlst | mutex_parms | mutex_post | mutex_dbse | global_lock
  | stream_mutex (indx : Nat) | parms_lock (indx : Nat)
  | netcam_mutex (indx : Nat) | netcam_mutex_pktarray (indx : Nat)
  | netcam_mutex_transfer (indx : Nat)
  | netcam_high_mutex (indx : Nat) | netcam_high_mutex_pktarray (indx : Nat)
  | netcam_high_mutex_transfer (indx : Nat)
deriving DecidableEq

/-- The library calls of the main thread: `pthread_mutex_unlock`,
`pthread_mutex_lock`, `SLEEP` and `pthread_kill(..., SIGVTALRM)` on the thread of
a network-camera helper or of a device. -/
inductive app_call where
  | pthread_mutex_unlock (m : app_mutex)
  | pthread_mutex_lock (m : app_mutex)
  | SLEEP (sec nsec : Int)
  | pthread_kill_netcam (indx : Nat)
  | pthread_kill_netcam_high (indx : Nat)
  | pthread_kill_dev (indx : Nat)
deriving DecidableEq

/-- Modelled from the spec: the part of the application state (`ctx_motapp`,
motionplus.hpp, absent) that the supervision of the main thread reads and
writes: the cameras, the audio sources, the pending requests to add or delete a
camera; `dbse` says whether `motapp->dbse` is not `NULL`, `calls` is the record of
the library calls made. -/
structure ctx_motapp where
  cam_list : List ctx_dev := []
  cam_cnt : Int := 0
  snd_list : List ctx_dev := []
  snd_cnt : Int := 0
  cam_add : Bool := false
  cam_delete : Int := -1
  dbse : Bool := false
  restart_all : Bool := false
  finish_all : Bool := false
  webcontrol_finish : Bool := false
  threads_running : Int := 0
  calls : List app_call := []

/-- A device with every field zero, read where `cam_list` has no entry. -/
def dev_none : ctx_dev := {}

/-- The device `cam_list[indx]`. -/
def cam_at (cam_list : List ctx_dev) (indx : Int) : ctx_dev :=
  cam_list.getD indx.toNat dev_none

/-- A write through `motapp->cam_list[indx]`. -/
def ctx_motapp.upd_cam (motapp : ctx_motapp) (indx : Int) (f : ctx_dev → ctx_dev) :
    ctx_motapp :=
  { motapp with cam_list := motapp.cam_list.set indx.toNat (f (cam_at motapp.cam_list indx)) }

/-- The test `camera_type == CAMERA_TYPE_NETCAM && netcam != NULL` of the first
loop, for either helper. -/
def netcam_live (cam : ctx_dev) (netcam : Option ctx_netcam) : Bool :=
  decide (cam.camera_type = camera_type.CAMERA_TYPE_NETCAM) && netcam.isSome

/-- What the first loop of `motpls_watchdog` ("Shut down all the cameras")
writes to the device `cam_list[indx]`. -/
def watchdog_shutdown_dev (cam : ctx_dev) : ctx_dev :=
  let cam := if netcam_live cam cam.netcam
    then { cam with netcam := cam.netcam.map (fun n => { n with finish := true }) } else cam
  let cam := if netcam_live cam cam.netcam_high
    then { cam with netcam_high := cam.netcam_high.map (fun n => { n with finish := true }) }
    else cam
  { cam with event_stop := true, finish_dev := true }

/-- The library calls of one pass of the first loop, in the order of the source. -/
def watchdog_shutdown_calls (dbse : Bool) (cam : ctx_dev) (indx : Nat) : List app_call :=
  [app_call.pthread_mutex_unlock app_mutex.mutex_camlst,
   app_call.pthread_mutex_unlock app_mutex.mutex_parms,
   app_call.pthread_mutex_unlock app_mutex.mutex_camlst,
   app_call.pthread_mutex_unlock app_mutex.mutex_post]
  ++ (if dbse then [app_call.pthread_mutex_unlock app_mutex.mutex_dbse] else [])
  ++ [app_call.pthread_mutex_unlock app_mutex.global_lock,
      app_call.pthread_mutex_unlock (app_mutex.stream_mutex indx),
      app_call.pthread_mutex_unlock (app_mutex.parms_lock indx)]
  ++ (if netcam_live cam cam.netcam then
        [app_call.pthread_mutex_unlock (app_mutex.netcam_mutex indx),
         app_call.pthread_mutex_unlock (app_mutex.netcam_mutex_pktarray indx),
         app_call.pthread_mutex_unlock (app_mutex.netcam_mutex_transfer indx)] else [])
  ++ (if netcam_live cam cam.netcam_high then
        [app_call.pthread_mutex_unlock (app_mutex.netcam_high_mutex indx),
         app_call.pthread_mutex_unlock (app_mutex.netcam_high_mutex_pktarray indx),
         app_call.pthread_mutex_unlock (app_mutex.netcam_high_mutex_transfer indx)] else [])

/-- One pass of the first loop of `motpls_watchdog`. -/
def watchdog_shutdown_step (motapp : ctx_motapp) (indx : Nat) : ctx_motapp :=
  { motapp with
    cam_list := motapp.cam_list.set indx
      (watchdog_shutdown_dev (cam_at motapp.cam_list (Int.ofNat indx))),
    calls := motapp.calls
      ++ watchdog_shutdown_calls motapp.dbse (cam_at motapp.cam_list (Int.ofNat indx)) indx }

/-- The test `helper != NULL` and `helper->handler_finished == false` of the
second loop. -/
def netcam_unfinished (netcam : Option ctx_netcam) : Bool :=
  match netcam with
  | some n => n.handler_finished == false
  | none => false

/-- What the second loop of `motpls_watchdog` writes to the device `cam_list[indx]`. -/
def watchdog_kill_dev (cam : ctx_dev) : ctx_dev :=
  { cam with running_dev := false, restart_dev := false }

/-- The library calls of one pass of the second loop, in the order of the source. -/
def watchdog_kill_calls (cam : ctx_dev) (indx : Nat) : List app_call :=
  (if netcam_unfinished cam.netcam then [app_call.pthread_kill_netcam indx] else [])
  ++ (if netcam_unfinished cam.netcam_high then [app_call.pthread_kill_netcam_high indx] else [])
  ++ (if cam.running_dev = true then [app_call.pthread_kill_dev indx] else [])

/-- One pass of the second loop of `motpls_watchdog`. -/
def watchdog_kill_step (motapp : ctx_motapp) (indx : Nat) : ctx_motapp :=
  { motapp with
    cam_list := motapp.cam_list.set indx
      (watchdog_kill_dev (cam_at motapp.cam_list (Int.ofNat indx))),
    calls := motapp.calls
      ++ watchdog_kill_calls (cam_at motapp.cam_list (Int.ofNat indx)) indx }

/-- The part of `motpls_watchdog` after the two early returns: the forced
recovery.  The messages written with `MOTPLS_LOG` are left out. -/
def watchdog_timeout (motapp : ctx_motapp) (camindx : Int) : ctx_motapp :=
  let motapp := (List.range motapp.cam_cnt.toNat).foldl watchdog_shutdown_step motapp
  let motapp := { motapp with calls := motapp.calls
    ++ [app_call.SLEEP (cam_at motapp.cam_list camindx).conf.watchdog_kill 0] }
  let motapp := (List.range motapp.cam_cnt.toNat).foldl watchdog_kill_step motapp
  { motapp with
    restart_all := true, finish_all := true, webcontrol_finish := true, threads_running := 0 }

/-- `motpls_watchdog`. -/
def motpls_watchdog (motapp : ctx_motapp) (camindx : Int) : ctx_motapp :=
  if (cam_at motapp.cam_list camindx).running_dev = false then motapp
  else
    let motapp := motapp.upd_cam camindx (fun cam => { cam with watchdog := cam.watchdog - 1 })
    if (cam_at motapp.cam_list camindx).watchdog > 0 then motapp
    else watchdog_timeout motapp camindx

/-- Calls of `motpls_watchdog` one after the other, for the devices `indxs`. -/
def watchdog_calls (motapp : ctx_motapp) (indxs : List Int) : ctx_motapp :=
  indxs.foldl motpls_watchdog motapp

/-- The number of forced recoveries on record: `motpls_watchdog` calls `SLEEP`
once in each forced recovery and nowhere else. -/
def recoveries (calls : List app_call) : Nat :=
  calls.countP (fun c => match c with
    | app_call.SLEEP _ _ => true
    | _ => false)

/-- A device whose loop runs, with the watchdog counter loaded with 3. -/
def dev_running : ctx_dev :=
  { running_dev := true, watchdog := 3, conf := { watchdog_tmo := 3, watchdog_kill := 10 } }

/-- An application with two running devices, the second one a network camera
with a helper thread. -/
def app_two_devs : ctx_motapp :=
  { cam_list := [dev_running,
      { dev_running with camera_type := camera_type.CAMERA_TYPE_NETCAM, netcam := some {} }],
    cam_cnt := 2 }

/-! ## The supervision of the devices by the main thread (motionplus.cpp) -/

/-- Record a library call of the main thread. -/
def ctx_motapp.call (motapp : ctx_motapp) (c : app_call) : ctx_motapp :=
  { motapp with calls := motapp.calls ++ [c] }

/-- A loop `for (indx = 0; indx < cnt; indx++)` whose body writes to the device
`list[indx]` only: `f indx` is what the body makes of that device. -/
def dev_loop (cnt : Int) (f : Nat → ctx_dev → ctx_dev) (list : List ctx_dev) : List ctx_dev :=
  (List.range cnt.toNat).foldl (fun l indx => l.set indx (f indx (l.getD indx dev_none))) list

/-- The two loops of `motpls_device_ids` under "Defaults". -/
def device_ids_default (motapp : ctx_motapp) : ctx_motapp :=
  let motapp := { motapp with cam_list := (dev_loop motapp.cam_cnt
    (fun indx cam => if cam.conf.device_id ≠ 0 then { cam with device_id := cam.conf.device_id }
      else { cam with device_id := (indx : Int) + 1 }) motapp.cam_list) }
  { motapp with snd_list := (dev_loop motapp.snd_cnt
    (fun indx cam => if cam.conf.device_id ≠ 0 then { cam with device_id := cam.conf.device_id }
      else { cam with device_id := motapp.cam_cnt + (indx : Int) + 1 }) motapp.snd_list) }

/-- An inner loop of the check of `motpls_device_ids`: `invalid_ids` is set when
the id `id` is that of one of the devices `list[indx2]`, `indx2` in `indxs`. -/
def device_ids_clash (id : Int) (list : List ctx_dev) (indxs : List Nat) (invalid_ids : Bool) :
    Bool :=
  indxs.foldl (fun invalid_ids indx2 =>
    if id = (list.getD indx2 dev_none).device_id then true else invalid_ids) invalid_ids

/-- The loops of `motpls_device_ids` under "Check for unique values": the value
of `invalid_ids` after them. -/
def device_ids_invalid (motapp : ctx_motapp) : Bool :=
  let invalid_ids := false
  let invalid_ids := (List.range motapp.cam_cnt.toNat).foldl (fun invalid_ids indx =>
    let invalid_ids := device_ids_clash (motapp.cam_list.getD indx dev_none).device_id
      motapp.cam_list (List.range' (indx + 1) (motapp.cam_cnt.toNat - (indx + 1))) invalid_ids
    device_ids_clash (motapp.cam_list.getD indx dev_none).device_id
      motapp.snd_list (List.range motapp.snd_cnt.toNat) invalid_ids) invalid_ids
  (List.range motapp.snd_cnt.toNat).foldl (fun invalid_ids indx =>
    device_ids_clash (motapp.snd_list.getD indx dev_none).device_id
      motapp.snd_list (List.range' (indx + 1) (motapp.snd_cnt.toNat - (indx + 1))) invalid_ids)
    invalid_ids

/-- The two loops of `motpls_device_ids` under `if (invalid_ids)`: the sequence
numbers. -/
def device_ids_sequence (motapp : ctx_motapp) : ctx_motapp :=
  let motapp := { motapp with cam_list := (dev_loop motapp.cam_cnt
    (fun indx cam => { cam with device_id := (indx : Int) + 1 }) motapp.cam_list) }
  { motapp with snd_list := (dev_loop motapp.snd_cnt
    (fun indx cam => { cam with device_id := motapp.cam_cnt + (indx : Int) + 1 })
    motapp.snd_list) }

/-- `motpls_device_ids`. -/
def motpls_device_ids (motapp : ctx_motapp) : ctx_motapp :=
  let motapp := device_ids_default motapp
  if device_ids_invalid motapp then device_ids_sequence motapp else motapp

/-- The device ids of the cameras followed by those of the audio sources. -/
def device_ids (motapp : ctx_motapp) : List Int :=
  (motapp.cam_list ++ motapp.snd_list).map (fun cam => cam.device_id)

/-- Modelled from the spec: `conf_camera_add` (conf.cpp, absent) appends a new
device to the camera list; `newcam` is the device it has built. -/
def conf_camera_add (motapp : ctx_motapp) (newcam : ctx_dev) : ctx_motapp :=
  { motapp with cam_list := motapp.cam_list ++ [newcam], cam_cnt := motapp.cam_cnt + 1 }

/-- The loop of `motpls_cam_add`: the value of `indx` after it. -/
def cam_add_indx (motapp : ctx_motapp) : Int :=
  (List.range motapp.cam_cnt.toNat).foldl (fun indx indx_cam =>
    if indx < (motapp.cam_list.getD indx_cam dev_none).device_id
    then (motapp.cam_list.getD indx_cam dev_none).device_id else indx) 1

/-- `motpls_cam_add`; `newcam` is the device that `conf_camera_add` builds. -/
def motpls_cam_add (motapp : ctx_motapp) (newcam : ctx_dev) : ctx_motapp :=
  if motapp.cam_add = false then motapp
  else
    let motapp := motapp.call (app_call.pthread_mutex_lock app_mutex.mutex_camlst)
    let motapp := conf_camera_add motapp newcam
    let motapp := motapp.call (app_call.pthread_mutex_unlock app_mutex.mutex_camlst)
    let indx := cam_add_indx motapp
    let indx := indx + 1
    let motapp := motapp.upd_cam (motapp.cam_cnt - 1) (fun cam =>
      { cam with device_id := indx,
                 conf := { cam.conf with device_id := indx, webcontrol_port := 0 } })
    { motapp with cam_add := false }

/-- The wait of `motpls_cam_delete`,
`while ((cam->running_dev) && (indx1 < maxcnt)) { SLEEP(0, 50000000) indx1++; }`:
the value of `indx1` after it.  The worker thread writes `running_dev`;
`running k` is what the test reads the `k`-th time it is made (counted from 0),
which is when `indx1 = k`; `left` is `maxcnt - indx1`, and with nothing left the
loop is left whatever `running_dev` reads. -/
def cam_delete_wait (running : Nat → Bool) : Nat → Nat → Nat
  | 0, indx1 => indx1
  | left + 1, indx1 => if running indx1 then cam_delete_wait running left (indx1 + 1) else indx1

/-- The loop of `motpls_cam_delete` that copies the devices that stay to `tmp`. -/
def cam_delete_copy (motapp : ctx_motapp) : List ctx_dev :=
  (List.range motapp.cam_cnt.toNat).foldl (fun (tmp : List ctx_dev) (indx1 : Nat) =>
    if (indx1 : Int) ≠ motapp.cam_delete then tmp ++ [motapp.cam_list.getD indx1 dev_none]
    else tmp) []

/-- `motpls_cam_delete`; `running` is what the reads of `cam->running_dev` give
(see `cam_delete_wait`).  The calls of `delete` and `myfree` are left out. -/
def motpls_cam_delete (motapp : ctx_motapp) (running : Nat → Bool) : ctx_motapp :=
  if motapp.cam_delete = -1 ∨ motapp.cam_cnt = 0 then { motapp with cam_delete := -1 }
  else if motapp.cam_delete ≥ motapp.cam_cnt then { motapp with cam_delete := -1 }
  else
    let motapp := motapp.upd_cam motapp.cam_delete (fun cam =>
      { cam with restart_dev := false, finish_dev := true })
    let maxcnt : Nat := 100
    let indx1 := cam_delete_wait running maxcnt 0
    let motapp := { motapp with
      calls := motapp.calls ++ List.replicate indx1 (app_call.SLEEP 0 50000000) }
    if indx1 = maxcnt then { motapp with cam_delete := -1 }
    else
      let tmp := cam_delete_copy motapp
      let motapp := motapp.call (app_call.pthread_mutex_lock app_mutex.mutex_camlst)
      let motapp := { motapp with cam_cnt := motapp.cam_cnt - 1, cam_list := tmp }
      let motapp := motapp.call (app_call.pthread_mutex_unlock app_mutex.mutex_camlst)
      { motapp with cam_delete := -1 }

/-- A device with the id `id`. -/
def dev_with_id (id : Int) : ctx_dev := { device_id := id }

/-- An application with one camera of id 5 and one audio source of id 6, and a
request to add a camera pending. -/
def app_add_pending : ctx_motapp :=
  { cam_list := [dev_with_id 5], cam_cnt := 1, snd_list := [dev_with_id 6], snd_cnt := 1,
    cam_add := true }

/-- An application with one camera of id 5 and one audio source of id 9, and a
request to add a camera pending. -/
def app_add_gap : ctx_motapp :=
  { cam_list := [dev_with_id 5], cam_cnt := 1, snd_list := [dev_with_id 9], snd_cnt := 1,
    cam_add := true }

/-- An application with the cameras of ids 1, 2 and 3, all running, and a
request to delete the second one pending. -/
def app_delete_pending : ctx_motapp :=
  { cam_list := [{ dev_with_id 1 with running_dev := true },
                 { dev_with_id 2 with running_dev := true },
                 { dev_with_id 3 with running_dev := true }],
    cam_cnt := 3, cam_delete := 1 }

/-- An application with one running camera and one audio source, neither of them
asked to finish, both configured for snapshots. -/
def app_cam_snd : ctx_motapp :=
  { cam_list := [{ dev_running with conf := { watchdog_tmo := 1, snapshot_interval := 60 },
                                    watchdog := 1 }],
    cam_cnt := 1,
    snd_list := [{ running_dev := true, restart_dev := true,
                   conf := { snapshot_interval := 60 } }],
    snd_cnt := 1 }

/-! ## Opening the capture backend and capturing a frame (motion_loop.cpp) -/

/-- `mlp_check_szimg`; the three messages written with `MOTPLS_LOG` are left
out, and with them the third `if`, which does nothing else. -/
def mlp_check_szimg (cam : ctx_dev) : ctx_dev :=
  let cam := if Int.tmod cam.imgs.width 8 ≠ 0 ∨ Int.tmod cam.imgs.height 8 ≠ 0
    then { cam with device_status := device_status.STATUS_RESET } else cam
  if cam.imgs.width < 64 ∨ cam.imgs.height < 64
    then { cam with device_status := device_status.STATUS_RESET } else cam

/-- What the start of a capture backend meets outside the program.  For the
backends that are not part of the sources at hand (libcam, netcam): the status
and the sizes of the images they leave.  For V4L2: `fd_open` tells whether the
device file is open (`cam->v4l2cam->fd_device != -1`) after the opening and the
set-up calls of `v4l2_start`, and `width`, `height` are the sizes the driver has
settled on (`cam->v4l2cam->width`, `cam->v4l2cam->height`). -/
structure cam_start_out where
  device_status : device_status := device_status.STATUS_CLOSED
  width : Int := 0
  height : Int := 0
  width_high : Int := 0
  height_high : Int := 0
  fd_open : Bool := false

/-- Modelled from the spec: `libcam_start` and `netcam_start` (libcam.cpp,
netcam.cpp, absent) open the device or leave it closed and populate the sizes
of the images; what they leave is the input `out`, and the call is recorded. -/
def backend_start (cam : ctx_dev) (out : cam_start_out) : ctx_dev :=
  { cam with device_status := out.device_status,
             imgs := { cam.imgs with width := out.width, height := out.height,
                                     width_high := out.width_high,
                                     height_high := out.height_high } }.call
    (ext_call.cam_start cam.camera_type)

/-- `v4l2_set_imgs` (video_v4l2.cpp). -/
def v4l2_set_imgs (cam : ctx_dev) (out : cam_start_out) : ctx_dev :=
  if out.fd_open = false then cam
  else
    let cam := { cam with imgs := { cam.imgs with width := out.width, height := out.height } }
    let cam := { cam with imgs := { cam.imgs with
      motionsize := cam.imgs.width * cam.imgs.height } }
    let cam := { cam with imgs := { cam.imgs with
      size_norm := Int.tdiv (cam.imgs.motionsize * 3) 2 } }
    { cam with conf := { cam.conf with width := out.width, height := out.height } }

/-- `v4l2_cleanup` (video_v4l2.cpp): the device is released, `cam->v4l2cam` is
freed and the status is closed; the call is recorded. -/
def v4l2_cleanup (cam : ctx_dev) : ctx_dev :=
  { cam with v4l2cam := false, device_status := device_status.STATUS_CLOSED }.call
    (ext_call.cam_cleanup camera_type.CAMERA_TYPE_V4L2)

/-- `v4l2_start` (video_v4l2.cpp, built with `HAVE_V4L2`); the call is
recorded.  `v4l2_device_init` allocates `cam->v4l2cam`, `v4l2_device_open` sets
the watchdog counter to 60 and opens the device file; the calls that follow
talk to the driver and, of the device state, write only inside `cam->v4l2cam`;
`v4l2_set_imgs` takes the sizes over when the device file is open; with the
device file not open the backend is cleaned up, otherwise the status is opened. -/
def v4l2_start (cam : ctx_dev) (out : cam_start_out) : ctx_dev :=
  let cam := cam.call (ext_call.cam_start camera_type.CAMERA_TYPE_V4L2)
  let cam := { cam with v4l2cam := true }
  let cam := { cam with watchdog := 60 }
  let cam := v4l2_set_imgs cam out
  if out.fd_open = false then v4l2_cleanup cam
  else { cam with device_status := device_status.STATUS_OPENED }

/-- `mlp_cam_start`. -/
def mlp_cam_start (cam : ctx_dev) (out : cam_start_out) : ctx_dev :=
  if cam.camera_type = camera_type.CAMERA_TYPE_LIBCAM then backend_start cam out
  else if cam.camera_type = camera_type.CAMERA_TYPE_NETCAM then backend_start cam out
  else if cam.camera_type = camera_type.CAMERA_TYPE_V4L2 then v4l2_start cam out
  else { cam with device_status := device_status.STATUS_CLOSED }

/-- `mlp_retry`; `out` is what the backend leaves if it is started. -/
def mlp_retry (cam : ctx_dev) (out : cam_start_out) : ctx_dev :=
  if cam.device_status = device_status.STATUS_CLOSED ∧
      Int.tmod cam.frame_curr_ts.tv_sec 10 = 0 ∧ cam.shots = 0 then
    let cam := mlp_cam_start cam out
    let cam := mlp_check_szimg cam
    let cam := if cam.imgs.width ≠ cam.conf.width ∨ cam.imgs.height ≠ cam.conf.height
      then { cam with device_status := device_status.STATUS_RESET } else cam
    let size_high := Int.tdiv (cam.imgs.width_high * cam.imgs.height_high * 3) 2
    if cam.imgs.size_high ≠ size_high
      then { cam with device_status := device_status.STATUS_RESET } else cam
  else cam

/-- The number of starts of a capture backend on record. -/
def cam_starts (calls : List ext_call) : Nat :=
  calls.countP (fun c => match c with
    | ext_call.cam_start _ => true
    | _ => false)

/-- `mlp_cam_close`.  Modelled from the spec: `libcam_cleanup` and
`netcam_cleanup` (absent) close their backend as `v4l2_cleanup` does. -/
def mlp_cam_close (cam : ctx_dev) : ctx_dev :=
  if cam.libcam then
    { cam with libcam := false, device_status := device_status.STATUS_CLOSED }.call
      (ext_call.cam_cleanup camera_type.CAMERA_TYPE_LIBCAM)
  else if cam.netcam.isSome then
    { cam with netcam := none, device_status := device_status.STATUS_CLOSED }.call
      (ext_call.cam_cleanup camera_type.CAMERA_TYPE_NETCAM)
  else if cam.v4l2cam then v4l2_cleanup cam
  else cam

/-- The device holds a capture backend: one of `cam->libcam`, `cam->netcam`,
`cam->v4l2cam` is not `NULL`. -/
def cam_backend (cam : ctx_dev) : Bool :=
  cam.libcam || cam.netcam.isSome || cam.v4l2cam

/-- The number of cleanups of a capture backend on record. -/
def cam_closes (calls : List ext_call) : Nat :=
  calls.countP (fun c => match c with
    | ext_call.cam_cleanup _ => true
    | _ => false)

/-- The number of camera-lost notifications on record. -/
def cam_losts (calls : List ext_call) : Nat :=
  calls.countP (fun c => match c with
    | ext_call.event EVENT_CAMERA_LOST _ => true
    | _ => false)

/-- Modelled from the spec: the two results of a capture (`CAPTURE_SUCCESS`,
`CAPTURE_FAILURE`, declared in `motionplus.hpp`, absent). -/
inductive capture_retcd where
  | CAPTURE_SUCCESS | CAPTURE_FAILURE
deriving DecidableEq

/-- What one call of `mlp_capture` takes from outside: the result of the
backend and the image it wrote to the frame, the reading of the wall clock, and
what `mlp_mask_privacy` (a byte-wise mask over the image planes, not embedded)
makes of a frame.  Modelled from the spec: `mystrftime` (util.cpp, absent)
expands a format with a time into a text, and `draw_text` (draw.cpp, absent)
writes a text into an image of a given width and height at a position with a
scale; both are inputs. -/
structure capture_input where
  retcd : capture_retcd := capture_retcd.CAPTURE_FAILURE
  image_norm : List Nat := []
  realtime : timespec := {}
  mask_privacy : ctx_image_data → ctx_image_data := id
  mystrftime : String → timespec → String := fun fmt _ => fmt
  draw_text : List Nat → Int → Int → Int → Int → String → Int → List Nat :=
    fun image _ _ _ _ _ _ => image

/-- `memcpy(dst, src, n)` on byte arrays. -/
def memcpy (dst src : List Nat) (n : Int) : List Nat :=
  src.take n.toNat ++ dst.drop n.toNat

/-- `memset(dst, c, n)` on a byte array. -/
def memset (dst : List Nat) (c : Nat) (n : Int) : List Nat :=
  List.replicate n.toNat c ++ dst.drop n.toNat

/-- `v4l2_next` (video_v4l2.cpp, built with `HAVE_V4L2`) on the current frame:
without `cam->v4l2cam` the capture fails; otherwise the driver is asked for a
frame, which is converted into the image of the frame, and the result says
whether both went well. -/
def v4l2_next (cam : ctx_dev) (inp : capture_input) : ctx_dev × capture_retcd :=
  if cam.v4l2cam = false then (cam, capture_retcd.CAPTURE_FAILURE)
  else (cam.upd_cur (fun img => { img with image_norm := inp.image_norm }), inp.retcd)

/-- `mlp_cam_next` on the current frame.  Modelled from the spec: `libcam_next`
and `netcam_next` (absent) write the image and return their result; without a
camera type the result is `CAPTURE_FAILURE`. -/
def mlp_cam_next (cam : ctx_dev) (inp : capture_input) : ctx_dev × capture_retcd :=
  if cam.camera_type = camera_type.CAMERA_TYPE_LIBCAM then
    (cam.upd_cur (fun img => { img with image_norm := inp.image_norm }), inp.retcd)
  else if cam.camera_type = camera_type.CAMERA_TYPE_NETCAM then
    (cam.upd_cur (fun img => { img with image_norm := inp.image_norm }), inp.retcd)
  else if cam.camera_type = camera_type.CAMERA_TYPE_V4L2 then v4l2_next cam inp
  else (cam, capture_retcd.CAPTURE_FAILURE)

/-- The branch of `mlp_capture` for a capture that succeeded. -/
def mlp_capture_success (cam : ctx_dev) (inp : capture_input) : ctx_dev :=
  let cam := { cam with lost_connection := 0,
                        connectionlosttime := { cam.connectionlosttime with tv_sec := 0 } }
  let cam := if cam.missing_frame_counter ≥ cam.conf.device_tmo * cam.conf.framerate
    then cam.call (ext_call.event EVENT_CAMERA_FOUND none) else cam
  let cam := { cam with missing_frame_counter := 0 }
  let cam := { cam with imgs := { cam.imgs with
    image_virgin := memcpy cam.imgs.image_virgin cam.cur.image_norm cam.imgs.size_norm } }
  let cam := cam.upd_cur inp.mask_privacy
  { cam with imgs := { cam.imgs with
    image_vprvcy := memcpy cam.imgs.image_vprvcy cam.cur.image_norm cam.imgs.size_norm } }

/-- The first statements of the branch of `mlp_capture` for a capture that
failed: the time of the loss is taken and the missing frame is counted. -/
def mlp_capture_missing (cam : ctx_dev) (inp : capture_input) : ctx_dev :=
  let cam := if cam.connectionlosttime.tv_sec = 0
    then { cam with connectionlosttime := inp.realtime } else cam
  { cam with missing_frame_counter := cam.missing_frame_counter + 1 }

/-- The `else` of the branch for a capture that failed: the budget is used up.
The frame is filled with grey and the text that tells since when the
connection is lost is drawn on it. -/
def mlp_capture_lost (cam : ctx_dev) (inp : capture_input) : ctx_dev :=
  let cam := { cam with lost_connection := 1 }
  let tmpin := if cam.device_status = device_status.STATUS_OPENED
    then "CONNECTION TO CAMERA LOST\\nSINCE %Y-%m-%d %T"
    else "UNABLE TO OPEN VIDEO DEVICE\\nSINCE %Y-%m-%d %T"
  let cam := cam.upd_cur (fun img =>
    { img with image_norm :=
        (inp.draw_text (memset img.image_norm 0x80 cam.imgs.size_norm)
          cam.imgs.width cam.imgs.height 10 (20 * cam.text_scale)
          (inp.mystrftime tmpin cam.connectionlosttime) cam.text_scale) })
  let cam := if cam.missing_frame_counter = cam.conf.device_tmo * cam.conf.framerate
    then cam.call (ext_call.event EVENT_CAMERA_LOST none) else cam
  if cam.device_status = device_status.STATUS_OPENED ∧
      cam.missing_frame_counter = (cam.conf.device_tmo * 4) * cam.conf.framerate
    then mlp_cam_close cam else cam

/-- The branch of `mlp_capture` for a capture that failed. -/
def mlp_capture_failure (cam : ctx_dev) (inp : capture_input) : ctx_dev :=
  let cam := mlp_capture_missing cam inp
  if cam.device_status = device_status.STATUS_OPENED ∧
      cam.missing_frame_counter < cam.conf.device_tmo * cam.conf.framerate then
    cam.upd_cur (fun img =>
      { img with image_norm := memcpy img.image_norm cam.imgs.image_vprvcy cam.imgs.size_norm })
  else mlp_capture_lost cam inp

/-- `mlp_capture`. -/
def mlp_capture (cam : ctx_dev) (inp : capture_input) : ctx_dev :=
  if cam.device_status ≠ device_status.STATUS_OPENED then cam
  else
    let r := mlp_cam_next cam inp
    if r.2 = capture_retcd.CAPTURE_SUCCESS then mlp_capture_success r.1 inp
    else mlp_capture_failure r.1 inp

/-- What a run of failed captures goes by: the status, the missing-frame
counter, the budget `device_tmo * framerate`, and the camera-lost notifications
and the cleanups on record. -/
structure dev_capture where
  device_status : device_status
  missing_frame_counter : Int
  budget : Int
  losts : Nat
  closes : Nat

/-- The part of the device state that, of the loop, only `mlp_capture` and the
opening of the backend write. -/
def ctx_dev.capture (cam : ctx_dev) : dev_capture :=
  { device_status := cam.device_status, missing_frame_counter := cam.missing_frame_counter,
    budget := cam.conf.device_tmo * cam.conf.framerate,
    losts := cam_losts cam.calls, closes := cam_closes cam.calls }

/-- A run of `n` consecutive failed captures from the state `c`: each call of
`mlp_capture` is on an opened device that holds a backend (a capture is
attempted), on a state `e` that the rest of the loop made out of the previous
one without touching what `ctx_dev.capture` shows, and the capture fails. -/
inductive failed_captures (c : ctx_dev) : Nat → ctx_dev → Prop
  | start : failed_captures c 0 c
  | fail (n : Nat) (m e : ctx_dev) (inp : capture_input) : failed_captures c n m →
      e.capture = m.capture → e.device_status = device_status.STATUS_OPENED →
      cam_backend e = true →
      (mlp_cam_next e inp).2 = capture_retcd.CAPTURE_FAILURE →
      failed_captures c (n + 1) (mlp_capture e inp)

/-- An opened V4L2 device with a budget of `2 * 1` frames, a ring of one slot
holding the image [7, 7], the last good masked image [1, 2], and images of two
bytes. -/
def cam_capturing : ctx_dev :=
  { device_status := device_status.STATUS_OPENED,
    camera_type := camera_type.CAMERA_TYPE_V4L2, v4l2cam := true,
    conf := { device_tmo := 2, framerate := 1 },
    imgs := { image_ring := [{ image_norm := [7, 7] }], ring_size := 1, size_norm := 2,
              image_vprvcy := [1, 2] },
    current_image := some 0 }

/-- A failed capture after which the backend has left the bytes [7, 7] in the
frame; for `draw_text` a stand-in that writes 0 to the first byte of the image. -/
def frame_77 : capture_input :=
  { image_norm := [7, 7], draw_text := fun image _ _ _ _ _ _ => image.set 0 0 }

/-- A closed device at the first frame (`shots = 0`) of second 7 of the steady clock. -/
def cam_closed_7 : ctx_dev :=
  { device_status := device_status.STATUS_CLOSED,
    camera_type := camera_type.CAMERA_TYPE_V4L2,
    frame_curr_ts := { tv_sec := 7 }, shots := 0 }

/-! ## The loop with a stop requested from outside -/

/-- One iteration of the loop and what reaches the device from outside before
it: `event_stop` tells that `cam->event_stop = true` has been written since the
last iteration (`motpls_signal_process` writes it on the user signal). -/
structure loop_input where
  event_stop : Bool := false
  tick : tick_input := {}

/-- The state an iteration hands to `mlp_resetimages`: the write from outside,
if any, then `mlp_prepare`. -/
def loop_prepared (cam : ctx_dev) (t : loop_input) : ctx_dev :=
  mlp_prepare (if t.event_stop then { cam with event_stop := true } else cam) t.tick.now

/-- The write from outside, if any, then the iteration (`mlp_prepare`,
`mlp_resetimages`, the score, `mlp_actions`). -/
def loop_step (cam : ctx_dev) (t : loop_input) : ctx_dev :=
  tick_step (if t.event_stop then { cam with event_stop := true } else cam) t.tick

/-- A sequence of iterations with the writes from outside between them. -/
def run_loop (cam : ctx_dev) (ts : List loop_input) : ctx_dev :=
  ts.foldl loop_step cam

/-- The flags of frame `k` of a run (counted from 0) as `mlp_actions` leaves
them on the current slot at the end of the iteration of that frame. -/
def frame_tag (cam : ctx_dev) (ts : List loop_input) (k : Nat) : image_flags :=
  (run_loop cam (ts.take (k + 1))).cur.flags

/-- The number of frames tagged POSTCAP among the `n` frames from frame `a` on. -/
def postcap_frames (cam : ctx_dev) (ts : List loop_input) (a n : Nat) : Nat :=
  (List.range n).countP (fun (d : Nat) => (frame_tag cam ts (a + d)).postcap)

/-- The state `frame_step` hands to `mlp_ring_process`: the frame after the
classification, the trigger step, the `lasttime` update and the area detection
of `mlp_actions`. -/
def frame_marked (cam : ctx_dev) (f : frame_input) : ctx_dev :=
  mlp_areadetect (mlp_actions_lasttime (mlp_actions_trigger (frame_classified cam f)))

/-- Slot `j` lies between the consume cursor and the produce cursor, both
included, going forward with wrap-around. -/
def ring_window (cam : ctx_dev) (j : Int) : Prop :=
  (cam.imgs.ring_out ≤ cam.imgs.ring_in ∧ cam.imgs.ring_out ≤ j ∧ j ≤ cam.imgs.ring_in) ∨
  (cam.imgs.ring_in < cam.imgs.ring_out ∧ (cam.imgs.ring_out ≤ j ∨ j ≤ cam.imgs.ring_in))

instance (cam : ctx_dev) (j : Int) : Decidable (ring_window cam j) := by
  unfold ring_window; infer_instance

/-- Every slot of the ring that is not between the cursors is flagged SAVED. -/
def window_saved (cam : ctx_dev) : Prop :=
  ∀ j : Int, 0 ≤ j → j < cam.imgs.ring_size → ¬ ring_window cam j →
    (ring_at cam.imgs.image_ring j).flags.saved = true

/-- The slot at the consume cursor has nothing to hand over, or the consume
cursor has met the produce cursor on a ring of more than one slot. -/
def out_done (cam : ctx_dev) : Prop :=
  slot_pending (ring_at cam.imgs.image_ring cam.imgs.ring_out) = false ∨
  (cam.imgs.ring_out = cam.imgs.ring_in ∧ 2 ≤ cam.imgs.ring_size)

/-- The ring `n` frames after it was sized, while no frame has been a trigger
and the produce cursor has not wrapped: the consume cursor is still on slot 0,
the produce cursor on slot `n`, and slot 0 and the slots after `n` have all
flags clear. -/
def ring_fresh (cam : ctx_dev) (n : Nat) : Prop :=
  (n : Int) < cam.imgs.ring_size ∧ cam.imgs.ring_out = 0 ∧ cam.imgs.ring_in = (n : Int) ∧
  ∀ j : Int, 0 ≤ j → j < cam.imgs.ring_size → (j = 0 ∨ (n : Int) < j) →
    (ring_at cam.imgs.image_ring j).flags = IMAGE_NONE

/-- What holds of the ring between two frames of a run from a freshly sized
ring, `n` frames into the run. -/
def recycle_inv (cam : ctx_dev) (n : Nat) : Prop :=
  ring_bounds cam ∧ ((window_saved cam ∧ out_done cam) ∨ ring_fresh cam n)

/-- A device past its startup frames: a ring of three slots, all flags clear,
thresholds 10 and 1000, one MOTION frame required, post-capture 2, event gap
60 seconds. -/
def cam_budget : ctx_dev :=
  { imgs := { image_ring := [{}, {}, {}], ring_size := 3, ring_in := 0, ring_out := 0 },
    threshold := 10, threshold_maximum := 1000,
    conf := { threshold := 10, minimum_motion_frames := 1, post_capture := 2, event_gap := 60 } }

/-- Six iterations: a MOTION frame (score 50), then five quiet frames (score 5),
with a stop requested from outside before the last but one. -/
def loop_motion_quiet : List loop_input :=
  [{ tick := { frame := { diffs := 50 } } }, { tick := { frame := { diffs := 5 } } },
   { tick := { frame := { diffs := 5 } } }, { tick := { frame := { diffs := 5 } } },
   { event_stop := true, tick := { frame := { diffs := 5 } } },
   { tick := { frame := { diffs := 5 } } }]

/-- Seven iterations: two quiet frames (score 5), a MOTION frame (score 50),
two quiet frames with a stop requested from outside before the second, a
MOTION frame and a quiet frame. -/
def loop_quiet_motion : List loop_input :=
  [{ tick := { frame := { diffs := 5 } } }, { tick := { frame := { diffs := 5 } } },
   { tick := { frame := { diffs := 50 } } }, { tick := { frame := { diffs := 5 } } },
   { event_stop := true, tick := { frame := { diffs := 5 } } },
   { tick := { frame := { diffs := 50 } } }, { tick := { frame := { diffs := 5 } } }]

/-- An iteration with a MOTION frame (score 50) before which a stop of the
event has been requested from outside. -/
def stop_motion : loop_input := { event_stop := true, tick := { frame := { diffs := 50 } } }

/-- Seven iterations: three quiet frames (score 5) that fill the ring of
`cam_budget`, then four MOTION frames (score 50), with a stop requested from
outside before the second and before the fourth of them. -/
def loop_stop_twice : List loop_input :=
  [{ tick := { frame := { diffs := 5 } } }, { tick := { frame := { diffs := 5 } } },
   { tick := { frame := { diffs := 5 } } }, { tick := { frame := { diffs := 50 } } },
   stop_motion, { tick := { frame := { diffs := 50 } } }, stop_motion]

/-- The state that `mlp_actions` hands to `mlp_actions_event` in the last
iteration of `loop_stop_twice` run from `cam_budget`. -/
def cam_second_close : ctx_dev :=
  actions_before_event (frame_scored
    (loop_prepared (run_loop cam_budget (loop_stop_twice.take 6)) stop_motion)
    stop_motion.tick.frame)

/-! ## Basic facts about flag words and ring slots -/

@[simp] theorem lor_trigger (a b : image_flags) : (a ||| b).trigger = (a.trigger || b.trigger) := rfl
@[simp] theorem lor_motion (a b : image_flags) : (a ||| b).motion = (a.motion || b.motion) := rfl
@[simp] theorem lor_precap (a b : image_flags) : (a ||| b).precap = (a.precap || b.precap) := rfl
@[simp] theorem lor_postcap (a b : image_flags) : (a ||| b).postcap = (a.postcap || b.postcap) := rfl
@[simp] theorem lor_save (a b : image_flags) : (a ||| b).save = (a.save || b.save) := rfl
@[simp] theorem lor_saved (a b : image_flags) : (a ||| b).saved = (a.saved || b.saved) := rfl

@[simp] theorem test_land_trigger (a : image_flags) : (a &&& IMAGE_TRIGGER).test = a.trigger := by
  cases a with | mk t m p q s d => cases t <;> cases m <;> cases p <;> cases q <;> cases s <;> cases d <;> rfl
@[simp] theorem test_land_motion (a : image_flags) : (a &&& IMAGE_MOTION).test = a.motion := by
  cases a with | mk t m p q s d => cases t <;> cases m <;> cases p <;> cases q <;> cases s <;> cases d <;> rfl
@[simp] theorem test_land_precap (a : image_flags) : (a &&& IMAGE_PRECAP).test = a.precap := by
  cases a with | mk t m p q s d => cases t <;> cases m <;> cases p <;> cases q <;> cases s <;> cases d <;> rfl
@[simp] theorem test_land_postcap (a : image_flags) : (a &&& IMAGE_POSTCAP).test = a.postcap := by
  cases a with | mk t m p q s d => cases t <;> cases m <;> cases p <;> cases q <;> cases s <;> cases d <;> rfl
@[simp] theorem test_land_save (a : image_flags) : (a &&& IMAGE_SAVE).test = a.save := by
  cases a with | mk t m p q s d => cases t <;> cases m <;> cases p <;> cases q <;> cases s <;> cases d <;> rfl

/-- The test `(flags & (IMAGE_SAVE | IMAGE_SAVED)) != IMAGE_SAVE` of `mlp_ring_process`
fails exactly on a slot flagged SAVE and not SAVED. -/
theorem pending_iff (a : image_flags) :
    a &&& (IMAGE_SAVE ||| IMAGE_SAVED) = IMAGE_SAVE ↔ (a.save = true ∧ a.saved = false) := by
  cases a with | mk t m p q s d => cases t <;> cases m <;> cases p <;> cases q <;> cases s <;> cases d <;> decide

@[simp] theorem ring_upd_length (ring : List ctx_image_data) (i : Int)
    (f : ctx_image_data → ctx_image_data) : (ring_upd ring i f).length = ring.length := by
  unfold ring_upd
  exact List.length_set _ _ _

theorem ring_at_upd (ring : List ctx_image_data) (i j : Int)
    (f : ctx_image_data → ctx_image_data) :
    ring_at (ring_upd ring i f) j =
      if i.toNat = j.toNat ∧ i.toNat < ring.length then f (ring_at ring i) else ring_at ring j := by
  simp only [ring_at, ring_upd, List.getD_eq_getElem?_getD, List.getElem?_set]
  by_cases h : i.toNat = j.toNat
  · by_cases h2 : i.toNat < ring.length
    · rw [if_pos h, if_pos h2, if_pos ⟨h, h2⟩]; rfl
    · rw [if_pos h, if_neg h2, if_neg (fun hh => h2 hh.2)]
      have h3 : ring.length ≤ j.toNat := by omega
      rw [List.getElem?_eq_none h3]
  · rw [if_neg h, if_neg (fun hh => h hh.1)]

theorem ring_at_upd_same (ring : List ctx_image_data) (i : Int)
    (f : ctx_image_data → ctx_image_data) (h : i.toNat < ring.length) :
    ring_at (ring_upd ring i f) i = f (ring_at ring i) := by
  rw [ring_at_upd, if_pos ⟨rfl, h⟩]

theorem ring_at_upd_ne (ring : List ctx_image_data) (i j : Int)
    (f : ctx_image_data → ctx_image_data) (h : i.toNat ≠ j.toNat) :
    ring_at (ring_upd ring i f) j = ring_at ring j := by
  rw [ring_at_upd, if_neg (fun hh => h hh.1)]

/-! ## Ring sizing and recycling -/

/-- C1: `mlp_ring_resize` leaves a ring of `max 1 (pre_capture + minimum_motion_frames)`
slots, recorded in `ring_size`, with both cursors at 0 and no current image. -/
theorem mlp_ring_resize_capacity (cam : ctx_dev) (tmp : Nat → ctx_image_data) :
    (mlp_ring_resize cam tmp).imgs.ring_size
        = max 1 (cam.conf.pre_capture + cam.conf.minimum_motion_frames) ∧
    ((mlp_ring_resize cam tmp).imgs.image_ring.length : Int)
        = max 1 (cam.conf.pre_capture + cam.conf.minimum_motion_frames) ∧
    (mlp_ring_resize cam tmp).imgs.ring_in = 0 ∧
    (mlp_ring_resize cam tmp).imgs.ring_out = 0 ∧
    (mlp_ring_resize cam tmp).current_image = none := by
  refine ⟨?_, ?_, rfl, rfl, rfl⟩
  · show (if cam.conf.pre_capture + cam.conf.minimum_motion_frames < 1 then 1
        else cam.conf.pre_capture + cam.conf.minimum_motion_frames) = _
    split <;> omega
  · show (((List.range (if cam.conf.pre_capture + cam.conf.minimum_motion_frames < 1 then (1 : Int)
        else cam.conf.pre_capture + cam.conf.minimum_motion_frames).toNat).map _).length : Int) = _
    rw [List.length_map, List.length_range]
    split <;> omega

theorem next_slot_mod (ring_size x : Int) (h0 : 0 ≤ x) (h1 : x < ring_size) :
    next_slot ring_size x = (x + 1) % ring_size := by
  unfold next_slot
  split
  · have : x + 1 = ring_size := by omega
    rw [this, Int.emod_self]
  · rw [Int.emod_eq_of_lt (by omega) (by omega)]

theorem next_slot_range (ring_size x : Int) (h0 : 0 ≤ x) (h1 : x < ring_size) :
    0 ≤ next_slot ring_size x ∧ next_slot ring_size x < ring_size := by
  unfold next_slot
  split <;> omega

theorem mlp_resetimages_ring_in (cam : ctx_dev) (realtime monotonic : timespec) :
    (mlp_resetimages cam realtime monotonic).imgs.ring_in
      = next_slot cam.imgs.ring_size cam.imgs.ring_in := rfl

theorem mlp_resetimages_ring_out (cam : ctx_dev) (realtime monotonic : timespec) :
    (mlp_resetimages cam realtime monotonic).imgs.ring_out
      = if next_slot cam.imgs.ring_size cam.imgs.ring_in = cam.imgs.ring_out
        then next_slot cam.imgs.ring_size cam.imgs.ring_out else cam.imgs.ring_out := rfl

theorem mlp_resetimages_ring (cam : ctx_dev) (realtime monotonic : timespec) :
    (mlp_resetimages cam realtime monotonic).imgs.image_ring
      = ring_upd cam.imgs.image_ring (next_slot cam.imgs.ring_size cam.imgs.ring_in)
          (fun img =>
            { img with diffs := 0, flags := IMAGE_NONE, cent_dist := 0, location := {},
                       total_labels := 0, imgts := realtime, monots := monotonic,
                       shot := cam.shots }) := rfl

theorem mlp_resetimages_current (cam : ctx_dev) (realtime monotonic : timespec) :
    (mlp_resetimages cam realtime monotonic).current_image
      = some (next_slot cam.imgs.ring_size cam.imgs.ring_in) := rfl

/-- C2: on a ring of `ring_size >= 1` slots with both cursors in range,
`mlp_resetimages` moves `ring_in` forward by one modulo `ring_size`; `ring_out`
moves forward by one modulo `ring_size` exactly when the new `ring_in` has
caught it, and stays otherwise; the ring keeps its size, the cursors stay in
range and the current image is the slot at the new `ring_in` (every access is
inside the ring); no slot other than the new current one changes, and the
current one keeps its image planes. -/
theorem mlp_resetimages_advance (cam : ctx_dev) (realtime monotonic : timespec)
    (_hsize : 1 ≤ cam.imgs.ring_size)
    (hlen : (cam.imgs.image_ring.length : Int) = cam.imgs.ring_size)
    (hin : 0 ≤ cam.imgs.ring_in ∧ cam.imgs.ring_in < cam.imgs.ring_size)
    (hout : 0 ≤ cam.imgs.ring_out ∧ cam.imgs.ring_out < cam.imgs.ring_size) :
    (mlp_resetimages cam realtime monotonic).imgs.ring_in
        = (cam.imgs.ring_in + 1) % cam.imgs.ring_size ∧
    ((mlp_resetimages cam realtime monotonic).imgs.ring_in = cam.imgs.ring_out →
      (mlp_resetimages cam realtime monotonic).imgs.ring_out
        = (cam.imgs.ring_out + 1) % cam.imgs.ring_size) ∧
    ((mlp_resetimages cam realtime monotonic).imgs.ring_in ≠ cam.imgs.ring_out →
      (mlp_resetimages cam realtime monotonic).imgs.ring_out = cam.imgs.ring_out) ∧
    (mlp_resetimages cam realtime monotonic).imgs.ring_size = cam.imgs.ring_size ∧
    ((mlp_resetimages cam realtime monotonic).imgs.image_ring.length : Int)
        = cam.imgs.ring_size ∧
    (0 ≤ (mlp_resetimages cam realtime monotonic).imgs.ring_in ∧
      (mlp_resetimages cam realtime monotonic).imgs.ring_in < cam.imgs.ring_size) ∧
    (0 ≤ (mlp_resetimages cam realtime monotonic).imgs.ring_out ∧
      (mlp_resetimages cam realtime monotonic).imgs.ring_out < cam.imgs.ring_size) ∧
    (mlp_resetimages cam realtime monotonic).current_image
        = some (mlp_resetimages cam realtime monotonic).imgs.ring_in ∧
    (∀ i : Int, 0 ≤ i → i < cam.imgs.ring_size →
      i ≠ (mlp_resetimages cam realtime monotonic).imgs.ring_in →
      ring_at (mlp_resetimages cam realtime monotonic).imgs.image_ring i
        = ring_at cam.imgs.image_ring i) ∧
    (ring_at (mlp_resetimages cam realtime monotonic).imgs.image_ring
        (mlp_resetimages cam realtime monotonic).imgs.ring_in).image_norm
      = (ring_at cam.imgs.image_ring
        (mlp_resetimages cam realtime monotonic).imgs.ring_in).image_norm ∧
    (ring_at (mlp_resetimages cam realtime monotonic).imgs.image_ring
        (mlp_resetimages cam realtime monotonic).imgs.ring_in).image_high
      = (ring_at cam.imgs.image_ring
        (mlp_resetimages cam realtime monotonic).imgs.ring_in).image_high := by
  obtain ⟨hin0, hin1⟩ := hin
  obtain ⟨hout0, hout1⟩ := hout
  have hr := next_slot_range _ _ hin0 hin1
  have hr2 := next_slot_range _ _ hout0 hout1
  rw [mlp_resetimages_ring_in, mlp_resetimages_ring_out, mlp_resetimages_ring,
    mlp_resetimages_current, ring_upd_length]
  refine ⟨next_slot_mod _ _ hin0 hin1, ?_, ?_, rfl, hlen, hr, ?_, rfl, ?_, ?_, ?_⟩
  · intro h
    rw [if_pos h]
    exact next_slot_mod _ _ hout0 hout1
  · intro h
    rw [if_neg h]
  · split
    · exact hr2
    · exact ⟨hout0, hout1⟩
  · intro i hi0 hi1 hne
    rw [ring_at_upd_ne]
    omega
  · rw [ring_at_upd_same _ _ _ (by omega)]
  · rw [ring_at_upd_same _ _ _ (by omega)]

/-- C2 at `ring3_full`: the produce cursor wraps from 2 to 0, catches the
consume cursor, which moves on to 1. -/
theorem mlp_resetimages_advance_witness :
    (mlp_resetimages ring3_full {} {}).imgs.ring_in = (2 + 1) % 3 ∧
    (mlp_resetimages ring3_full {} {}).imgs.ring_out = 1 ∧
    ring_at (mlp_resetimages ring3_full {} {}).imgs.image_ring 1
      = ring_at ring3_full.imgs.image_ring 1 :=
  have h := mlp_resetimages_advance ring3_full {} {} (by decide) (by decide)
    ⟨by decide, by decide⟩ ⟨by decide, by decide⟩
  ⟨h.1, h.2.1 (by decide), h.2.2.2.2.2.2.2.2.1 1 (by decide) (by decide) (by decide)⟩

/-! ## What the bookkeeping steps leave alone -/

theorem map_ring_upd {β : Type} (g : ctx_image_data → β) (ring : List ctx_image_data) (i : Int)
    (f : ctx_image_data → ctx_image_data) (h : ∀ x, g (f x) = g x) :
    (ring_upd ring i f).map g = ring.map g := by
  apply List.ext_getElem?
  intro n
  simp only [ring_upd, ring_at, List.getElem?_map, List.getElem?_set, List.getD_eq_getElem?_getD]
  by_cases hn : i.toNat = n
  · subst hn
    by_cases h2 : i.toNat < ring.length
    · rw [if_pos rfl, if_pos h2, List.getElem?_eq_getElem h2]
      simp [h]
    · rw [if_pos rfl, if_neg h2, List.getElem?_eq_none (by omega)]
  · rw [if_neg hn]

theorem ring_at_map_core (ring : List ctx_image_data) (j : Int) :
    ring_at (ring.map ctx_image_data.core) j = (ring_at ring j).core := by
  simp only [ring_at, List.getD_eq_getElem?_getD, List.getElem?_map]
  cases ring[j.toNat]? <;> rfl

theorem core_ring (a b : ctx_dev) (h : a.core = b.core) (j : Int) :
    (ring_at a.imgs.image_ring j).core = (ring_at b.imgs.image_ring j).core := by
  have h2 : a.core.ring = b.core.ring := by rw [h]
  rw [← ring_at_map_core, ← ring_at_map_core]
  exact congrArg (fun r => ring_at r j) h2

theorem core_length (a b : ctx_dev) (h : a.core = b.core) :
    a.imgs.image_ring.length = b.imgs.image_ring.length := by
  have h2 : a.core.ring = b.core.ring := by rw [h]
  have h3 := congrArg List.length h2
  simpa [ctx_dev.core] using h3

theorem core_set_saved (x : ctx_image_data) : (set_flags IMAGE_SAVED x).core = x.core := by
  simp [set_flags, ctx_image_data.core, IMAGE_SAVED]

theorem core_set_cent_dist (x : ctx_image_data) (v : Int) :
    ({ x with cent_dist := v } : ctx_image_data).core = x.core := rfl

theorem core_ring_process_body (cam : ctx_dev) :
    (mlp_ring_process_body cam).core = cam.core := by
  simp only [mlp_ring_process_body, ctx_dev.core, ctx_dev.call, pic_save_preview,
    apply_ite ctx_dev.conf, apply_ite ctx_dev.imgs, apply_ite ctx_images.image_ring,
    apply_ite ctx_images.ring_size, apply_ite ctx_images.ring_in,
    apply_ite ctx_dev.threshold, apply_ite ctx_dev.threshold_maximum,
    apply_ite ctx_dev.startup_frames, apply_ite ctx_dev.detecting_motion,
    apply_ite ctx_dev.frame_curr_ts, ite_self, map_ring_upd _ _ _ _ core_set_saved]

theorem core_ring_process_loop (fuel : Nat) : ∀ cam cam' : ctx_dev,
    mlp_ring_process_loop fuel cam = some cam' → cam'.core = cam.core := by
  induction fuel with
  | zero => intro cam cam' h; cases h
  | succ n ih =>
    intro cam cam' h
    unfold mlp_ring_process_loop at h
    split at h
    · cases h; rfl
    · simp only at h
      split at h
      · exact (ih _ _ h).trans (core_ring_process_body cam)
      · cases h; exact core_ring_process_body cam

theorem core_ring_process (cam : ctx_dev) : (mlp_ring_process cam).core = cam.core := by
  unfold mlp_ring_process
  simp only
  cases h : mlp_ring_process_loop (cam.imgs.image_ring.length + 1) cam with
  | none => rfl
  | some c => exact core_ring_process_loop _ cam c h

theorem current_ring_process (cam : ctx_dev) :
    (mlp_ring_process cam).current_image = cam.current_image := by
  unfold mlp_ring_process
  simp only
  cases mlp_ring_process_loop (cam.imgs.image_ring.length + 1) cam <;> rfl

theorem core_info_reset (cam : ctx_dev) : (mlp_info_reset cam).core = cam.core := rfl

theorem core_track_center (cam : ctx_dev) : (mlp_track_center cam).core = cam.core := by
  unfold mlp_track_center; split <;> rfl
theorem current_track_center (cam : ctx_dev) :
    (mlp_track_center cam).current_image = cam.current_image := by
  unfold mlp_track_center; split <;> rfl
theorem core_track_move (cam : ctx_dev) (cent : ctx_coord) :
    (mlp_track_move cam cent).core = cam.core := by
  unfold mlp_track_move; split <;> rfl
theorem current_track_move (cam : ctx_dev) (cent : ctx_coord) :
    (mlp_track_move cam cent).current_image = cam.current_image := by
  unfold mlp_track_move; split <;> rfl

theorem core_detected_trigger (cam : ctx_dev) (img : Int) :
    (mlp_detected_trigger cam img).core = cam.core := by
  simp only [mlp_detected_trigger, mlp_info_reset, ctx_dev.core, ctx_dev.call, pic_save_preview,
    apply_ite ctx_dev.conf, apply_ite ctx_dev.imgs, apply_ite ctx_images.image_ring,
    apply_ite ctx_images.ring_size, apply_ite ctx_images.ring_in,
    apply_ite ctx_dev.threshold, apply_ite ctx_dev.threshold_maximum,
    apply_ite ctx_dev.startup_frames, apply_ite ctx_dev.detecting_motion,
    apply_ite ctx_dev.frame_curr_ts, ite_self]

theorem current_detected_trigger (cam : ctx_dev) (img : Int) :
    (mlp_detected_trigger cam img).current_image = cam.current_image := by
  simp only [mlp_detected_trigger, mlp_info_reset, ctx_dev.call, pic_save_preview,
    apply_ite ctx_dev.current_image, ite_self]

theorem core_detected (cam : ctx_dev) (img : Int) : (mlp_detected cam img).core = cam.core := by
  simp only [mlp_detected, mlp_detected_trigger, mlp_track_move, mlp_info_reset, ctx_dev.core,
    ctx_dev.call, pic_save_preview,
    apply_ite ctx_dev.conf, apply_ite ctx_dev.imgs, apply_ite ctx_images.image_ring,
    apply_ite ctx_images.ring_size, apply_ite ctx_images.ring_in,
    apply_ite ctx_dev.threshold, apply_ite ctx_dev.threshold_maximum,
    apply_ite ctx_dev.startup_frames, apply_ite ctx_dev.detecting_motion,
    apply_ite ctx_dev.frame_curr_ts, apply_ite (List.map ctx_image_data.core), ite_self,
    map_ring_upd _ _ _ _ (fun x => core_set_cent_dist x _)]

theorem current_detected (cam : ctx_dev) (img : Int) :
    (mlp_detected cam img).current_image = cam.current_image := by
  simp only [mlp_detected, mlp_detected_trigger, mlp_track_move, mlp_info_reset,
    ctx_dev.call, pic_save_preview, apply_ite ctx_dev.current_image, ite_self]

theorem core_areadetect (cam : ctx_dev) : (mlp_areadetect cam).core = cam.core := by
  unfold mlp_areadetect; split
  · split <;> rfl
  · rfl
theorem current_areadetect (cam : ctx_dev) :
    (mlp_areadetect cam).current_image = cam.current_image := by
  unfold mlp_areadetect; split
  · split <;> rfl
  · rfl

theorem core_actions_event_gap (cam : ctx_dev) : (mlp_actions_event_gap cam).core = cam.core := by
  unfold mlp_actions_event_gap; split <;> rfl
theorem current_actions_event_gap (cam : ctx_dev) :
    (mlp_actions_event_gap cam).current_image = cam.current_image := by
  unfold mlp_actions_event_gap; split <;> rfl

theorem core_actions_event_end (cam : ctx_dev) : (mlp_actions_event_end cam).core = cam.core := by
  simp only [mlp_actions_event_end, mlp_track_center, ctx_dev.core, ctx_dev.call,
    apply_ite ctx_dev.conf, apply_ite ctx_dev.imgs, apply_ite ctx_images.image_ring,
    apply_ite ctx_images.ring_size, apply_ite ctx_images.ring_in,
    apply_ite ctx_dev.threshold, apply_ite ctx_dev.threshold_maximum,
    apply_ite ctx_dev.startup_frames, apply_ite ctx_dev.detecting_motion,
    apply_ite ctx_dev.frame_curr_ts, ite_self]
theorem current_actions_event_end (cam : ctx_dev) :
    (mlp_actions_event_end cam).current_image = cam.current_image := by
  simp only [mlp_actions_event_end, mlp_track_center, ctx_dev.call,
    apply_ite ctx_dev.current_image, ite_self]

theorem core_actions_event_stop (cam : ctx_dev) :
    (mlp_actions_event_stop cam).core = cam.core := by
  unfold mlp_actions_event_stop
  simp only []
  split
  · show (if _ then _ else _ : ctx_dev).core = _
    split
    · exact (core_actions_event_end _).trans (core_ring_process _)
    · rfl
  · rfl
theorem current_actions_event_stop (cam : ctx_dev) :
    (mlp_actions_event_stop cam).current_image = cam.current_image := by
  unfold mlp_actions_event_stop
  simp only []
  split
  · show (if _ then _ else _ : ctx_dev).current_image = _
    split
    · exact (current_actions_event_end _).trans (current_ring_process _)
    · rfl
  · rfl

theorem core_actions_event_movie (cam : ctx_dev) :
    (mlp_actions_event_movie cam).core = cam.core := by
  unfold mlp_actions_event_movie; split <;> rfl
theorem current_actions_event_movie (cam : ctx_dev) :
    (mlp_actions_event_movie cam).current_image = cam.current_image := by
  unfold mlp_actions_event_movie; split <;> rfl

theorem core_actions_event (cam : ctx_dev) : (mlp_actions_event cam).core = cam.core :=
  (core_actions_event_movie _).trans ((core_actions_event_stop _).trans (core_actions_event_gap _))
theorem current_actions_event (cam : ctx_dev) :
    (mlp_actions_event cam).current_image = cam.current_image :=
  (current_actions_event_movie _).trans
    ((current_actions_event_stop _).trans (current_actions_event_gap _))

theorem starts_append (l : List ext_call) (c : ext_call) (h : is_event_start c = false) :
    (l ++ [c]).filter is_event_start = l.filter is_event_start := by
  rw [List.filter_append, List.filter_cons, h]
  simp

theorem opened_call (cam : ctx_dev) (c : ext_call) (h : is_event_start c = false) :
    (cam.call c).opened = cam.opened := by
  simp only [ctx_dev.opened, ctx_dev.call, starts_append _ _ h]

theorem ctl_ring_process_body (cam : ctx_dev) : (mlp_ring_process_body cam).ctl = cam.ctl := by
  simp only [mlp_ring_process_body, ctx_dev.ctl, ctx_dev.call, pic_save_preview,
    apply_ite ctx_dev.event_nr, apply_ite ctx_dev.event_stop, apply_ite ctx_dev.event_user,
    apply_ite ctx_dev.postcap, apply_ite ctx_dev.lasttime, ite_self]

theorem opened_ring_process_body (cam : ctx_dev) :
    (mlp_ring_process_body cam).opened = cam.opened := by
  simp only [mlp_ring_process_body, ctx_dev.opened, ctx_dev.call, pic_save_preview,
    apply_ite ctx_dev.prev_event, apply_ite ctx_dev.calls,
    apply_ite (List.filter is_event_start), ite_self,
    starts_append _ (ext_call.event EVENT_IMAGE_DETECTED _) rfl,
    starts_append _ (ext_call.pic_save_preview _) rfl]

theorem ring_process_loop_keeps {β : Type} (view : ctx_dev → β)
    (hbody : ∀ cam, view (mlp_ring_process_body cam) = view cam) (fuel : Nat) :
    ∀ cam cam' : ctx_dev, mlp_ring_process_loop fuel cam = some cam' → view cam' = view cam := by
  induction fuel with
  | zero => intro cam cam' h; cases h
  | succ n ih =>
    intro cam cam' h
    unfold mlp_ring_process_loop at h
    split at h
    · cases h; rfl
    · simp only at h
      split at h
      · exact (ih _ _ h).trans (hbody cam)
      · cases h; exact hbody cam

theorem ctl_ring_process (cam : ctx_dev) : (mlp_ring_process cam).ctl = cam.ctl := by
  unfold mlp_ring_process
  simp only
  cases h : mlp_ring_process_loop (cam.imgs.image_ring.length + 1) cam with
  | none => rfl
  | some c => exact ring_process_loop_keeps ctx_dev.ctl ctl_ring_process_body _ cam c h

theorem opened_ring_process (cam : ctx_dev) : (mlp_ring_process cam).opened = cam.opened := by
  unfold mlp_ring_process
  simp only
  cases h : mlp_ring_process_loop (cam.imgs.image_ring.length + 1) cam with
  | none => rfl
  | some c => exact ring_process_loop_keeps ctx_dev.opened opened_ring_process_body _ cam c h

theorem ctl_detected (cam : ctx_dev) (img : Int) : (mlp_detected cam img).ctl = cam.ctl := by
  simp only [mlp_detected, mlp_detected_trigger, mlp_track_move, mlp_info_reset, ctx_dev.ctl,
    ctx_dev.call, pic_save_preview,
    apply_ite ctx_dev.event_nr, apply_ite ctx_dev.event_stop, apply_ite ctx_dev.event_user,
    apply_ite ctx_dev.postcap, apply_ite ctx_dev.lasttime, ite_self]

theorem ctl_areadetect (cam : ctx_dev) : (mlp_areadetect cam).ctl = cam.ctl := by
  unfold mlp_areadetect; split
  · split <;> rfl
  · rfl

theorem opened_areadetect (cam : ctx_dev) : (mlp_areadetect cam).opened = cam.opened := by
  unfold mlp_areadetect; split
  · split
    · exact opened_call cam (ext_call.event EVENT_AREA_DETECTED none) rfl
    · rfl
  · rfl

theorem opened_actions_event_gap (cam : ctx_dev) :
    (mlp_actions_event_gap cam).opened = cam.opened := by
  unfold mlp_actions_event_gap; split <;> rfl

theorem opened_actions_event_end (cam : ctx_dev) :
    (mlp_actions_event_end cam).opened = cam.opened := by
  simp only [mlp_actions_event_end, mlp_track_center, ctx_dev.opened, ctx_dev.call,
    apply_ite ctx_dev.prev_event, apply_ite ctx_dev.calls,
    apply_ite (List.filter is_event_start), ite_self,
    starts_append _ (ext_call.event EVENT_IMAGE_PREVIEW _) rfl,
    starts_append _ (ext_call.event EVENT_END _) rfl,
    starts_append _ (ext_call.event EVENT_SECDETECT _) rfl,
    starts_append _ (ext_call.dbse_exec "event_end") (by decide),
    starts_append _ ext_call.exec_command rfl]

theorem opened_actions_event_stop (cam : ctx_dev) :
    (mlp_actions_event_stop cam).opened = cam.opened := by
  unfold mlp_actions_event_stop
  simp only []
  split
  · show (if _ then _ else _ : ctx_dev).opened = _
    split
    · exact (opened_actions_event_end _).trans (opened_ring_process _)
    · rfl
  · rfl

theorem opened_actions_event_movie (cam : ctx_dev) :
    (mlp_actions_event_movie cam).opened = cam.opened := by
  unfold mlp_actions_event_movie; split
  · exact (opened_call _ (ext_call.event EVENT_MOVIE_START none) rfl).trans
      (opened_call cam (ext_call.event EVENT_MOVIE_END none) rfl)
  · rfl

theorem opened_actions_event (cam : ctx_dev) : (mlp_actions_event cam).opened = cam.opened :=
  (opened_actions_event_movie _).trans
    ((opened_actions_event_stop _).trans (opened_actions_event_gap _))

/-! ## `mlp_actions` after its trigger step -/

theorem core_actions_lasttime (cam : ctx_dev) : (mlp_actions_lasttime cam).core = cam.core := by
  simp only [mlp_actions_lasttime, ctx_dev.core, ctx_dev.call,
    apply_ite ctx_dev.conf, apply_ite ctx_dev.imgs, apply_ite ctx_images.image_ring,
    apply_ite ctx_images.ring_size, apply_ite ctx_images.ring_in,
    apply_ite ctx_dev.threshold, apply_ite ctx_dev.threshold_maximum,
    apply_ite ctx_dev.startup_frames, apply_ite ctx_dev.detecting_motion,
    apply_ite ctx_dev.frame_curr_ts, ite_self]

theorem current_actions_lasttime (cam : ctx_dev) :
    (mlp_actions_lasttime cam).current_image = cam.current_image := by
  simp only [mlp_actions_lasttime, ctx_dev.call, apply_ite ctx_dev.current_image, ite_self]

theorem opened_actions_lasttime (cam : ctx_dev) :
    (mlp_actions_lasttime cam).opened = cam.opened := by
  simp only [mlp_actions_lasttime, ctx_dev.opened, ctx_dev.call, apply_ite ctx_dev.prev_event,
    apply_ite ctx_dev.calls, apply_ite (List.filter is_event_start), ite_self,
    starts_append _ ext_call.algsec_detect rfl]

theorem nr_actions_lasttime (cam : ctx_dev) :
    (mlp_actions_lasttime cam).event_nr = cam.event_nr := by
  simp only [mlp_actions_lasttime, ctx_dev.call, apply_ite ctx_dev.event_nr, ite_self]

theorem core_actions (cam : ctx_dev) :
    (mlp_actions cam).core = (mlp_actions_trigger (mlp_actions_classify cam)).core :=
  (core_actions_event _).trans ((core_ring_process _).trans ((core_areadetect _).trans
    (core_actions_lasttime _)))

theorem current_actions (cam : ctx_dev) :
    (mlp_actions cam).current_image
      = (mlp_actions_trigger (mlp_actions_classify cam)).current_image :=
  (current_actions_event _).trans ((current_ring_process _).trans ((current_areadetect _).trans
    (current_actions_lasttime _)))

theorem opened_actions (cam : ctx_dev) :
    (mlp_actions cam).opened = (mlp_actions_trigger (mlp_actions_classify cam)).opened :=
  (opened_actions_event _).trans ((opened_ring_process _).trans ((opened_areadetect _).trans
    (opened_actions_lasttime _)))

/-! ## The event counters -/

theorem nr_detected_trigger (cam : ctx_dev) (img : Int) :
    (mlp_detected_trigger cam img).event_nr = cam.event_nr := by
  simp only [mlp_detected_trigger, mlp_info_reset, ctx_dev.call, pic_save_preview,
    apply_ite ctx_dev.event_nr, ite_self]

theorem prev_detected_trigger (cam : ctx_dev) (img : Int) :
    (mlp_detected_trigger cam img).prev_event =
      if ((ring_at cam.imgs.image_ring img).flags &&& IMAGE_TRIGGER).test = true
      then cam.event_nr else cam.prev_event := by
  simp only [mlp_detected_trigger, mlp_info_reset, ctx_dev.call, pic_save_preview,
    apply_ite ctx_dev.prev_event, ite_self]
  split
  · split
    · rfl
    · rename_i h; exact (not_not.mp h).symm
  · rfl

theorem prev_detected (cam : ctx_dev) (img : Int) :
    (mlp_detected cam img).prev_event = cam.prev_event ∨
    (mlp_detected cam img).prev_event = cam.event_nr := by
  simp only [mlp_detected, mlp_detected_trigger, mlp_track_move, mlp_info_reset, ctx_dev.call,
    pic_save_preview, apply_ite ctx_dev.prev_event, apply_ite ctx_dev.event_nr, ite_self]
  split_ifs <;> first | exact Or.inl rfl | exact Or.inr rfl

theorem nr_actions_event_end (cam : ctx_dev) :
    (mlp_actions_event_end cam).event_nr = cam.event_nr + 1 := by
  simp only [mlp_actions_event_end, mlp_track_center, ctx_dev.call,
    apply_ite ctx_dev.event_nr, ite_self]

theorem event_inv_detected_trigger (cam : ctx_dev) (img : Int) (h : event_inv cam) :
    event_inv (mlp_detected_trigger cam img) := by
  unfold event_inv at *
  rw [nr_detected_trigger, prev_detected_trigger]
  split <;> omega

theorem nr_actions_event_gap (cam : ctx_dev) :
    (mlp_actions_event_gap cam).event_nr = cam.event_nr := by
  unfold mlp_actions_event_gap; split <;> rfl

theorem nr_actions_event_movie (cam : ctx_dev) :
    (mlp_actions_event_movie cam).event_nr = cam.event_nr := by
  unfold mlp_actions_event_movie; split <;> rfl

theorem nr_actions_event_stop (cam : ctx_dev) :
    (mlp_actions_event_stop cam).event_nr =
      if cam.event_stop = true ∧ cam.event_nr = cam.prev_event
      then cam.event_nr + 1 else cam.event_nr := by
  unfold mlp_actions_event_stop
  simp only []
  by_cases h1 : cam.event_stop = true
  · rw [if_pos h1]
    show (if _ then _ else _ : ctx_dev).event_nr = _
    by_cases h2 : cam.event_nr = cam.prev_event
    · rw [if_pos h2, if_pos ⟨h1, h2⟩, nr_actions_event_end]
      exact congrArg (· + 1) (congrArg dev_ctl.event_nr (ctl_ring_process cam))
    · rw [if_neg h2, if_neg (fun hh => h2 hh.2)]
  · rw [if_neg h1, if_neg (fun hh => h1 hh.1)]

theorem event_inv_actions_event (cam : ctx_dev) (h : event_inv cam) :
    event_inv (mlp_actions_event cam) := by
  have hp : (mlp_actions_event cam).prev_event = cam.prev_event :=
    congrArg dev_opened.prev_event (opened_actions_event cam)
  have hg : (mlp_actions_event_gap cam).prev_event = cam.prev_event :=
    congrArg dev_opened.prev_event (opened_actions_event_gap cam)
  have hn : (mlp_actions_event cam).event_nr =
      if (mlp_actions_event_gap cam).event_stop = true ∧ cam.event_nr = cam.prev_event
      then cam.event_nr + 1 else cam.event_nr := by
    unfold mlp_actions_event
    rw [nr_actions_event_movie, nr_actions_event_stop, nr_actions_event_gap, hg]
  unfold event_inv at *
  rw [hp, hn]
  split <;> omega

/-! ## The trigger step -/

theorem ring_at_congr (ring : List ctx_image_data) (i j : Int) (h : i.toNat = j.toNat) :
    ring_at ring i = ring_at ring j := by
  unfold ring_at; rw [h]

theorem save_all_fold_length (n : Nat) : ∀ ring : List ctx_image_data,
    ((List.range n).foldl
      (fun r (indx : Nat) => ring_upd r (Int.ofNat indx) (set_flags IMAGE_SAVE)) ring).length
      = ring.length := by
  induction n with
  | zero => intro ring; rfl
  | succ n ih =>
    intro ring
    rw [List.range_succ, List.foldl_append, List.foldl_cons, List.foldl_nil, ring_upd_length, ih]

theorem save_all_fold_at (n : Nat) : ∀ (ring : List ctx_image_data) (j : Int),
    ring_at ((List.range n).foldl
      (fun r (indx : Nat) => ring_upd r (Int.ofNat indx) (set_flags IMAGE_SAVE)) ring) j =
      if j.toNat < n ∧ j.toNat < ring.length
      then set_flags IMAGE_SAVE (ring_at ring j) else ring_at ring j := by
  induction n with
  | zero => intro ring j; simp
  | succ n ih =>
    intro ring j
    have hn : (Int.ofNat n).toNat = n := rfl
    rw [List.range_succ, List.foldl_append, List.foldl_cons, List.foldl_nil, ring_at_upd,
      save_all_fold_length, hn]
    by_cases h1 : n = j.toNat
    · by_cases h2 : n < ring.length
      · rw [if_pos ⟨h1, h2⟩, if_pos ⟨by omega, by omega⟩, ih,
          if_neg (fun hh => Nat.lt_irrefl _ (hn ▸ hh.1))]
        rw [ring_at_congr ring (Int.ofNat n) j (hn.trans h1)]
      · rw [if_neg (fun hh => h2 hh.2), ih, if_neg (fun hh => h2 (by omega)),
          if_neg (fun hh => h2 (by omega))]
    · rw [if_neg (fun hh => h1 hh.1), ih]
      by_cases h3 : j.toNat < n ∧ j.toNat < ring.length
      · rw [if_pos h3, if_pos ⟨by omega, h3.2⟩]
      · rw [if_neg h3, if_neg]
        intro hh
        exact h3 ⟨by omega, hh.2⟩

theorem ring_at_save_all (ring : List ctx_image_data) (ring_size : Int) (j : Int) :
    ring_at (ring_save_all ring ring_size) j =
      if j.toNat < ring_size.toNat ∧ j.toNat < ring.length
      then set_flags IMAGE_SAVE (ring_at ring j) else ring_at ring j :=
  save_all_fold_at _ _ _

theorem ring_save_all_length (ring : List ctx_image_data) (ring_size : Int) :
    (ring_save_all ring ring_size).length = ring.length :=
  save_all_fold_length _ _

theorem core_upd_cur (cam : ctx_dev) (f : ctx_image_data → ctx_image_data) :
    (cam.upd_cur f).core = { cam.core with
      ring := (cam.upd_cur f).imgs.image_ring.map ctx_image_data.core } := by
  unfold ctx_dev.upd_cur; split <;> rfl
theorem ctl_upd_cur (cam : ctx_dev) (f : ctx_image_data → ctx_image_data) :
    (cam.upd_cur f).ctl = cam.ctl := by
  unfold ctx_dev.upd_cur; split <;> rfl
theorem opened_upd_cur (cam : ctx_dev) (f : ctx_image_data → ctx_image_data) :
    (cam.upd_cur f).opened = cam.opened := by
  unfold ctx_dev.upd_cur; split <;> rfl
theorem current_upd_cur (cam : ctx_dev) (f : ctx_image_data → ctx_image_data) :
    (cam.upd_cur f).current_image = cam.current_image := by
  unfold ctx_dev.upd_cur; split <;> rfl
theorem ring_upd_cur (cam : ctx_dev) (f : ctx_image_data → ctx_image_data) (i : Int)
    (hc : cam.current_image = some i) :
    (cam.upd_cur f).imgs.image_ring = ring_upd cam.imgs.image_ring i f := by
  unfold ctx_dev.upd_cur; rw [hc]

theorem emulate_mark_ring (cam : ctx_dev) (i : Int) (hc : cam.current_image = some i) :
    (mlp_actions_emulate_mark cam).imgs.image_ring =
      ring_save_all (ring_upd cam.imgs.image_ring i (set_flags (IMAGE_TRIGGER ||| IMAGE_SAVE)))
        cam.imgs.ring_size := by
  simp only [mlp_actions_emulate_mark, ctx_dev.upd_cur, hc, ctx_dev.call,
    apply_ite ctx_dev.current_image, apply_ite ctx_dev.imgs, apply_ite ctx_images.image_ring,
    apply_ite ctx_images.ring_size, ite_self]

theorem emulate_mark_core (cam : ctx_dev) :
    (mlp_actions_emulate_mark cam).core = { cam.core with
      ring := (mlp_actions_emulate_mark cam).imgs.image_ring.map ctx_image_data.core,
      detecting_motion := true } := by
  cases hc : cam.current_image <;>
  simp only [mlp_actions_emulate_mark, ctx_dev.upd_cur, hc, ctx_dev.core, ctx_dev.call,
    apply_ite ctx_dev.conf, apply_ite ctx_dev.imgs, apply_ite ctx_images.image_ring,
    apply_ite ctx_images.ring_size, apply_ite ctx_images.ring_in,
    apply_ite ctx_dev.threshold, apply_ite ctx_dev.threshold_maximum,
    apply_ite ctx_dev.startup_frames, apply_ite ctx_dev.detecting_motion,
    apply_ite ctx_dev.frame_curr_ts, apply_ite ctx_dev.current_image, ite_self]

theorem emulate_mark_ctl (cam : ctx_dev) :
    (mlp_actions_emulate_mark cam).ctl = { cam.ctl with
      postcap := if cam.conf.post_capture > 0 then cam.conf.post_capture else cam.postcap } := by
  cases hc : cam.current_image <;>
  simp only [mlp_actions_emulate_mark, ctx_dev.upd_cur, hc, ctx_dev.ctl, ctx_dev.call,
    apply_ite ctx_dev.event_nr, apply_ite ctx_dev.event_stop, apply_ite ctx_dev.event_user,
    apply_ite ctx_dev.postcap, apply_ite ctx_dev.lasttime, apply_ite ctx_dev.conf,
    apply_ite ctx_dev.current_image, ite_self]

theorem emulate_mark_opened (cam : ctx_dev) :
    (mlp_actions_emulate_mark cam).opened = cam.opened := by
  cases hc : cam.current_image <;>
  simp only [mlp_actions_emulate_mark, ctx_dev.upd_cur, hc, ctx_dev.opened, ctx_dev.call,
    apply_ite ctx_dev.prev_event, apply_ite ctx_dev.calls, apply_ite ctx_dev.current_image,
    apply_ite (List.filter is_event_start), ite_self,
    starts_append _ ext_call.movie_reset_start_time rfl]

theorem emulate_mark_current (cam : ctx_dev) :
    (mlp_actions_emulate_mark cam).current_image = cam.current_image := by
  cases hc : cam.current_image <;>
  simp only [mlp_actions_emulate_mark, ctx_dev.upd_cur, hc, ctx_dev.call,
    apply_ite ctx_dev.current_image, ite_self]

theorem emulate_core (cam : ctx_dev) :
    (mlp_actions_emulate cam).core = (mlp_actions_emulate_mark cam).core := by
  unfold mlp_actions_emulate
  simp only []
  split
  · exact core_detected _ _
  · rfl

theorem emulate_ctl (cam : ctx_dev) :
    (mlp_actions_emulate cam).ctl = (mlp_actions_emulate_mark cam).ctl := by
  unfold mlp_actions_emulate
  simp only []
  split
  · exact ctl_detected _ _
  · rfl

theorem emulate_current (cam : ctx_dev) :
    (mlp_actions_emulate cam).current_image = cam.current_image := by
  unfold mlp_actions_emulate
  simp only []
  split
  · exact (current_detected _ _).trans (emulate_mark_current cam)
  · exact emulate_mark_current cam

theorem emulate_prev (cam : ctx_dev) :
    (mlp_actions_emulate cam).prev_event = cam.prev_event ∨
    (mlp_actions_emulate cam).prev_event = cam.event_nr := by
  have h1 : (mlp_actions_emulate_mark cam).prev_event = cam.prev_event :=
    congrArg dev_opened.prev_event (emulate_mark_opened cam)
  have h2 : (mlp_actions_emulate_mark cam).event_nr = cam.event_nr :=
    congrArg dev_ctl.event_nr (emulate_mark_ctl cam)
  unfold mlp_actions_emulate
  simp only []
  split
  · rw [← h1, ← h2]; exact prev_detected _ _
  · exact Or.inl h1

theorem motion_mark_trigger (cam : ctx_dev)
    (h : cam.frame_count ≥ cam.conf.minimum_motion_frames) :
    (mlp_actions_motion_mark cam).imgs.image_ring =
      ring_save_all (cam.upd_cur (set_flags (IMAGE_TRIGGER ||| IMAGE_SAVE))).imgs.image_ring
        cam.imgs.ring_size ∧
    (mlp_actions_motion_mark cam).core = { cam.core with
      ring := (mlp_actions_motion_mark cam).imgs.image_ring.map ctx_image_data.core,
      detecting_motion := true } ∧
    (mlp_actions_motion_mark cam).ctl = { cam.ctl with postcap := cam.conf.post_capture } ∧
    (mlp_actions_motion_mark cam).opened = cam.opened := by
  unfold ctx_dev.frame_count at h
  cases hc : cam.current_image <;>
  simp only [mlp_actions_motion_mark, if_pos h, ctx_dev.upd_cur, hc, ctx_dev.core, ctx_dev.ctl,
    ctx_dev.opened, ctx_dev.call,
    apply_ite ctx_dev.conf, apply_ite ctx_dev.imgs, apply_ite ctx_images.image_ring,
    apply_ite ctx_images.ring_size, apply_ite ctx_images.ring_in,
    apply_ite ctx_dev.threshold, apply_ite ctx_dev.threshold_maximum,
    apply_ite ctx_dev.startup_frames, apply_ite ctx_dev.detecting_motion,
    apply_ite ctx_dev.frame_curr_ts, apply_ite ctx_dev.current_image,
    apply_ite ctx_dev.event_nr, apply_ite ctx_dev.event_stop, apply_ite ctx_dev.event_user,
    apply_ite ctx_dev.postcap, apply_ite ctx_dev.lasttime,
    apply_ite ctx_dev.prev_event, apply_ite ctx_dev.calls,
    apply_ite (List.filter is_event_start), ite_self,
    starts_append _ ext_call.movie_reset_start_time rfl, and_self]

theorem motion_mark_postcap (cam : ctx_dev)
    (h : ¬ cam.frame_count ≥ cam.conf.minimum_motion_frames) (hp : cam.postcap > 0) :
    mlp_actions_motion_mark cam =
      { cam.upd_cur (set_flags (IMAGE_POSTCAP ||| IMAGE_SAVE)) with postcap := cam.postcap - 1 } := by
  unfold ctx_dev.frame_count at h
  have hp2 : (cam.upd_cur (set_flags (IMAGE_POSTCAP ||| IMAGE_SAVE))).postcap = cam.postcap :=
    congrArg dev_ctl.postcap (ctl_upd_cur cam _)
  simp only [mlp_actions_motion_mark, if_neg h, if_pos hp, hp2]

theorem motion_mark_precap (cam : ctx_dev)
    (h : ¬ cam.frame_count ≥ cam.conf.minimum_motion_frames) (hp : ¬ cam.postcap > 0) :
    mlp_actions_motion_mark cam = cam.upd_cur (set_flags IMAGE_PRECAP) := by
  unfold ctx_dev.frame_count at h
  simp only [mlp_actions_motion_mark, if_neg h, if_neg hp]

theorem motion_mark_current (cam : ctx_dev) :
    (mlp_actions_motion_mark cam).current_image = cam.current_image := by
  cases hc : cam.current_image <;>
  simp only [mlp_actions_motion_mark, ctx_dev.upd_cur, hc, ctx_dev.call,
    apply_ite ctx_dev.current_image, ite_self]

theorem motion_mark_opened (cam : ctx_dev) :
    (mlp_actions_motion_mark cam).opened = cam.opened := by
  cases hc : cam.current_image <;>
  simp only [mlp_actions_motion_mark, ctx_dev.upd_cur, hc, ctx_dev.opened, ctx_dev.call,
    apply_ite ctx_dev.prev_event, apply_ite ctx_dev.calls, apply_ite ctx_dev.current_image,
    apply_ite (List.filter is_event_start), ite_self,
    starts_append _ ext_call.movie_reset_start_time rfl]

theorem motion_mark_nr (cam : ctx_dev) :
    (mlp_actions_motion_mark cam).event_nr = cam.event_nr := by
  cases hc : cam.current_image <;>
  simp only [mlp_actions_motion_mark, ctx_dev.upd_cur, hc, ctx_dev.call,
    apply_ite ctx_dev.event_nr, apply_ite ctx_dev.current_image, ite_self]

theorem motion_core (cam : ctx_dev) :
    (mlp_actions_motion cam).core = (mlp_actions_motion_mark cam).core := by
  unfold mlp_actions_motion
  simp only []
  split
  · exact core_detected _ _
  · rfl

theorem motion_ctl (cam : ctx_dev) :
    (mlp_actions_motion cam).ctl = (mlp_actions_motion_mark cam).ctl := by
  unfold mlp_actions_motion
  simp only []
  split
  · exact ctl_detected _ _
  · rfl

theorem motion_current (cam : ctx_dev) :
    (mlp_actions_motion cam).current_image = cam.current_image := by
  unfold mlp_actions_motion
  simp only []
  split
  · exact (current_detected _ _).trans (motion_mark_current cam)
  · exact motion_mark_current cam

theorem motion_prev (cam : ctx_dev) :
    (mlp_actions_motion cam).prev_event = cam.prev_event ∨
    (mlp_actions_motion cam).prev_event = cam.event_nr := by
  have h1 : (mlp_actions_motion_mark cam).prev_event = cam.prev_event :=
    congrArg dev_opened.prev_event (motion_mark_opened cam)
  have h2 := motion_mark_nr cam
  unfold mlp_actions_motion
  simp only []
  split
  · rw [← h1, ← h2]; exact prev_detected _ _
  · exact Or.inl h1

theorem trigger_forced (cam : ctx_dev)
    (h : (cam.conf.emulate_motion || cam.event_user) = true ∧ cam.startup_frames = 0) :
    mlp_actions_trigger cam = mlp_actions_emulate cam := by
  unfold mlp_actions_trigger; rw [if_pos h]

theorem trigger_motion (cam : ctx_dev)
    (h : ¬ ((cam.conf.emulate_motion || cam.event_user) = true ∧ cam.startup_frames = 0))
    (hm : (cam.cur.flags &&& IMAGE_MOTION).test = true ∧ cam.startup_frames = 0) :
    mlp_actions_trigger cam = mlp_actions_motion cam := by
  unfold mlp_actions_trigger; rw [if_neg h, if_pos hm]

theorem trigger_postcap (cam : ctx_dev)
    (h : ¬ ((cam.conf.emulate_motion || cam.event_user) = true ∧ cam.startup_frames = 0))
    (hm : ¬ ((cam.cur.flags &&& IMAGE_MOTION).test = true ∧ cam.startup_frames = 0))
    (hp : cam.postcap > 0) :
    mlp_actions_trigger cam =
      { cam.upd_cur (set_flags (IMAGE_POSTCAP ||| IMAGE_SAVE)) with postcap := cam.postcap - 1 } := by
  have hp2 : (cam.upd_cur (set_flags (IMAGE_POSTCAP ||| IMAGE_SAVE))).postcap = cam.postcap :=
    congrArg dev_ctl.postcap (ctl_upd_cur cam _)
  unfold mlp_actions_trigger; simp only [if_neg h, if_neg hm, if_pos hp, hp2]

theorem trigger_precap (cam : ctx_dev)
    (h : ¬ ((cam.conf.emulate_motion || cam.event_user) = true ∧ cam.startup_frames = 0))
    (hm : ¬ ((cam.cur.flags &&& IMAGE_MOTION).test = true ∧ cam.startup_frames = 0))
    (hp : ¬ cam.postcap > 0) :
    mlp_actions_trigger cam =
      { (cam.upd_cur (set_flags IMAGE_PRECAP)) with
        event_stop := if cam.conf.event_gap = 0 ∧ cam.detecting_motion = true
                      then true else cam.event_stop,
        detecting_motion := false } := by
  have e1 : (cam.upd_cur (set_flags IMAGE_PRECAP)).conf = cam.conf :=
    congrArg dev_core.conf (core_upd_cur cam _)
  have e2 : (cam.upd_cur (set_flags IMAGE_PRECAP)).detecting_motion = cam.detecting_motion :=
    congrArg dev_core.detecting_motion (core_upd_cur cam _)
  have e3 : (cam.upd_cur (set_flags IMAGE_PRECAP)).event_stop = cam.event_stop :=
    congrArg dev_ctl.event_stop (ctl_upd_cur cam _)
  unfold mlp_actions_trigger
  rw [if_neg h, if_neg hm, if_neg hp]
  simp only []
  generalize cam.upd_cur (set_flags IMAGE_PRECAP) = U at e1 e2 e3 ⊢
  by_cases hcnd : cam.conf.event_gap = 0 ∧ cam.detecting_motion = true
  · rw [if_pos hcnd, if_pos (by rw [e1, e2]; exact hcnd)]
  · rw [if_neg hcnd, if_neg (by rw [e1, e2]; exact hcnd), ← e3]

theorem trigger_current (cam : ctx_dev) :
    (mlp_actions_trigger cam).current_image = cam.current_image := by
  unfold mlp_actions_trigger
  split
  · exact emulate_current cam
  · split
    · exact motion_current cam
    · cases hc : cam.current_image <;>
      simp only [ctx_dev.upd_cur, hc, apply_ite ctx_dev.current_image, ite_self]

theorem trigger_nr (cam : ctx_dev) : (mlp_actions_trigger cam).event_nr = cam.event_nr := by
  unfold mlp_actions_trigger
  split
  · exact (congrArg dev_ctl.event_nr (emulate_ctl cam)).trans
      (congrArg dev_ctl.event_nr (emulate_mark_ctl cam))
  · split
    · exact (congrArg dev_ctl.event_nr (motion_ctl cam)).trans (motion_mark_nr cam)
    · cases hc : cam.current_image <;>
      simp only [ctx_dev.upd_cur, hc, apply_ite ctx_dev.event_nr, ite_self]

theorem trigger_prev (cam : ctx_dev) :
    (mlp_actions_trigger cam).prev_event = cam.prev_event ∨
    (mlp_actions_trigger cam).prev_event = cam.event_nr := by
  unfold mlp_actions_trigger
  split
  · exact emulate_prev cam
  · split
    · exact motion_prev cam
    · left
      cases hc : cam.current_image <;>
      simp only [ctx_dev.upd_cur, hc, apply_ite ctx_dev.prev_event, ite_self]

theorem classify_ctl (cam : ctx_dev) : (mlp_actions_classify cam).ctl = cam.ctl := by
  cases hc : cam.current_image <;>
  simp only [mlp_actions_classify, ctx_dev.upd_cur, hc, ctx_dev.ctl,
    apply_ite ctx_dev.event_nr, apply_ite ctx_dev.event_stop, apply_ite ctx_dev.event_user,
    apply_ite ctx_dev.postcap, apply_ite ctx_dev.lasttime, ite_self]

theorem classify_opened (cam : ctx_dev) : (mlp_actions_classify cam).opened = cam.opened := by
  cases hc : cam.current_image <;>
  simp only [mlp_actions_classify, ctx_dev.upd_cur, hc, ctx_dev.opened,
    apply_ite ctx_dev.prev_event, apply_ite ctx_dev.calls,
    apply_ite (List.filter is_event_start), ite_self]

theorem classify_current (cam : ctx_dev) :
    (mlp_actions_classify cam).current_image = cam.current_image := by
  cases hc : cam.current_image <;>
  simp only [mlp_actions_classify, ctx_dev.upd_cur, hc, apply_ite ctx_dev.current_image, ite_self]

theorem classify_ring (cam : ctx_dev) :
    (mlp_actions_classify cam).imgs.image_ring =
      if cam.cur.diffs > cam.threshold ∧ cam.cur.diffs < cam.threshold_maximum
      then (cam.upd_cur (set_flags IMAGE_MOTION)).imgs.image_ring else cam.imgs.image_ring := by
  cases hc : cam.current_image <;>
  simp only [mlp_actions_classify, ctx_dev.upd_cur, hc, apply_ite ctx_dev.imgs,
    apply_ite ctx_images.image_ring, ite_self]

theorem classify_core (cam : ctx_dev) :
    (mlp_actions_classify cam).core = { cam.core with
      ring := (mlp_actions_classify cam).imgs.image_ring.map ctx_image_data.core } := by
  cases hc : cam.current_image <;>
  simp only [mlp_actions_classify, ctx_dev.upd_cur, hc, ctx_dev.core,
    apply_ite ctx_dev.conf, apply_ite ctx_dev.imgs, apply_ite ctx_images.image_ring,
    apply_ite ctx_images.ring_size, apply_ite ctx_images.ring_in,
    apply_ite ctx_dev.threshold, apply_ite ctx_dev.threshold_maximum,
    apply_ite ctx_dev.startup_frames, apply_ite ctx_dev.detecting_motion,
    apply_ite ctx_dev.frame_curr_ts, ite_self]

theorem event_inv_actions (cam : ctx_dev) (h : event_inv cam) : event_inv (mlp_actions cam) := by
  have hn : (mlp_actions_classify cam).event_nr = cam.event_nr :=
    congrArg dev_ctl.event_nr (classify_ctl cam)
  have hp : (mlp_actions_classify cam).prev_event = cam.prev_event :=
    congrArg dev_opened.prev_event (classify_opened cam)
  have ht := trigger_prev (mlp_actions_classify cam)
  have hn2 := trigger_nr (mlp_actions_classify cam)
  rw [hn] at hn2 ht
  rw [hp] at ht
  apply event_inv_actions_event
  have e1 : (mlp_ring_process (mlp_areadetect (mlp_actions_lasttime
      (mlp_actions_trigger (mlp_actions_classify cam))))).event_nr = cam.event_nr :=
    (congrArg dev_ctl.event_nr (ctl_ring_process _)).trans
      ((congrArg dev_ctl.event_nr (ctl_areadetect _)).trans
        ((nr_actions_lasttime _).trans hn2))
  have e2 : (mlp_ring_process (mlp_areadetect (mlp_actions_lasttime
      (mlp_actions_trigger (mlp_actions_classify cam))))).prev_event
        = (mlp_actions_trigger (mlp_actions_classify cam)).prev_event :=
    (congrArg dev_opened.prev_event (opened_ring_process _)).trans
      ((congrArg dev_opened.prev_event (opened_areadetect _)).trans
        (congrArg dev_opened.prev_event (opened_actions_lasttime _)))
  unfold event_inv at *
  rw [e1, e2]
  rcases ht with ht | ht <;> rw [ht] <;> omega

theorem event_inv_init_values (cam : ctx_dev) (now1 now2 : timespec) (motapp_pause : Bool) :
    event_inv (mlp_init_values cam now1 now2 motapp_pause) := by
  have h1 : (mlp_init_values cam now1 now2 motapp_pause).event_nr = 1 := by
    simp only [mlp_init_values, apply_ite ctx_dev.event_nr, ite_self]
  have h2 : (mlp_init_values cam now1 now2 motapp_pause).prev_event = 0 := by
    simp only [mlp_init_values, apply_ite ctx_dev.prev_event, ite_self]
  unfold event_inv
  rw [h1, h2]
  right; rfl

/-- C10: `event_nr - prev_event` is 0 or 1 (`event_inv`) after `mlp_init_values`,
and this is preserved by `mlp_detected_trigger` (the opening of an event by a
TRIGGER frame), by `mlp_actions_event` (the closure of an event), and so by
every `mlp_actions` step. -/
theorem event_counters_invariant :
    (∀ (cam : ctx_dev) (now1 now2 : timespec) (motapp_pause : Bool),
      event_inv (mlp_init_values cam now1 now2 motapp_pause)) ∧
    (∀ (cam : ctx_dev) (img : Int), event_inv cam → event_inv (mlp_detected_trigger cam img)) ∧
    (∀ cam : ctx_dev, event_inv cam → event_inv (mlp_actions_event cam)) ∧
    (∀ cam : ctx_dev, event_inv cam → event_inv (mlp_actions cam)) :=
  ⟨event_inv_init_values, event_inv_detected_trigger, event_inv_actions_event, event_inv_actions⟩

/-- C10 at `cam_open_event`: the counters are equal before the step, the pending
stop closes the event, and `event_nr` is one ahead after it. -/
theorem event_counters_invariant_witness :
    event_inv cam_open_event ∧ event_inv (mlp_actions cam_open_event) ∧
    (mlp_actions cam_open_event).event_nr - (mlp_actions cam_open_event).prev_event = 1 :=
  ⟨by decide, event_counters_invariant.2.2.2 cam_open_event (by decide), by decide⟩

/-! ## The flags of the slots after the trigger step -/

theorem flags_of_map_eq (r r' : List ctx_image_data)
    (h : r'.map ctx_image_data.flags = r.map ctx_image_data.flags) (j : Int) :
    (ring_at r' j).flags = (ring_at r j).flags := by
  have h2 := congrArg (fun l : List image_flags => l[j.toNat]?) h
  simp only [List.getElem?_map] at h2
  simp only [ring_at, List.getD_eq_getElem?_getD]
  cases h3 : r'[j.toNat]? <;> cases h4 : r[j.toNat]? <;> rw [h3, h4] at h2 <;>
    first | rfl | cases h2 | exact Option.some.inj h2

theorem flags_detected (cam : ctx_dev) (img : Int) :
    (mlp_detected cam img).imgs.image_ring.map ctx_image_data.flags
      = cam.imgs.image_ring.map ctx_image_data.flags := by
  simp only [mlp_detected, mlp_detected_trigger, mlp_track_move, mlp_info_reset,
    ctx_dev.call, pic_save_preview, apply_ite ctx_dev.imgs, apply_ite ctx_images.image_ring,
    apply_ite (List.map ctx_image_data.flags), ite_self]
  split
  · exact map_ring_upd ctx_image_data.flags _ _ _ (fun _ => rfl)
  · rfl

theorem emulate_flags (cam : ctx_dev) (i : Int) (hc : cam.current_image = some i) (j : Int) :
    (ring_at (mlp_actions_emulate cam).imgs.image_ring j).flags =
      (ring_at (ring_save_all
        (ring_upd cam.imgs.image_ring i (set_flags (IMAGE_TRIGGER ||| IMAGE_SAVE)))
        cam.imgs.ring_size) j).flags := by
  rw [← emulate_mark_ring cam i hc]
  apply flags_of_map_eq
  unfold mlp_actions_emulate
  simp only []
  split
  · exact flags_detected _ _
  · rfl

theorem motion_flags (cam : ctx_dev) (j : Int) :
    (ring_at (mlp_actions_motion cam).imgs.image_ring j).flags =
      (ring_at (mlp_actions_motion_mark cam).imgs.image_ring j).flags := by
  apply flags_of_map_eq
  unfold mlp_actions_motion
  simp only []
  split
  · exact flags_detected _ _
  · rfl

theorem set_flags_flags (m : image_flags) (x : ctx_image_data) :
    (set_flags m x).flags = x.flags ||| m := rfl

/-! ## Forced trigger, quiet frames, startup suppression, classification -/

theorem cur_eq (cam : ctx_dev) (i : Int) (hc : cam.current_image = some i) :
    cam.cur = ring_at cam.imgs.image_ring i := by
  unfold ctx_dev.cur; rw [hc]

/-- C7, as the spec states it, fails: at `cam_forced` (user-forced trigger,
startup frames elapsed) the trigger step leaves slot 0, which is not the
current frame, flagged SAVE but not TRIGGER. -/
theorem forced_trigger_whole_ring_counterexample :
    (cam_forced.conf.emulate_motion || cam_forced.event_user) = true ∧
    cam_forced.startup_frames = 0 ∧
    (ring_at (mlp_actions_trigger cam_forced).imgs.image_ring 0).flags.save = true ∧
    (ring_at (mlp_actions_trigger cam_forced).imgs.image_ring 0).flags.trigger = false := by
  decide

/-- C7, amended: with `emulate_motion` or `event_user` set and `startup_frames = 0`,
after the trigger step of `mlp_actions` the current frame carries TRIGGER and
SAVE, every slot of the ring carries SAVE, the slots other than the current one
have their TRIGGER bit as before, and the device is detecting. -/
theorem forced_trigger_marks_ring (cam : ctx_dev) (i : Int)
    (hf : (cam.conf.emulate_motion || cam.event_user) = true) (hs : cam.startup_frames = 0)
    (hc : cam.current_image = some i)
    (hi : 0 ≤ i ∧ i < cam.imgs.ring_size)
    (hlen : (cam.imgs.image_ring.length : Int) = cam.imgs.ring_size) :
    (mlp_actions_trigger cam).cur.flags.trigger = true ∧
    (mlp_actions_trigger cam).cur.flags.save = true ∧
    (∀ j : Int, 0 ≤ j → j < cam.imgs.ring_size →
      (ring_at (mlp_actions_trigger cam).imgs.image_ring j).flags.save = true) ∧
    (∀ j : Int, 0 ≤ j → j < cam.imgs.ring_size → j ≠ i →
      (ring_at (mlp_actions_trigger cam).imgs.image_ring j).flags.trigger
        = (ring_at cam.imgs.image_ring j).flags.trigger) ∧
    (mlp_actions_trigger cam).detecting_motion = true := by
  have hcur : (mlp_actions_trigger cam).current_image = some i :=
    (trigger_current cam).trans hc
  rw [cur_eq _ i hcur, trigger_forced cam ⟨hf, hs⟩]
  have hflags := emulate_flags cam i hc
  have hd : (mlp_actions_emulate cam).detecting_motion = true :=
    (congrArg dev_core.detecting_motion (emulate_core cam)).trans
      (congrArg dev_core.detecting_motion (emulate_mark_core cam))
  have hin : ∀ j : Int, 0 ≤ j → j < cam.imgs.ring_size →
      j.toNat < cam.imgs.ring_size.toNat ∧ j.toNat < cam.imgs.image_ring.length := by
    intro j h0 h1; omega
  refine ⟨?_, ?_, ?_, ?_, hd⟩
  · rw [hflags, ring_at_save_all, ring_upd_length, if_pos (hin i hi.1 hi.2), set_flags_flags,
      ring_at_upd_same _ _ _ (hin i hi.1 hi.2).2, set_flags_flags]
    simp [IMAGE_TRIGGER, IMAGE_SAVE]
  · rw [hflags, ring_at_save_all, ring_upd_length, if_pos (hin i hi.1 hi.2), set_flags_flags]
    simp [IMAGE_SAVE]
  · intro j h0 h1
    rw [hflags, ring_at_save_all, ring_upd_length, if_pos (hin j h0 h1), set_flags_flags]
    simp [IMAGE_SAVE]
  · intro j h0 h1 hne
    rw [hflags, ring_at_save_all, ring_upd_length, if_pos (hin j h0 h1), set_flags_flags,
      ring_at_upd_ne _ _ _ _ (by omega)]
    simp [IMAGE_SAVE]

/-- C7, amended, at `cam_forced`: the current frame (slot 1) carries TRIGGER and
SAVE, slot 0 carries SAVE, and the device is detecting. -/
theorem forced_trigger_marks_ring_witness :
    (mlp_actions_trigger cam_forced).cur.flags.trigger = true ∧
    (mlp_actions_trigger cam_forced).cur.flags.save = true ∧
    (ring_at (mlp_actions_trigger cam_forced).imgs.image_ring 0).flags.save = true ∧
    (mlp_actions_trigger cam_forced).detecting_motion = true :=
  have h := forced_trigger_marks_ring cam_forced 1 (by decide) (by decide) (by decide)
    ⟨by decide, by decide⟩ (by decide)
  ⟨h.1, h.2.1, h.2.2.1 0 (by decide) (by decide), h.2.2.2.2⟩

theorem ring_of_set_postcap (c : ctx_dev) (v : Int) :
    ({ c with postcap := v } : ctx_dev).imgs.image_ring = c.imgs.image_ring := rfl

/-- C8: a frame that takes neither the forced-trigger nor the motion branch of
the trigger step of `mlp_actions`: with a budget `postcap > 0` it gains exactly
POSTCAP and SAVE, the budget drops by one, `detecting_motion` and `event_stop`
stay; with no budget left it gains PRECAP only, the budget stays,
`detecting_motion` is cleared, and `event_stop` is set when the device was
detecting and `event_gap = 0` and stays as it was otherwise.  No other slot
changes. -/
theorem quiet_frame_tagging (cam : ctx_dev) (i : Int)
    (h : ¬ ((cam.conf.emulate_motion || cam.event_user) = true ∧ cam.startup_frames = 0))
    (hm : ¬ ((cam.cur.flags &&& IMAGE_MOTION).test = true ∧ cam.startup_frames = 0))
    (hc : cam.current_image = some i)
    (hi : 0 ≤ i ∧ i < cam.imgs.ring_size)
    (hlen : (cam.imgs.image_ring.length : Int) = cam.imgs.ring_size) :
    (cam.postcap > 0 →
      (mlp_actions_trigger cam).cur.flags = cam.cur.flags ||| (IMAGE_POSTCAP ||| IMAGE_SAVE) ∧
      (mlp_actions_trigger cam).postcap = cam.postcap - 1 ∧
      (mlp_actions_trigger cam).detecting_motion = cam.detecting_motion ∧
      (mlp_actions_trigger cam).event_stop = cam.event_stop ∧
      (∀ j : Int, 0 ≤ j → j < cam.imgs.ring_size → j ≠ i →
        ring_at (mlp_actions_trigger cam).imgs.image_ring j = ring_at cam.imgs.image_ring j)) ∧
    (cam.postcap ≤ 0 →
      (mlp_actions_trigger cam).cur.flags = cam.cur.flags ||| IMAGE_PRECAP ∧
      (mlp_actions_trigger cam).postcap = cam.postcap ∧
      (mlp_actions_trigger cam).detecting_motion = false ∧
      ((cam.conf.event_gap = 0 ∧ cam.detecting_motion = true →
          (mlp_actions_trigger cam).event_stop = true) ∧
        (¬ (cam.conf.event_gap = 0 ∧ cam.detecting_motion = true) →
          (mlp_actions_trigger cam).event_stop = cam.event_stop)) ∧
      (∀ j : Int, 0 ≤ j → j < cam.imgs.ring_size → j ≠ i →
        ring_at (mlp_actions_trigger cam).imgs.image_ring j = ring_at cam.imgs.image_ring j)) := by
  have hcur : (mlp_actions_trigger cam).current_image = some i :=
    (trigger_current cam).trans hc
  have hin : i.toNat < cam.imgs.image_ring.length := by omega
  rw [cur_eq _ i hcur, cur_eq _ i hc]
  constructor
  · intro hp
    rw [trigger_postcap cam h hm hp]
    refine ⟨?_, rfl, ?_, ?_, ?_⟩
    · show (ring_at (cam.upd_cur _).imgs.image_ring i).flags = _
      rw [ring_upd_cur cam _ i hc, ring_at_upd_same _ _ _ hin, set_flags_flags]
    · exact congrArg dev_core.detecting_motion (core_upd_cur cam _)
    · exact congrArg dev_ctl.event_stop (ctl_upd_cur cam _)
    · intro j h0 h1 hne
      show ring_at (cam.upd_cur _).imgs.image_ring j = _
      rw [ring_upd_cur cam _ i hc, ring_at_upd_ne _ _ _ _ (by omega)]
  · intro hp
    rw [trigger_precap cam h hm (by omega)]
    refine ⟨?_, ?_, rfl, ⟨?_, ?_⟩, ?_⟩
    · show (ring_at (cam.upd_cur _).imgs.image_ring i).flags = _
      rw [ring_upd_cur cam _ i hc, ring_at_upd_same _ _ _ hin, set_flags_flags]
    · exact congrArg dev_ctl.postcap (ctl_upd_cur cam _)
    · intro hg
      show (if _ then true else cam.event_stop) = true
      rw [if_pos hg]
    · intro hg
      show (if _ then true else cam.event_stop) = cam.event_stop
      rw [if_neg hg]
    · intro j h0 h1 hne
      show ring_at (cam.upd_cur _).imgs.image_ring j = _
      rw [ring_upd_cur cam _ i hc, ring_at_upd_ne _ _ _ _ (by omega)]

/-- C8 at `cam_quiet_budget` (budget 3, detecting): the quiet frame is tagged
POSTCAP and SAVE, the budget becomes 2 and the device stays detecting. -/
theorem quiet_frame_tagging_witness :
    (mlp_actions_trigger cam_quiet_budget).cur.flags
      = cam_quiet_budget.cur.flags ||| (IMAGE_POSTCAP ||| IMAGE_SAVE) ∧
    (mlp_actions_trigger cam_quiet_budget).postcap = 3 - 1 ∧
    (mlp_actions_trigger cam_quiet_budget).detecting_motion = true :=
  have h := (quiet_frame_tagging cam_quiet_budget 1 (by decide) (by decide) (by decide)
    ⟨by decide, by decide⟩ (by decide)).1 (by decide)
  ⟨h.1, h.2.1, h.2.2.1⟩

theorem upd_cur_flag_bit (cam : ctx_dev) (m : image_flags) (p : image_flags → Bool)
    (hp : ∀ f, p (f ||| m) = p f) (j : Int) :
    p (ring_at (cam.upd_cur (set_flags m)).imgs.image_ring j).flags
      = p (ring_at cam.imgs.image_ring j).flags := by
  unfold ctx_dev.upd_cur
  split
  · show p (ring_at (ring_upd _ _ _) j).flags = _
    rw [ring_at_upd]
    split
    · rename_i hh
      rw [set_flags_flags, hp, ring_at_congr _ _ _ hh.1]
    · rfl
  · rfl

theorem classify_flag_bit (cam : ctx_dev) (p : image_flags → Bool)
    (hp : ∀ f, p (f ||| IMAGE_MOTION) = p f) (j : Int) :
    p (ring_at (mlp_actions_classify cam).imgs.image_ring j).flags
      = p (ring_at cam.imgs.image_ring j).flags := by
  rw [classify_ring]
  split
  · exact upd_cur_flag_bit cam _ p hp j
  · rfl

theorem core_flag_bit (a b : ctx_dev) (h : a.core = b.core) (p : image_flags → Bool)
    (hp : ∀ f : image_flags, p { f with saved := false } = p f) (j : Int) :
    p (ring_at a.imgs.image_ring j).flags = p (ring_at b.imgs.image_ring j).flags := by
  have h2 := congrArg (fun x : ctx_image_data => p x.flags) (core_ring a b h j)
  simp only [ctx_image_data.core, hp] at h2
  exact h2

/-- C9: with `startup_frames > 0`, whatever the score and the forced-trigger
switches, `mlp_actions` leaves the TRIGGER bit of every slot as it was, leaves
`prev_event` as it was, reports no event start, and does not turn
`detecting_motion` on. -/
theorem startup_suppresses_trigger (cam : ctx_dev) (hs : cam.startup_frames > 0) :
    (∀ j : Int, (ring_at (mlp_actions cam).imgs.image_ring j).flags.trigger
        = (ring_at cam.imgs.image_ring j).flags.trigger) ∧
    (mlp_actions cam).prev_event = cam.prev_event ∧
    (mlp_actions cam).calls.filter is_event_start = cam.calls.filter is_event_start ∧
    ((mlp_actions cam).detecting_motion = true → cam.detecting_motion = true) := by
  have hst : (mlp_actions_classify cam).startup_frames = cam.startup_frames :=
    congrArg dev_core.startup_frames (classify_core cam)
  have hdet : (mlp_actions_classify cam).detecting_motion = cam.detecting_motion :=
    congrArg dev_core.detecting_motion (classify_core cam)
  have h : ¬ (((mlp_actions_classify cam).conf.emulate_motion
      || (mlp_actions_classify cam).event_user) = true
      ∧ (mlp_actions_classify cam).startup_frames = 0) := by
    intro hh; omega
  have hm : ¬ (((mlp_actions_classify cam).cur.flags &&& IMAGE_MOTION).test = true
      ∧ (mlp_actions_classify cam).startup_frames = 0) := by
    intro hh; omega
  have hcore := core_actions cam
  have hopen := (opened_actions cam).trans
    (show (mlp_actions_trigger (mlp_actions_classify cam)).opened = cam.opened from by
      by_cases hp : (mlp_actions_classify cam).postcap > 0
      · rw [trigger_postcap _ h hm hp]
        exact (opened_upd_cur _ _).trans (classify_opened cam)
      · rw [trigger_precap _ h hm hp]
        exact (opened_upd_cur _ _).trans (classify_opened cam))
  refine ⟨?_, congrArg dev_opened.prev_event hopen, congrArg dev_opened.starts hopen, ?_⟩
  · intro j
    rw [core_flag_bit _ _ hcore image_flags.trigger (fun _ => rfl) j]
    by_cases hp : (mlp_actions_classify cam).postcap > 0
    · rw [trigger_postcap _ h hm hp]
      show (ring_at ((mlp_actions_classify cam).upd_cur _).imgs.image_ring j).flags.trigger = _
      rw [upd_cur_flag_bit _ _ image_flags.trigger (fun f => by simp [IMAGE_POSTCAP, IMAGE_SAVE]) j]
      exact classify_flag_bit cam image_flags.trigger (fun f => by simp [IMAGE_MOTION]) j
    · rw [trigger_precap _ h hm hp]
      show (ring_at ((mlp_actions_classify cam).upd_cur _).imgs.image_ring j).flags.trigger = _
      rw [upd_cur_flag_bit _ _ image_flags.trigger (fun f => by simp [IMAGE_PRECAP]) j]
      exact classify_flag_bit cam image_flags.trigger (fun f => by simp [IMAGE_MOTION]) j
  · intro hd
    have hd2 : (mlp_actions_trigger (mlp_actions_classify cam)).detecting_motion = true :=
      (congrArg dev_core.detecting_motion hcore).symm.trans hd
    by_cases hp : (mlp_actions_classify cam).postcap > 0
    · rw [trigger_postcap _ h hm hp] at hd2
      have e : ((mlp_actions_classify cam).upd_cur
          (set_flags (IMAGE_POSTCAP ||| IMAGE_SAVE))).detecting_motion = true := hd2
      rw [← hdet]
      exact (congrArg dev_core.detecting_motion (core_upd_cur _ _)).symm.trans e
    · rw [trigger_precap _ h hm hp] at hd2
      cases hd2

/-- C9 at `cam_startup` (three startup frames left, `emulate_motion` and a user
trigger set, a motion score on the current frame): no TRIGGER on the current
frame, `prev_event` still 0, the device not detecting. -/
theorem startup_suppresses_trigger_witness :
    (ring_at (mlp_actions cam_startup).imgs.image_ring 1).flags.trigger = false ∧
    (mlp_actions cam_startup).prev_event = 0 ∧
    (mlp_actions cam_startup).calls.filter is_event_start = [] ∧
    (mlp_actions cam_startup).detecting_motion = false :=
  have h := startup_suppresses_trigger cam_startup (by decide)
  ⟨h.1 1, h.2.1, h.2.2.1, by decide⟩

theorem ring_upd_flag_bit (ring : List ctx_image_data) (i : Int) (m : image_flags)
    (p : image_flags → Bool) (hp : ∀ f, p (f ||| m) = p f) (j : Int) :
    p (ring_at (ring_upd ring i (set_flags m)) j).flags = p (ring_at ring j).flags := by
  rw [ring_at_upd]
  split
  · rename_i hh
    rw [set_flags_flags, hp, ring_at_congr _ _ _ hh.1]
  · rfl

theorem save_all_flag_bit (ring : List ctx_image_data) (ring_size : Int)
    (p : image_flags → Bool) (hp : ∀ f, p (f ||| IMAGE_SAVE) = p f) (j : Int) :
    p (ring_at (ring_save_all ring ring_size) j).flags = p (ring_at ring j).flags := by
  rw [ring_at_save_all]
  split
  · rw [set_flags_flags, hp]
  · rfl

theorem motion_bit_TS (f : image_flags) :
    (f ||| (IMAGE_TRIGGER ||| IMAGE_SAVE)).motion = f.motion := by
  simp [IMAGE_TRIGGER, IMAGE_SAVE]
theorem motion_bit_PS (f : image_flags) :
    (f ||| (IMAGE_POSTCAP ||| IMAGE_SAVE)).motion = f.motion := by
  simp [IMAGE_POSTCAP, IMAGE_SAVE]
theorem motion_bit_P (f : image_flags) : (f ||| IMAGE_PRECAP).motion = f.motion := by
  simp [IMAGE_PRECAP]
theorem motion_bit_S (f : image_flags) : (f ||| IMAGE_SAVE).motion = f.motion := by
  simp [IMAGE_SAVE]

theorem emulate_mark_ring_cur (cam : ctx_dev) :
    (mlp_actions_emulate_mark cam).imgs.image_ring =
      ring_save_all (cam.upd_cur (set_flags (IMAGE_TRIGGER ||| IMAGE_SAVE))).imgs.image_ring
        cam.imgs.ring_size := by
  cases hc : cam.current_image <;>
  simp only [mlp_actions_emulate_mark, ctx_dev.upd_cur, hc, ctx_dev.call,
    apply_ite ctx_dev.current_image, apply_ite ctx_dev.imgs, apply_ite ctx_images.image_ring,
    apply_ite ctx_images.ring_size, ite_self]

/-- The trigger step of `mlp_actions` leaves the MOTION bit of every slot as it was. -/
theorem trigger_motion_bit (cam : ctx_dev) (j : Int) :
    (ring_at (mlp_actions_trigger cam).imgs.image_ring j).flags.motion
      = (ring_at cam.imgs.image_ring j).flags.motion := by
  by_cases h : (cam.conf.emulate_motion || cam.event_user) = true ∧ cam.startup_frames = 0
  · rw [trigger_forced cam h]
    have e : (ring_at (mlp_actions_emulate cam).imgs.image_ring j).flags
        = (ring_at (mlp_actions_emulate_mark cam).imgs.image_ring j).flags := by
      apply flags_of_map_eq
      unfold mlp_actions_emulate
      simp only []
      split
      · exact flags_detected _ _
      · rfl
    rw [e, emulate_mark_ring_cur, save_all_flag_bit _ _ image_flags.motion motion_bit_S,
      upd_cur_flag_bit _ _ image_flags.motion motion_bit_TS]
  · by_cases hm : (cam.cur.flags &&& IMAGE_MOTION).test = true ∧ cam.startup_frames = 0
    · rw [trigger_motion cam h hm, motion_flags]
      by_cases hcnt : cam.frame_count ≥ cam.conf.minimum_motion_frames
      · rw [(motion_mark_trigger cam hcnt).1, save_all_flag_bit _ _ image_flags.motion motion_bit_S,
          upd_cur_flag_bit _ _ image_flags.motion motion_bit_TS]
      · by_cases hp : cam.postcap > 0
        · rw [motion_mark_postcap cam hcnt hp]
          exact upd_cur_flag_bit _ _ image_flags.motion motion_bit_PS j
        · rw [motion_mark_precap cam hcnt hp]
          exact upd_cur_flag_bit _ _ image_flags.motion motion_bit_P j
    · by_cases hp : cam.postcap > 0
      · rw [trigger_postcap cam h hm hp]
        exact upd_cur_flag_bit _ _ image_flags.motion motion_bit_PS j
      · rw [trigger_precap cam h hm hp]
        exact upd_cur_flag_bit _ _ image_flags.motion motion_bit_P j

/-- The MOTION bit of a slot after `mlp_actions` is the one the classification left. -/
theorem actions_motion_bit (cam : ctx_dev) (j : Int) :
    (ring_at (mlp_actions cam).imgs.image_ring j).flags.motion
      = (ring_at (mlp_actions_classify cam).imgs.image_ring j).flags.motion := by
  rw [core_flag_bit _ _ (core_actions cam) image_flags.motion (fun _ => rfl) j]
  exact trigger_motion_bit _ j

/-- C5: for a freshly recycled current frame (flags empty), after `mlp_actions`
the frame carries MOTION exactly when `threshold < diffs < threshold_maximum`,
both strict: a score equal to either bound is not MOTION. -/
theorem motion_flag_iff_between (cam : ctx_dev) (i : Int)
    (hc : cam.current_image = some i)
    (hi : 0 ≤ i ∧ i < cam.imgs.ring_size)
    (hlen : (cam.imgs.image_ring.length : Int) = cam.imgs.ring_size)
    (hf : cam.cur.flags = IMAGE_NONE) :
    ((mlp_actions cam).cur.flags.motion = true ↔
      (cam.threshold < cam.cur.diffs ∧ cam.cur.diffs < cam.threshold_maximum)) ∧
    (cam.cur.diffs = cam.threshold ∨ cam.cur.diffs = cam.threshold_maximum →
      (mlp_actions cam).cur.flags.motion = false) := by
  have hcur : (mlp_actions cam).current_image = some i :=
    (current_actions cam).trans ((trigger_current _).trans ((classify_current cam).trans hc))
  have hin : i.toNat < cam.imgs.image_ring.length := by omega
  have hf2 : (ring_at cam.imgs.image_ring i).flags = IMAGE_NONE := by
    rw [← cur_eq cam i hc]; exact hf
  have key : (mlp_actions cam).cur.flags.motion =
      decide (cam.threshold < cam.cur.diffs ∧ cam.cur.diffs < cam.threshold_maximum) := by
    rw [cur_eq _ i hcur, actions_motion_bit, classify_ring]
    by_cases hb : cam.cur.diffs > cam.threshold ∧ cam.cur.diffs < cam.threshold_maximum
    · rw [if_pos hb, ring_upd_cur cam _ i hc, ring_at_upd_same _ _ _ hin, set_flags_flags, hf2]
      rw [decide_eq_true hb]
      rfl
    · rw [if_neg hb, hf2, decide_eq_false hb]
      rfl
  constructor
  · rw [key]; exact decide_eq_true_iff
  · intro hb
    rw [key]
    apply decide_eq_false
    intro hh
    omega

/-- C5 at `cam_scored` (score 50 between 10 and 1000): the frame is MOTION. -/
theorem motion_flag_iff_between_witness :
    (mlp_actions cam_scored).cur.flags.motion = true ∧
    (cam_scored.threshold < cam_scored.cur.diffs ∧
      cam_scored.cur.diffs < cam_scored.threshold_maximum) :=
  have h := (motion_flag_iff_between cam_scored 1 (by decide) ⟨by decide, by decide⟩
    (by decide) (by decide)).1
  ⟨h.2 ⟨by decide, by decide⟩, by decide, by decide⟩

/-! ## The counting loop of `mlp_actions_motion` -/

theorem motion_frame_count_eq (ring : List ctx_image_data) (ring_size : Int) (n : Nat) :
    ∀ (pos frame_count : Int), 0 ≤ pos → pos < ring_size →
      motion_frame_count ring ring_size n pos frame_count
        = frame_count + (window_motion_count ring ring_size pos n : Int) := by
  induction n with
  | zero =>
    intro pos fc _ _
    simp [motion_frame_count, window_motion_count]
  | succ n ih =>
    intro pos fc h0 h1
    have hstep : 0 ≤ (if pos = 0 then ring_size - 1 else pos - 1) ∧
        (if pos = 0 then ring_size - 1 else pos - 1) < ring_size := by
      split <;> omega
    have hshift : ∀ k : Nat,
        ((if pos = 0 then ring_size - 1 else pos - 1) - Int.ofNat k) % ring_size
          = (pos - Int.ofNat (k + 1)) % ring_size := by
      intro k
      have e : Int.ofNat (k + 1) = Int.ofNat k + 1 := rfl
      split
      · rename_i hp
        rw [hp, e]
        have : ring_size - 1 - Int.ofNat k = (0 - (Int.ofNat k + 1)) + ring_size := by omega
        rw [this, Int.add_emod_self]
      · rw [e]
        congr 1
        omega
    have hw : window_motion_count ring ring_size pos (n + 1)
        = (if (ring_at ring pos).flags.motion = true then 1 else 0)
          + window_motion_count ring ring_size (if pos = 0 then ring_size - 1 else pos - 1) n := by
      unfold window_motion_count
      rw [List.range_succ_eq_map, List.countP_cons, List.countP_map]
      have e0 : (pos - Int.ofNat 0) % ring_size = pos := by
        show (pos - 0) % ring_size = pos
        rw [Int.sub_zero, Int.emod_eq_of_lt h0 h1]
      rw [e0, Nat.add_comm]
      congr 1
      apply List.countP_congr
      intro k _
      simp only [Function.comp, hshift]
    unfold motion_frame_count
    simp only [test_land_motion]
    rw [ih _ _ hstep.1 hstep.2, hw]
    split
    · simp; omega
    · simp

theorem lor_TS_S (f : image_flags) :
    (f ||| (IMAGE_TRIGGER ||| IMAGE_SAVE)) ||| IMAGE_SAVE = f ||| (IMAGE_TRIGGER ||| IMAGE_SAVE) := by
  cases f with
  | mk t m p q s d => cases t <;> cases m <;> cases p <;> cases q <;> cases s <;> cases d <;> rfl

/-- C6: for a current frame flagged MOTION, startup frames elapsed and no forced
trigger, the trigger step is `mlp_actions_motion`; its `frame_count` is the
number of MOTION flags over the `minimum_motion_frames` slots walking backward
with wrap-around from the current slot (`window_motion_count`).  When the count
reaches `minimum_motion_frames`, the current frame gains TRIGGER and SAVE, every
slot gains SAVE (and nothing else), `detecting_motion` is set and `postcap` is
reloaded from `post_capture`.  Otherwise, with `postcap > 0` the current frame
gains POSTCAP and SAVE and `postcap` drops by one; with no budget left the
current frame gains PRECAP only and no slot gains SAVE. -/
theorem motion_branch_effects (cam : ctx_dev)
    (hforced : cam.conf.emulate_motion = false ∧ cam.event_user = false)
    (hstartup : cam.startup_frames = 0)
    (hmotion : cam.cur.flags.motion = true)
    (hc : cam.current_image = some cam.imgs.ring_in)
    (hi : 0 ≤ cam.imgs.ring_in ∧ cam.imgs.ring_in < cam.imgs.ring_size)
    (hlen : (cam.imgs.image_ring.length : Int) = cam.imgs.ring_size) :
    mlp_actions_trigger cam = mlp_actions_motion cam ∧
    cam.frame_count = (window_motion_count cam.imgs.image_ring cam.imgs.ring_size
      cam.imgs.ring_in cam.conf.minimum_motion_frames.toNat : Int) ∧
    (cam.frame_count ≥ cam.conf.minimum_motion_frames →
      (mlp_actions_motion cam).cur.flags = cam.cur.flags ||| (IMAGE_TRIGGER ||| IMAGE_SAVE) ∧
      (∀ j : Int, 0 ≤ j → j < cam.imgs.ring_size →
        (ring_at (mlp_actions_motion cam).imgs.image_ring j).flags.save = true) ∧
      (∀ j : Int, 0 ≤ j → j < cam.imgs.ring_size → j ≠ cam.imgs.ring_in →
        (ring_at (mlp_actions_motion cam).imgs.image_ring j).flags
          = (ring_at cam.imgs.image_ring j).flags ||| IMAGE_SAVE) ∧
      (mlp_actions_motion cam).detecting_motion = true ∧
      (mlp_actions_motion cam).postcap = cam.conf.post_capture) ∧
    (cam.frame_count < cam.conf.minimum_motion_frames → cam.postcap > 0 →
      (mlp_actions_motion cam).cur.flags = cam.cur.flags ||| (IMAGE_POSTCAP ||| IMAGE_SAVE) ∧
      (mlp_actions_motion cam).postcap = cam.postcap - 1 ∧
      (∀ j : Int, 0 ≤ j → j < cam.imgs.ring_size → j ≠ cam.imgs.ring_in →
        (ring_at (mlp_actions_motion cam).imgs.image_ring j).flags
          = (ring_at cam.imgs.image_ring j).flags)) ∧
    (cam.frame_count < cam.conf.minimum_motion_frames → cam.postcap ≤ 0 →
      (mlp_actions_motion cam).cur.flags = cam.cur.flags ||| IMAGE_PRECAP ∧
      (mlp_actions_motion cam).postcap = cam.postcap ∧
      (∀ j : Int, (ring_at (mlp_actions_motion cam).imgs.image_ring j).flags.save
          = (ring_at cam.imgs.image_ring j).flags.save)) := by
  have h : ¬ ((cam.conf.emulate_motion || cam.event_user) = true ∧ cam.startup_frames = 0) := by
    rw [hforced.1, hforced.2]; simp
  have hm : (cam.cur.flags &&& IMAGE_MOTION).test = true ∧ cam.startup_frames = 0 := by
    rw [test_land_motion]; exact ⟨hmotion, hstartup⟩
  have hcur : (mlp_actions_motion cam).current_image = some cam.imgs.ring_in :=
    (motion_current cam).trans hc
  have hin : ∀ j : Int, 0 ≤ j → j < cam.imgs.ring_size →
      j.toNat < cam.imgs.ring_size.toNat ∧ j.toNat < cam.imgs.image_ring.length := by
    intro j h0 h1; omega
  have hii := hin _ hi.1 hi.2
  rw [cur_eq _ _ hcur, cur_eq _ _ hc]
  refine ⟨trigger_motion cam h hm, ?_, ?_, ?_, ?_⟩
  · unfold ctx_dev.frame_count
    rw [motion_frame_count_eq _ _ _ _ _ hi.1 hi.2, Int.zero_add]
  · intro hcnt
    have hr := (motion_mark_trigger cam hcnt).1
    rw [ring_upd_cur cam _ _ hc] at hr
    refine ⟨?_, ?_, ?_, ?_, ?_⟩
    · rw [motion_flags, hr, ring_at_save_all, ring_upd_length, if_pos hii, set_flags_flags,
        ring_at_upd_same _ _ _ hii.2, set_flags_flags, lor_TS_S]
    · intro j h0 h1
      rw [motion_flags, hr, ring_at_save_all, ring_upd_length, if_pos (hin j h0 h1),
        set_flags_flags]
      simp [IMAGE_SAVE]
    · intro j h0 h1 hne
      rw [motion_flags, hr, ring_at_save_all, ring_upd_length, if_pos (hin j h0 h1),
        set_flags_flags, ring_at_upd_ne _ _ _ _ (by omega)]
    · exact (congrArg dev_core.detecting_motion (motion_core cam)).trans
        (congrArg dev_core.detecting_motion (motion_mark_trigger cam hcnt).2.1)
    · exact (congrArg dev_ctl.postcap (motion_ctl cam)).trans
        (congrArg dev_ctl.postcap (motion_mark_trigger cam hcnt).2.2.1)
  · intro hcnt hp
    have hmark := motion_mark_postcap cam (by omega) hp
    refine ⟨?_, ?_, ?_⟩
    · rw [motion_flags, hmark]
      show (ring_at (cam.upd_cur _).imgs.image_ring _).flags = _
      rw [ring_upd_cur cam _ _ hc, ring_at_upd_same _ _ _ hii.2, set_flags_flags]
    · rw [show (mlp_actions_motion cam).postcap = (mlp_actions_motion_mark cam).postcap from
        congrArg dev_ctl.postcap (motion_ctl cam), hmark]
    · intro j h0 h1 hne
      rw [motion_flags, hmark]
      show (ring_at (cam.upd_cur _).imgs.image_ring _).flags = _
      rw [ring_upd_cur cam _ _ hc, ring_at_upd_ne _ _ _ _ (by omega)]
  · intro hcnt hp
    have hmark := motion_mark_precap cam (by omega) (by omega)
    refine ⟨?_, ?_, ?_⟩
    · rw [motion_flags, hmark, ring_upd_cur cam _ _ hc, ring_at_upd_same _ _ _ hii.2,
        set_flags_flags]
    · rw [show (mlp_actions_motion cam).postcap = (mlp_actions_motion_mark cam).postcap from
        congrArg dev_ctl.postcap (motion_ctl cam), hmark]
      exact congrArg dev_ctl.postcap (ctl_upd_cur cam _)
    · intro j
      rw [motion_flags, hmark]
      exact upd_cur_flag_bit cam _ image_flags.save (fun f => by simp [IMAGE_PRECAP]) j

/-- C6 at `cam_three_motion`: the three trailing slots are MOTION, the count is
3, the current frame (slot 3) gains TRIGGER and SAVE, slot 0 gains SAVE, the
device is detecting and the budget is reloaded to 5. -/
theorem motion_branch_effects_witness :
    cam_three_motion.frame_count = 3 ∧
    (mlp_actions_motion cam_three_motion).cur.flags
      = cam_three_motion.cur.flags ||| (IMAGE_TRIGGER ||| IMAGE_SAVE) ∧
    (ring_at (mlp_actions_motion cam_three_motion).imgs.image_ring 0).flags.save = true ∧
    (mlp_actions_motion cam_three_motion).detecting_motion = true ∧
    (mlp_actions_motion cam_three_motion).postcap = 5 :=
  have h := motion_branch_effects cam_three_motion ⟨by decide, by decide⟩ (by decide)
    (by decide) (by decide) ⟨by decide, by decide⟩ (by decide)
  have h3 := h.2.2.1 (by decide)
  ⟨by decide, h3.1, h3.2.1 0 (by decide) (by decide), h3.2.2.2.1, h3.2.2.2.2⟩

/-! ## One frame of the loop -/

theorem frame_step_eq (cam : ctx_dev) (f : frame_input) :
    frame_step cam f = mlp_actions (frame_scored cam f) := rfl

theorem scored_core (cam : ctx_dev) (f : frame_input) :
    (frame_scored cam f).core = { cam.core with
      ring := (frame_scored cam f).imgs.image_ring.map ctx_image_data.core,
      ring_in := next_slot cam.imgs.ring_size cam.imgs.ring_in } := rfl

theorem scored_ctl (cam : ctx_dev) (f : frame_input) :
    (frame_scored cam f).ctl = cam.ctl := rfl

theorem scored_current (cam : ctx_dev) (f : frame_input) :
    (frame_scored cam f).current_image
      = some (next_slot cam.imgs.ring_size cam.imgs.ring_in) := rfl

theorem scored_ring (cam : ctx_dev) (f : frame_input) :
    (frame_scored cam f).imgs.image_ring =
      ring_upd (mlp_resetimages cam f.realtime f.monotonic).imgs.image_ring
        (next_slot cam.imgs.ring_size cam.imgs.ring_in)
        (fun img => { img with diffs := f.diffs }) := rfl

theorem scored_length (cam : ctx_dev) (f : frame_input) :
    (frame_scored cam f).imgs.image_ring.length = cam.imgs.image_ring.length := by
  rw [scored_ring, ring_upd_length, mlp_resetimages_ring, ring_upd_length]

theorem scored_cur (cam : ctx_dev) (f : frame_input) (h : ring_ok cam) :
    (frame_scored cam f).cur.flags = IMAGE_NONE ∧ (frame_scored cam f).cur.diffs = f.diffs := by
  have hr := next_slot_range _ _ h.2.1 h.2.2
  have hl := h.1
  rw [cur_eq _ _ (scored_current cam f), scored_ring,
    ring_at_upd_same _ _ _ (by rw [mlp_resetimages_ring, ring_upd_length]; omega),
    mlp_resetimages_ring, ring_at_upd_same _ _ _ (by omega)]
  exact ⟨rfl, rfl⟩

theorem scored_other (cam : ctx_dev) (f : frame_input) (j : Int)
    (hj : j.toNat ≠ (next_slot cam.imgs.ring_size cam.imgs.ring_in).toNat) :
    ring_at (frame_scored cam f).imgs.image_ring j = ring_at cam.imgs.image_ring j := by
  rw [scored_ring, ring_at_upd_ne _ _ _ _ (fun h => hj h.symm), mlp_resetimages_ring,
    ring_at_upd_ne _ _ _ _ (fun h => hj h.symm)]

theorem classified_core (cam : ctx_dev) (f : frame_input) :
    (frame_classified cam f).core = { cam.core with
      ring := (frame_classified cam f).imgs.image_ring.map ctx_image_data.core,
      ring_in := next_slot cam.imgs.ring_size cam.imgs.ring_in } := by
  unfold frame_classified
  rw [classify_core, scored_core]

theorem classified_ctl (cam : ctx_dev) (f : frame_input) :
    (frame_classified cam f).ctl = cam.ctl :=
  (classify_ctl _).trans (scored_ctl cam f)

theorem classified_current (cam : ctx_dev) (f : frame_input) :
    (frame_classified cam f).current_image
      = some (next_slot cam.imgs.ring_size cam.imgs.ring_in) :=
  (classify_current _).trans (scored_current cam f)

theorem classified_ring (cam : ctx_dev) (f : frame_input) (h : ring_ok cam) :
    (frame_classified cam f).imgs.image_ring =
      if f.diffs > cam.threshold ∧ f.diffs < cam.threshold_maximum
      then ring_upd (frame_scored cam f).imgs.image_ring
        (next_slot cam.imgs.ring_size cam.imgs.ring_in) (set_flags IMAGE_MOTION)
      else (frame_scored cam f).imgs.image_ring := by
  unfold frame_classified
  rw [classify_ring, (scored_cur cam f h).2, ring_upd_cur _ _ _ (scored_current cam f)]
  rfl

theorem classified_length (cam : ctx_dev) (f : frame_input) (h : ring_ok cam) :
    (frame_classified cam f).imgs.image_ring.length = cam.imgs.image_ring.length := by
  rw [classified_ring cam f h]
  split
  · rw [ring_upd_length, scored_length]
  · exact scored_length cam f

theorem classified_other (cam : ctx_dev) (f : frame_input) (h : ring_ok cam) (j : Int)
    (hj : j.toNat ≠ (next_slot cam.imgs.ring_size cam.imgs.ring_in).toNat) :
    ring_at (frame_classified cam f).imgs.image_ring j = ring_at cam.imgs.image_ring j := by
  rw [classified_ring cam f h]
  split
  · rw [ring_at_upd_ne _ _ _ _ (fun hh => hj hh.symm), scored_other cam f j hj]
  · exact scored_other cam f j hj

theorem classified_cur_flags (cam : ctx_dev) (f : frame_input) (h : ring_ok cam) :
    (frame_classified cam f).cur.flags =
      if f.diffs > cam.threshold ∧ f.diffs < cam.threshold_maximum
      then IMAGE_MOTION else IMAGE_NONE := by
  have hr := next_slot_range _ _ h.2.1 h.2.2
  have hl := h.1
  have hs := (scored_cur cam f h).1
  rw [cur_eq _ _ (scored_current cam f)] at hs
  rw [cur_eq _ _ (classified_current cam f), classified_ring cam f h]
  split
  · rw [ring_at_upd_same _ _ _ (by rw [scored_length]; omega), set_flags_flags, hs]
    rfl
  · exact hs

theorem frame_bits (cam : ctx_dev) (f : frame_input) (p : image_flags → Bool)
    (hp : ∀ x : image_flags, p { x with saved := false } = p x) (j : Int) :
    p (ring_at (frame_step cam f).imgs.image_ring j).flags
      = p (ring_at (mlp_actions_trigger (frame_classified cam f)).imgs.image_ring j).flags :=
  core_flag_bit _ _ (core_actions _) p hp j

theorem frame_core (cam : ctx_dev) (f : frame_input) :
    (frame_step cam f).core = (mlp_actions_trigger (frame_classified cam f)).core :=
  core_actions _

theorem frame_current (cam : ctx_dev) (f : frame_input) :
    (frame_step cam f).current_image = some (next_slot cam.imgs.ring_size cam.imgs.ring_in) :=
  (current_actions _).trans ((trigger_current _).trans (classified_current cam f))

theorem frame_motion_bit (cam : ctx_dev) (f : frame_input) (j : Int) :
    (ring_at (frame_step cam f).imgs.image_ring j).flags.motion
      = (ring_at (frame_classified cam f).imgs.image_ring j).flags.motion :=
  actions_motion_bit _ j

theorem trigger_cfg (cam : ctx_dev) : (mlp_actions_trigger cam).core.cfg = cam.core.cfg := by
  by_cases h : (cam.conf.emulate_motion || cam.event_user) = true ∧ cam.startup_frames = 0
  · rw [trigger_forced cam h, emulate_core, emulate_mark_core]; rfl
  · by_cases hm : (cam.cur.flags &&& IMAGE_MOTION).test = true ∧ cam.startup_frames = 0
    · rw [trigger_motion cam h hm, motion_core]
      by_cases hcnt : cam.frame_count ≥ cam.conf.minimum_motion_frames
      · rw [(motion_mark_trigger cam hcnt).2.1]; rfl
      · by_cases hp : cam.postcap > 0
        · rw [motion_mark_postcap cam hcnt hp]
          show (cam.upd_cur _).core.cfg = _
          rw [core_upd_cur]; rfl
        · rw [motion_mark_precap cam hcnt hp, core_upd_cur]; rfl
    · by_cases hp : cam.postcap > 0
      · rw [trigger_postcap cam h hm hp]
        show (cam.upd_cur _).core.cfg = _
        rw [core_upd_cur]; rfl
      · rw [trigger_precap cam h hm hp]
        show ({ (cam.upd_cur (set_flags IMAGE_PRECAP)).core with
          detecting_motion := false } : dev_core).cfg = _
        rw [core_upd_cur]; rfl

theorem upd_cur_length (cam : ctx_dev) (f : ctx_image_data → ctx_image_data) :
    (cam.upd_cur f).imgs.image_ring.length = cam.imgs.image_ring.length := by
  unfold ctx_dev.upd_cur
  split
  · exact ring_upd_length _ _ _
  · rfl

theorem trigger_length (cam : ctx_dev) :
    (mlp_actions_trigger cam).imgs.image_ring.length = cam.imgs.image_ring.length := by
  by_cases h : (cam.conf.emulate_motion || cam.event_user) = true ∧ cam.startup_frames = 0
  · rw [trigger_forced cam h, core_length _ _ (emulate_core cam), emulate_mark_ring_cur,
      ring_save_all_length, upd_cur_length]
  · by_cases hm : (cam.cur.flags &&& IMAGE_MOTION).test = true ∧ cam.startup_frames = 0
    · rw [trigger_motion cam h hm, core_length _ _ (motion_core cam)]
      by_cases hcnt : cam.frame_count ≥ cam.conf.minimum_motion_frames
      · rw [(motion_mark_trigger cam hcnt).1, ring_save_all_length, upd_cur_length]
      · by_cases hp : cam.postcap > 0
        · rw [motion_mark_postcap cam hcnt hp]
          exact upd_cur_length cam _
        · rw [motion_mark_precap cam hcnt hp]
          exact upd_cur_length cam _
    · by_cases hp : cam.postcap > 0
      · rw [trigger_postcap cam h hm hp]
        exact upd_cur_length cam _
      · rw [trigger_precap cam h hm hp]
        exact upd_cur_length cam _

theorem trigger_user (cam : ctx_dev) :
    (mlp_actions_trigger cam).event_user = cam.event_user := by
  by_cases h : (cam.conf.emulate_motion || cam.event_user) = true ∧ cam.startup_frames = 0
  · rw [trigger_forced cam h]
    exact (congrArg dev_ctl.event_user (emulate_ctl cam)).trans
      (congrArg dev_ctl.event_user (emulate_mark_ctl cam))
  · by_cases hm : (cam.cur.flags &&& IMAGE_MOTION).test = true ∧ cam.startup_frames = 0
    · rw [trigger_motion cam h hm]
      refine (congrArg dev_ctl.event_user (motion_ctl cam)).trans ?_
      by_cases hcnt : cam.frame_count ≥ cam.conf.minimum_motion_frames
      · exact congrArg dev_ctl.event_user (motion_mark_trigger cam hcnt).2.2.1
      · by_cases hp : cam.postcap > 0
        · rw [motion_mark_postcap cam hcnt hp]
          exact congrArg dev_ctl.event_user (ctl_upd_cur cam _)
        · rw [motion_mark_precap cam hcnt hp]
          exact congrArg dev_ctl.event_user (ctl_upd_cur cam _)
    · by_cases hp : cam.postcap > 0
      · rw [trigger_postcap cam h hm hp]
        exact congrArg dev_ctl.event_user (ctl_upd_cur cam _)
      · rw [trigger_precap cam h hm hp]
        exact congrArg dev_ctl.event_user (ctl_upd_cur cam _)

theorem user_actions_event (cam : ctx_dev) (h : cam.event_user = false) :
    (mlp_actions_event cam).event_user = false := by
  have h1 : (mlp_actions_event_gap cam).event_user = false := by
    unfold mlp_actions_event_gap; split <;> exact h
  have h2 : (mlp_actions_event_stop (mlp_actions_event_gap cam)).event_user = false := by
    unfold mlp_actions_event_stop
    split
    · rfl
    · exact h1
  have h3 : ∀ c : ctx_dev, (mlp_actions_event_movie c).event_user = c.event_user := by
    intro c
    simp only [mlp_actions_event_movie, mlp_info_reset, ctx_dev.call,
      apply_ite ctx_dev.event_user, ite_self]
  unfold mlp_actions_event
  rw [h3]
  exact h2

theorem user_actions (cam : ctx_dev) (h : cam.event_user = false) :
    (mlp_actions cam).event_user = false := by
  apply user_actions_event
  have e1 : (mlp_actions_lasttime (mlp_actions_trigger (mlp_actions_classify cam))).event_user
      = cam.event_user := by
    have e0 : (mlp_actions_trigger (mlp_actions_classify cam)).event_user = cam.event_user :=
      (trigger_user _).trans (congrArg dev_ctl.event_user (classify_ctl cam))
    rw [← e0]
    simp only [mlp_actions_lasttime, ctx_dev.call, apply_ite ctx_dev.event_user, ite_self]
  exact (congrArg dev_ctl.event_user (ctl_ring_process _)).trans
    ((congrArg dev_ctl.event_user (ctl_areadetect _)).trans (e1.trans h))

/-! ## What a frame leaves in place, and what a motion frame is tagged -/

theorem frame_keeps (cam : ctx_dev) (f : frame_input) (h : ring_ok cam) :
    ring_ok (frame_step cam f) ∧
    (frame_step cam f).conf = cam.conf ∧
    (frame_step cam f).imgs.ring_size = cam.imgs.ring_size ∧
    (frame_step cam f).imgs.ring_in = next_slot cam.imgs.ring_size cam.imgs.ring_in ∧
    (frame_step cam f).threshold = cam.threshold ∧
    (frame_step cam f).threshold_maximum = cam.threshold_maximum ∧
    (frame_step cam f).startup_frames = cam.startup_frames ∧
    (frame_step cam f).current_image = some (frame_step cam f).imgs.ring_in := by
  have hcfg : (frame_step cam f).core.cfg
      = ({ cam.core with ring_in := next_slot cam.imgs.ring_size cam.imgs.ring_in } : dev_core).cfg := by
    rw [frame_core, trigger_cfg, classified_core]; rfl
  have hlen : (frame_step cam f).imgs.image_ring.length = cam.imgs.image_ring.length := by
    rw [core_length _ _ (frame_core cam f), trigger_length, classified_length cam f h]
  have hsize : (frame_step cam f).imgs.ring_size = cam.imgs.ring_size :=
    congrArg dev_core.ring_size hcfg
  have hin : (frame_step cam f).imgs.ring_in = next_slot cam.imgs.ring_size cam.imgs.ring_in :=
    congrArg dev_core.ring_in hcfg
  have hr := next_slot_range _ _ h.2.1 h.2.2
  refine ⟨⟨?_, ?_, ?_⟩, congrArg dev_core.conf hcfg, hsize, hin,
    congrArg dev_core.threshold hcfg, congrArg dev_core.threshold_maximum hcfg,
    congrArg dev_core.startup_frames hcfg, ?_⟩
  · rw [hlen, hsize]; exact h.1
  · rw [hin]; exact hr.1
  · rw [hin, hsize]; exact hr.2
  · rw [hin]; exact frame_current cam f

theorem frame_motion_bits (cam : ctx_dev) (f : frame_input) (h : ring_ok cam)
    (hb : cam.threshold < f.diffs ∧ f.diffs < cam.threshold_maximum) (j : Int) :
    (ring_at (frame_step cam f).imgs.image_ring j).flags.motion =
      if j.toNat = (next_slot cam.imgs.ring_size cam.imgs.ring_in).toNat then true
      else (ring_at cam.imgs.image_ring j).flags.motion := by
  rw [frame_motion_bit]
  split
  · rename_i hj
    have hc := classified_cur_flags cam f h
    rw [cur_eq _ _ (classified_current cam f), if_pos ⟨hb.1, hb.2⟩] at hc
    rw [ring_at_congr _ _ _ hj, hc]
    rfl
  · rename_i hj
    rw [classified_other cam f h j hj]

theorem window_count_congr (r r' : List ctx_image_data) (ring_size pos : Int) (m : Nat)
    (h : ∀ j : Int, (ring_at r' j).flags.motion = (ring_at r j).flags.motion) :
    window_motion_count r' ring_size pos m = window_motion_count r ring_size pos m := by
  unfold window_motion_count
  apply List.countP_congr
  intro k _
  simp only [h]

theorem window_count_full (r : List ctx_image_data) (ring_size pos : Int) (m : Nat) :
    window_motion_count r ring_size pos m = m ↔
      ∀ t : Nat, t < m → (ring_at r ((pos - Int.ofNat t) % ring_size)).flags.motion = true := by
  unfold window_motion_count
  have hl : (List.range m).length = m := List.length_range m
  conv_lhs => rhs; rw [← hl]
  rw [List.countP_eq_length]
  simp only [List.mem_range]

theorem window_count_le (r : List ctx_image_data) (ring_size pos : Int) (m : Nat) :
    window_motion_count r ring_size pos m ≤ m := by
  unfold window_motion_count
  have := List.countP_le_length (l := List.range m)
    (fun (k : Nat) => (ring_at r ((pos - Int.ofNat k) % ring_size)).flags.motion)
  rw [List.length_range] at this
  exact this

theorem frame_outcome (cam : ctx_dev) (f : frame_input) (h : ring_ok cam)
    (hforced : cam.conf.emulate_motion = false ∧ cam.event_user = false)
    (hstartup : cam.startup_frames = 0)
    (hb : cam.threshold < f.diffs ∧ f.diffs < cam.threshold_maximum)
    (hm0 : 0 ≤ cam.conf.minimum_motion_frames) :
    (window_motion_count (frame_step cam f).imgs.image_ring cam.imgs.ring_size
        (next_slot cam.imgs.ring_size cam.imgs.ring_in) cam.conf.minimum_motion_frames.toNat
        = cam.conf.minimum_motion_frames.toNat →
      (frame_step cam f).cur.flags.trigger = true ∧
      (frame_step cam f).cur.flags.save = true ∧
      (∀ j : Int, 0 ≤ j → j < cam.imgs.ring_size →
        (ring_at (frame_step cam f).imgs.image_ring j).flags.save = true)) ∧
    (window_motion_count (frame_step cam f).imgs.image_ring cam.imgs.ring_size
        (next_slot cam.imgs.ring_size cam.imgs.ring_in) cam.conf.minimum_motion_frames.toNat
        < cam.conf.minimum_motion_frames.toNat →
      (frame_step cam f).cur.flags.trigger = false ∧
      ((frame_step cam f).cur.flags.postcap = true ∨
        (frame_step cam f).cur.flags.precap = true)) := by
  have hr := next_slot_range _ _ h.2.1 h.2.2
  have hcore := classified_core cam f
  have hconf : (frame_classified cam f).conf = cam.conf := congrArg dev_core.conf hcore
  have hsize : (frame_classified cam f).imgs.ring_size = cam.imgs.ring_size :=
    congrArg dev_core.ring_size hcore
  have hrin : (frame_classified cam f).imgs.ring_in
      = next_slot cam.imgs.ring_size cam.imgs.ring_in := congrArg dev_core.ring_in hcore
  have hst : (frame_classified cam f).startup_frames = 0 :=
    (congrArg dev_core.startup_frames hcore).trans hstartup
  have huser : (frame_classified cam f).event_user = false :=
    (congrArg dev_ctl.event_user (classified_ctl cam f)).trans hforced.2
  have hcurX := classified_current cam f
  have hlenX : ((frame_classified cam f).imgs.image_ring.length : Int) = cam.imgs.ring_size := by
    rw [classified_length cam f h]; exact h.1
  have hflagsX : (ring_at (frame_classified cam f).imgs.image_ring
      (next_slot cam.imgs.ring_size cam.imgs.ring_in)).flags = IMAGE_MOTION := by
    have hc := classified_cur_flags cam f h
    rw [cur_eq _ _ hcurX, if_pos ⟨hb.1, hb.2⟩] at hc
    exact hc
  have hnf : ¬ (((frame_classified cam f).conf.emulate_motion
      || (frame_classified cam f).event_user) = true
      ∧ (frame_classified cam f).startup_frames = 0) := by
    rw [hconf, hforced.1, huser]; simp
  have hmo : ((frame_classified cam f).cur.flags &&& IMAGE_MOTION).test = true
      ∧ (frame_classified cam f).startup_frames = 0 := by
    rw [test_land_motion, cur_eq _ _ hcurX, hflagsX]; exact ⟨rfl, hst⟩
  have hT := trigger_motion _ hnf hmo
  have hcount : (frame_classified cam f).frame_count
      = (window_motion_count (frame_step cam f).imgs.image_ring cam.imgs.ring_size
          (next_slot cam.imgs.ring_size cam.imgs.ring_in)
          cam.conf.minimum_motion_frames.toNat : Int) := by
    unfold ctx_dev.frame_count
    rw [hsize, hrin, hconf, motion_frame_count_eq _ _ _ _ _ hr.1 hr.2, Int.zero_add,
      window_count_congr _ _ _ _ _ (frame_motion_bit cam f)]
  have hin : ∀ j : Int, 0 ≤ j → j < cam.imgs.ring_size →
      j.toNat < cam.imgs.ring_size.toNat
        ∧ j.toNat < (frame_classified cam f).imgs.image_ring.length := by
    intro j h0 h1; omega
  have hcc := hin _ hr.1 hr.2
  rw [cur_eq _ _ (frame_current cam f)]
  constructor
  · intro hw
    have hcnt : (frame_classified cam f).frame_count
        ≥ (frame_classified cam f).conf.minimum_motion_frames := by
      rw [hcount, hw, hconf]; omega
    have hring := (motion_mark_trigger _ hcnt).1
    rw [ring_upd_cur _ _ _ hcurX, hsize] at hring
    refine ⟨?_, ?_, ?_⟩
    · rw [frame_bits cam f image_flags.trigger (fun _ => rfl), hT, motion_flags, hring,
        ring_at_save_all, ring_upd_length, if_pos hcc, set_flags_flags,
        ring_at_upd_same _ _ _ hcc.2, set_flags_flags]
      simp [IMAGE_TRIGGER, IMAGE_SAVE]
    · rw [frame_bits cam f image_flags.save (fun _ => rfl), hT, motion_flags, hring,
        ring_at_save_all, ring_upd_length, if_pos hcc, set_flags_flags]
      simp [IMAGE_SAVE]
    · intro j h0 h1
      rw [frame_bits cam f image_flags.save (fun _ => rfl), hT, motion_flags, hring,
        ring_at_save_all, ring_upd_length, if_pos (hin j h0 h1), set_flags_flags]
      simp [IMAGE_SAVE]
  · intro hw
    have hcnt : ¬ (frame_classified cam f).frame_count
        ≥ (frame_classified cam f).conf.minimum_motion_frames := by
      rw [hcount, hconf]; omega
    by_cases hp : (frame_classified cam f).postcap > 0
    · have hmark := motion_mark_postcap _ hcnt hp
      have hfl : (ring_at (mlp_actions_motion_mark (frame_classified cam f)).imgs.image_ring
          (next_slot cam.imgs.ring_size cam.imgs.ring_in)).flags
          = IMAGE_MOTION ||| (IMAGE_POSTCAP ||| IMAGE_SAVE) := by
        rw [hmark]
        show (ring_at ((frame_classified cam f).upd_cur _).imgs.image_ring _).flags = _
        rw [ring_upd_cur _ _ _ hcurX, ring_at_upd_same _ _ _ hcc.2, set_flags_flags, hflagsX]
      refine ⟨?_, Or.inl ?_⟩
      · rw [frame_bits cam f image_flags.trigger (fun _ => rfl), hT, motion_flags, hfl]
        rfl
      · rw [frame_bits cam f image_flags.postcap (fun _ => rfl), hT, motion_flags, hfl]
        rfl
    · have hmark := motion_mark_precap _ hcnt hp
      have hfl : (ring_at (mlp_actions_motion_mark (frame_classified cam f)).imgs.image_ring
          (next_slot cam.imgs.ring_size cam.imgs.ring_in)).flags
          = IMAGE_MOTION ||| IMAGE_PRECAP := by
        rw [hmark, ring_upd_cur _ _ _ hcurX, ring_at_upd_same _ _ _ hcc.2, set_flags_flags,
          hflagsX]
      refine ⟨?_, Or.inr ?_⟩
      · rw [frame_bits cam f image_flags.trigger (fun _ => rfl), hT, motion_flags, hfl]
        rfl
      · rw [frame_bits cam f image_flags.precap (fun _ => rfl), hT, motion_flags, hfl]
        rfl

/-! ## A run of consecutive MOTION frames -/

theorem offset_shift (n x : Int) (t : Nat) (h1 : x < n) :
    (next_slot n x - Int.ofNat (t + 1)) % n = (x - Int.ofNat t) % n := by
  have e : Int.ofNat (t + 1) = Int.ofNat t + 1 := rfl
  unfold next_slot
  split
  · have : x - Int.ofNat t = (0 - (Int.ofNat t + 1)) + n := by omega
    rw [e, this, Int.add_emod_self]
  · rw [e]; congr 1; omega

theorem offset_distinct (n x : Int) (k : Nat) (h0 : 0 ≤ x) (h1 : x < n)
    (hk : (k : Int) + 1 < n) :
    ((x - Int.ofNat k) % n).toNat ≠ (next_slot n x).toNat := by
  have hn : 0 < n := by omega
  have hz0 := Int.emod_nonneg (x - Int.ofNat k) (Int.ne_of_gt hn)
  have hz1 := Int.emod_lt_of_pos (x - Int.ofNat k) hn
  have hc := next_slot_range n x h0 h1
  intro heq
  have heq2 : (x - Int.ofNat k) % n = next_slot n x := by omega
  rw [next_slot_mod n x h0 h1] at heq2
  have h4 : (x + 1 - (x - Int.ofNat k)) % n = 0 := by
    rw [Int.sub_emod, ← heq2, Int.sub_self, Int.zero_emod]
  have h5 : x + 1 - (x - Int.ofNat k) = (k : Int) + 1 := by
    show x + 1 - (x - (k : Int)) = (k : Int) + 1
    omega
  rw [h5, Int.emod_eq_of_lt (by omega) hk] at h4
  omega

theorem run_frames_snoc (cam : ctx_dev) (frames : List frame_input) (f : frame_input) :
    run_frames cam (frames ++ [f]) = frame_step (run_frames cam frames) f := by
  unfold run_frames
  rw [List.foldl_append]
  rfl

theorem motion_run_step (base S : ctx_dev) (k : Nat) (f : frame_input)
    (hsz : base.conf.minimum_motion_frames ≤ base.imgs.ring_size)
    (hb : base.threshold < f.diffs ∧ f.diffs < base.threshold_maximum)
    (hk : (k : Int) < base.conf.minimum_motion_frames)
    (h : motion_run base S k) :
    motion_run base (frame_step S f) (k + 1) := by
  obtain ⟨hok, hconf, hsize, hthr, hmax, hst, huser, hmot, hnot⟩ := h
  have hkeep := frame_keeps S f hok
  obtain ⟨hok2, hconf2, hsize2, hin2, hthr2, hmax2, hst2, _⟩ := hkeep
  have hb2 : S.threshold < f.diffs ∧ f.diffs < S.threshold_maximum := by
    rw [hthr, hmax]; exact hb
  have hbits := frame_motion_bits S f hok hb2
  refine ⟨hok2, hconf2.trans hconf, hsize2.trans hsize, hthr2.trans hthr, hmax2.trans hmax,
    hst2.trans hst, ?_, ?_, ?_⟩
  · exact user_actions _ huser
  · intro t ht
    rw [hin2, hsize2, hbits]
    cases t with
    | zero =>
      have e : (next_slot S.imgs.ring_size S.imgs.ring_in - Int.ofNat 0) % S.imgs.ring_size
          = next_slot S.imgs.ring_size S.imgs.ring_in := by
        have hr := next_slot_range _ _ hok.2.1 hok.2.2
        show (next_slot S.imgs.ring_size S.imgs.ring_in - 0) % S.imgs.ring_size = _
        rw [Int.sub_zero, Int.emod_eq_of_lt hr.1 hr.2]
      rw [e, if_pos rfl]
    | succ t =>
      rw [offset_shift _ _ _ hok.2.2]
      split
      · rfl
      · exact hmot t (by omega)
  · intro hk2
    rw [hin2, hsize2, hbits, offset_shift _ _ _ hok.2.2,
      if_neg (offset_distinct _ _ _ hok.2.1 hok.2.2 (by
        have : ((k + 1 : Nat) : Int) = (k : Int) + 1 := by omega
        rw [hsize]; omega))]
    exact hnot hk

theorem motion_run_frames (cam : ctx_dev) (frames : List frame_input)
    (hok : ring_ok cam)
    (hsz : cam.conf.minimum_motion_frames ≤ cam.imgs.ring_size)
    (hforced : cam.conf.emulate_motion = false ∧ cam.event_user = false)
    (hstartup : cam.startup_frames = 0)
    (hprev : (ring_at cam.imgs.image_ring cam.imgs.ring_in).flags.motion = false)
    (hscore : ∀ f ∈ frames, cam.threshold < f.diffs ∧ f.diffs < cam.threshold_maximum)
    (hn : (frames.length : Int) ≤ cam.conf.minimum_motion_frames) :
    motion_run cam (run_frames cam frames) frames.length := by
  induction frames using List.reverseRecOn with
  | nil =>
    refine ⟨hok, rfl, rfl, rfl, rfl, hstartup, hforced.2, ?_, ?_⟩
    · intro t ht; cases ht
    · intro _
      have e : (cam.imgs.ring_in - Int.ofNat 0) % cam.imgs.ring_size = cam.imgs.ring_in := by
        show (cam.imgs.ring_in - 0) % cam.imgs.ring_size = _
        rw [Int.sub_zero, Int.emod_eq_of_lt hok.2.1 hok.2.2]
      show (ring_at cam.imgs.image_ring
        ((cam.imgs.ring_in - Int.ofNat 0) % cam.imgs.ring_size)).flags.motion = false
      rw [e]; exact hprev
  | append_singleton fs f ih =>
    rw [List.length_append, List.length_singleton] at hn ⊢
    rw [run_frames_snoc]
    have hlt : (fs.length : Int) < cam.conf.minimum_motion_frames := by
      have : ((fs.length + 1 : Nat) : Int) = (fs.length : Int) + 1 := by omega
      omega
    exact motion_run_step cam _ _ f hsz
      (hscore f (List.mem_append_right _ (List.mem_singleton_self f))) hlt
      (ih (fun g hg => hscore g (List.mem_append_left _ hg)) (by omega))

/-- The frame that ends a run of `fs.length + 1` consecutive MOTION frames. -/
theorem run_last_outcome (cam : ctx_dev) (fs : List frame_input) (g : frame_input)
    (hsz : cam.conf.minimum_motion_frames ≤ cam.imgs.ring_size)
    (hok : ring_ok cam)
    (hstartup : cam.startup_frames = 0)
    (hforced : cam.conf.emulate_motion = false ∧ cam.event_user = false)
    (hprev : (ring_at cam.imgs.image_ring cam.imgs.ring_in).flags.motion = false)
    (hscore : ∀ f ∈ fs, cam.threshold < f.diffs ∧ f.diffs < cam.threshold_maximum)
    (hb : cam.threshold < g.diffs ∧ g.diffs < cam.threshold_maximum)
    (hn : (fs.length : Int) + 1 ≤ cam.conf.minimum_motion_frames) :
    ((fs.length : Int) + 1 < cam.conf.minimum_motion_frames →
      (frame_step (run_frames cam fs) g).cur.flags.trigger = false ∧
      ((frame_step (run_frames cam fs) g).cur.flags.postcap = true ∨
        (frame_step (run_frames cam fs) g).cur.flags.precap = true)) ∧
    ((fs.length : Int) + 1 = cam.conf.minimum_motion_frames →
      (frame_step (run_frames cam fs) g).cur.flags.trigger = true ∧
      (frame_step (run_frames cam fs) g).cur.flags.save = true ∧
      (∀ j : Int, 0 ≤ j → j < cam.imgs.ring_size →
        (ring_at (frame_step (run_frames cam fs) g).imgs.image_ring j).flags.save = true)) := by
  have hS := motion_run_frames cam fs hok hsz hforced hstartup hprev hscore (by omega)
  have hS' := motion_run_step cam _ fs.length g hsz hb (by omega) hS
  obtain ⟨hokS, hconfS, hsizeS, hthrS, hmaxS, hstS, huserS, _, _⟩ := hS
  obtain ⟨_, _, hsizeS', _, _, _, _, hmot, hnot⟩ := hS'
  have hinS' := (frame_keeps (run_frames cam fs) g hokS).2.2.2.1
  have hout := frame_outcome (run_frames cam fs) g hokS
    ⟨by rw [hconfS]; exact hforced.1, huserS⟩ hstS (by rw [hthrS, hmaxS]; exact hb)
    (by rw [hconfS]; omega)
  rw [← hinS', hsizeS, hconfS] at hout
  rw [hsizeS'] at hmot hnot
  have hcast : ((fs.length + 1 : Nat) : Int) = (fs.length : Int) + 1 := by omega
  constructor
  · intro hlt
    apply hout.2
    have hle := window_count_le (frame_step (run_frames cam fs) g).imgs.image_ring
      cam.imgs.ring_size (frame_step (run_frames cam fs) g).imgs.ring_in
      cam.conf.minimum_motion_frames.toNat
    refine Nat.lt_of_le_of_ne hle ?_
    intro hfull
    have hall := (window_count_full _ _ _ _).mp hfull (fs.length + 1) (by omega)
    rw [hnot (by omega)] at hall
    cases hall
  · intro heq
    apply hout.1
    apply (window_count_full _ _ _ _).mpr
    intro t ht
    exact hmot t (by omega)

/-- C3: with `minimum_motion_frames = m >= 1`, `pre_capture >= 0`, a ring of
`pre_capture + m` slots, startup frames elapsed and no forced trigger, starting
after a frame that is not MOTION and feeding at most `m` frames whose scores
all lie strictly between `threshold` and `threshold_maximum`: each of the first
`m - 1` frames is, once classified, not flagged TRIGGER and tagged POSTCAP or
PRECAP; the `m`-th frame is flagged TRIGGER and SAVE, and at that moment every
slot of the ring is flagged SAVE.  A run of only `m - 1` such frames therefore
has no TRIGGER frame. -/
theorem trigger_on_mth_motion_frame (cam : ctx_dev) (frames : List frame_input)
    (_hm : 1 ≤ cam.conf.minimum_motion_frames)
    (hp : 0 ≤ cam.conf.pre_capture)
    (hsize : cam.imgs.ring_size = cam.conf.pre_capture + cam.conf.minimum_motion_frames)
    (hok : ring_ok cam)
    (hstartup : cam.startup_frames = 0)
    (hforced : cam.conf.emulate_motion = false ∧ cam.event_user = false)
    (hprev : (ring_at cam.imgs.image_ring cam.imgs.ring_in).flags.motion = false)
    (hscore : ∀ f ∈ frames, cam.threshold < f.diffs ∧ f.diffs < cam.threshold_maximum)
    (hn : (frames.length : Int) ≤ cam.conf.minimum_motion_frames) :
    ∀ k : Nat, 1 ≤ k → k ≤ frames.length →
      ((k : Int) < cam.conf.minimum_motion_frames →
        (run_frames cam (frames.take k)).cur.flags.trigger = false ∧
        ((run_frames cam (frames.take k)).cur.flags.postcap = true ∨
          (run_frames cam (frames.take k)).cur.flags.precap = true)) ∧
      ((k : Int) = cam.conf.minimum_motion_frames →
        (run_frames cam (frames.take k)).cur.flags.trigger = true ∧
        (run_frames cam (frames.take k)).cur.flags.save = true ∧
        (∀ j : Int, 0 ≤ j → j < cam.imgs.ring_size →
          (ring_at (run_frames cam (frames.take k)).imgs.image_ring j).flags.save = true)) := by
  intro k hk1 hk2
  obtain ⟨n, rfl⟩ : ∃ n, k = n + 1 := ⟨k - 1, by omega⟩
  have hg : frames[n]? = some (frames[n]) := List.getElem?_eq_getElem (by omega)
  have htake : frames.take (n + 1) = frames.take n ++ [frames[n]] := by
    rw [List.take_succ, hg]; rfl
  have hlen : (frames.take n).length = n := by
    rw [List.length_take]; omega
  have hcast : ((n + 1 : Nat) : Int) = (n : Int) + 1 := by omega
  have h := run_last_outcome cam (frames.take n) (frames[n]) (by omega) hok hstartup hforced
    hprev (fun f hf => hscore f (List.mem_of_mem_take hf))
    (hscore (frames[n]) (List.getElem_mem _)) (by rw [hlen]; omega)
  rw [hlen] at h
  rw [htake, run_frames_snoc, hcast]
  exact h

/-- C3 at `cam_two_needed` with the scores 50 and 60: the first frame is not
TRIGGER and is tagged PRECAP, the second is TRIGGER and SAVE and slot 0 of the
ring is flagged SAVE. -/
theorem trigger_on_mth_motion_frame_witness :
    ((run_frames cam_two_needed (two_motion_frames.take 1)).cur.flags.trigger = false ∧
      (run_frames cam_two_needed (two_motion_frames.take 1)).cur.flags.precap = true) ∧
    ((run_frames cam_two_needed (two_motion_frames.take 2)).cur.flags.trigger = true ∧
      (run_frames cam_two_needed (two_motion_frames.take 2)).cur.flags.save = true ∧
      (ring_at (run_frames cam_two_needed (two_motion_frames.take 2)).imgs.image_ring 0).flags.save
        = true) :=
  have h := trigger_on_mth_motion_frame cam_two_needed two_motion_frames (by decide) (by decide)
    (by decide) ⟨by decide, by decide, by decide⟩ (by decide) ⟨by decide, by decide⟩ (by decide)
    (by decide) (by decide)
  have h1 := (h 1 (by decide) (by decide)).1 (by decide)
  have h2 := (h 2 (by decide) (by decide)).2 (by decide)
  ⟨⟨h1.1, by decide⟩, h2.1, h2.2.1, h2.2.2 0 (by decide) (by decide)⟩

/-! ## Quiet frames, the stop switch and the budget across a frame -/

theorem stop_actions_event (cam : ctx_dev) : (mlp_actions_event cam).event_stop = false := by
  have h3 : ∀ c : ctx_dev, (mlp_actions_event_movie c).event_stop = c.event_stop := by
    intro c
    simp only [mlp_actions_event_movie, mlp_info_reset, ctx_dev.call,
      apply_ite ctx_dev.event_stop, ite_self]
  have h2 : ∀ c : ctx_dev, (mlp_actions_event_stop c).event_stop = false := by
    intro c
    unfold mlp_actions_event_stop
    split
    · rfl
    · rename_i h; simpa using h
  unfold mlp_actions_event
  rw [h3, h2]

theorem stop_actions (cam : ctx_dev) : (mlp_actions cam).event_stop = false :=
  stop_actions_event _

theorem ctl_actions_lasttime (cam : ctx_dev) :
    (mlp_actions_lasttime cam).ctl = { cam.ctl with
      lasttime := if cam.cur.flags.save = true then cam.cur.monots.tv_sec else cam.lasttime } := by
  simp only [mlp_actions_lasttime, ctx_dev.ctl, ctx_dev.call, test_land_save,
    apply_ite ctx_dev.event_nr, apply_ite ctx_dev.event_stop, apply_ite ctx_dev.event_user,
    apply_ite ctx_dev.postcap, apply_ite ctx_dev.lasttime, ite_self]

theorem postcap_actions_event (cam : ctx_dev) (hs : cam.event_stop = false)
    (hg : ¬ (cam.conf.event_gap > 0 ∧
      (cam.frame_curr_ts.tv_sec - cam.lasttime) ≥ cam.conf.event_gap)) :
    (mlp_actions_event cam).postcap = cam.postcap := by
  have h3 : ∀ c : ctx_dev, (mlp_actions_event_movie c).postcap = c.postcap := by
    intro c
    simp only [mlp_actions_event_movie, mlp_info_reset, ctx_dev.call,
      apply_ite ctx_dev.postcap, ite_self]
  have h1 : mlp_actions_event_gap cam = cam := by
    unfold mlp_actions_event_gap; rw [if_neg hg]
  unfold mlp_actions_event
  rw [h3, h1]
  unfold mlp_actions_event_stop
  rw [hs]
  rfl

theorem postcap_actions_event_cases (cam : ctx_dev) :
    (mlp_actions_event cam).postcap = cam.postcap ∨ (mlp_actions_event cam).postcap = 0 := by
  have h3 : ∀ c : ctx_dev, (mlp_actions_event_movie c).postcap = c.postcap := by
    intro c
    simp only [mlp_actions_event_movie, mlp_info_reset, ctx_dev.call,
      apply_ite ctx_dev.postcap, ite_self]
  have h1 : (mlp_actions_event_gap cam).postcap = cam.postcap := by
    unfold mlp_actions_event_gap; split <;> rfl
  have he : ∀ c : ctx_dev, (mlp_actions_event_end c).postcap = 0 := by
    intro c
    simp only [mlp_actions_event_end, mlp_track_center, ctx_dev.call,
      apply_ite ctx_dev.postcap, ite_self]
  unfold mlp_actions_event
  rw [h3, ← h1]
  generalize mlp_actions_event_gap cam = c
  unfold mlp_actions_event_stop
  split
  · show (if _ then _ else _ : ctx_dev).postcap = _ ∨ (if _ then _ else _ : ctx_dev).postcap = _
    split
    · right; exact he _
    · left; rfl
  · left; rfl

theorem frame_quiet_outcome (cam : ctx_dev) (f : frame_input) (h : ring_ok cam)
    (hforced : cam.conf.emulate_motion = false ∧ cam.event_user = false)
    (hq : ¬ (cam.threshold < f.diffs ∧ f.diffs < cam.threshold_maximum)) :
    (frame_step cam f).cur.flags.motion = false ∧
    (frame_step cam f).cur.flags.trigger = false ∧
    (cam.postcap > 0 →
      (frame_step cam f).cur.flags.postcap = true ∧
      (frame_step cam f).cur.flags.save = true ∧
      (frame_step cam f).cur.flags.precap = false) ∧
    (cam.postcap ≤ 0 →
      (frame_step cam f).cur.flags.precap = true ∧
      (frame_step cam f).cur.flags.save = false ∧
      (frame_step cam f).cur.flags.postcap = false) := by
  have hr := next_slot_range _ _ h.2.1 h.2.2
  have hcore := classified_core cam f
  have hconf : (frame_classified cam f).conf = cam.conf := congrArg dev_core.conf hcore
  have huser : (frame_classified cam f).event_user = false :=
    (congrArg dev_ctl.event_user (classified_ctl cam f)).trans hforced.2
  have hpost : (frame_classified cam f).postcap = cam.postcap :=
    congrArg dev_ctl.postcap (classified_ctl cam f)
  have hcurX := classified_current cam f
  have hlenX : (next_slot cam.imgs.ring_size cam.imgs.ring_in).toNat
      < (frame_classified cam f).imgs.image_ring.length := by
    have := h.1
    rw [classified_length cam f h]; omega
  have hflagsX : (ring_at (frame_classified cam f).imgs.image_ring
      (next_slot cam.imgs.ring_size cam.imgs.ring_in)).flags = IMAGE_NONE := by
    have hc := classified_cur_flags cam f h
    rw [cur_eq _ _ hcurX, if_neg (fun hh => hq ⟨hh.1, hh.2⟩)] at hc
    exact hc
  have hnf : ¬ (((frame_classified cam f).conf.emulate_motion
      || (frame_classified cam f).event_user) = true
      ∧ (frame_classified cam f).startup_frames = 0) := by
    rw [hconf, hforced.1, huser]; simp
  have hmo : ¬ (((frame_classified cam f).cur.flags &&& IMAGE_MOTION).test = true
      ∧ (frame_classified cam f).startup_frames = 0) := by
    rw [test_land_motion, cur_eq _ _ hcurX, hflagsX]
    intro hh; cases hh.1
  rw [cur_eq _ _ (frame_current cam f)]
  refine ⟨?_, ?_, ?_, ?_⟩
  · rw [frame_motion_bit, hflagsX]; rfl
  · rw [frame_bits cam f image_flags.trigger (fun _ => rfl)]
    by_cases hp : (frame_classified cam f).postcap > 0
    · rw [trigger_postcap _ hnf hmo hp]
      show (ring_at ((frame_classified cam f).upd_cur _).imgs.image_ring _).flags.trigger = _
      rw [ring_upd_cur _ _ _ hcurX, ring_at_upd_same _ _ _ hlenX, set_flags_flags, hflagsX]
      rfl
    · rw [trigger_precap _ hnf hmo hp]
      show (ring_at ((frame_classified cam f).upd_cur _).imgs.image_ring _).flags.trigger = _
      rw [ring_upd_cur _ _ _ hcurX, ring_at_upd_same _ _ _ hlenX, set_flags_flags, hflagsX]
      rfl
  · intro hp
    have hp2 : (frame_classified cam f).postcap > 0 := by rw [hpost]; exact hp
    have hfl : (ring_at (mlp_actions_trigger (frame_classified cam f)).imgs.image_ring
        (next_slot cam.imgs.ring_size cam.imgs.ring_in)).flags
        = IMAGE_NONE ||| (IMAGE_POSTCAP ||| IMAGE_SAVE) := by
      rw [trigger_postcap _ hnf hmo hp2]
      show (ring_at ((frame_classified cam f).upd_cur _).imgs.image_ring _).flags = _
      rw [ring_upd_cur _ _ _ hcurX, ring_at_upd_same _ _ _ hlenX, set_flags_flags, hflagsX]
    rw [frame_bits cam f image_flags.postcap (fun _ => rfl),
      frame_bits cam f image_flags.save (fun _ => rfl),
      frame_bits cam f image_flags.precap (fun _ => rfl), hfl]
    exact ⟨rfl, rfl, rfl⟩
  · intro hp
    have hp2 : ¬ (frame_classified cam f).postcap > 0 := by rw [hpost]; omega
    have hfl : (ring_at (mlp_actions_trigger (frame_classified cam f)).imgs.image_ring
        (next_slot cam.imgs.ring_size cam.imgs.ring_in)).flags
        = IMAGE_NONE ||| IMAGE_PRECAP := by
      rw [trigger_precap _ hnf hmo hp2]
      show (ring_at ((frame_classified cam f).upd_cur _).imgs.image_ring _).flags = _
      rw [ring_upd_cur _ _ _ hcurX, ring_at_upd_same _ _ _ hlenX, set_flags_flags, hflagsX]
    rw [frame_bits cam f image_flags.postcap (fun _ => rfl),
      frame_bits cam f image_flags.save (fun _ => rfl),
      frame_bits cam f image_flags.precap (fun _ => rfl), hfl]
    exact ⟨rfl, rfl, rfl⟩

theorem scored_monots (cam : ctx_dev) (f : frame_input) (h : ring_ok cam) :
    (ring_at (frame_scored cam f).imgs.image_ring
      (next_slot cam.imgs.ring_size cam.imgs.ring_in)).monots = f.monotonic := by
  have hr := next_slot_range _ _ h.2.1 h.2.2
  have hl := h.1
  rw [scored_ring, ring_at_upd_same _ _ _ (by rw [mlp_resetimages_ring, ring_upd_length]; omega),
    mlp_resetimages_ring, ring_at_upd_same _ _ _ (by omega)]

theorem classified_monots (cam : ctx_dev) (f : frame_input) (h : ring_ok cam) :
    (ring_at (frame_classified cam f).imgs.image_ring
      (next_slot cam.imgs.ring_size cam.imgs.ring_in)).monots = f.monotonic := by
  have hr := next_slot_range _ _ h.2.1 h.2.2
  have hl := h.1
  rw [classified_ring cam f h]
  split
  · rw [ring_at_upd_same _ _ _ (by rw [scored_length]; omega)]
    exact scored_monots cam f h
  · exact scored_monots cam f h

theorem actions_unfold (cam : ctx_dev) :
    mlp_actions cam = mlp_actions_event (mlp_ring_process (mlp_areadetect
      (mlp_actions_lasttime (mlp_actions_trigger (mlp_actions_classify cam))))) := rfl

/-- The budget after a frame whose trigger step left `T`: it is the budget of
`T`, or 0 when the event was closed in the same frame; it is the budget of `T`
when no stop is pending and the gap has not elapsed. -/
theorem actions_postcap (cam : ctx_dev) :
    ((mlp_actions cam).postcap = (mlp_actions_trigger (mlp_actions_classify cam)).postcap ∨
      (mlp_actions cam).postcap = 0) ∧
    ((mlp_actions_trigger (mlp_actions_classify cam)).event_stop = false →
      ¬ (cam.conf.event_gap > 0 ∧
        cam.frame_curr_ts.tv_sec
          - (if (mlp_actions_trigger (mlp_actions_classify cam)).cur.flags.save = true
             then (mlp_actions_trigger (mlp_actions_classify cam)).cur.monots.tv_sec
             else (mlp_actions_trigger (mlp_actions_classify cam)).lasttime)
          ≥ cam.conf.event_gap) →
      (mlp_actions cam).postcap = (mlp_actions_trigger (mlp_actions_classify cam)).postcap) := by
  have hctl : (mlp_ring_process (mlp_areadetect (mlp_actions_lasttime
      (mlp_actions_trigger (mlp_actions_classify cam))))).ctl
      = { (mlp_actions_trigger (mlp_actions_classify cam)).ctl with
          lasttime := if (mlp_actions_trigger (mlp_actions_classify cam)).cur.flags.save = true
            then (mlp_actions_trigger (mlp_actions_classify cam)).cur.monots.tv_sec
            else (mlp_actions_trigger (mlp_actions_classify cam)).lasttime } :=
    (ctl_ring_process _).trans ((ctl_areadetect _).trans (ctl_actions_lasttime _))
  have hcore : (mlp_ring_process (mlp_areadetect (mlp_actions_lasttime
      (mlp_actions_trigger (mlp_actions_classify cam))))).core.cfg = cam.core.cfg := by
    rw [(core_ring_process _).trans ((core_areadetect _).trans (core_actions_lasttime _)),
      trigger_cfg, classify_core]
    rfl
  rw [actions_unfold]
  constructor
  · rw [show (mlp_actions_trigger (mlp_actions_classify cam)).postcap
      = (mlp_ring_process (mlp_areadetect (mlp_actions_lasttime
          (mlp_actions_trigger (mlp_actions_classify cam))))).postcap from
        (congrArg dev_ctl.postcap hctl).symm]
    exact postcap_actions_event_cases _
  · intro hs hg
    rw [postcap_actions_event _ ((congrArg dev_ctl.event_stop hctl).trans hs)]
    · exact congrArg dev_ctl.postcap hctl
    · rw [show (mlp_ring_process (mlp_areadetect (mlp_actions_lasttime
          (mlp_actions_trigger (mlp_actions_classify cam))))).conf = cam.conf from
          congrArg dev_core.conf hcore,
        show (mlp_ring_process (mlp_areadetect (mlp_actions_lasttime
          (mlp_actions_trigger (mlp_actions_classify cam))))).frame_curr_ts = cam.frame_curr_ts from
          congrArg dev_core.frame_curr_ts hcore,
        show (mlp_ring_process (mlp_areadetect (mlp_actions_lasttime
          (mlp_actions_trigger (mlp_actions_classify cam))))).lasttime = _ from
          congrArg dev_ctl.lasttime hctl]
      exact hg

theorem frame_trigger_budget (cam : ctx_dev) (f : frame_input) (h : ring_ok cam)
    (hforced : cam.conf.emulate_motion = false ∧ cam.event_user = false)
    (hstartup : cam.startup_frames = 0)
    (hb : cam.threshold < f.diffs ∧ f.diffs < cam.threshold_maximum)
    (hm0 : 0 ≤ cam.conf.minimum_motion_frames)
    (hw : window_motion_count (frame_step cam f).imgs.image_ring cam.imgs.ring_size
        (next_slot cam.imgs.ring_size cam.imgs.ring_in) cam.conf.minimum_motion_frames.toNat
        = cam.conf.minimum_motion_frames.toNat) :
    ((frame_step cam f).postcap = cam.conf.post_capture ∨ (frame_step cam f).postcap = 0) ∧
    (cam.event_stop = false →
      (cam.conf.event_gap ≤ 0 ∨
        cam.frame_curr_ts.tv_sec - f.monotonic.tv_sec < cam.conf.event_gap) →
      (frame_step cam f).postcap = cam.conf.post_capture) := by
  have hr := next_slot_range _ _ h.2.1 h.2.2
  have hcore := classified_core cam f
  have hconf : (frame_classified cam f).conf = cam.conf := congrArg dev_core.conf hcore
  have hsize : (frame_classified cam f).imgs.ring_size = cam.imgs.ring_size :=
    congrArg dev_core.ring_size hcore
  have hrin : (frame_classified cam f).imgs.ring_in
      = next_slot cam.imgs.ring_size cam.imgs.ring_in := congrArg dev_core.ring_in hcore
  have hst : (frame_classified cam f).startup_frames = 0 :=
    (congrArg dev_core.startup_frames hcore).trans hstartup
  have huser : (frame_classified cam f).event_user = false :=
    (congrArg dev_ctl.event_user (classified_ctl cam f)).trans hforced.2
  have hcurX := classified_current cam f
  have hflagsX : (ring_at (frame_classified cam f).imgs.image_ring
      (next_slot cam.imgs.ring_size cam.imgs.ring_in)).flags = IMAGE_MOTION := by
    have hc := classified_cur_flags cam f h
    rw [cur_eq _ _ hcurX, if_pos ⟨hb.1, hb.2⟩] at hc
    exact hc
  have hnf : ¬ (((frame_classified cam f).conf.emulate_motion
      || (frame_classified cam f).event_user) = true
      ∧ (frame_classified cam f).startup_frames = 0) := by
    rw [hconf, hforced.1, huser]; simp
  have hmo : ((frame_classified cam f).cur.flags &&& IMAGE_MOTION).test = true
      ∧ (frame_classified cam f).startup_frames = 0 := by
    rw [test_land_motion, cur_eq _ _ hcurX, hflagsX]; exact ⟨rfl, hst⟩
  have hT := trigger_motion _ hnf hmo
  have hcount : (frame_classified cam f).frame_count
      = (window_motion_count (frame_step cam f).imgs.image_ring cam.imgs.ring_size
          (next_slot cam.imgs.ring_size cam.imgs.ring_in)
          cam.conf.minimum_motion_frames.toNat : Int) := by
    unfold ctx_dev.frame_count
    rw [hsize, hrin, hconf, motion_frame_count_eq _ _ _ _ _ hr.1 hr.2, Int.zero_add,
      window_count_congr _ _ _ _ _ (frame_motion_bit cam f)]
  have hcnt : (frame_classified cam f).frame_count
      ≥ (frame_classified cam f).conf.minimum_motion_frames := by
    rw [hcount, hw, hconf]; omega
  have hlenX : ((frame_classified cam f).imgs.image_ring.length : Int) = cam.imgs.ring_size := by
    rw [classified_length cam f h]; exact h.1
  have hcc : (next_slot cam.imgs.ring_size cam.imgs.ring_in).toNat < cam.imgs.ring_size.toNat
      ∧ (next_slot cam.imgs.ring_size cam.imgs.ring_in).toNat
        < (frame_classified cam f).imgs.image_ring.length := by omega
  have hmark := motion_mark_trigger _ hcnt
  have hring := hmark.1
  rw [ring_upd_cur _ _ _ hcurX, hsize] at hring
  have hTctl : (mlp_actions_trigger (frame_classified cam f)).ctl
      = { cam.ctl with postcap := cam.conf.post_capture } := by
    rw [hT, motion_ctl, hmark.2.2.1, classified_ctl, hconf]
  have hTcur : (mlp_actions_trigger (frame_classified cam f)).current_image
      = some (next_slot cam.imgs.ring_size cam.imgs.ring_in) :=
    (trigger_current _).trans hcurX
  have hTsave : (mlp_actions_trigger (frame_classified cam f)).cur.flags.save = true := by
    rw [cur_eq _ _ hTcur, hT, motion_flags, hring, ring_at_save_all, ring_upd_length,
      if_pos hcc, set_flags_flags]
    simp [IMAGE_SAVE]
  have hTmono : (mlp_actions_trigger (frame_classified cam f)).cur.monots = f.monotonic := by
    have e := congrArg ctx_image_data.monots
      (core_ring _ _ (motion_core (frame_classified cam f))
        (next_slot cam.imgs.ring_size cam.imgs.ring_in))
    rw [cur_eq _ _ hTcur, hT]
    refine e.trans ?_
    show (ring_at (mlp_actions_motion_mark (frame_classified cam f)).imgs.image_ring _).monots = _
    rw [hring, ring_at_save_all, ring_upd_length, if_pos hcc, ring_at_upd_same _ _ _ hcc.2]
    exact classified_monots cam f h
  have hpost := actions_postcap (frame_scored cam f)
  have hTpost : (mlp_actions_trigger (frame_classified cam f)).postcap = cam.conf.post_capture :=
    congrArg dev_ctl.postcap hTctl
  constructor
  · rcases hpost.1 with h1 | h1
    · left; exact h1.trans hTpost
    · right; exact h1
  · intro hstop hclock
    refine (hpost.2 ((congrArg dev_ctl.event_stop hTctl).trans hstop) ?_).trans hTpost
    show ¬ (cam.conf.event_gap > 0 ∧ cam.frame_curr_ts.tv_sec
      - (if (mlp_actions_trigger (frame_classified cam f)).cur.flags.save = true
         then (mlp_actions_trigger (frame_classified cam f)).cur.monots.tv_sec
         else (mlp_actions_trigger (frame_classified cam f)).lasttime) ≥ cam.conf.event_gap)
    rw [if_pos hTsave, hTmono]
    intro hh
    omega

/-! ## `mlp_ring_process` leaves its loop -/

theorem pending_set (r : List ctx_image_data) (x : ctx_image_data) :
    ∀ i : Nat, (h : i < r.length) →
      ((r.get ⟨i, h⟩).flags.save && !(r.get ⟨i, h⟩).flags.saved) = true →
      (x.flags.save && !x.flags.saved) = false →
      ring_pending (r.set i x) + 1 = ring_pending r := by
  induction r with
  | nil => intro i h; cases h
  | cons a t ih =>
    intro i h hp hx
    cases i with
    | zero =>
      have ha : (a.flags.save && !a.flags.saved) = true := hp
      simp only [ring_pending, List.set_cons_zero, List.countP_cons, ha, hx]
      simp
    | succ n =>
      have hn : n < t.length := Nat.lt_of_succ_lt_succ h
      have e := ih n hn hp hx
      simp only [ring_pending, List.set_cons_succ, List.countP_cons] at e ⊢
      omega

theorem ring_process_body_ring (cam : ctx_dev) :
    (mlp_ring_process_body cam).imgs.image_ring
      = ring_upd cam.imgs.image_ring cam.imgs.ring_out (set_flags IMAGE_SAVED) := by
  simp only [mlp_ring_process_body, ctx_dev.call, pic_save_preview,
    apply_ite ctx_dev.imgs, apply_ite ctx_images.image_ring, ite_self]

theorem ring_process_body_pending (cam : ctx_dev)
    (h : (ring_at cam.imgs.image_ring cam.imgs.ring_out).flags &&& (IMAGE_SAVE ||| IMAGE_SAVED)
      = IMAGE_SAVE) :
    ring_pending (mlp_ring_process_body cam).imgs.image_ring + 1
      = ring_pending cam.imgs.image_ring := by
  have hp := (pending_iff _).mp h
  have hlt : cam.imgs.ring_out.toNat < cam.imgs.image_ring.length := by
    by_contra hge
    have hd : ring_at cam.imgs.image_ring cam.imgs.ring_out = default := by
      unfold ring_at
      rw [List.getD_eq_getElem?_getD, List.getElem?_eq_none (by omega)]
      rfl
    rw [hd] at hp
    cases hp.1
  have hget : ring_at cam.imgs.image_ring cam.imgs.ring_out
      = cam.imgs.image_ring.get ⟨cam.imgs.ring_out.toNat, hlt⟩ := by
    unfold ring_at
    rw [List.getD_eq_getElem?_getD, List.getElem?_eq_getElem hlt]
    rfl
  rw [ring_process_body_ring]
  unfold ring_upd
  apply pending_set _ _ _ hlt
  · rw [← hget, hp.1, hp.2]; rfl
  · simp [set_flags, IMAGE_SAVED, HOr.hOr, OrOp.or, image_flags.lor]

theorem ring_process_loop_fuel (fuel : Nat) : ∀ cam : ctx_dev,
    ring_pending cam.imgs.image_ring < fuel →
    (mlp_ring_process_loop fuel cam).isSome = true := by
  induction fuel with
  | zero => intro cam h; cases h
  | succ n ih =>
    intro cam h
    unfold mlp_ring_process_loop
    split
    · rfl
    · rename_i hp
      have hp2 := ring_process_body_pending cam (not_not.mp hp)
      simp only
      split
      · exact ih _ (by omega)
      · rfl

/-- The loop of `mlp_ring_process` leaves within the passes the wrapper allows:
the result is always that of the loop. -/
theorem mlp_ring_process_loop_isSome (cam : ctx_dev) :
    (mlp_ring_process_loop (cam.imgs.image_ring.length + 1) cam).isSome = true := by
  apply ring_process_loop_fuel
  have := List.countP_le_length (l := cam.imgs.image_ring)
    (fun img => img.flags.save && !img.flags.saved)
  unfold ring_pending
  omega

/-! ## The slots that are not the current frame -/

theorem upd_cur_other (cam : ctx_dev) (g : ctx_image_data → ctx_image_data) (i j : Int)
    (hc : cam.current_image = some i) (hj : j.toNat ≠ i.toNat) :
    ring_at (cam.upd_cur g).imgs.image_ring j = ring_at cam.imgs.image_ring j := by
  rw [ring_upd_cur cam g i hc, ring_at_upd_ne _ _ _ _ (fun hh => hj hh.symm)]

/-- The trigger step of `mlp_actions` writes no more than SAVE on a slot that is
not the current frame. -/
theorem trigger_other_bit (cam : ctx_dev) (i : Int) (hc : cam.current_image = some i)
    (p : image_flags → Bool) (hp : ∀ f, p (f ||| IMAGE_SAVE) = p f)
    (j : Int) (hj : j.toNat ≠ i.toNat) :
    p (ring_at (mlp_actions_trigger cam).imgs.image_ring j).flags
      = p (ring_at cam.imgs.image_ring j).flags := by
  by_cases h : (cam.conf.emulate_motion || cam.event_user) = true ∧ cam.startup_frames = 0
  · rw [trigger_forced cam h, emulate_flags cam i hc, save_all_flag_bit _ _ p hp,
      ring_at_upd_ne _ _ _ _ (fun hh => hj hh.symm)]
  · by_cases hm : (cam.cur.flags &&& IMAGE_MOTION).test = true ∧ cam.startup_frames = 0
    · rw [trigger_motion cam h hm, motion_flags]
      by_cases hcnt : cam.frame_count ≥ cam.conf.minimum_motion_frames
      · rw [(motion_mark_trigger cam hcnt).1, save_all_flag_bit _ _ p hp,
          upd_cur_other cam _ i j hc hj]
      · by_cases hq : cam.postcap > 0
        · rw [motion_mark_postcap cam hcnt hq]
          exact congrArg (fun x : ctx_image_data => p x.flags) (upd_cur_other cam _ i j hc hj)
        · rw [motion_mark_precap cam hcnt hq]
          exact congrArg (fun x : ctx_image_data => p x.flags) (upd_cur_other cam _ i j hc hj)
    · by_cases hq : cam.postcap > 0
      · rw [trigger_postcap cam h hm hq]
        exact congrArg (fun x : ctx_image_data => p x.flags) (upd_cur_other cam _ i j hc hj)
      · rw [trigger_precap cam h hm hq]
        exact congrArg (fun x : ctx_image_data => p x.flags) (upd_cur_other cam _ i j hc hj)

/-- A frame leaves every flag but SAVE and SAVED of the other slots as it was. -/
theorem frame_other_bit (cam : ctx_dev) (f : frame_input) (h : ring_ok cam)
    (p : image_flags → Bool) (hp : ∀ x, p (x ||| IMAGE_SAVE) = p x)
    (hp2 : ∀ x : image_flags, p { x with saved := false } = p x)
    (j : Int) (hj : j.toNat ≠ (next_slot cam.imgs.ring_size cam.imgs.ring_in).toNat) :
    p (ring_at (frame_step cam f).imgs.image_ring j).flags
      = p (ring_at cam.imgs.image_ring j).flags := by
  rw [frame_bits cam f p hp2 j,
    trigger_other_bit _ _ (classified_current cam f) p hp j hj,
    classified_other cam f h j hj]

theorem frame_ts (cam : ctx_dev) (f : frame_input) :
    (frame_step cam f).frame_curr_ts = cam.frame_curr_ts := by
  have hcfg : (frame_step cam f).core.cfg
      = ({ cam.core with ring_in := next_slot cam.imgs.ring_size cam.imgs.ring_in } : dev_core).cfg := by
    rw [frame_core, trigger_cfg, classified_core]; rfl
  exact congrArg dev_core.frame_curr_ts hcfg

theorem frame_cur_motion (cam : ctx_dev) (f : frame_input) (h : ring_ok cam)
    (hb : cam.threshold < f.diffs ∧ f.diffs < cam.threshold_maximum) :
    (frame_step cam f).cur.flags.motion = true := by
  rw [cur_eq _ _ (frame_current cam f), frame_motion_bits cam f h hb, if_pos rfl]

theorem trigger_bit_S (f : image_flags) : (f ||| IMAGE_SAVE).trigger = f.trigger := by
  simp [IMAGE_SAVE]

theorem run_frames_nil (cam : ctx_dev) : run_frames cam [] = cam := rfl

theorem run_frames_cons (cam : ctx_dev) (f : frame_input) (fs : List frame_input) :
    run_frames cam (f :: fs) = run_frames (frame_step cam f) fs := rfl

/-! ## The SAVED bit -/

theorem ring_actions_lasttime (cam : ctx_dev) :
    (mlp_actions_lasttime cam).imgs.image_ring = cam.imgs.image_ring := by
  simp only [mlp_actions_lasttime, ctx_dev.call, apply_ite ctx_dev.imgs,
    apply_ite ctx_images.image_ring, ite_self]

theorem ring_areadetect (cam : ctx_dev) :
    (mlp_areadetect cam).imgs.image_ring = cam.imgs.image_ring := by
  unfold mlp_areadetect; split
  · split <;> rfl
  · rfl

theorem ring_actions_event_gap (cam : ctx_dev) :
    (mlp_actions_event_gap cam).imgs.image_ring = cam.imgs.image_ring := by
  unfold mlp_actions_event_gap; split <;> rfl

theorem ring_actions_event_end (cam : ctx_dev) :
    (mlp_actions_event_end cam).imgs.image_ring = cam.imgs.image_ring := by
  simp only [mlp_actions_event_end, mlp_track_center, ctx_dev.call, apply_ite ctx_dev.imgs,
    apply_ite ctx_images.image_ring, ite_self]

theorem ring_actions_event_movie (cam : ctx_dev) :
    (mlp_actions_event_movie cam).imgs.image_ring = cam.imgs.image_ring := by
  simp only [mlp_actions_event_movie, mlp_info_reset, ctx_dev.call, apply_ite ctx_dev.imgs,
    apply_ite ctx_images.image_ring, ite_self]

theorem saved_from_save_refl (r : List ctx_image_data) : saved_from_save r r :=
  fun _ => ⟨rfl, fun h => Or.inl h⟩

theorem saved_from_save_eq (r1 r2 : List ctx_image_data) (h : r2 = r1) :
    saved_from_save r1 r2 := by
  rw [h]; exact saved_from_save_refl r1

theorem saved_from_save_trans (r1 r2 r3 : List ctx_image_data)
    (h12 : saved_from_save r1 r2) (h23 : saved_from_save r2 r3) : saved_from_save r1 r3 := by
  intro j
  refine ⟨(h23 j).1.trans (h12 j).1, fun h => ?_⟩
  rcases (h23 j).2 h with h2 | h2
  · exact (h12 j).2 h2
  · right; rw [← (h12 j).1]; exact h2

theorem save_bit_D (f : image_flags) : (f ||| IMAGE_SAVED).save = f.save := by
  simp [IMAGE_SAVED]

theorem saved_ring_process_body (cam : ctx_dev)
    (h : (ring_at cam.imgs.image_ring cam.imgs.ring_out).flags &&& (IMAGE_SAVE ||| IMAGE_SAVED)
      = IMAGE_SAVE) :
    saved_from_save cam.imgs.image_ring (mlp_ring_process_body cam).imgs.image_ring := by
  have hp := (pending_iff _).mp h
  rw [ring_process_body_ring]
  intro j
  refine ⟨ring_upd_flag_bit _ _ _ image_flags.save save_bit_D j, ?_⟩
  rw [ring_at_upd]
  split
  · rename_i hh
    intro _
    right
    rw [← ring_at_congr _ _ _ hh.1]
    exact hp.1
  · exact fun h2 => Or.inl h2

theorem saved_ring_process_loop (fuel : Nat) : ∀ cam cam' : ctx_dev,
    mlp_ring_process_loop fuel cam = some cam' →
    saved_from_save cam.imgs.image_ring cam'.imgs.image_ring := by
  induction fuel with
  | zero => intro cam cam' h; cases h
  | succ n ih =>
    intro cam cam' h
    unfold mlp_ring_process_loop at h
    split at h
    · cases h; exact saved_from_save_refl _
    · rename_i hp
      have hb := saved_ring_process_body cam (not_not.mp hp)
      simp only at h
      split at h
      · exact saved_from_save_trans _ _ _ hb (ih _ _ h)
      · cases h; exact hb

theorem saved_ring_process (cam : ctx_dev) :
    saved_from_save cam.imgs.image_ring (mlp_ring_process cam).imgs.image_ring := by
  unfold mlp_ring_process
  simp only
  cases h : mlp_ring_process_loop (cam.imgs.image_ring.length + 1) cam with
  | none => exact saved_from_save_refl _
  | some c => exact saved_ring_process_loop _ cam c h

theorem saved_actions_event_stop (cam : ctx_dev) :
    saved_from_save cam.imgs.image_ring (mlp_actions_event_stop cam).imgs.image_ring := by
  unfold mlp_actions_event_stop
  simp only []
  split
  · show saved_from_save _ (if _ then _ else _ : ctx_dev).imgs.image_ring
    split
    · exact saved_from_save_trans _ _ _ (saved_ring_process _)
        (saved_from_save_eq _ _ (ring_actions_event_end _))
    · exact saved_from_save_refl _
  · exact saved_from_save_refl _

theorem saved_actions_event (cam : ctx_dev) :
    saved_from_save cam.imgs.image_ring (mlp_actions_event cam).imgs.image_ring :=
  saved_from_save_trans _ _ _
    (saved_from_save_trans _ _ _ (saved_from_save_eq _ _ (ring_actions_event_gap _))
      (saved_actions_event_stop _))
    (saved_from_save_eq _ _ (ring_actions_event_movie _))

/-- After its trigger step `mlp_actions` writes nothing but SAVED to the ring,
and SAVED only on slots flagged SAVE. -/
theorem saved_actions (cam : ctx_dev) :
    saved_from_save (mlp_actions_trigger (mlp_actions_classify cam)).imgs.image_ring
      (mlp_actions cam).imgs.image_ring :=
  saved_from_save_trans _ _ _
    (saved_from_save_trans _ _ _
      (saved_from_save_trans _ _ _ (saved_from_save_eq _ _ (ring_actions_lasttime _))
        (saved_from_save_eq _ _ (ring_areadetect _)))
      (saved_ring_process _))
    (saved_actions_event _)

/-- A quiet frame met with no post-capture budget left ends with PRECAP and
nothing else. -/
theorem frame_quiet_precap_flags (cam : ctx_dev) (f : frame_input) (h : ring_ok cam)
    (hforced : cam.conf.emulate_motion = false ∧ cam.event_user = false)
    (hq : ¬ (cam.threshold < f.diffs ∧ f.diffs < cam.threshold_maximum))
    (hp : cam.postcap ≤ 0) :
    (frame_step cam f).cur.flags = IMAGE_PRECAP := by
  have hr := next_slot_range _ _ h.2.1 h.2.2
  have hcore := classified_core cam f
  have hconf : (frame_classified cam f).conf = cam.conf := congrArg dev_core.conf hcore
  have huser : (frame_classified cam f).event_user = false :=
    (congrArg dev_ctl.event_user (classified_ctl cam f)).trans hforced.2
  have hpost : (frame_classified cam f).postcap = cam.postcap :=
    congrArg dev_ctl.postcap (classified_ctl cam f)
  have hcurX := classified_current cam f
  have hlenX : (next_slot cam.imgs.ring_size cam.imgs.ring_in).toNat
      < (frame_classified cam f).imgs.image_ring.length := by
    have := h.1
    rw [classified_length cam f h]; omega
  have hflagsX : (ring_at (frame_classified cam f).imgs.image_ring
      (next_slot cam.imgs.ring_size cam.imgs.ring_in)).flags = IMAGE_NONE := by
    have hc := classified_cur_flags cam f h
    rw [cur_eq _ _ hcurX, if_neg (fun hh => hq ⟨hh.1, hh.2⟩)] at hc
    exact hc
  have hnf : ¬ (((frame_classified cam f).conf.emulate_motion
      || (frame_classified cam f).event_user) = true
      ∧ (frame_classified cam f).startup_frames = 0) := by
    rw [hconf, hforced.1, huser]; simp
  have hmo : ¬ (((frame_classified cam f).cur.flags &&& IMAGE_MOTION).test = true
      ∧ (frame_classified cam f).startup_frames = 0) := by
    rw [test_land_motion, cur_eq _ _ hcurX, hflagsX]
    intro hh; cases hh.1
  have hp2 : ¬ (frame_classified cam f).postcap > 0 := by rw [hpost]; omega
  have hfl : (ring_at (mlp_actions_trigger (frame_classified cam f)).imgs.image_ring
      (next_slot cam.imgs.ring_size cam.imgs.ring_in)).flags
      = IMAGE_NONE ||| IMAGE_PRECAP := by
    rw [trigger_precap _ hnf hmo hp2]
    show (ring_at ((frame_classified cam f).upd_cur _).imgs.image_ring _).flags = _
    rw [ring_upd_cur _ _ _ hcurX, ring_at_upd_same _ _ _ hlenX, set_flags_flags, hflagsX]
  obtain ⟨hmot, htrg, _, hpre⟩ := frame_quiet_outcome cam f h hforced hq
  obtain ⟨hprecap, hsave, hpostcap⟩ := hpre hp
  have hsaved : (frame_step cam f).cur.flags.saved = false := by
    rw [cur_eq _ _ (frame_current cam f)]
    cases hs : (ring_at (frame_step cam f).imgs.image_ring
      (next_slot cam.imgs.ring_size cam.imgs.ring_in)).flags.saved with
    | false => rfl
    | true =>
      have h2 := (saved_actions (frame_scored cam f) _).2 hs
      have h3 : (ring_at (mlp_actions_trigger (frame_classified cam f)).imgs.image_ring
          (next_slot cam.imgs.ring_size cam.imgs.ring_in)).flags.saved = true
          ∨ (ring_at (mlp_actions_trigger (frame_classified cam f)).imgs.image_ring
          (next_slot cam.imgs.ring_size cam.imgs.ring_in)).flags.save = true := h2
      rw [hfl] at h3
      rcases h3 with h3 | h3 <;> cases h3
  generalize (frame_step cam f).cur.flags = F at hmot htrg hprecap hsave hpostcap hsaved ⊢
  cases F
  simp only at hmot htrg hprecap hsave hpostcap hsaved
  subst hmot htrg hprecap hsave hpostcap hsaved
  rfl

/-! ## The four-frame scenario -/

/-- C4: with `pre_capture = 2`, `minimum_motion_frames = 2`, `threshold = 10`,
`threshold_maximum = 1000`, startup frames elapsed and no forced trigger,
`mlp_ring_resize` gives a ring of 4 slots, and four frames with the scores 5,
50, 60, 5, each through `mlp_resetimages` and `mlp_actions`, land in the slots
1, 2, 3, 0 with: frames 2 and 3 MOTION, frames 1 and 4 not; TRIGGER on frame 3
and on no other frame, both right after each frame and in the ring after the
fourth; all 4 slots SAVE after frame 3; frame 4 tagged POSTCAP and SAVE and not
PRECAP when `post_capture > 0`, and PRECAP with no other flag when
`post_capture = 0`.  The POSTCAP case reads the clock: it is stated for an
event gap that is off or has not run out between `frame_curr_ts` and the steady
clock reading of frame 3, which is taken after `frame_curr_ts`. -/
theorem scenario_scores_5_50_60_5 (base : ctx_dev) (tmp : Nat → ctx_image_data)
    (f1 f2 f3 f4 : frame_input)
    (hp : base.conf.pre_capture = 2) (hm : base.conf.minimum_motion_frames = 2)
    (hthr : base.threshold = 10) (hmax : base.threshold_maximum = 1000)
    (hstartup : base.startup_frames = 0)
    (hforced : base.conf.emulate_motion = false ∧ base.event_user = false)
    (h1 : f1.diffs = 5) (h2 : f2.diffs = 50) (h3 : f3.diffs = 60) (h4 : f4.diffs = 5) :
    (mlp_ring_resize base tmp).imgs.ring_size = 4 ∧
    (mlp_ring_resize base tmp).imgs.image_ring.length = 4 ∧
    ((run_frames (mlp_ring_resize base tmp) [f1]).current_image = some 1 ∧
      (run_frames (mlp_ring_resize base tmp) [f1]).cur.flags.motion = false ∧
      (run_frames (mlp_ring_resize base tmp) [f1]).cur.flags.trigger = false) ∧
    ((run_frames (mlp_ring_resize base tmp) [f1, f2]).current_image = some 2 ∧
      (run_frames (mlp_ring_resize base tmp) [f1, f2]).cur.flags.motion = true ∧
      (run_frames (mlp_ring_resize base tmp) [f1, f2]).cur.flags.trigger = false) ∧
    ((run_frames (mlp_ring_resize base tmp) [f1, f2, f3]).current_image = some 3 ∧
      (run_frames (mlp_ring_resize base tmp) [f1, f2, f3]).cur.flags.motion = true ∧
      (run_frames (mlp_ring_resize base tmp) [f1, f2, f3]).cur.flags.trigger = true ∧
      (∀ j : Int, 0 ≤ j → j < 4 →
        (ring_at (run_frames (mlp_ring_resize base tmp) [f1, f2, f3]).imgs.image_ring j).flags.save
          = true)) ∧
    ((run_frames (mlp_ring_resize base tmp) [f1, f2, f3, f4]).current_image = some 0 ∧
      (run_frames (mlp_ring_resize base tmp) [f1, f2, f3, f4]).cur.flags.motion = false ∧
      (run_frames (mlp_ring_resize base tmp) [f1, f2, f3, f4]).cur.flags.trigger = false) ∧
    (∀ j : Int, 0 ≤ j → j < 4 →
      ((ring_at (run_frames (mlp_ring_resize base tmp) [f1, f2, f3, f4]).imgs.image_ring j).flags.trigger
          = true ↔ j = 3) ∧
      ((ring_at (run_frames (mlp_ring_resize base tmp) [f1, f2, f3, f4]).imgs.image_ring j).flags.motion
          = true ↔ (j = 2 ∨ j = 3))) ∧
    (0 < base.conf.post_capture →
      (base.conf.event_gap ≤ 0 ∨
        base.frame_curr_ts.tv_sec - f3.monotonic.tv_sec < base.conf.event_gap) →
      (run_frames (mlp_ring_resize base tmp) [f1, f2, f3, f4]).cur.flags.postcap = true ∧
      (run_frames (mlp_ring_resize base tmp) [f1, f2, f3, f4]).cur.flags.save = true ∧
      (run_frames (mlp_ring_resize base tmp) [f1, f2, f3, f4]).cur.flags.precap = false) ∧
    (base.conf.post_capture = 0 →
      (run_frames (mlp_ring_resize base tmp) [f1, f2, f3, f4]).cur.flags = IMAGE_PRECAP) := by
  have hsizeR : (mlp_ring_resize base tmp).imgs.ring_size = 4 := by
    simp [mlp_ring_resize, hp, hm]
  have hlenR : (mlp_ring_resize base tmp).imgs.image_ring.length = 4 := by
    simp [mlp_ring_resize, hp, hm]
  have hinR : (mlp_ring_resize base tmp).imgs.ring_in = 0 := rfl
  have hconfR : (mlp_ring_resize base tmp).conf = base.conf := rfl
  have hthrR : (mlp_ring_resize base tmp).threshold = 10 := hthr
  have hmaxR : (mlp_ring_resize base tmp).threshold_maximum = 1000 := hmax
  have hstR : (mlp_ring_resize base tmp).startup_frames = 0 := hstartup
  have huserR : (mlp_ring_resize base tmp).event_user = false := hforced.2
  have htsR : (mlp_ring_resize base tmp).frame_curr_ts = base.frame_curr_ts := rfl
  simp only [run_frames_cons, run_frames_nil]
  refine ⟨hsizeR, hlenR, ?_⟩
  generalize mlp_ring_resize base tmp = R at hsizeR hlenR hinR hconfR hthrR hmaxR hstR huserR htsR ⊢
  have hemR : R.conf.emulate_motion = false := by rw [hconfR]; exact hforced.1
  have hmR : R.conf.minimum_motion_frames = 2 := by rw [hconfR]; exact hm
  have hokR : ring_ok R := ⟨by rw [hlenR, hsizeR]; rfl, by rw [hinR], by rw [hinR, hsizeR]; decide⟩
  -- frame 1, in slot 1
  obtain ⟨hok1, hconf1, hsize1, hin1, hthr1, hmax1, hst1, hcur1⟩ := frame_keeps R f1 hokR
  rw [hsizeR, hinR] at hin1
  have hin1 : (frame_step R f1).imgs.ring_in = 1 := hin1
  have hq1 : ¬ (R.threshold < f1.diffs ∧ f1.diffs < R.threshold_maximum) := by
    rw [hthrR, h1]; intro hh; omega
  obtain ⟨hmot1, htrg1, _, _⟩ := frame_quiet_outcome R f1 hokR ⟨hemR, huserR⟩ hq1
  have huser1 : (frame_step R f1).event_user = false := user_actions _ huserR
  have hts1 : (frame_step R f1).frame_curr_ts = base.frame_curr_ts := (frame_ts R f1).trans htsR
  have hconf1 : (frame_step R f1).conf = base.conf := hconf1.trans hconfR
  have hsize1 : (frame_step R f1).imgs.ring_size = 4 := hsize1.trans hsizeR
  have hthr1 : (frame_step R f1).threshold = 10 := hthr1.trans hthrR
  have hmax1 : (frame_step R f1).threshold_maximum = 1000 := hmax1.trans hmaxR
  have hst1 : (frame_step R f1).startup_frames = 0 := hst1.trans hstR
  rw [hin1] at hcur1
  rw [cur_eq _ 1 hcur1] at hmot1 htrg1
  refine ⟨⟨hcur1, by rw [cur_eq _ 1 hcur1]; exact hmot1, by rw [cur_eq _ 1 hcur1]; exact htrg1⟩, ?_⟩
  clear hokR hq1 hemR hmR hsizeR hlenR hinR hconfR hthrR hmaxR hstR huserR htsR
  generalize frame_step R f1 = S1 at *
  have hem1 : S1.conf.emulate_motion = false := by rw [hconf1]; exact hforced.1
  have hm1 : S1.conf.minimum_motion_frames = 2 := by rw [hconf1]; exact hm
  -- frame 2, in slot 2
  obtain ⟨hok2, hconf2, hsize2, hin2, hthr2, hmax2, hst2, hcur2⟩ := frame_keeps S1 f2 hok1
  rw [hsize1, hin1] at hin2
  have hin2 : (frame_step S1 f2).imgs.ring_in = 2 := hin2
  have hb2 : S1.threshold < f2.diffs ∧ f2.diffs < S1.threshold_maximum := by
    rw [hthr1, hmax1, h2]; decide
  have hb3 : S1.threshold < f3.diffs ∧ f3.diffs < S1.threshold_maximum := by
    rw [hthr1, hmax1, h3]; decide
  have hmot2 : (frame_step S1 f2).cur.flags.motion = true := frame_cur_motion S1 f2 hok1 hb2
  have hprev1 : (ring_at S1.imgs.image_ring S1.imgs.ring_in).flags.motion = false := by
    rw [hin1]; exact hmot1
  have htrg2 : (frame_step S1 f2).cur.flags.trigger = false :=
    ((run_last_outcome S1 [] f2 (by rw [hm1, hsize1]; decide) hok1 hst1 ⟨hem1, huser1⟩
      hprev1 (fun f hf => by cases hf) hb2 (by rw [hm1]; decide)).1 (by rw [hm1]; decide)).1
  have O3 := (run_last_outcome S1 [f2] f3 (by rw [hm1, hsize1]; decide) hok1 hst1 ⟨hem1, huser1⟩
    hprev1 (fun f hf => by rw [List.mem_singleton] at hf; rw [hf]; exact hb2) hb3
    (by rw [hm1]; show ((1 : Nat) : Int) + 1 ≤ 2; decide)).2
    (by rw [hm1]; show ((1 : Nat) : Int) + 1 = 2; decide)
  simp only [run_frames_cons, run_frames_nil] at O3
  rw [hsize1] at O3
  have huser2 : (frame_step S1 f2).event_user = false := user_actions _ huser1
  have hstop2 : (frame_step S1 f2).event_stop = false := stop_actions _
  have hts2 : (frame_step S1 f2).frame_curr_ts = base.frame_curr_ts := (frame_ts S1 f2).trans hts1
  have hconf2 : (frame_step S1 f2).conf = base.conf := hconf2.trans hconf1
  have hsize2 : (frame_step S1 f2).imgs.ring_size = 4 := hsize2.trans hsize1
  have hthr2 : (frame_step S1 f2).threshold = 10 := hthr2.trans hthr1
  have hmax2 : (frame_step S1 f2).threshold_maximum = 1000 := hmax2.trans hmax1
  have hst2 : (frame_step S1 f2).startup_frames = 0 := hst2.trans hst1
  rw [hin2] at hcur2
  rw [cur_eq _ 2 hcur2] at hmot2 htrg2
  have h21t : (ring_at (frame_step S1 f2).imgs.image_ring 1).flags.trigger = false :=
    (frame_other_bit S1 f2 hok1 image_flags.trigger trigger_bit_S (fun _ => rfl) 1
      (by rw [hsize1, hin1]; decide)).trans htrg1
  have h21m : (ring_at (frame_step S1 f2).imgs.image_ring 1).flags.motion = false :=
    (frame_other_bit S1 f2 hok1 image_flags.motion motion_bit_S (fun _ => rfl) 1
      (by rw [hsize1, hin1]; decide)).trans hmot1
  refine ⟨⟨hcur2, by rw [cur_eq _ 2 hcur2]; exact hmot2, by rw [cur_eq _ 2 hcur2]; exact htrg2⟩, ?_⟩
  clear hb2 hb3 hprev1 hmot1 htrg1 hcur1 hok1 hin1 hts1 hconf1 hsize1 hthr1 hmax1 hst1 huser1
    hem1 hm1
  generalize frame_step S1 f2 = S2 at *
  have hem2 : S2.conf.emulate_motion = false := by rw [hconf2]; exact hforced.1
  have hm2 : S2.conf.minimum_motion_frames = 2 := by rw [hconf2]; exact hm
  -- frame 3, in slot 3
  obtain ⟨hok3, hconf3, hsize3, hin3, hthr3, hmax3, hst3, hcur3⟩ := frame_keeps S2 f3 hok2
  rw [hsize2, hin2] at hin3
  have hin3 : (frame_step S2 f3).imgs.ring_in = 3 := hin3
  have hb3 : S2.threshold < f3.diffs ∧ f3.diffs < S2.threshold_maximum := by
    rw [hthr2, hmax2, h3]; decide
  have hmot3 : (frame_step S2 f3).cur.flags.motion = true := frame_cur_motion S2 f3 hok2 hb3
  rw [hin3] at hcur3
  rw [cur_eq _ 3 hcur3] at hmot3
  have h32m : (ring_at (frame_step S2 f3).imgs.image_ring 2).flags.motion = true :=
    (frame_other_bit S2 f3 hok2 image_flags.motion motion_bit_S (fun _ => rfl) 2
      (by rw [hsize2, hin2]; decide)).trans hmot2
  have h32t : (ring_at (frame_step S2 f3).imgs.image_ring 2).flags.trigger = false :=
    (frame_other_bit S2 f3 hok2 image_flags.trigger trigger_bit_S (fun _ => rfl) 2
      (by rw [hsize2, hin2]; decide)).trans htrg2
  have h31m : (ring_at (frame_step S2 f3).imgs.image_ring 1).flags.motion = false :=
    (frame_other_bit S2 f3 hok2 image_flags.motion motion_bit_S (fun _ => rfl) 1
      (by rw [hsize2, hin2]; decide)).trans h21m
  have h31t : (ring_at (frame_step S2 f3).imgs.image_ring 1).flags.trigger = false :=
    (frame_other_bit S2 f3 hok2 image_flags.trigger trigger_bit_S (fun _ => rfl) 1
      (by rw [hsize2, hin2]; decide)).trans h21t
  have hw : window_motion_count (frame_step S2 f3).imgs.image_ring S2.imgs.ring_size
      (next_slot S2.imgs.ring_size S2.imgs.ring_in) S2.conf.minimum_motion_frames.toNat
      = S2.conf.minimum_motion_frames.toNat := by
    rw [hsize2, hin2, hm2]
    apply (window_count_full _ _ _ _).mpr
    intro t ht
    have ht2 : t < 2 := ht
    have ht3 : t = 0 ∨ t = 1 := by omega
    rcases ht3 with rfl | rfl
    · exact hmot3
    · exact h32m
  have B3 := frame_trigger_budget S2 f3 hok2 ⟨hem2, huser2⟩ hst2 hb3 (by rw [hm2]; decide) hw
  rw [hconf2] at B3
  have hpost3 : (0 < base.conf.post_capture →
      (base.conf.event_gap ≤ 0 ∨
        base.frame_curr_ts.tv_sec - f3.monotonic.tv_sec < base.conf.event_gap) →
      (frame_step S2 f3).postcap > 0) ∧
      (base.conf.post_capture = 0 → (frame_step S2 f3).postcap ≤ 0) := by
    constructor
    · intro hpc hgap
      rw [B3.2 hstop2 (by rw [hts2]; exact hgap)]
      exact hpc
    · intro hpc
      rcases B3.1 with hh | hh
      · rw [hh, hpc]
      · rw [hh]
  obtain ⟨htrg3, _, hall3⟩ := O3
  rw [cur_eq _ 3 hcur3] at htrg3
  have huser3 : (frame_step S2 f3).event_user = false := user_actions _ huser2
  have hconf3 : (frame_step S2 f3).conf = base.conf := hconf3.trans hconf2
  have hsize3 : (frame_step S2 f3).imgs.ring_size = 4 := hsize3.trans hsize2
  have hthr3 : (frame_step S2 f3).threshold = 10 := hthr3.trans hthr2
  refine ⟨⟨hcur3, by rw [cur_eq _ 3 hcur3]; exact hmot3, by rw [cur_eq _ 3 hcur3]; exact htrg3,
    hall3⟩, ?_⟩
  clear hw B3 hall3 hb3 hmot2 htrg2 h21t h21m hcur2 hok2 hin2 hts2 hconf2 hsize2 hthr2 hmax2
    hst2 huser2 hstop2 hem2 hm2 hmax3 hst3
  generalize frame_step S2 f3 = S3 at *
  have hem3 : S3.conf.emulate_motion = false := by rw [hconf3]; exact hforced.1
  -- frame 4, in slot 0
  have hcur4 : (frame_step S3 f4).current_image = some 0 := by
    rw [frame_current, hsize3, hin3]; rfl
  have hq4 : ¬ (S3.threshold < f4.diffs ∧ f4.diffs < S3.threshold_maximum) := by
    rw [hthr3, h4]; intro hh; omega
  obtain ⟨hmot4, htrg4, hpos4, hpre4⟩ := frame_quiet_outcome S3 f4 hok3 ⟨hem3, huser3⟩ hq4
  have hne : ∀ j : Int, j = 1 ∨ j = 2 ∨ j = 3 →
      j.toNat ≠ (next_slot S3.imgs.ring_size S3.imgs.ring_in).toNat := by
    intro j hj
    rw [hsize3, hin3]
    rcases hj with rfl | rfl | rfl <;> decide
  have hT := fun j hj => frame_other_bit S3 f4 hok3 image_flags.trigger trigger_bit_S
    (fun _ => rfl) j (hne j hj)
  have hM := fun j hj => frame_other_bit S3 f4 hok3 image_flags.motion motion_bit_S
    (fun _ => rfl) j (hne j hj)
  refine ⟨⟨hcur4, hmot4, htrg4⟩, ?_, ?_, ?_⟩
  · intro j hj0 hj4
    rw [cur_eq _ 0 hcur4] at hmot4 htrg4
    have hj : j = 0 ∨ j = 1 ∨ j = 2 ∨ j = 3 := by omega
    rcases hj with rfl | rfl | rfl | rfl
    · rw [hmot4, htrg4]; decide
    · rw [hT 1 (Or.inl rfl), hM 1 (Or.inl rfl), h31t, h31m]; decide
    · rw [hT 2 (Or.inr (Or.inl rfl)), hM 2 (Or.inr (Or.inl rfl)), h32t, h32m]; decide
    · rw [hT 3 (Or.inr (Or.inr rfl)), hM 3 (Or.inr (Or.inr rfl)), htrg3, hmot3]; decide
  · intro hpc hgap
    exact hpos4 (hpost3.1 hpc hgap)
  · intro hpc
    exact frame_quiet_precap_flags S3 f4 hok3 ⟨hem3, huser3⟩ hq4 (hpost3.2 hpc)

/-- C4 at `cam_scenario` (`post_capture = 1`, no event gap) with a ring of blank
slots: the ring has 4 slots and frame 4 is tagged POSTCAP and SAVE, not PRECAP. -/
theorem scenario_scores_5_50_60_5_witness :
    (mlp_ring_resize cam_scenario (fun _ => default)).imgs.ring_size = 4 ∧
    (run_frames (mlp_ring_resize cam_scenario (fun _ => default))
      [scored_frame 5, scored_frame 50, scored_frame 60, scored_frame 5]).cur.flags.postcap
      = true ∧
    (run_frames (mlp_ring_resize cam_scenario (fun _ => default))
      [scored_frame 5, scored_frame 50, scored_frame 60, scored_frame 5]).cur.flags.save
      = true ∧
    (run_frames (mlp_ring_resize cam_scenario (fun _ => default))
      [scored_frame 5, scored_frame 50, scored_frame 60, scored_frame 5]).cur.flags.precap
      = false :=
  have h := scenario_scores_5_50_60_5 cam_scenario (fun _ => default)
    (scored_frame 5) (scored_frame 50) (scored_frame 60) (scored_frame 5)
    (by decide) (by decide) (by decide) (by decide) (by decide) ⟨by decide, by decide⟩
    (by decide) (by decide) (by decide) (by decide)
  ⟨h.1, h.2.2.2.2.2.2.2.1 (by decide) (Or.inl (by decide))⟩

/-! ## The lifecycle view through `mlp_actions` -/

theorem trace_append (l : List ext_call) (c : ext_call) (h : lifecycle_mark c = none) :
    (l ++ [c]).filterMap lifecycle_mark = l.filterMap lifecycle_mark := by
  rw [List.filterMap_append, List.filterMap_cons, h]
  simp

theorem life_call (cam : ctx_dev) (c : ext_call) (h : lifecycle_mark c = none) :
    (cam.call c).life = cam.life := by
  simp only [ctx_dev.life, ctx_dev.call, trace_append _ _ h]

theorem life_upd_cur (cam : ctx_dev) (f : ctx_image_data → ctx_image_data) :
    (cam.upd_cur f).life = cam.life := by
  unfold ctx_dev.upd_cur; split <;> rfl

theorem life_ring_process_body (cam : ctx_dev) :
    (mlp_ring_process_body cam).life = cam.life := by
  simp only [mlp_ring_process_body, ctx_dev.life, ctx_dev.call, pic_save_preview,
    apply_ite ctx_dev.event_nr, apply_ite ctx_dev.prev_event, apply_ite ctx_dev.calls,
    apply_ite (List.filterMap lifecycle_mark), ite_self,
    trace_append _ (ext_call.event EVENT_IMAGE_DETECTED _) rfl,
    trace_append _ (ext_call.pic_save_preview _) rfl]

theorem life_ring_process (cam : ctx_dev) : (mlp_ring_process cam).life = cam.life := by
  unfold mlp_ring_process
  simp only
  cases h : mlp_ring_process_loop (cam.imgs.image_ring.length + 1) cam with
  | none => rfl
  | some c => exact ring_process_loop_keeps ctx_dev.life life_ring_process_body _ cam c h

theorem life_areadetect (cam : ctx_dev) : (mlp_areadetect cam).life = cam.life := by
  unfold mlp_areadetect; split
  · split
    · exact life_call cam (ext_call.event EVENT_AREA_DETECTED none) rfl
    · rfl
  · rfl

theorem life_actions_lasttime (cam : ctx_dev) : (mlp_actions_lasttime cam).life = cam.life := by
  simp only [mlp_actions_lasttime, ctx_dev.life, ctx_dev.call, apply_ite ctx_dev.event_nr,
    apply_ite ctx_dev.prev_event, apply_ite ctx_dev.calls,
    apply_ite (List.filterMap lifecycle_mark), ite_self,
    trace_append _ ext_call.algsec_detect rfl]

theorem life_classify (cam : ctx_dev) : (mlp_actions_classify cam).life = cam.life := by
  cases hc : cam.current_image <;>
  simp only [mlp_actions_classify, ctx_dev.upd_cur, hc, ctx_dev.life,
    apply_ite ctx_dev.event_nr, apply_ite ctx_dev.prev_event, apply_ite ctx_dev.calls,
    apply_ite (List.filterMap lifecycle_mark), ite_self]

theorem life_actions_event_gap (cam : ctx_dev) : (mlp_actions_event_gap cam).life = cam.life := by
  unfold mlp_actions_event_gap; split <;> rfl

theorem life_actions_event_movie (cam : ctx_dev) :
    (mlp_actions_event_movie cam).life = cam.life := by
  unfold mlp_actions_event_movie; split
  · exact (life_call _ (ext_call.event EVENT_MOVIE_START none) rfl).trans
      (life_call cam (ext_call.event EVENT_MOVIE_END none) rfl)
  · rfl

theorem life_actions_event_end (cam : ctx_dev) :
    (mlp_actions_event_end cam).life = cam.life.closed := by
  simp only [mlp_actions_event_end, mlp_track_center, ctx_dev.life, dev_life.closed, ctx_dev.call,
    apply_ite ctx_dev.event_nr, apply_ite ctx_dev.prev_event, apply_ite ctx_dev.calls,
    apply_ite (List.filterMap lifecycle_mark), ite_self,
    trace_append _ (ext_call.event EVENT_IMAGE_PREVIEW _) rfl,
    trace_append _ (ext_call.event EVENT_SECDETECT _) rfl,
    trace_append _ (ext_call.dbse_exec "event_end") rfl,
    trace_append _ ext_call.exec_command rfl,
    List.filterMap_append, List.filterMap_cons, List.filterMap_nil, lifecycle_mark]

theorem life_actions_event_stop (cam : ctx_dev) :
    (mlp_actions_event_stop cam).life =
      if cam.event_stop = true ∧ cam.event_nr = cam.prev_event then cam.life.closed
      else cam.life := by
  unfold mlp_actions_event_stop
  simp only []
  by_cases h1 : cam.event_stop = true
  · rw [if_pos h1]
    show (if _ then _ else _ : ctx_dev).life = _
    by_cases h2 : cam.event_nr = cam.prev_event
    · rw [if_pos h2, if_pos ⟨h1, h2⟩, life_actions_event_end, life_ring_process]
    · rw [if_neg h2, if_neg (fun hh => h2 hh.2)]
  · rw [if_neg h1, if_neg (fun hh => h1 hh.1)]

theorem life_detected_trigger (cam : ctx_dev) (img : Int) :
    (mlp_detected_trigger cam img).life =
      if (ring_at cam.imgs.image_ring img).flags.trigger = true ∧ cam.event_nr ≠ cam.prev_event
      then cam.life.opened else cam.life := by
  unfold mlp_detected_trigger
  rw [test_land_trigger]
  by_cases h1 : (ring_at cam.imgs.image_ring img).flags.trigger = true
  · by_cases h2 : cam.event_nr ≠ cam.prev_event
    · rw [if_pos (⟨h1, h2⟩ : _ ∧ _)]
      simp only [if_pos h1, if_pos h2, mlp_info_reset, ctx_dev.life, dev_life.opened, ctx_dev.call,
        pic_save_preview,
        apply_ite ctx_dev.event_nr, apply_ite ctx_dev.prev_event, apply_ite ctx_dev.calls,
        apply_ite (List.filterMap lifecycle_mark), ite_self,
        trace_append _ (ext_call.event EVENT_MOTION _) rfl,
        trace_append _ (ext_call.dbse_exec "event_start") rfl,
        trace_append _ (ext_call.pic_save_preview _) rfl,
        List.filterMap_append, List.filterMap_cons, List.filterMap_nil, lifecycle_mark]
    · rw [if_neg (fun hh : _ ∧ _ => h2 hh.2)]
      simp only [if_pos h1, if_neg h2]
      exact life_call cam (ext_call.event EVENT_MOTION none) rfl
  · rw [if_neg (fun hh : _ ∧ _ => h1 hh.1)]
    simp only [if_neg h1]

theorem life_detected (cam : ctx_dev) (img : Int) :
    (mlp_detected cam img).life =
      if (ring_at cam.imgs.image_ring img).flags.trigger = true ∧ cam.event_nr ≠ cam.prev_event
      then cam.life.opened else cam.life := by
  have hflags : ∀ (r : List ctx_image_data) (v : Int),
      (ring_at (ring_upd r img (fun i => { i with cent_dist := v })) img).flags
        = (ring_at r img).flags := by
    intro r v
    rw [ring_at_upd]
    split <;> rfl
  have hpost : ∀ (c : ctx_dev) (loc : ctx_coord),
      (mlp_track_move
        (if (ring_at c.imgs.image_ring img).shot < c.conf.framerate then
          (if (if c.conf.stream_motion && !c.conf.setup_mode
                  && decide ((ring_at c.imgs.image_ring img).shot ≠ 1)
                then c.call (ext_call.event EVENT_STREAM (some img)) else c).conf.picture_output_motion
                ≠ "off"
            then (if c.conf.stream_motion && !c.conf.setup_mode
                  && decide ((ring_at c.imgs.image_ring img).shot ≠ 1)
                then c.call (ext_call.event EVENT_STREAM (some img)) else c).call
                  (ext_call.event EVENT_IMAGEM_DETECTED none)
            else (if c.conf.stream_motion && !c.conf.setup_mode
                  && decide ((ring_at c.imgs.image_ring img).shot ≠ 1)
                then c.call (ext_call.event EVENT_STREAM (some img)) else c))
         else c) loc).life = c.life := by
    intro c loc
    simp only [mlp_track_move, ctx_dev.life, ctx_dev.call,
      apply_ite ctx_dev.event_nr, apply_ite ctx_dev.prev_event, apply_ite ctx_dev.calls,
      apply_ite (List.filterMap lifecycle_mark), ite_self,
      trace_append _ (ext_call.event EVENT_STREAM _) rfl,
      trace_append _ (ext_call.event EVENT_IMAGEM_DETECTED _) rfl,
      trace_append _ ext_call.exec_command rfl]
  unfold mlp_detected
  simp only []
  by_cases hn : cam.new_img.has NEWIMG_CENTER = true
  · simp only [if_pos hn]
    rw [← hflags cam.imgs.image_ring]
    exact Eq.trans (hpost _ _) (life_detected_trigger _ img)
  · simp only [if_neg hn]
    exact Eq.trans (hpost _ _) (life_detected_trigger cam img)

theorem life_emulate_mark (cam : ctx_dev) : (mlp_actions_emulate_mark cam).life = cam.life := by
  cases hc : cam.current_image <;>
  simp only [mlp_actions_emulate_mark, ctx_dev.upd_cur, hc, ctx_dev.life, ctx_dev.call,
    apply_ite ctx_dev.event_nr, apply_ite ctx_dev.prev_event, apply_ite ctx_dev.calls,
    apply_ite ctx_dev.current_image,
    apply_ite (List.filterMap lifecycle_mark), ite_self,
    trace_append _ ext_call.movie_reset_start_time rfl]

theorem life_motion_mark (cam : ctx_dev) : (mlp_actions_motion_mark cam).life = cam.life := by
  cases hc : cam.current_image <;>
  simp only [mlp_actions_motion_mark, ctx_dev.upd_cur, hc, ctx_dev.life, ctx_dev.call,
    apply_ite ctx_dev.event_nr, apply_ite ctx_dev.prev_event, apply_ite ctx_dev.calls,
    apply_ite ctx_dev.current_image,
    apply_ite (List.filterMap lifecycle_mark), ite_self,
    trace_append _ ext_call.movie_reset_start_time rfl]

/-- What `mlp_detected`, called on the current frame at the end of
`mlp_actions_emulate` and `mlp_actions_motion`, does to the lifecycle. -/
theorem life_detected_cur (M : ctx_dev) :
    (match M.current_image with
      | some img => mlp_detected M img
      | none => M).life =
      if (match M.current_image with
          | some img => mlp_detected M img
          | none => M).cur.flags.trigger = true ∧ M.event_nr ≠ M.prev_event
      then M.life.opened else M.life := by
  cases hc : M.current_image with
  | none =>
    have hd : (default : ctx_image_data).flags.trigger = false := rfl
    simp only [ctx_dev.cur, hc, hd]
    rw [if_neg (fun hh : _ ∧ _ => by cases hh.1)]
  | some i =>
    simp only []
    rw [cur_eq _ i ((current_detected M i).trans hc),
      flags_of_map_eq _ _ (flags_detected M i) i]
    exact life_detected M i

theorem life_emulate (cam : ctx_dev) :
    (mlp_actions_emulate cam).life =
      if (mlp_actions_emulate cam).cur.flags.trigger = true ∧ cam.event_nr ≠ cam.prev_event
      then cam.life.opened else cam.life := by
  have h := life_detected_cur (mlp_actions_emulate_mark cam)
  have hl := life_emulate_mark cam
  rw [hl, show (mlp_actions_emulate_mark cam).event_nr = cam.event_nr from
      congrArg dev_life.event_nr hl,
    show (mlp_actions_emulate_mark cam).prev_event = cam.prev_event from
      congrArg dev_life.prev_event hl] at h
  exact h

theorem life_motion (cam : ctx_dev) :
    (mlp_actions_motion cam).life =
      if (mlp_actions_motion cam).cur.flags.trigger = true ∧ cam.event_nr ≠ cam.prev_event
      then cam.life.opened else cam.life := by
  have h := life_detected_cur (mlp_actions_motion_mark cam)
  have hl := life_motion_mark cam
  rw [hl, show (mlp_actions_motion_mark cam).event_nr = cam.event_nr from
      congrArg dev_life.event_nr hl,
    show (mlp_actions_motion_mark cam).prev_event = cam.prev_event from
      congrArg dev_life.prev_event hl] at h
  exact h

/-- The trigger step opens an event exactly when it goes through `mlp_detected`
(forced trigger or MOTION frame, startup frames elapsed) with the current frame
flagged TRIGGER while `event_nr` differs from `prev_event`. -/
theorem life_trigger (cam : ctx_dev) :
    (mlp_actions_trigger cam).life =
      if (((cam.conf.emulate_motion || cam.event_user) = true
            ∨ (cam.cur.flags &&& IMAGE_MOTION).test = true) ∧ cam.startup_frames = 0) ∧
          (mlp_actions_trigger cam).cur.flags.trigger = true ∧ cam.event_nr ≠ cam.prev_event
      then cam.life.opened else cam.life := by
  by_cases h : (cam.conf.emulate_motion || cam.event_user) = true ∧ cam.startup_frames = 0
  · rw [trigger_forced cam h, life_emulate]
    by_cases h2 : (mlp_actions_emulate cam).cur.flags.trigger = true ∧ cam.event_nr ≠ cam.prev_event
    · rw [if_pos h2, if_pos ⟨⟨Or.inl h.1, h.2⟩, h2⟩]
    · rw [if_neg h2, if_neg (fun hh => h2 hh.2)]
  · by_cases hm : (cam.cur.flags &&& IMAGE_MOTION).test = true ∧ cam.startup_frames = 0
    · rw [trigger_motion cam h hm, life_motion]
      by_cases h2 : (mlp_actions_motion cam).cur.flags.trigger = true
          ∧ cam.event_nr ≠ cam.prev_event
      · rw [if_pos h2, if_pos ⟨⟨Or.inr hm.1, hm.2⟩, h2⟩]
      · rw [if_neg h2, if_neg (fun hh => h2 hh.2)]
    · have hno : ¬ ((((cam.conf.emulate_motion || cam.event_user) = true
            ∨ (cam.cur.flags &&& IMAGE_MOTION).test = true) ∧ cam.startup_frames = 0) ∧
          (mlp_actions_trigger cam).cur.flags.trigger = true ∧ cam.event_nr ≠ cam.prev_event) := by
        intro hh
        rcases hh.1.1 with h3 | h3
        · exact h ⟨h3, hh.1.2⟩
        · exact hm ⟨h3, hh.1.2⟩
      rw [if_neg hno]
      by_cases hp : cam.postcap > 0
      · rw [trigger_postcap cam h hm hp]
        exact life_upd_cur cam _
      · rw [trigger_precap cam h hm hp]
        exact life_upd_cur cam _

theorem stop_actions_event_gap (cam : ctx_dev) :
    (mlp_actions_event_gap cam).event_stop = true ↔ (cam.event_stop = true ∨ gap_elapsed cam) := by
  unfold mlp_actions_event_gap gap_elapsed
  split
  · rename_i h
    exact ⟨fun _ => Or.inr h, fun _ => rfl⟩
  · rename_i h
    exact ⟨fun hh => Or.inl hh, fun hh => hh.elim id (fun h2 => absurd h2 h)⟩

/-- `mlp_actions_event` closes the event exactly when a stop is pending or the
gap has run out while `event_nr` equals `prev_event`. -/
theorem life_actions_event (cam : ctx_dev) :
    (mlp_actions_event cam).life =
      if (cam.event_stop = true ∨ gap_elapsed cam) ∧ cam.event_nr = cam.prev_event
      then cam.life.closed else cam.life := by
  unfold mlp_actions_event
  rw [life_actions_event_movie, life_actions_event_stop, life_actions_event_gap,
    show (mlp_actions_event_gap cam).event_nr = cam.event_nr from
      congrArg dev_life.event_nr (life_actions_event_gap cam),
    show (mlp_actions_event_gap cam).prev_event = cam.prev_event from
      congrArg dev_life.prev_event (life_actions_event_gap cam)]
  by_cases h : (cam.event_stop = true ∨ gap_elapsed cam) ∧ cam.event_nr = cam.prev_event
  · rw [if_pos h, if_pos ⟨(stop_actions_event_gap cam).mpr h.1, h.2⟩]
  · rw [if_neg h, if_neg (fun hh => h ⟨(stop_actions_event_gap cam).mp hh.1, hh.2⟩)]

theorem actions_eq_event (cam : ctx_dev) :
    mlp_actions cam = mlp_actions_event (actions_before_event cam) := rfl

theorem life_before_event (cam : ctx_dev) :
    (actions_before_event cam).life = (mlp_actions_trigger (mlp_actions_classify cam)).life :=
  (life_ring_process _).trans ((life_areadetect _).trans (life_actions_lasttime _))

/-- The lifecycle across one `mlp_actions`: what the trigger step left, closed
when `mlp_actions_event` finds a stop pending or the gap run out with
`event_nr = prev_event`. -/
theorem life_actions (cam : ctx_dev) :
    (mlp_actions cam).life =
      if ((actions_before_event cam).event_stop = true ∨ gap_elapsed (actions_before_event cam)) ∧
          (mlp_actions_trigger (mlp_actions_classify cam)).event_nr
            = (mlp_actions_trigger (mlp_actions_classify cam)).prev_event
      then (mlp_actions_trigger (mlp_actions_classify cam)).life.closed
      else (mlp_actions_trigger (mlp_actions_classify cam)).life := by
  rw [actions_eq_event, life_actions_event, life_before_event,
    show (actions_before_event cam).event_nr
        = (mlp_actions_trigger (mlp_actions_classify cam)).event_nr from
      congrArg dev_life.event_nr (life_before_event cam),
    show (actions_before_event cam).prev_event
        = (mlp_actions_trigger (mlp_actions_classify cam)).prev_event from
      congrArg dev_life.prev_event (life_before_event cam)]

/-! ## Where `prev_event` is written -/

theorem life_resetimages (cam : ctx_dev) (realtime monotonic : timespec) :
    (mlp_resetimages cam realtime monotonic).life = cam.life := by
  unfold mlp_resetimages
  simp only []
  exact life_upd_cur _ _

theorem life_prepare (cam : ctx_dev) (now : timespec) : (mlp_prepare cam now).life = cam.life := by
  simp only [mlp_prepare, ctx_dev.life, apply_ite ctx_dev.event_nr, apply_ite ctx_dev.prev_event,
    apply_ite ctx_dev.calls, apply_ite (List.filterMap lifecycle_mark), ite_self]

theorem life_scored (cam : ctx_dev) (f : frame_input) : (frame_scored cam f).life = cam.life :=
  (life_upd_cur _ _).trans (life_resetimages cam _ _)

/-- C11, as the spec states it, fails: at `cam_first_trigger` (`event_nr = 1`,
`prev_event = 0`, frame flagged TRIGGER) `mlp_detected_trigger` opens the event
and moves `prev_event` from 0 to 1; at `cam_open_event` (stop pending,
`event_nr = prev_event = 4`) the closure by `mlp_actions_event` moves `event_nr`
to 5 and leaves `prev_event` at 4. -/
theorem prev_event_close_path_counterexample :
    (ring_at cam_first_trigger.imgs.image_ring 0).flags.trigger = true ∧
    cam_first_trigger.event_nr ≠ cam_first_trigger.prev_event ∧
    cam_first_trigger.prev_event = 0 ∧
    (mlp_detected_trigger cam_first_trigger 0).prev_event = 1 ∧
    (cam_open_event.event_stop = true ∧ cam_open_event.event_nr = cam_open_event.prev_event) ∧
    (mlp_actions_event cam_open_event).event_nr = cam_open_event.event_nr + 1 ∧
    (mlp_actions_event cam_open_event).prev_event = cam_open_event.prev_event := by
  decide

/-- C11, amended: `prev_event` is written only on the event-open path.
`mlp_detected_trigger`, on a frame flagged TRIGGER while `event_nr` differs from
`prev_event`, sets `prev_event` to `event_nr`, and leaves it otherwise;
`mlp_actions_event`, closure included, leaves `prev_event` as it was, and so do
`mlp_prepare`, `mlp_resetimages` and `mlp_ring_process`; across one `mlp_actions`
`prev_event` changes only when the trigger step opened an event (it is then the old
`event_nr`, and `event_start` was reported). -/
theorem prev_event_open_path :
    (∀ (cam : ctx_dev) (img : Int),
      (mlp_detected_trigger cam img).prev_event =
        if (ring_at cam.imgs.image_ring img).flags.trigger = true ∧ cam.event_nr ≠ cam.prev_event
        then cam.event_nr else cam.prev_event) ∧
    (∀ cam : ctx_dev, (mlp_actions_event cam).prev_event = cam.prev_event) ∧
    (∀ (cam : ctx_dev) (now : timespec), (mlp_prepare cam now).prev_event = cam.prev_event) ∧
    (∀ (cam : ctx_dev) (realtime monotonic : timespec),
      (mlp_resetimages cam realtime monotonic).prev_event = cam.prev_event) ∧
    (∀ cam : ctx_dev, (mlp_ring_process cam).prev_event = cam.prev_event) ∧
    (∀ cam : ctx_dev, (mlp_actions cam).prev_event ≠ cam.prev_event →
      cam.event_nr ≠ cam.prev_event ∧ (mlp_actions cam).prev_event = cam.event_nr ∧
      (mlp_actions_trigger (mlp_actions_classify cam)).life = cam.life.opened) := by
  refine ⟨?_, ?_, ?_, ?_, ?_, ?_⟩
  · intro cam img
    have h := congrArg dev_life.prev_event (life_detected_trigger cam img)
    rw [apply_ite dev_life.prev_event] at h
    exact h
  · intro cam
    exact congrArg dev_opened.prev_event (opened_actions_event cam)
  · intro cam now
    exact congrArg dev_life.prev_event (life_prepare cam now)
  · intro cam realtime monotonic
    exact congrArg dev_life.prev_event (life_resetimages cam realtime monotonic)
  · intro cam
    exact congrArg dev_life.prev_event (life_ring_process cam)
  · intro cam hne
    have hp : (mlp_actions cam).prev_event
        = (mlp_actions_trigger (mlp_actions_classify cam)).prev_event :=
      congrArg dev_opened.prev_event (opened_actions cam)
    have ht := life_trigger (mlp_actions_classify cam)
    have hc := life_classify cam
    rw [hc, show (mlp_actions_classify cam).event_nr = cam.event_nr from
        congrArg dev_life.event_nr hc,
      show (mlp_actions_classify cam).prev_event = cam.prev_event from
        congrArg dev_life.prev_event hc] at ht
    rw [hp] at hne ⊢
    split at ht
    · rename_i ho
      exact ⟨ho.2.2, congrArg dev_life.prev_event ht, ht⟩
    · exact absurd (congrArg dev_life.prev_event ht) hne

/-- C11, amended, at `cam_forced_closed` (forced trigger, `event_nr = 1`,
`prev_event = 0`): `mlp_actions` opens the event and `prev_event` becomes 1. -/
theorem prev_event_open_path_witness :
    (mlp_actions cam_forced_closed).prev_event ≠ cam_forced_closed.prev_event ∧
    cam_forced_closed.event_nr ≠ cam_forced_closed.prev_event ∧
    (mlp_actions cam_forced_closed).prev_event = cam_forced_closed.event_nr :=
  have h := prev_event_open_path.2.2.2.2.2 cam_forced_closed (by decide)
  ⟨by decide, h.1, h.2.1⟩

/-! ## Openings and closures alternate -/

theorem alternates_snoc (tr : List Bool) : ∀ e : Bool, alternates e tr = true →
    alternates e (tr ++ [if tr.length % 2 = 0 then e else !e]) = true := by
  induction tr with
  | nil => intro e _; simp [alternates]
  | cons x xs ih =>
    intro e h
    simp only [alternates, Bool.and_eq_true] at h
    have h2 := ih (!e) h.2
    simp only [List.cons_append, alternates, Bool.and_eq_true, List.length_cons]
    refine ⟨h.1, ?_⟩
    have e1 : (if (xs.length + 1) % 2 = 0 then e else !e)
        = (if xs.length % 2 = 0 then !e else !!e) := by
      rw [Bool.not_not]
      by_cases hx : xs.length % 2 = 0
      · rw [if_pos hx, if_neg (by omega)]
      · rw [if_neg hx, if_pos (by omega)]
    rw [e1]
    exact h2

theorem alternates_count (tr : List Bool) : ∀ e : Bool, alternates e tr = true →
    tr.count e = (tr.length + 1) / 2 ∧ tr.count (!e) = tr.length / 2 := by
  induction tr with
  | nil => intro e _; simp
  | cons x xs ih =>
    intro e h
    simp only [alternates, Bool.and_eq_true, beq_iff_eq] at h
    have h2 := ih (!e) h.2
    rw [Bool.not_not] at h2
    rw [h.1]
    have hne : (e == !e) = false := by cases e <;> rfl
    rw [List.count_cons_self, List.count_cons, hne, h2.1, h2.2]
    simp only [List.length_cons]
    constructor
    · omega
    · simp only [Bool.false_eq_true, if_false]; omega

theorem life_inv_opened (base : List Bool) (l : dev_life) (h : life_inv base l)
    (hne : l.event_nr ≠ l.prev_event) : life_inv base l.opened := by
  obtain ⟨tr, htr, halt, hnr, hprev, hc⟩ := h
  have hcount := alternates_count tr true halt
  have heven : tr.length % 2 = 0 := by
    rcases hc with hc | hc
    · have := hcount.1; have := hcount.2; simp only [Bool.not_true] at *; omega
    · exfalso; apply hne; rw [hnr, hprev, hc]; push_cast; omega
  have hs := alternates_snoc tr true halt
  rw [if_pos heven] at hs
  refine ⟨tr ++ [true], ?_, hs, ?_, ?_, ?_⟩
  · show l.trace ++ [true] = _
    rw [htr, List.append_assoc]
  · show l.event_nr = _
    rw [hnr]; simp
  · show l.event_nr = _
    rw [hnr]
    have : tr.count true = tr.count false := by
      have := hcount.1; have := hcount.2; simp only [Bool.not_true] at *; omega
    simp [this]
    omega
  · right
    have : tr.count true = tr.count false := by
      have := hcount.1; have := hcount.2; simp only [Bool.not_true] at *; omega
    simp [this]

theorem life_inv_closed (base : List Bool) (l : dev_life) (h : life_inv base l)
    (heq : l.event_nr = l.prev_event) : life_inv base l.closed := by
  obtain ⟨tr, htr, halt, hnr, hprev, hc⟩ := h
  have hcount := alternates_count tr true halt
  have hct : tr.count true = tr.count false + 1 := by
    rw [hnr, hprev] at heq
    omega
  have hodd : ¬ tr.length % 2 = 0 := by
    have := hcount.1; have := hcount.2; simp only [Bool.not_true] at *; omega
  have hs := alternates_snoc tr true halt
  rw [if_neg hodd] at hs
  refine ⟨tr ++ [false], ?_, hs, ?_, ?_, ?_⟩
  · show l.trace ++ [false] = _
    rw [htr, List.append_assoc]
  · show l.event_nr + 1 = _
    rw [hnr]; simp
    omega
  · show l.prev_event = _
    rw [hprev]; simp
  · left
    simp [hct]

/-- One `mlp_actions`: the trigger step leaves the lifecycle or opens an event
(only while `event_nr` differs from `prev_event`), then `mlp_actions_event`
leaves it or closes the event (only while `event_nr` equals `prev_event`). -/
theorem life_step (e : ctx_dev) :
    ((mlp_actions_trigger (mlp_actions_classify e)).life = e.life ∨
      (e.event_nr ≠ e.prev_event ∧
        (mlp_actions_trigger (mlp_actions_classify e)).life = e.life.opened)) ∧
    ((mlp_actions e).life = (mlp_actions_trigger (mlp_actions_classify e)).life ∨
      ((mlp_actions_trigger (mlp_actions_classify e)).life.event_nr
          = (mlp_actions_trigger (mlp_actions_classify e)).life.prev_event ∧
        (mlp_actions e).life = (mlp_actions_trigger (mlp_actions_classify e)).life.closed)) := by
  constructor
  · have ht := life_trigger (mlp_actions_classify e)
    have hc := life_classify e
    rw [hc, show (mlp_actions_classify e).event_nr = e.event_nr from
        congrArg dev_life.event_nr hc,
      show (mlp_actions_classify e).prev_event = e.prev_event from
        congrArg dev_life.prev_event hc] at ht
    split at ht
    · rename_i ho
      exact Or.inr ⟨ho.2.2, ht⟩
    · exact Or.inl ht
  · have ha := life_actions e
    split at ha
    · rename_i hcl
      exact Or.inr ⟨hcl.2, ha⟩
    · exact Or.inl ha

theorem life_inv_step (base : List Bool) (e : ctx_dev) (h : life_inv base e.life) :
    life_inv base (mlp_actions e).life := by
  obtain ⟨h1, h2⟩ := life_step e
  have hT : life_inv base (mlp_actions_trigger (mlp_actions_classify e)).life := by
    rcases h1 with h1 | ⟨hne, h1⟩
    · rw [h1]; exact h
    · rw [h1]; exact life_inv_opened base _ h hne
  rcases h2 with h2 | ⟨heq, h2⟩
  · rw [h2]; exact hT
  · rw [h2]; exact life_inv_closed base _ hT heq

theorem life_inv_init (cam : ctx_dev) (now1 now2 : timespec) (motapp_pause : Bool) :
    life_inv cam.life.trace (mlp_init_values cam now1 now2 motapp_pause).life := by
  have h1 : (mlp_init_values cam now1 now2 motapp_pause).event_nr = 1 := by
    simp only [mlp_init_values, apply_ite ctx_dev.event_nr, ite_self]
  have h2 : (mlp_init_values cam now1 now2 motapp_pause).prev_event = 0 := by
    simp only [mlp_init_values, apply_ite ctx_dev.prev_event, ite_self]
  have h3 : (mlp_init_values cam now1 now2 motapp_pause).calls = cam.calls := by
    simp only [mlp_init_values, apply_ite ctx_dev.calls, ite_self]
  refine ⟨[], ?_, rfl, ?_, ?_, Or.inl rfl⟩
  · show List.filterMap lifecycle_mark (mlp_init_values cam now1 now2 motapp_pause).calls = _
    rw [h3, List.append_nil]; rfl
  · exact h1
  · exact h2

theorem life_inv_run (base : List Bool) (c final : ctx_dev) (h0 : life_inv base c.life)
    (hrun : pipeline_run c final) : life_inv base final.life := by
  induction hrun with
  | start => exact h0
  | frame m e _ he ih =>
    apply life_inv_step
    rw [he]
    exact ih

theorem step_event_nr (e : ctx_dev) :
    ((mlp_actions e).event_nr = e.event_nr ∧
      (mlp_actions e).life.trace.count false = e.life.trace.count false) ∨
    ((mlp_actions e).event_nr = e.event_nr + 1 ∧
      (mlp_actions e).life.trace.count false = e.life.trace.count false + 1) := by
  obtain ⟨h1, h2⟩ := life_step e
  have hT : (mlp_actions_trigger (mlp_actions_classify e)).life.event_nr = e.event_nr ∧
      (mlp_actions_trigger (mlp_actions_classify e)).life.trace.count false
        = e.life.trace.count false := by
    rcases h1 with h1 | ⟨_, h1⟩
    · rw [h1]; exact ⟨rfl, rfl⟩
    · rw [h1]
      refine ⟨rfl, ?_⟩
      show (e.life.trace ++ [true]).count false = _
      simp
  rcases h2 with h2 | ⟨_, h2⟩
  · left
    rw [show (mlp_actions e).event_nr = (mlp_actions e).life.event_nr from rfl, h2]
    exact hT
  · right
    rw [show (mlp_actions e).event_nr = (mlp_actions e).life.event_nr from rfl, h2]
    constructor
    · show (mlp_actions_trigger (mlp_actions_classify e)).life.event_nr + 1 = _
      rw [hT.1]
    · show ((mlp_actions_trigger (mlp_actions_classify e)).life.trace ++ [false]).count false = _
      rw [List.count_append, hT.2]
      simp

theorem run_ticks_snoc (cam : ctx_dev) (ticks : List tick_input) (t : tick_input) :
    run_ticks cam (ticks ++ [t]) = tick_step (run_ticks cam ticks) t := by
  unfold run_ticks
  rw [List.foldl_append]
  rfl

/-- The iterations of `run_ticks` make a run of the pipeline. -/
theorem run_ticks_pipeline (cam : ctx_dev) (ticks : List tick_input) :
    pipeline_run cam (run_ticks cam ticks) := by
  induction ticks using List.reverseRecOn with
  | nil => exact pipeline_run.start cam
  | append_singleton ts t ih =>
    rw [run_ticks_snoc]
    exact pipeline_run.frame cam _ _ ih ((life_scored _ _).trans (life_prepare _ _))

/-- C12: in every run of the per-frame pipeline from `mlp_init_values`, the
lifecycle reports made since (`true`: `event_start`, an opening; `false`:
`event_end`, a closure) alternate strictly, an opening first; `event_nr` is 1 plus
the number of closures and `prev_event` the number of openings, the openings
being as many as the closures or one more.  Across one `mlp_actions`, `event_nr`
stays or grows by exactly one, and it grows exactly when that call reports one
more `event_end`: it never decreases and is never incremented otherwise. -/
theorem event_lifecycle_alternates (cam : ctx_dev) (now1 now2 : timespec) (motapp_pause : Bool)
    (final : ctx_dev)
    (hrun : pipeline_run (mlp_init_values cam now1 now2 motapp_pause) final) :
    (∃ tr : List Bool, final.life.trace = cam.life.trace ++ tr ∧ alternates true tr = true ∧
      final.event_nr = 1 + (tr.count false : Int) ∧ final.prev_event = (tr.count true : Int) ∧
      (tr.count true = tr.count false ∨ tr.count true = tr.count false + 1)) ∧
    (∀ e : ctx_dev,
      ((mlp_actions e).event_nr = e.event_nr ∧
        (mlp_actions e).life.trace.count false = e.life.trace.count false) ∨
      ((mlp_actions e).event_nr = e.event_nr + 1 ∧
        (mlp_actions e).life.trace.count false = e.life.trace.count false + 1)) :=
  ⟨life_inv_run cam.life.trace _ final (life_inv_init cam now1 now2 motapp_pause) hrun,
    step_event_nr⟩

set_option maxRecDepth 100000 in
/-- C12 at `cam_fresh`: a MOTION frame opens the first event and the quiet frame
after it closes it; the reports are `event_start`, `event_end` and `event_nr` is 2. -/
theorem event_lifecycle_alternates_witness :
    (run_ticks (mlp_init_values cam_fresh {} {} false) ticks_motion_quiet).life.trace
      = [true, false] ∧
    (run_ticks (mlp_init_values cam_fresh {} {} false) ticks_motion_quiet).event_nr = 2 ∧
    (∃ tr : List Bool,
      (run_ticks (mlp_init_values cam_fresh {} {} false) ticks_motion_quiet).life.trace
        = cam_fresh.life.trace ++ tr ∧ alternates true tr = true ∧
      (run_ticks (mlp_init_values cam_fresh {} {} false) ticks_motion_quiet).event_nr
        = 1 + (tr.count false : Int) ∧
      (run_ticks (mlp_init_values cam_fresh {} {} false) ticks_motion_quiet).prev_event
        = (tr.count true : Int) ∧
      (tr.count true = tr.count false ∨ tr.count true = tr.count false + 1)) :=
  ⟨by decide, by decide,
    (event_lifecycle_alternates cam_fresh {} {} false _ (run_ticks_pipeline _ _)).1⟩

/-! ## Closure without an event gap -/

/-- A frame with no forced trigger whose score is not a motion score takes
neither the forced nor the motion branch of the trigger step. -/
theorem quiet_branch (cam : ctx_dev) (f : frame_input) (h : ring_ok cam)
    (hforced : cam.conf.emulate_motion = false ∧ cam.event_user = false)
    (hq : ¬ (cam.threshold < f.diffs ∧ f.diffs < cam.threshold_maximum)) :
    ¬ (((frame_classified cam f).conf.emulate_motion
        || (frame_classified cam f).event_user) = true
        ∧ (frame_classified cam f).startup_frames = 0) ∧
    ¬ (((frame_classified cam f).cur.flags &&& IMAGE_MOTION).test = true
        ∧ (frame_classified cam f).startup_frames = 0) := by
  have hcore := classified_core cam f
  have hconf : (frame_classified cam f).conf = cam.conf := congrArg dev_core.conf hcore
  have huser : (frame_classified cam f).event_user = false :=
    (congrArg dev_ctl.event_user (classified_ctl cam f)).trans hforced.2
  have hflagsX : (frame_classified cam f).cur.flags = IMAGE_NONE := by
    have hc := classified_cur_flags cam f h
    rw [if_neg (fun hh => hq ⟨hh.1, hh.2⟩)] at hc
    exact hc
  constructor
  · rw [hconf, hforced.1, huser]; simp
  · rw [test_land_motion, hflagsX]
    intro hh; cases hh.1

theorem ctl_before_event (cam : ctx_dev) :
    (actions_before_event cam).ctl
      = { (mlp_actions_trigger (mlp_actions_classify cam)).ctl with
          lasttime := if (mlp_actions_trigger (mlp_actions_classify cam)).cur.flags.save = true
            then (mlp_actions_trigger (mlp_actions_classify cam)).cur.monots.tv_sec
            else (mlp_actions_trigger (mlp_actions_classify cam)).lasttime } :=
  (ctl_ring_process _).trans ((ctl_areadetect _).trans (ctl_actions_lasttime _))

theorem cfg_before_event (cam : ctx_dev) :
    (actions_before_event cam).core.cfg = cam.core.cfg := by
  unfold actions_before_event
  rw [(core_ring_process _).trans ((core_areadetect _).trans (core_actions_lasttime _)),
    trigger_cfg, classify_core]
  rfl

/-- C14, as the spec states it, fails: at `cam_detecting_budget` (no event gap,
detecting, event open, a post-capture budget of 3) a quiet frame (score 5, not
between 10 and 1000, no forced trigger) is tagged POSTCAP and the event stays
open: no `event_end` is reported and `event_nr` stays. -/
theorem gap_zero_any_budget_counterexample :
    cam_detecting_budget.conf.event_gap = 0 ∧ cam_detecting_budget.detecting_motion = true ∧
    cam_detecting_budget.event_nr = cam_detecting_budget.prev_event ∧
    cam_detecting_budget.postcap = 3 ∧
    (frame_step cam_detecting_budget (scored_frame 5)).life.trace
      = cam_detecting_budget.life.trace ∧
    (frame_step cam_detecting_budget (scored_frame 5)).event_nr
      = cam_detecting_budget.event_nr ∧
    (frame_step cam_detecting_budget (scored_frame 5)).cur.flags.postcap = true := by
  decide

/-- C14, amended: with `event_gap = 0`, the device detecting and an event open,
a frame that is not a motion frame (score not strictly between the thresholds,
no forced trigger) closes the event within its own `mlp_actions` when no
post-capture budget is left: `event_end` is reported and `event_nr` moves one
ahead.  While the budget is positive and no stop is pending, the frame uses one
unit of the budget instead and the event stays open, the device detecting. -/
theorem gap_zero_quiet_closes (cam : ctx_dev) (f : frame_input) (h : ring_ok cam)
    (hgap : cam.conf.event_gap = 0) (hdet : cam.detecting_motion = true)
    (hopen : cam.event_nr = cam.prev_event)
    (hforced : cam.conf.emulate_motion = false ∧ cam.event_user = false)
    (hq : ¬ (cam.threshold < f.diffs ∧ f.diffs < cam.threshold_maximum)) :
    (cam.postcap ≤ 0 →
      (frame_step cam f).life.trace = cam.life.trace ++ [false] ∧
      (frame_step cam f).event_nr = cam.event_nr + 1 ∧
      (frame_step cam f).prev_event = cam.prev_event) ∧
    (cam.postcap > 0 → cam.event_stop = false →
      (frame_step cam f).life = cam.life ∧
      (frame_step cam f).postcap = cam.postcap - 1 ∧
      (frame_step cam f).detecting_motion = true) := by
  obtain ⟨hnf, hmo⟩ := quiet_branch cam f h hforced hq
  have hcore := classified_core cam f
  have hconfX : (frame_classified cam f).conf = cam.conf := congrArg dev_core.conf hcore
  have hdetX : (frame_classified cam f).detecting_motion = cam.detecting_motion :=
    congrArg dev_core.detecting_motion hcore
  have hctlX := classified_ctl cam f
  have hlifeX : (frame_classified cam f).life = cam.life :=
    (life_classify _).trans (life_scored cam f)
  have hctlE := ctl_before_event (frame_scored cam f)
  have hcfgE := cfg_before_event (frame_scored cam f)
  have hgapE : ¬ gap_elapsed (actions_before_event (frame_scored cam f)) := by
    intro hh
    have h1 := hh.1
    rw [show (actions_before_event (frame_scored cam f)).conf = cam.conf from
      congrArg dev_core.conf hcfgE, hgap] at h1
    exact absurd h1 (by decide)
  have hlife := life_actions (frame_scored cam f)
  constructor
  · intro hp
    have hp2 : ¬ (frame_classified cam f).postcap > 0 := by
      rw [show (frame_classified cam f).postcap = cam.postcap from
        congrArg dev_ctl.postcap hctlX]
      omega
    have hT := trigger_precap _ hnf hmo hp2
    have hTlife : (mlp_actions_trigger (frame_classified cam f)).life = cam.life := by
      rw [hT]; exact (life_upd_cur _ _).trans hlifeX
    have hTstop : (mlp_actions_trigger (frame_classified cam f)).event_stop = true := by
      rw [hT]
      show (if _ then true else _) = true
      rw [if_pos ⟨by rw [hconfX]; exact hgap, by rw [hdetX]; exact hdet⟩]
    have hEstop : (actions_before_event (frame_scored cam f)).event_stop = true :=
      (congrArg dev_ctl.event_stop hctlE).trans hTstop
    have hclosed : (frame_step cam f).life = cam.life.closed := by
      rw [if_pos ⟨Or.inl hEstop, (congrArg dev_life.event_nr hTlife).trans
        (hopen.trans (congrArg dev_life.prev_event hTlife).symm)⟩] at hlife
      exact hlife.trans (congrArg dev_life.closed hTlife)
    exact ⟨congrArg dev_life.trace hclosed, congrArg dev_life.event_nr hclosed,
      congrArg dev_life.prev_event hclosed⟩
  · intro hp hs
    have hp2 : (frame_classified cam f).postcap > 0 := by
      rw [show (frame_classified cam f).postcap = cam.postcap from
        congrArg dev_ctl.postcap hctlX]
      exact hp
    have hT := trigger_postcap _ hnf hmo hp2
    have hTlife : (mlp_actions_trigger (frame_classified cam f)).life = cam.life := by
      rw [hT]; exact (life_upd_cur _ _).trans hlifeX
    have hTctl : (mlp_actions_trigger (frame_classified cam f)).ctl
        = { cam.ctl with postcap := cam.postcap - 1 } := by
      rw [hT]
      show ({ ((frame_classified cam f).upd_cur _).ctl with
        postcap := (frame_classified cam f).postcap - 1 } : dev_ctl) = _
      rw [ctl_upd_cur, hctlX, show (frame_classified cam f).postcap = cam.postcap from
        congrArg dev_ctl.postcap hctlX]
    have hEstop : (actions_before_event (frame_scored cam f)).event_stop = false :=
      (congrArg dev_ctl.event_stop hctlE).trans ((congrArg dev_ctl.event_stop hTctl).trans hs)
    refine ⟨?_, ?_, ?_⟩
    · rw [if_neg (fun hh => hh.1.elim (fun h1 => by rw [hEstop] at h1; cases h1) hgapE)] at hlife
      exact hlife.trans hTlife
    · have hpc := postcap_actions_event _ hEstop hgapE
      exact hpc.trans ((congrArg dev_ctl.postcap hctlE).trans (congrArg dev_ctl.postcap hTctl))
    · have hc := frame_core cam f
      rw [show (frame_step cam f).detecting_motion = (frame_step cam f).core.detecting_motion
        from rfl, hc, hT]
      show ((frame_classified cam f).upd_cur _).core.detecting_motion = true
      rw [core_upd_cur]
      exact hdetX.trans hdet

/-- C14, amended, at `cam_detecting_spent` (the budget used up): the quiet frame
closes the event. -/
theorem gap_zero_quiet_closes_witness :
    (frame_step cam_detecting_spent (scored_frame 5)).life.trace
      = cam_detecting_spent.life.trace ++ [false] ∧
    (frame_step cam_detecting_spent (scored_frame 5)).event_nr
      = cam_detecting_spent.event_nr + 1 :=
  have h := (gap_zero_quiet_closes cam_detecting_spent (scored_frame 5)
    ⟨by decide, by decide, by decide⟩ (by decide) (by decide) (by decide)
    ⟨by decide, by decide⟩ (by decide)).1 (by decide)
  ⟨h.1, h.2.1⟩

/-! ## Closure by the event gap -/

/-- A flag test that no `|= m` can turn on. -/
theorem ring_upd_flag_le (ring : List ctx_image_data) (i : Int) (m : image_flags)
    (q : image_flags → Bool) (hq : ∀ f, q (f ||| m) = true → q f = true) (j : Int)
    (h : q (ring_at (ring_upd ring i (set_flags m)) j).flags = true) :
    q (ring_at ring j).flags = true := by
  rw [ring_at_upd] at h
  split at h
  · rename_i hh
    rw [set_flags_flags] at h
    rw [← ring_at_congr _ _ _ hh.1]
    exact hq _ h
  · exact h

theorem upd_cur_flag_le (cam : ctx_dev) (m : image_flags)
    (q : image_flags → Bool) (hq : ∀ f, q (f ||| m) = true → q f = true) (j : Int)
    (h : q (ring_at (cam.upd_cur (set_flags m)).imgs.image_ring j).flags = true) :
    q (ring_at cam.imgs.image_ring j).flags = true := by
  unfold ctx_dev.upd_cur at h
  split at h
  · exact ring_upd_flag_le _ _ m q hq j h
  · exact h

theorem save_all_flag_le (ring : List ctx_image_data) (ring_size : Int)
    (q : image_flags → Bool) (hq : ∀ f, q (f ||| IMAGE_SAVE) = true → q f = true) (j : Int)
    (h : q (ring_at (ring_save_all ring ring_size) j).flags = true) :
    q (ring_at ring j).flags = true := by
  rw [ring_at_save_all] at h
  split at h
  · rw [set_flags_flags] at h
    exact hq _ h
  · exact h

/-- TRIGGER without SAVE. -/
theorem unsaved_TS (f : image_flags) :
    ((f ||| (IMAGE_TRIGGER ||| IMAGE_SAVE)).trigger && !(f ||| (IMAGE_TRIGGER ||| IMAGE_SAVE)).save)
      = true → (f.trigger && !f.save) = true := by
  simp [IMAGE_TRIGGER, IMAGE_SAVE]
theorem unsaved_PS (f : image_flags) :
    ((f ||| (IMAGE_POSTCAP ||| IMAGE_SAVE)).trigger && !(f ||| (IMAGE_POSTCAP ||| IMAGE_SAVE)).save)
      = true → (f.trigger && !f.save) = true := by
  simp [IMAGE_POSTCAP, IMAGE_SAVE]
theorem unsaved_S (f : image_flags) :
    ((f ||| IMAGE_SAVE).trigger && !(f ||| IMAGE_SAVE).save) = true
      → (f.trigger && !f.save) = true := by
  simp [IMAGE_SAVE]
theorem unsaved_P (f : image_flags) :
    ((f ||| IMAGE_PRECAP).trigger && !(f ||| IMAGE_PRECAP).save) = true
      → (f.trigger && !f.save) = true := by
  simp [IMAGE_PRECAP]
theorem unsaved_M (f : image_flags) :
    ((f ||| IMAGE_MOTION).trigger && !(f ||| IMAGE_MOTION).save) = true
      → (f.trigger && !f.save) = true := by
  simp [IMAGE_MOTION]

/-- The trigger step never leaves a slot flagged TRIGGER without SAVE that was
not so before. -/
theorem trigger_unsaved (cam : ctx_dev) (j : Int)
    (hj : ((ring_at (mlp_actions_trigger cam).imgs.image_ring j).flags.trigger
      && !(ring_at (mlp_actions_trigger cam).imgs.image_ring j).flags.save) = true) :
    ((ring_at cam.imgs.image_ring j).flags.trigger
      && !(ring_at cam.imgs.image_ring j).flags.save) = true := by
  revert hj
  by_cases h : (cam.conf.emulate_motion || cam.event_user) = true ∧ cam.startup_frames = 0
  · rw [trigger_forced cam h]
    have e : (ring_at (mlp_actions_emulate cam).imgs.image_ring j).flags
        = (ring_at (mlp_actions_emulate_mark cam).imgs.image_ring j).flags := by
      apply flags_of_map_eq
      unfold mlp_actions_emulate
      simp only []
      split
      · exact flags_detected _ _
      · rfl
    rw [e, emulate_mark_ring_cur]
    intro hj
    exact upd_cur_flag_le cam _ (fun f => f.trigger && !f.save) unsaved_TS j
      (save_all_flag_le _ _ (fun f => f.trigger && !f.save) unsaved_S j hj)
  · by_cases hm : (cam.cur.flags &&& IMAGE_MOTION).test = true ∧ cam.startup_frames = 0
    · rw [trigger_motion cam h hm, motion_flags]
      by_cases hcnt : cam.frame_count ≥ cam.conf.minimum_motion_frames
      · rw [(motion_mark_trigger cam hcnt).1]
        intro hj
        exact upd_cur_flag_le cam _ (fun f => f.trigger && !f.save) unsaved_TS j
          (save_all_flag_le _ _ (fun f => f.trigger && !f.save) unsaved_S j hj)
      · by_cases hp : cam.postcap > 0
        · rw [motion_mark_postcap cam hcnt hp]
          exact upd_cur_flag_le cam _ (fun f => f.trigger && !f.save) unsaved_PS j
        · rw [motion_mark_precap cam hcnt hp]
          exact upd_cur_flag_le cam _ (fun f => f.trigger && !f.save) unsaved_P j
    · by_cases hp : cam.postcap > 0
      · rw [trigger_postcap cam h hm hp]
        exact upd_cur_flag_le cam _ (fun f => f.trigger && !f.save) unsaved_PS j
      · rw [trigger_precap cam h hm hp]
        exact upd_cur_flag_le cam _ (fun f => f.trigger && !f.save) unsaved_P j

theorem classify_unsaved (cam : ctx_dev) (j : Int)
    (hj : ((ring_at (mlp_actions_classify cam).imgs.image_ring j).flags.trigger
      && !(ring_at (mlp_actions_classify cam).imgs.image_ring j).flags.save) = true) :
    ((ring_at cam.imgs.image_ring j).flags.trigger
      && !(ring_at cam.imgs.image_ring j).flags.save) = true := by
  rw [classify_ring] at hj
  split at hj
  · exact upd_cur_flag_le cam _ (fun f => f.trigger && !f.save) unsaved_M j hj
  · exact hj

/-- The frame `mlp_resetimages` hands over has no flag, wherever the cursor is. -/
theorem scored_cur_blank (cam : ctx_dev) (f : frame_input) :
    (frame_scored cam f).cur.flags = IMAGE_NONE := by
  rw [cur_eq _ _ (scored_current cam f), scored_ring, ring_at_upd]
  split
  · show (ring_at (mlp_resetimages cam f.realtime f.monotonic).imgs.image_ring _).flags = _
    rw [mlp_resetimages_ring, ring_at_upd]
    split
    · rfl
    · rename_i h1 h2
      rw [mlp_resetimages_ring, ring_upd_length] at h1
      exact absurd ⟨rfl, h1.2⟩ h2
  · rename_i h1
    rw [mlp_resetimages_ring, ring_upd_length] at h1
    have hd : ring_at (mlp_resetimages cam f.realtime f.monotonic).imgs.image_ring
        (next_slot cam.imgs.ring_size cam.imgs.ring_in) = default := by
      unfold ring_at
      rw [List.getD_eq_getElem?_getD, List.getElem?_eq_none]
      · rfl
      · rw [mlp_resetimages_ring, ring_upd_length]
        by_contra hlt
        exact h1 ⟨rfl, by omega⟩
    rw [hd]
    rfl

/-- With an event gap configured the trigger step requests no stop; it never
writes `lasttime`. -/
theorem trigger_stop_lasttime (cam : ctx_dev) :
    (cam.conf.event_gap ≠ 0 → (mlp_actions_trigger cam).event_stop = cam.event_stop) ∧
    (mlp_actions_trigger cam).lasttime = cam.lasttime := by
  by_cases h : (cam.conf.emulate_motion || cam.event_user) = true ∧ cam.startup_frames = 0
  · rw [trigger_forced cam h]
    have e := (emulate_ctl cam).trans (emulate_mark_ctl cam)
    exact ⟨fun _ => congrArg dev_ctl.event_stop e, congrArg dev_ctl.lasttime e⟩
  · by_cases hm : (cam.cur.flags &&& IMAGE_MOTION).test = true ∧ cam.startup_frames = 0
    · rw [trigger_motion cam h hm]
      have e := motion_ctl cam
      have e2 : (mlp_actions_motion_mark cam).event_stop = cam.event_stop ∧
          (mlp_actions_motion_mark cam).lasttime = cam.lasttime := by
        by_cases hcnt : cam.frame_count ≥ cam.conf.minimum_motion_frames
        · have e3 := (motion_mark_trigger cam hcnt).2.2.1
          exact ⟨congrArg dev_ctl.event_stop e3, congrArg dev_ctl.lasttime e3⟩
        · by_cases hp : cam.postcap > 0
          · rw [motion_mark_postcap cam hcnt hp]
            exact ⟨congrArg dev_ctl.event_stop (ctl_upd_cur cam _),
              congrArg dev_ctl.lasttime (ctl_upd_cur cam _)⟩
          · rw [motion_mark_precap cam hcnt hp]
            exact ⟨congrArg dev_ctl.event_stop (ctl_upd_cur cam _),
              congrArg dev_ctl.lasttime (ctl_upd_cur cam _)⟩
      exact ⟨fun _ => (congrArg dev_ctl.event_stop e).trans e2.1,
        (congrArg dev_ctl.lasttime e).trans e2.2⟩
    · by_cases hp : cam.postcap > 0
      · rw [trigger_postcap cam h hm hp]
        exact ⟨fun _ => congrArg dev_ctl.event_stop (ctl_upd_cur cam _),
          congrArg dev_ctl.lasttime (ctl_upd_cur cam _)⟩
      · rw [trigger_precap cam h hm hp]
        refine ⟨fun hg => ?_, congrArg dev_ctl.lasttime (ctl_upd_cur cam _)⟩
        show (if _ then true else cam.event_stop) = cam.event_stop
        rw [if_neg (fun hh => hg hh.1)]

theorem lasttime_actions_event (cam : ctx_dev) :
    (mlp_actions_event cam).lasttime = cam.lasttime := by
  have h3 : ∀ c : ctx_dev, (mlp_actions_event_movie c).lasttime = c.lasttime := by
    intro c
    simp only [mlp_actions_event_movie, mlp_info_reset, ctx_dev.call,
      apply_ite ctx_dev.lasttime, ite_self]
  have h1 : (mlp_actions_event_gap cam).lasttime = cam.lasttime := by
    unfold mlp_actions_event_gap; split <;> rfl
  have he : ∀ c : ctx_dev, (mlp_actions_event_end c).lasttime = c.lasttime := by
    intro c
    simp only [mlp_actions_event_end, mlp_track_center, ctx_dev.call,
      apply_ite ctx_dev.lasttime, ite_self]
  unfold mlp_actions_event
  rw [h3, ← h1]
  generalize mlp_actions_event_gap cam = c
  unfold mlp_actions_event_stop
  split
  · show (if _ then _ else _ : ctx_dev).lasttime = _
    split
    · exact (he _).trans (congrArg dev_ctl.lasttime (ctl_ring_process c))
    · rfl
  · rfl

theorem core_monots (x : ctx_image_data) : x.core.monots = x.monots := rfl

/-- The SAVE bit and the clock reading of the current frame after `mlp_actions`
are those the trigger step left. -/
theorem actions_cur_save (cam : ctx_dev) :
    (mlp_actions cam).cur.flags.save
      = (mlp_actions_trigger (mlp_actions_classify cam)).cur.flags.save ∧
    (mlp_actions cam).cur.monots
      = (mlp_actions_trigger (mlp_actions_classify cam)).cur.monots := by
  have hc := current_actions cam
  cases hT : (mlp_actions_trigger (mlp_actions_classify cam)).current_image with
  | none =>
    rw [hT] at hc
    simp only [ctx_dev.cur, hc, hT, and_self]
  | some i =>
    rw [hT] at hc
    rw [cur_eq _ i hc, cur_eq _ i hT]
    have e1 := core_ring (mlp_actions cam) (mlp_actions_trigger (mlp_actions_classify cam))
      (core_actions cam) i
    have e2 := congrArg ctx_image_data.monots e1
    rw [core_monots, core_monots] at e2
    exact ⟨(saved_actions cam i).1, e2⟩

/-- After `mlp_actions`, `lasttime` is the steady-clock second of the current
frame when that frame is flagged SAVE, and is unchanged otherwise. -/
theorem actions_lasttime (cam : ctx_dev) :
    (mlp_actions cam).lasttime =
      if (mlp_actions cam).cur.flags.save = true then (mlp_actions cam).cur.monots.tv_sec
      else cam.lasttime := by
  rw [(actions_cur_save cam).1, (actions_cur_save cam).2, actions_eq_event,
    lasttime_actions_event]
  refine (congrArg dev_ctl.lasttime (ctl_before_event cam)).trans ?_
  show (if _ then _ else (mlp_actions_trigger (mlp_actions_classify cam)).lasttime) = _
  rw [(trigger_stop_lasttime _).2]
  rw [show (mlp_actions_classify cam).lasttime = cam.lasttime from
    congrArg dev_ctl.lasttime (classify_ctl cam)]

theorem frame_conf (cam : ctx_dev) (f : frame_input) : (frame_step cam f).conf = cam.conf := by
  have hcfg : (frame_step cam f).core.cfg
      = ({ cam.core with ring_in := next_slot cam.imgs.ring_size cam.imgs.ring_in } : dev_core).cfg := by
    rw [frame_core, trigger_cfg, classified_core]; rfl
  exact congrArg dev_core.conf hcfg

theorem ctl_prepare (cam : ctx_dev) (now : timespec) : (mlp_prepare cam now).ctl = cam.ctl := by
  simp only [mlp_prepare, ctx_dev.ctl, apply_ite ctx_dev.event_nr, apply_ite ctx_dev.event_stop,
    apply_ite ctx_dev.event_user, apply_ite ctx_dev.postcap, apply_ite ctx_dev.lasttime, ite_self]

theorem prepare_gap_ts (cam : ctx_dev) (now : timespec) :
    (mlp_prepare cam now).conf.event_gap = cam.conf.event_gap ∧
    (mlp_prepare cam now).frame_curr_ts = now := by
  constructor
  · simp only [mlp_prepare, apply_ite ctx_dev.conf, apply_ite ctx_config.event_gap, ite_self]
  · simp only [mlp_prepare, apply_ite ctx_dev.frame_curr_ts, ite_self]

/-- One iteration whose frame is not flagged SAVE, with an event gap configured
and no stop pending: the event is closed exactly when it is open and the gap
has run out at this iteration's clock reading; `lasttime`, the absence of a stop
request and `event_gap` carry over. -/
theorem tick_unsaved (cam : ctx_dev) (t : tick_input)
    (hg : cam.conf.event_gap > 0) (hs : cam.event_stop = false)
    (hsave : (tick_step cam t).cur.flags.save = false) :
    (tick_step cam t).life =
      (if t.now.tv_sec - cam.lasttime ≥ cam.conf.event_gap ∧ cam.event_nr = cam.prev_event
       then cam.life.closed else cam.life) ∧
    (tick_step cam t).lasttime = cam.lasttime ∧
    (tick_step cam t).event_stop = false ∧
    (tick_step cam t).conf.event_gap = cam.conf.event_gap := by
  have hP := prepare_gap_ts cam t.now
  have hPctl := ctl_prepare cam t.now
  have hPlife := life_prepare cam t.now
  unfold tick_step at hsave ⊢
  generalize mlp_prepare cam t.now = P at hP hPctl hPlife hsave ⊢
  have hXctl : (frame_classified P t.frame).ctl = cam.ctl := (classified_ctl P t.frame).trans hPctl
  have hXlife : (frame_classified P t.frame).life = cam.life :=
    ((life_classify _).trans (life_scored P t.frame)).trans hPlife
  have hXcore := classified_core P t.frame
  have hXgap : (frame_classified P t.frame).conf.event_gap = cam.conf.event_gap :=
    (congrArg (fun c : dev_core => c.conf.event_gap) hXcore).trans hP.1
  have hTsave : (mlp_actions_trigger (frame_classified P t.frame)).cur.flags.save = false :=
    (actions_cur_save (frame_scored P t.frame)).1.symm.trans hsave
  have hTcur : (mlp_actions_trigger (frame_classified P t.frame)).current_image
      = some (next_slot P.imgs.ring_size P.imgs.ring_in) :=
    (trigger_current _).trans (classified_current P t.frame)
  have hTtrig : (mlp_actions_trigger (frame_classified P t.frame)).cur.flags.trigger = false := by
    cases htr : (mlp_actions_trigger (frame_classified P t.frame)).cur.flags.trigger with
    | false => rfl
    | true =>
      exfalso
      rw [cur_eq _ _ hTcur] at htr hTsave
      have h1 := trigger_unsaved (frame_classified P t.frame)
        (next_slot P.imgs.ring_size P.imgs.ring_in) (by rw [htr, hTsave]; rfl)
      have h2 := classify_unsaved (frame_scored P t.frame) _ h1
      have h3 := scored_cur_blank P t.frame
      rw [cur_eq _ _ (scored_current P t.frame)] at h3
      rw [h3] at h2
      cases h2
  have hTlife : (mlp_actions_trigger (frame_classified P t.frame)).life = cam.life := by
    rw [life_trigger, if_neg (fun hh => by rw [hTtrig] at hh; cases hh.2.1)]
    exact hXlife
  have hTsl := trigger_stop_lasttime (frame_classified P t.frame)
  have hTstop : (mlp_actions_trigger (frame_classified P t.frame)).event_stop = false :=
    (hTsl.1 (by rw [hXgap]; omega)).trans ((congrArg dev_ctl.event_stop hXctl).trans hs)
  have hTlast : (mlp_actions_trigger (frame_classified P t.frame)).lasttime = cam.lasttime :=
    hTsl.2.trans (congrArg dev_ctl.lasttime hXctl)
  have hEctl := ctl_before_event (frame_scored P t.frame)
  have hEcfg := cfg_before_event (frame_scored P t.frame)
  have hEstop : (actions_before_event (frame_scored P t.frame)).event_stop = false :=
    (congrArg dev_ctl.event_stop hEctl).trans hTstop
  have hElast : (actions_before_event (frame_scored P t.frame)).lasttime = cam.lasttime := by
    refine (congrArg dev_ctl.lasttime hEctl).trans ?_
    show (if (mlp_actions_trigger (frame_classified P t.frame)).cur.flags.save = true then _
      else (mlp_actions_trigger (frame_classified P t.frame)).lasttime) = _
    rw [hTsave, hTlast]
    rfl
  have hEgap : (actions_before_event (frame_scored P t.frame)).conf.event_gap
      = cam.conf.event_gap :=
    (congrArg (fun c : dev_core => c.conf.event_gap) hEcfg).trans hP.1
  have hEts : (actions_before_event (frame_scored P t.frame)).frame_curr_ts = t.now :=
    (congrArg dev_core.frame_curr_ts hEcfg).trans hP.2
  have hElapsed : gap_elapsed (actions_before_event (frame_scored P t.frame))
      ↔ t.now.tv_sec - cam.lasttime ≥ cam.conf.event_gap := by
    unfold gap_elapsed
    rw [hEgap, hEts, hElast]
    exact ⟨fun hh => hh.2, fun hh => ⟨hg, hh⟩⟩
  refine ⟨?_, ?_, stop_actions _, (congrArg ctx_config.event_gap (frame_conf P t.frame)).trans hP.1⟩
  · have hTlife2 : (mlp_actions_trigger (mlp_actions_classify (frame_scored P t.frame))).life
        = cam.life := hTlife
    rw [frame_step_eq, life_actions, hTlife2,
      show (mlp_actions_trigger (mlp_actions_classify (frame_scored P t.frame))).event_nr
        = cam.event_nr from congrArg dev_life.event_nr hTlife2,
      show (mlp_actions_trigger (mlp_actions_classify (frame_scored P t.frame))).prev_event
        = cam.prev_event from congrArg dev_life.prev_event hTlife2]
    by_cases hc : t.now.tv_sec - cam.lasttime ≥ cam.conf.event_gap ∧ cam.event_nr = cam.prev_event
    · rw [if_pos hc, if_pos ⟨Or.inr (hElapsed.mpr hc.1), hc.2⟩]
    · rw [if_neg hc, if_neg (fun hh => hc ⟨hh.1.elim
        (fun h1 => by rw [hEstop] at h1; cases h1) hElapsed.mp, hh.2⟩)]
  · rw [frame_step_eq, actions_lasttime]
    rw [frame_step_eq] at hsave
    rw [hsave]
    exact congrArg dev_ctl.lasttime hPctl

/-- C13: with `event_gap = g > 0`, an event open and no stop request pending,
over any sequence of iterations none of whose frames is flagged SAVE, the
lifecycle after `k` iterations is the one the sequence started with as long as
no iteration so far had its steady-clock second (`frame_curr_ts`, read by
`mlp_prepare`) at least `g` after `lasttime`, and is that lifecycle closed once
(one `event_end` reported, `event_nr` one ahead) from the first such iteration
on: the event is closed on the first frame at least `g` seconds after the last
frame flagged SAVE, and no earlier or later frame of the sequence reports
`event_end`.  `lasttime` is the steady-clock second of the last frame flagged
SAVE: `mlp_actions` sets it from a current frame flagged SAVE and leaves it
otherwise. -/
theorem gap_closes_once (cam : ctx_dev) (ticks : List tick_input)
    (hg : cam.conf.event_gap > 0) (hopen : cam.event_nr = cam.prev_event)
    (hs : cam.event_stop = false)
    (hsave : ∀ k, k < ticks.length →
      (run_ticks cam (ticks.take (k + 1))).cur.flags.save = false) :
    (∀ k, k ≤ ticks.length →
      (run_ticks cam (ticks.take k)).life =
        if (ticks.take k).any
            (fun t => decide (t.now.tv_sec - cam.lasttime ≥ cam.conf.event_gap)) = true
        then cam.life.closed else cam.life) ∧
    (∀ c : ctx_dev, (mlp_actions c).lasttime =
      if (mlp_actions c).cur.flags.save = true then (mlp_actions c).cur.monots.tv_sec
      else c.lasttime) := by
  refine ⟨?_, actions_lasttime⟩
  have key : ∀ k, k ≤ ticks.length →
      (run_ticks cam (ticks.take k)).life =
        (if (ticks.take k).any
            (fun t => decide (t.now.tv_sec - cam.lasttime ≥ cam.conf.event_gap)) = true
        then cam.life.closed else cam.life) ∧
      (run_ticks cam (ticks.take k)).lasttime = cam.lasttime ∧
      (run_ticks cam (ticks.take k)).event_stop = false ∧
      (run_ticks cam (ticks.take k)).conf.event_gap = cam.conf.event_gap := by
    intro k
    induction k with
    | zero =>
      intro _
      exact ⟨rfl, rfl, hs, rfl⟩
    | succ n ih =>
      intro hn
      obtain ⟨hl, hlast, hstop, hgap⟩ := ih (by omega)
      have hget : ticks[n]? = some (ticks[n]) := List.getElem?_eq_getElem (by omega)
      have htake : ticks.take (n + 1) = ticks.take n ++ [ticks[n]] := by
        rw [List.take_succ, hget]; rfl
      have hsv := hsave n (by omega)
      rw [htake, run_ticks_snoc] at hsv
      have hstep := tick_unsaved (run_ticks cam (ticks.take n)) (ticks[n])
        (by rw [hgap]; exact hg) hstop hsv
      rw [htake, run_ticks_snoc]
      refine ⟨?_, hstep.2.1.trans hlast, hstep.2.2.1, hstep.2.2.2.trans hgap⟩
      rw [hstep.1, hlast, hgap, List.any_append, List.any_cons, List.any_nil, Bool.or_false,
        show (run_ticks cam (ticks.take n)).event_nr = (run_ticks cam (ticks.take n)).life.event_nr
          from rfl,
        show (run_ticks cam (ticks.take n)).prev_event
          = (run_ticks cam (ticks.take n)).life.prev_event from rfl, hl]
      by_cases hany : (ticks.take n).any
          (fun t => decide (t.now.tv_sec - cam.lasttime ≥ cam.conf.event_gap)) = true
      · rw [if_pos hany, hany, Bool.true_or, if_pos rfl]
        have hne : ¬ ((ticks[n]).now.tv_sec - cam.lasttime ≥ cam.conf.event_gap ∧
            cam.life.closed.event_nr = cam.life.closed.prev_event) := by
          intro hh
          have h2 : cam.event_nr + 1 = cam.prev_event := hh.2
          omega
        rw [if_neg hne]
      · rw [if_neg hany]
        have hf : (ticks.take n).any
            (fun t => decide (t.now.tv_sec - cam.lasttime ≥ cam.conf.event_gap)) = false := by
          simpa using hany
        rw [hf, Bool.false_or]
        by_cases he : (ticks[n]).now.tv_sec - cam.lasttime ≥ cam.conf.event_gap
        · rw [if_pos ⟨he, hopen⟩, if_pos (decide_eq_true he)]
        · rw [if_neg (fun hh => he hh.1), if_neg (by rw [decide_eq_false he]; simp)]
  intro k hk
  exact (key k hk).1

set_option maxRecDepth 100000 in
/-- C13 at `cam_gap_open` (gap 5, last SAVE frame at second 100) with quiet
frames at seconds 102, 105 and 110: the lifecycle is untouched after the first
frame and closed once after the second and after the third. -/
theorem gap_closes_once_witness :
    (run_ticks cam_gap_open (ticks_quiet.take 1)).life = cam_gap_open.life ∧
    (run_ticks cam_gap_open (ticks_quiet.take 2)).life = cam_gap_open.life.closed ∧
    (run_ticks cam_gap_open (ticks_quiet.take 3)).life = cam_gap_open.life.closed :=
  have h := (gap_closes_once cam_gap_open ticks_quiet (by decide) (by decide) (by decide)
    (by decide)).1
  ⟨(h 1 (by decide)).trans (if_neg (by decide)), (h 2 (by decide)).trans (if_pos (by decide)),
    (h 3 (by decide)).trans (if_pos (by decide))⟩

/-! ## The cursors stay inside the ring -/

theorem ring_process_body_cursors (cam : ctx_dev) :
    (mlp_ring_process_body cam).imgs.ring_out
      = next_slot cam.imgs.ring_size cam.imgs.ring_out ∧
    (mlp_ring_process_body cam).imgs.ring_in = cam.imgs.ring_in ∧
    (mlp_ring_process_body cam).imgs.ring_size = cam.imgs.ring_size := by
  refine ⟨?_, ?_, ?_⟩
  · simp only [mlp_ring_process_body, ctx_dev.call, pic_save_preview, next_slot,
      apply_ite ctx_dev.imgs, apply_ite ctx_images.ring_out, apply_ite ctx_images.ring_size,
      ite_self]
  · simp only [mlp_ring_process_body, ctx_dev.call, pic_save_preview,
      apply_ite ctx_dev.imgs, apply_ite ctx_images.ring_in, ite_self]
  · simp only [mlp_ring_process_body, ctx_dev.call, pic_save_preview,
      apply_ite ctx_dev.imgs, apply_ite ctx_images.ring_size, ite_self]

theorem ring_process_body_length (cam : ctx_dev) :
    (mlp_ring_process_body cam).imgs.image_ring.length = cam.imgs.image_ring.length := by
  rw [ring_process_body_ring, ring_upd_length]

theorem ring_inv_body (cam : ctx_dev) (h : ring_inv cam) : ring_inv (mlp_ring_process_body cam) := by
  obtain ⟨h1, h2, h3⟩ := ring_process_body_cursors cam
  have hr := next_slot_range _ _ h.2.2.1 h.2.2.2
  unfold ring_inv
  rw [h1, h2, h3]
  exact ⟨h.1, h.2.1, hr⟩

/-- A pass of the loop that does not meet the produce cursor brings the consume
cursor one step nearer to it. -/
theorem ring_dist_body (cam : ctx_dev) (h : ring_inv cam)
    (hne : (mlp_ring_process_body cam).imgs.ring_out ≠ (mlp_ring_process_body cam).imgs.ring_in) :
    ring_dist (mlp_ring_process_body cam) = ring_dist cam - 1 := by
  obtain ⟨h1, h2, h3⟩ := ring_process_body_cursors cam
  unfold ring_dist
  rw [h1, h2] at hne
  rw [h1, h2, h3]
  obtain ⟨hs, ⟨hi0, hi1⟩, ⟨ho0, ho1⟩⟩ := h
  unfold next_slot at hne ⊢
  split_ifs at hne ⊢ <;> omega

theorem ring_dist_range (cam : ctx_dev) (h : ring_inv cam) :
    1 ≤ ring_dist cam ∧ ring_dist cam ≤ cam.imgs.ring_size := by
  obtain ⟨hs, ⟨hi0, hi1⟩, ⟨ho0, ho1⟩⟩ := h
  unfold ring_dist
  split_ifs <;> omega

/-- The loop leaves within as many passes as the consume cursor is away from
the produce cursor, keeping the cursor predicate, `ring_in`, `ring_size` and the
length of the ring. -/
theorem ring_process_loop_dist (fuel : Nat) : ∀ cam : ctx_dev, ring_inv cam →
    ring_dist cam ≤ fuel →
    ∃ c, mlp_ring_process_loop fuel cam = some c ∧ ring_inv c ∧
      c.imgs.ring_in = cam.imgs.ring_in ∧ c.imgs.ring_size = cam.imgs.ring_size ∧
      c.imgs.image_ring.length = cam.imgs.image_ring.length := by
  induction fuel with
  | zero =>
    intro cam h hd
    have := (ring_dist_range cam h).1
    omega
  | succ n ih =>
    intro cam h hd
    obtain ⟨_, h2, h3⟩ := ring_process_body_cursors cam
    unfold mlp_ring_process_loop
    split
    · exact ⟨cam, rfl, h, rfl, rfl, rfl⟩
    · simp only
      split
      · rename_i hne
        obtain ⟨c, hc, hinv, hin, hsz, hlen⟩ := ih (mlp_ring_process_body cam) (ring_inv_body cam h)
          (by rw [ring_dist_body cam h hne]; omega)
        exact ⟨c, hc, hinv, hin.trans h2, hsz.trans h3,
          hlen.trans (ring_process_body_length cam)⟩
      · exact ⟨_, rfl, ring_inv_body cam h, h2, h3, ring_process_body_length cam⟩

/-- More passes allowed do not change the result of the loop. -/
theorem ring_process_loop_mono (fuel : Nat) : ∀ (cam c : ctx_dev) (k : Nat),
    mlp_ring_process_loop fuel cam = some c → mlp_ring_process_loop (fuel + k) cam = some c := by
  induction fuel with
  | zero => intro cam c k h; cases h
  | succ n ih =>
    intro cam c k h
    rw [show n + 1 + k = (n + k) + 1 from by omega]
    unfold mlp_ring_process_loop at h ⊢
    split
    · rename_i hb
      rw [if_pos hb] at h
      exact h
    · rename_i hb
      rw [if_neg hb] at h
      simp only at h ⊢
      split
      · rename_i hne
        rw [if_pos hne] at h
        exact ih _ _ k h
      · rename_i hne
        rw [if_neg hne] at h
        exact h

theorem cursors_upd_cur (cam : ctx_dev) (f : ctx_image_data → ctx_image_data) :
    (cam.upd_cur f).cursors = cam.cursors := by
  unfold ctx_dev.upd_cur
  split
  · simp only [ctx_dev.cursors, ring_upd_length]
  · rfl

theorem cursors_call (cam : ctx_dev) (c : ext_call) : (cam.call c).cursors = cam.cursors := rfl

theorem cursors_detected (cam : ctx_dev) (img : Int) :
    (mlp_detected cam img).cursors = cam.cursors := by
  simp only [mlp_detected, mlp_detected_trigger, mlp_track_move, mlp_info_reset, ctx_dev.cursors,
    ctx_dev.call, pic_save_preview, apply_ite ctx_dev.imgs, apply_ite ctx_images.image_ring,
    apply_ite ctx_images.ring_size, apply_ite ctx_images.ring_in, apply_ite ctx_images.ring_out,
    apply_ite List.length, ring_upd_length, ite_self]

theorem cursors_emulate_mark (cam : ctx_dev) :
    (mlp_actions_emulate_mark cam).cursors = cam.cursors := by
  cases hc : cam.current_image <;>
  simp only [mlp_actions_emulate_mark, ctx_dev.upd_cur, hc, ctx_dev.cursors, ctx_dev.call,
    apply_ite ctx_dev.imgs, apply_ite ctx_images.image_ring, apply_ite ctx_dev.current_image,
    apply_ite ctx_images.ring_size, apply_ite ctx_images.ring_in, apply_ite ctx_images.ring_out,
    apply_ite List.length, ring_upd_length, ring_save_all_length, ite_self]

theorem cursors_motion_mark (cam : ctx_dev) :
    (mlp_actions_motion_mark cam).cursors = cam.cursors := by
  cases hc : cam.current_image <;>
  simp only [mlp_actions_motion_mark, ctx_dev.upd_cur, hc, ctx_dev.cursors, ctx_dev.call,
    apply_ite ctx_dev.imgs, apply_ite ctx_images.image_ring, apply_ite ctx_dev.current_image,
    apply_ite ctx_images.ring_size, apply_ite ctx_images.ring_in, apply_ite ctx_images.ring_out,
    apply_ite List.length, ring_upd_length, ring_save_all_length, ite_self]

theorem cursors_detected_cur (M : ctx_dev) :
    (match M.current_image with
      | some img => mlp_detected M img
      | none => M).cursors = M.cursors := by
  cases M.current_image with
  | none => rfl
  | some i => exact cursors_detected M i

theorem cursors_trigger (cam : ctx_dev) : (mlp_actions_trigger cam).cursors = cam.cursors := by
  by_cases h : (cam.conf.emulate_motion || cam.event_user) = true ∧ cam.startup_frames = 0
  · rw [trigger_forced cam h]
    exact (cursors_detected_cur _).trans (cursors_emulate_mark cam)
  · by_cases hm : (cam.cur.flags &&& IMAGE_MOTION).test = true ∧ cam.startup_frames = 0
    · rw [trigger_motion cam h hm]
      exact (cursors_detected_cur _).trans (cursors_motion_mark cam)
    · by_cases hp : cam.postcap > 0
      · rw [trigger_postcap cam h hm hp]
        exact cursors_upd_cur cam _
      · rw [trigger_precap cam h hm hp]
        exact cursors_upd_cur cam _

theorem cursors_classify (cam : ctx_dev) : (mlp_actions_classify cam).cursors = cam.cursors := by
  cases hc : cam.current_image <;>
  simp only [mlp_actions_classify, ctx_dev.upd_cur, hc, ctx_dev.cursors,
    apply_ite ctx_dev.imgs, apply_ite ctx_images.image_ring,
    apply_ite ctx_images.ring_size, apply_ite ctx_images.ring_in, apply_ite ctx_images.ring_out,
    apply_ite List.length, ring_upd_length, ite_self]

theorem cursors_actions_lasttime (cam : ctx_dev) :
    (mlp_actions_lasttime cam).cursors = cam.cursors := by
  simp only [mlp_actions_lasttime, ctx_dev.cursors, ctx_dev.call,
    apply_ite ctx_dev.imgs, apply_ite ctx_images.image_ring,
    apply_ite ctx_images.ring_size, apply_ite ctx_images.ring_in, apply_ite ctx_images.ring_out,
    apply_ite List.length, ite_self]

theorem cursors_areadetect (cam : ctx_dev) : (mlp_areadetect cam).cursors = cam.cursors := by
  unfold mlp_areadetect; split
  · split <;> rfl
  · rfl

theorem cursors_actions_event_end (cam : ctx_dev) :
    (mlp_actions_event_end cam).cursors = cam.cursors := by
  simp only [mlp_actions_event_end, mlp_track_center, ctx_dev.cursors, ctx_dev.call,
    apply_ite ctx_dev.imgs, apply_ite ctx_images.image_ring,
    apply_ite ctx_images.ring_size, apply_ite ctx_images.ring_in, apply_ite ctx_images.ring_out,
    apply_ite List.length, ite_self]

theorem cursors_actions_event_movie (cam : ctx_dev) :
    (mlp_actions_event_movie cam).cursors = cam.cursors := by
  unfold mlp_actions_event_movie; split <;> rfl

theorem cursors_actions_event_gap (cam : ctx_dev) :
    (mlp_actions_event_gap cam).cursors = cam.cursors := by
  unfold mlp_actions_event_gap; split <;> rfl

theorem ring_bounds_of_cursors (a b : ctx_dev) (h : b.cursors = a.cursors)
    (ha : ring_bounds a) : ring_bounds b := by
  have h1 : b.imgs.ring_size = a.imgs.ring_size := congrArg dev_cursors.ring_size h
  have h2 : b.imgs.ring_in = a.imgs.ring_in := congrArg dev_cursors.ring_in h
  have h3 : b.imgs.ring_out = a.imgs.ring_out := congrArg dev_cursors.ring_out h
  have h4 : b.imgs.image_ring.length = a.imgs.image_ring.length := congrArg dev_cursors.len h
  unfold ring_bounds ring_inv at *
  rw [h1, h2, h3, h4]
  exact ha

/-- The result of `mlp_ring_process` is that of its loop run for at most
`ring_size` passes. -/
theorem ring_process_within (cam : ctx_dev) (h : ring_inv cam) :
    ∃ c, mlp_ring_process_loop cam.imgs.ring_size.toNat cam = some c ∧
      mlp_ring_process cam = { c with current_image := cam.current_image } ∧
      ring_inv c ∧ c.imgs.ring_in = cam.imgs.ring_in ∧ c.imgs.ring_size = cam.imgs.ring_size ∧
      c.imgs.image_ring.length = cam.imgs.image_ring.length := by
  have hd := (ring_dist_range cam h).2
  obtain ⟨c, hc, hinv, hin, hsz, hlen⟩ :=
    ring_process_loop_dist cam.imgs.ring_size.toNat cam h (by omega)
  refine ⟨c, hc, ?_, hinv, hin, hsz, hlen⟩
  have hsome := mlp_ring_process_loop_isSome cam
  obtain ⟨c2, hc2⟩ := Option.isSome_iff_exists.mp hsome
  have e1 := ring_process_loop_mono _ cam c (cam.imgs.image_ring.length + 1) hc
  have e2 := ring_process_loop_mono _ cam c2 cam.imgs.ring_size.toNat hc2
  rw [Nat.add_comm] at e2
  rw [e1] at e2
  have e3 : c = c2 := Option.some.inj e2
  unfold mlp_ring_process
  simp only
  rw [hc2, e3]

theorem ring_bounds_process (cam : ctx_dev) (h : ring_bounds cam) :
    ring_bounds (mlp_ring_process cam) ∧
    (mlp_ring_process cam).imgs.ring_size = cam.imgs.ring_size ∧
    (mlp_ring_process cam).imgs.ring_in = cam.imgs.ring_in ∧
    (mlp_ring_process cam).imgs.image_ring.length = cam.imgs.image_ring.length := by
  obtain ⟨c, _, hp, hinv, hin, hsz, hlen⟩ := ring_process_within cam h.1
  rw [hp]
  refine ⟨⟨hinv, ?_⟩, hsz, hin, hlen⟩
  show (c.imgs.image_ring.length : Int) = c.imgs.ring_size
  rw [hlen, hsz]
  exact h.2

theorem ring_bounds_resize (cam : ctx_dev) (tmp : Nat → ctx_image_data) :
    ring_bounds (mlp_ring_resize cam tmp) := by
  unfold ring_bounds ring_inv mlp_ring_resize
  simp only [List.length_map, List.length_range]
  refine ⟨⟨?_, ⟨le_refl _, ?_⟩, ⟨le_refl _, ?_⟩⟩, ?_⟩ <;> split_ifs <;> omega

theorem ring_inv_resetimages (cam : ctx_dev) (realtime monotonic : timespec)
    (h : ring_inv cam) :
    ring_inv (mlp_resetimages cam realtime monotonic) ∧
    (mlp_resetimages cam realtime monotonic).imgs.ring_size = cam.imgs.ring_size := by
  obtain ⟨hs, ⟨hi0, hi1⟩, ⟨ho0, ho1⟩⟩ := h
  have h1 : (mlp_resetimages cam realtime monotonic).imgs.ring_size = cam.imgs.ring_size := rfl
  have h2 := mlp_resetimages_ring_in cam realtime monotonic
  have h3 := mlp_resetimages_ring_out cam realtime monotonic
  have hri := next_slot_range _ _ hi0 hi1
  have hro := next_slot_range _ _ ho0 ho1
  refine ⟨⟨?_, ⟨?_, ?_⟩, ⟨?_, ?_⟩⟩, h1⟩
  · rw [h1]; exact hs
  · rw [h2]; exact hri.1
  · rw [h2, h1]; exact hri.2
  · rw [h3]; split
    · exact hro.1
    · exact ho0
  · rw [h3, h1]; split
    · exact hro.2
    · exact ho1

theorem ring_bounds_resetimages (cam : ctx_dev) (realtime monotonic : timespec)
    (h : ring_bounds cam) : ring_bounds (mlp_resetimages cam realtime monotonic) := by
  refine ⟨(ring_inv_resetimages cam realtime monotonic h.1).1, ?_⟩
  rw [mlp_resetimages_ring, ring_upd_length]
  exact h.2

theorem ring_bounds_actions_event (cam : ctx_dev) (h : ring_bounds cam) :
    ring_bounds (mlp_actions_event cam) := by
  unfold mlp_actions_event
  apply ring_bounds_of_cursors _ _ (cursors_actions_event_movie _)
  have hg := ring_bounds_of_cursors _ _ (cursors_actions_event_gap cam) h
  generalize mlp_actions_event_gap cam = c at hg
  unfold mlp_actions_event_stop
  split
  · have hc : ring_bounds (if c.event_nr = c.prev_event
        then mlp_actions_event_end (mlp_ring_process c) else c) := by
      split
      · exact ring_bounds_of_cursors _ _ (cursors_actions_event_end _)
          (ring_bounds_process c hg).1
      · exact hg
    exact ring_bounds_of_cursors _ _ rfl hc
  · exact hg

theorem ring_bounds_actions (cam : ctx_dev) (h : ring_bounds cam) :
    ring_bounds (mlp_actions cam) := by
  rw [actions_eq_event]
  apply ring_bounds_actions_event
  unfold actions_before_event
  apply (ring_bounds_process _ _).1
  exact ring_bounds_of_cursors _ _
    ((cursors_areadetect _).trans ((cursors_actions_lasttime _).trans
      ((cursors_trigger _).trans (cursors_classify cam)))) h

theorem ring_bounds_tick (cam : ctx_dev) (t : tick_input) (h : ring_bounds cam) :
    ring_bounds (tick_step cam t) := by
  unfold tick_step frame_step
  apply ring_bounds_actions
  apply ring_bounds_of_cursors _ _ (cursors_upd_cur _ _)
  apply ring_bounds_resetimages
  exact ring_bounds_of_cursors _ _ (by
    simp only [mlp_prepare, ctx_dev.cursors, apply_ite ctx_dev.imgs, ite_self]) h

/-- C17: the cursor predicate `ring_inv` (`ring_size >= 1`, `0 <= ring_in <
ring_size`, `0 <= ring_out < ring_size`) holds after `mlp_ring_resize`, which
also allocates `ring_size` slots; `mlp_resetimages` and `mlp_ring_process`
preserve it and leave `ring_size` as it was; the loop of `mlp_ring_process`
leaves within `ring_size` passes, and what `mlp_ring_process` returns is the
result of those passes; with `ring_size` slots allocated (`ring_bounds`) both
cursors address slots inside the array, and every iteration of the pipeline
(`mlp_prepare`, `mlp_resetimages`, the score, `mlp_actions`) keeps that. -/
theorem ring_cursors_in_bounds :
    (∀ (cam : ctx_dev) (tmp : Nat → ctx_image_data),
      ring_inv (mlp_ring_resize cam tmp) ∧
      ((mlp_ring_resize cam tmp).imgs.image_ring.length : Int)
        = (mlp_ring_resize cam tmp).imgs.ring_size) ∧
    (∀ (cam : ctx_dev) (realtime monotonic : timespec), ring_inv cam →
      ring_inv (mlp_resetimages cam realtime monotonic) ∧
      (mlp_resetimages cam realtime monotonic).imgs.ring_size = cam.imgs.ring_size) ∧
    (∀ cam : ctx_dev, ring_inv cam →
      ring_inv (mlp_ring_process cam) ∧
      (mlp_ring_process cam).imgs.ring_size = cam.imgs.ring_size ∧
      ∃ c, mlp_ring_process_loop cam.imgs.ring_size.toNat cam = some c ∧
        mlp_ring_process cam = { c with current_image := cam.current_image }) ∧
    (∀ cam : ctx_dev, ring_bounds cam →
      cam.imgs.ring_in.toNat < cam.imgs.image_ring.length ∧
      cam.imgs.ring_out.toNat < cam.imgs.image_ring.length) ∧
    (∀ (cam : ctx_dev) (t : tick_input), ring_bounds cam → ring_bounds (tick_step cam t)) := by
  refine ⟨fun cam tmp => ring_bounds_resize cam tmp, ring_inv_resetimages, ?_, ?_,
    ring_bounds_tick⟩
  · intro cam h
    obtain ⟨c, hc, hp, hinv, _, hsz, _⟩ := ring_process_within cam h
    refine ⟨?_, ?_, c, hc, hp⟩
    · rw [hp]; exact hinv
    · rw [hp]; exact hsz
  · intro cam h
    obtain ⟨⟨hs, ⟨hi0, hi1⟩, ⟨ho0, ho1⟩⟩, hl⟩ := h
    omega

/-- C17 at `ring3_full` (three slots, `ring_in = 2`, `ring_out = 0`): the cursor
predicate holds before and after `mlp_ring_process` and the ring keeps its size. -/
theorem ring_cursors_in_bounds_witness :
    ring_inv ring3_full ∧ ring_inv (mlp_ring_process ring3_full) ∧
    (mlp_ring_process ring3_full).imgs.ring_size = ring3_full.imgs.ring_size :=
  have h := ring_cursors_in_bounds.2.2.1 ring3_full (by decide)
  ⟨by decide, h.1, h.2.1⟩

/-! ## A slot is handed over once -/

theorem notified_append_other (j : Nat) (l : List ext_call) (c : ext_call)
    (h : (match c with
      | ext_call.event EVENT_IMAGE_DETECTED (some i) => i.toNat == j
      | _ => false) = false) :
    notified j (l ++ [c]) = notified j l := by
  unfold notified
  rw [List.countP_append, List.countP_cons, h]
  simp

theorem notified_append_detected (j : Nat) (l : List ext_call) (i : Int) :
    notified j (l ++ [ext_call.event EVENT_IMAGE_DETECTED (some i)])
      = notified j l + (if i.toNat = j then 1 else 0) := by
  unfold notified
  rw [List.countP_append, List.countP_cons]
  simp

theorem ring_process_body_notified (cam : ctx_dev) (j : Nat) :
    notified j (mlp_ring_process_body cam).calls
      = notified j cam.calls +
        (if (ring_at cam.imgs.image_ring cam.imgs.ring_out).shot < cam.conf.framerate
            ∧ cam.imgs.ring_out.toNat = j then 1 else 0) := by
  simp only [mlp_ring_process_body, ctx_dev.call, pic_save_preview,
    apply_ite ctx_dev.calls, apply_ite (notified j), ite_self,
    notified_append_other j _ (ext_call.pic_save_preview _) rfl]
  by_cases h1 : (ring_at cam.imgs.image_ring cam.imgs.ring_out).shot < cam.conf.framerate
  · rw [if_pos h1, notified_append_detected]
    by_cases h2 : cam.imgs.ring_out.toNat = j
    · rw [if_pos h2, if_pos ⟨h1, h2⟩]
    · rw [if_neg h2, if_neg (fun hh => h2 hh.2)]
  · rw [if_neg h1, if_neg (fun hh => h1 hh.1)]
    rfl

theorem pending_in_range (ring : List ctx_image_data) (i : Int)
    (h : slot_pending (ring_at ring i) = true) : i.toNat < ring.length := by
  by_contra hge
  have hd : ring_at ring i = default := by
    unfold ring_at
    rw [List.getD_eq_getElem?_getD, List.getElem?_eq_none (by omega)]
    rfl
  rw [hd] at h
  cases h

theorem slot_pending_iff (img : ctx_image_data) :
    img.flags &&& (IMAGE_SAVE ||| IMAGE_SAVED) = IMAGE_SAVE ↔ slot_pending img = true := by
  rw [pending_iff]
  unfold slot_pending
  cases img.flags.save <;> cases img.flags.saved <;> simp

theorem ring_process_body_slot (cam : ctx_dev)
    (hp : slot_pending (ring_at cam.imgs.image_ring cam.imgs.ring_out) = true) (j : Nat) :
    (cam.imgs.ring_out.toNat = j →
      (ring_at (mlp_ring_process_body cam).imgs.image_ring j).flags
        = (ring_at cam.imgs.image_ring j).flags ||| IMAGE_SAVED ∧
      slot_pending (ring_at cam.imgs.image_ring j) = true) ∧
    (cam.imgs.ring_out.toNat ≠ j →
      ring_at (mlp_ring_process_body cam).imgs.image_ring j = ring_at cam.imgs.image_ring j) := by
  have hlt := pending_in_range _ _ hp
  rw [ring_process_body_ring]
  constructor
  · intro hj
    have hc : ring_at cam.imgs.image_ring cam.imgs.ring_out = ring_at cam.imgs.image_ring j :=
      ring_at_congr _ _ _ (by rw [hj]; rfl)
    rw [ring_at_upd, if_pos ⟨by rw [hj]; rfl, hlt⟩, set_flags_flags, hc]
    exact ⟨rfl, hc ▸ hp⟩
  · intro hj
    exact ring_at_upd_ne _ _ _ _ (fun hh => hj (by rw [hh]; rfl))

theorem saved_lor (f : image_flags) : (f ||| IMAGE_SAVED).saved = true := by
  simp [IMAGE_SAVED]

/-- What the loop of `mlp_ring_process` does to slot `j`: its flags stay, or the
slot was flagged SAVE and not SAVED and gains SAVED; at most one notification
is made for it, and only together with SAVED on a slot that was pending. -/
theorem ring_process_loop_slot (fuel : Nat) : ∀ cam c : ctx_dev,
    mlp_ring_process_loop fuel cam = some c → ∀ j : Nat,
    ((ring_at c.imgs.image_ring j).flags = (ring_at cam.imgs.image_ring j).flags ∨
      (slot_pending (ring_at cam.imgs.image_ring j) = true ∧
        (ring_at c.imgs.image_ring j).flags
          = (ring_at cam.imgs.image_ring j).flags ||| IMAGE_SAVED)) ∧
    (notified j c.calls = notified j cam.calls ∨
      (notified j c.calls = notified j cam.calls + 1 ∧
        slot_pending (ring_at cam.imgs.image_ring j) = true ∧
        (ring_at c.imgs.image_ring j).flags.saved = true)) := by
  induction fuel with
  | zero => intro cam c h; cases h
  | succ n ih =>
    intro cam c h j
    unfold mlp_ring_process_loop at h
    split at h
    · cases h
      exact ⟨Or.inl rfl, Or.inl rfl⟩
    · rename_i hb
      have hp := (slot_pending_iff _).mp (not_not.mp hb)
      have hslot := ring_process_body_slot cam hp j
      have hnot := ring_process_body_notified cam j
      simp only at h
      have hrest : ∀ c2 : ctx_dev,
          (((ring_at c2.imgs.image_ring j).flags
              = (ring_at (mlp_ring_process_body cam).imgs.image_ring j).flags ∨
            (slot_pending (ring_at (mlp_ring_process_body cam).imgs.image_ring j) = true ∧
              (ring_at c2.imgs.image_ring j).flags
                = (ring_at (mlp_ring_process_body cam).imgs.image_ring j).flags
                    ||| IMAGE_SAVED)) ∧
          (notified j c2.calls = notified j (mlp_ring_process_body cam).calls ∨
            (notified j c2.calls = notified j (mlp_ring_process_body cam).calls + 1 ∧
              slot_pending (ring_at (mlp_ring_process_body cam).imgs.image_ring j) = true ∧
              (ring_at c2.imgs.image_ring j).flags.saved = true))) →
          ((ring_at c2.imgs.image_ring j).flags = (ring_at cam.imgs.image_ring j).flags ∨
            (slot_pending (ring_at cam.imgs.image_ring j) = true ∧
              (ring_at c2.imgs.image_ring j).flags
                = (ring_at cam.imgs.image_ring j).flags ||| IMAGE_SAVED)) ∧
          (notified j c2.calls = notified j cam.calls ∨
            (notified j c2.calls = notified j cam.calls + 1 ∧
              slot_pending (ring_at cam.imgs.image_ring j) = true ∧
              (ring_at c2.imgs.image_ring j).flags.saved = true)) := by
        intro c2 hc2
        by_cases hj : cam.imgs.ring_out.toNat = j
        · obtain ⟨hfl, hpj⟩ := hslot.1 hj
          have hnp : slot_pending (ring_at (mlp_ring_process_body cam).imgs.image_ring j)
              = false := by
            unfold slot_pending
            rw [hfl, saved_lor]
            simp
          rw [hnp] at hc2
          have hf2 : (ring_at c2.imgs.image_ring j).flags
              = (ring_at cam.imgs.image_ring j).flags ||| IMAGE_SAVED := by
            rcases hc2.1 with h1 | h1
            · exact h1.trans hfl
            · cases h1.1
          have hn2 : notified j c2.calls = notified j (mlp_ring_process_body cam).calls := by
            rcases hc2.2 with h1 | h1
            · exact h1
            · cases h1.2.1
          refine ⟨Or.inr ⟨hpj, hf2⟩, ?_⟩
          rw [hn2, hnot]
          by_cases hs : (ring_at cam.imgs.image_ring cam.imgs.ring_out).shot < cam.conf.framerate
          · rw [if_pos ⟨hs, hj⟩]
            exact Or.inr ⟨rfl, hpj, by rw [hf2]; exact saved_lor _⟩
          · rw [if_neg (fun hh => hs hh.1)]
            exact Or.inl rfl
        · have hsame := hslot.2 hj
          rw [hsame, hnot, if_neg (fun hh => hj hh.2), Nat.add_zero] at hc2
          exact hc2
      split at h
      · exact hrest c (ih _ _ h j)
      · cases h
        exact hrest _ ⟨Or.inl rfl, Or.inl rfl⟩

theorem ring_process_slot (cam : ctx_dev) (j : Nat) :
    ((ring_at (mlp_ring_process cam).imgs.image_ring j).flags
        = (ring_at cam.imgs.image_ring j).flags ∨
      (slot_pending (ring_at cam.imgs.image_ring j) = true ∧
        (ring_at (mlp_ring_process cam).imgs.image_ring j).flags
          = (ring_at cam.imgs.image_ring j).flags ||| IMAGE_SAVED)) ∧
    (notified j (mlp_ring_process cam).calls = notified j cam.calls ∨
      (notified j (mlp_ring_process cam).calls = notified j cam.calls + 1 ∧
        slot_pending (ring_at cam.imgs.image_ring j) = true ∧
        (ring_at (mlp_ring_process cam).imgs.image_ring j).flags.saved = true)) := by
  unfold mlp_ring_process
  simp only
  cases h : mlp_ring_process_loop (cam.imgs.image_ring.length + 1) cam with
  | none => exact ⟨Or.inl rfl, Or.inl rfl⟩
  | some c => exact ring_process_loop_slot _ cam c h j

theorem ring_process_saved_mono (cam : ctx_dev) (j : Nat)
    (h : (ring_at cam.imgs.image_ring j).flags.saved = true) :
    (ring_at (mlp_ring_process cam).imgs.image_ring j).flags.saved = true ∧
    notified j (mlp_ring_process cam).calls = notified j cam.calls := by
  have hnp : slot_pending (ring_at cam.imgs.image_ring j) = false := by
    unfold slot_pending; rw [h]; simp
  obtain ⟨h1, h2⟩ := ring_process_slot cam j
  rw [hnp] at h1 h2
  constructor
  · rcases h1 with h1 | h1
    · rw [h1]; exact h
    · cases h1.1
  · rcases h2 with h2 | h2
    · exact h2
    · cases h2.2.1

theorem process_run_once (j : Nat) (c final : ctx_dev) (hrun : process_run j c final) :
    (notified j final.calls = notified j c.calls ∨
      (notified j final.calls = notified j c.calls + 1 ∧
        (ring_at c.imgs.image_ring j).flags.saved = false ∧
        (ring_at final.imgs.image_ring j).flags.saved = true)) ∧
    ((ring_at c.imgs.image_ring j).flags.saved = true →
      (ring_at final.imgs.image_ring j).flags.saved = true ∧
      notified j final.calls = notified j c.calls) := by
  induction hrun with
  | start => exact ⟨Or.inl rfl, fun h => ⟨h, rfl⟩⟩
  | call m e _ hsaved hnot ih =>
    obtain ⟨ih1, ih2⟩ := ih
    obtain ⟨_, h2⟩ := ring_process_slot e j
    constructor
    · rcases ih1 with ih1 | ih1
      · rcases h2 with h2 | h2
        · left; rw [h2, hnot, ih1]
        · right
          refine ⟨by rw [h2.1, hnot, ih1], ?_, h2.2.2⟩
          cases hs : (ring_at c.imgs.image_ring j).flags.saved with
          | false => rfl
          | true =>
            have hse := hsaved (ih2 hs).1
            have hnp : slot_pending (ring_at e.imgs.image_ring j) = false := by
              unfold slot_pending; rw [hse]; simp
            rw [hnp] at h2
            cases h2.2.1
      · right
        have hse := hsaved ih1.2.2
        have hm := ring_process_saved_mono e j hse
        exact ⟨by rw [hm.2, hnot, ih1.1], ih1.2.1, hm.1⟩
    · intro hs
      have hse := hsaved (ih2 hs).1
      have hm := ring_process_saved_mono e j hse
      exact ⟨hm.1, by rw [hm.2, hnot, (ih2 hs).2]⟩

/-- C16: for every slot `j`, one call of `mlp_ring_process` either leaves the
flags of the slot as they were or, on a slot flagged SAVE and not SAVED only,
adds SAVED to them (no flag is ever cleared); it makes at most one
image-detected notification for the slot, and only for a slot that was flagged
SAVE and not SAVED and is SAVED afterwards.  Consequently, between two
recyclings of the slot (`process_run`), however many times `mlp_ring_process` is
called, at most one notification is made for the slot, it comes with the single
move from not SAVED to SAVED, and a slot that is SAVED stays so and is not
notified again. -/
theorem ring_process_once (j : Nat) :
    (∀ cam : ctx_dev,
      ((ring_at (mlp_ring_process cam).imgs.image_ring j).flags
          = (ring_at cam.imgs.image_ring j).flags ∨
        (slot_pending (ring_at cam.imgs.image_ring j) = true ∧
          (ring_at (mlp_ring_process cam).imgs.image_ring j).flags
            = (ring_at cam.imgs.image_ring j).flags ||| IMAGE_SAVED)) ∧
      (notified j (mlp_ring_process cam).calls = notified j cam.calls ∨
        (notified j (mlp_ring_process cam).calls = notified j cam.calls + 1 ∧
          slot_pending (ring_at cam.imgs.image_ring j) = true ∧
          (ring_at (mlp_ring_process cam).imgs.image_ring j).flags.saved = true))) ∧
    (∀ c final : ctx_dev, process_run j c final →
      (notified j final.calls = notified j c.calls ∨
        (notified j final.calls = notified j c.calls + 1 ∧
          (ring_at c.imgs.image_ring j).flags.saved = false ∧
          (ring_at final.imgs.image_ring j).flags.saved = true)) ∧
      ((ring_at c.imgs.image_ring j).flags.saved = true →
        (ring_at final.imgs.image_ring j).flags.saved = true ∧
        notified j final.calls = notified j c.calls)) :=
  ⟨fun cam => ring_process_slot cam j, process_run_once j⟩

/-- C16 at `cam_one_pending`: two calls of `mlp_ring_process` in a row notify
slot 0 once and leave it SAVED. -/
theorem ring_process_once_witness :
    notified 0 (mlp_ring_process (mlp_ring_process cam_one_pending)).calls = 1 ∧
    (ring_at (mlp_ring_process (mlp_ring_process cam_one_pending)).imgs.image_ring 0).flags.saved
      = true ∧
    (notified 0 (mlp_ring_process (mlp_ring_process cam_one_pending)).calls
        = notified 0 cam_one_pending.calls ∨
      (notified 0 (mlp_ring_process (mlp_ring_process cam_one_pending)).calls
          = notified 0 cam_one_pending.calls + 1 ∧
        (ring_at cam_one_pending.imgs.image_ring 0).flags.saved = false ∧
        (ring_at (mlp_ring_process (mlp_ring_process cam_one_pending)).imgs.image_ring 0).flags.saved
          = true)) :=
  have hrun : process_run 0 cam_one_pending (mlp_ring_process (mlp_ring_process cam_one_pending)) :=
    process_run.call _ _ _ (process_run.call _ _ _ (process_run.start _) id rfl) id rfl
  ⟨by decide, by decide, ((ring_process_once 0).2 _ _ hrun).1⟩

/-! ## The flush of the ring on closure -/

theorem emod_case (n x : Int) (h0 : 0 ≤ x) (h1 : x < 2 * n) :
    x % n = if x < n then x else x - n := by
  split
  · rename_i h
    exact Int.emod_eq_of_lt h0 h
  · rename_i h
    have e : x = (x - n) + n := by omega
    rw [e, Int.add_emod_self, ← e]
    exact Int.emod_eq_of_lt (by omega) (by omega)

theorem fwd_shift (n x : Int) (t : Nat) (h1 : x < n) :
    (next_slot n x + (t : Int)) % n = (x + ((t + 1 : Nat) : Int)) % n := by
  unfold next_slot
  split
  · have e : x + ((t + 1 : Nat) : Int) = (0 + (t : Int)) + n := by push_cast; omega
    rw [e, Int.add_emod_self]
  · congr 1; push_cast; omega

theorem fwd_distinct (n x : Int) (s : Nat) (h0 : 0 ≤ x) (h1 : x < n)
    (hs0 : 0 < s) (hs1 : (s : Int) < n) :
    ((x + (s : Int)) % n).toNat ≠ x.toNat := by
  rw [emod_case n _ (by omega) (by omega)]
  split <;> omega

theorem fwd_zero (n x : Int) (h0 : 0 ≤ x) (h1 : x < n) : (x + ((0 : Nat) : Int)) % n = x := by
  rw [Nat.cast_zero, Int.add_zero]
  exact Int.emod_eq_of_lt h0 h1

theorem ring_bounds_body (cam : ctx_dev) (h : ring_bounds cam) :
    ring_bounds (mlp_ring_process_body cam) := by
  refine ⟨ring_inv_body cam h.1, ?_⟩
  rw [ring_process_body_length, (ring_process_body_cursors cam).2.2]
  exact h.2

/-- When the consume cursor meets the produce cursor after one pass, it was one
step away. -/
theorem ring_dist_meet (cam : ctx_dev) (h : ring_inv cam)
    (he : (mlp_ring_process_body cam).imgs.ring_out = (mlp_ring_process_body cam).imgs.ring_in) :
    ring_dist cam = 1 := by
  obtain ⟨h1, h2, _⟩ := ring_process_body_cursors cam
  rw [h1, h2] at he
  obtain ⟨hs, ⟨hi0, hi1⟩, ⟨ho0, ho1⟩⟩ := h
  unfold ring_dist
  unfold next_slot at he
  split_ifs at he ⊢ <;> omega

/-- The loop of `mlp_ring_process` hands over a run of pending slots that starts
at the consume cursor and ends before the produce cursor is met again. -/
theorem ring_process_loop_flush (k : Nat) : ∀ (fuel : Nat) (cam : ctx_dev),
    ring_bounds cam → pending_run cam k → (k : Int) ≤ ring_dist cam → ring_dist cam ≤ fuel →
    ∃ c, mlp_ring_process_loop fuel cam = some c ∧
      ∀ j : Nat, slot_pending (ring_at c.imgs.image_ring j) = false := by
  induction k with
  | zero =>
    intro fuel cam hb hrun _ hf
    have hd := (ring_dist_range cam hb.1).1
    obtain ⟨n, rfl⟩ : ∃ n, fuel = n + 1 := ⟨fuel - 1, by omega⟩
    have hnone : ∀ j : Nat, slot_pending (ring_at cam.imgs.image_ring j) = false := by
      intro j
      cases hp : slot_pending (ring_at cam.imgs.image_ring j) with
      | false => rfl
      | true =>
        obtain ⟨t, ht, _⟩ := hrun.2 j hp
        cases ht
    refine ⟨cam, ?_, hnone⟩
    unfold mlp_ring_process_loop
    rw [if_pos]
    intro hp
    have h2 := (slot_pending_iff _).mp hp
    have h3 := hnone cam.imgs.ring_out.toNat
    rw [ring_at_congr _ _ cam.imgs.ring_out (Int.toNat_natCast _)] at h3
    rw [h3] at h2
    cases h2
  | succ k ih =>
    intro fuel cam hb hrun hk hf
    have hd := ring_dist_range cam hb.1
    obtain ⟨hs, ⟨hi0, hi1⟩, ⟨ho0, ho1⟩⟩ := hb.1
    obtain ⟨n, rfl⟩ : ∃ n, fuel = n + 1 := ⟨fuel - 1, by omega⟩
    have hp0 : slot_pending (ring_at cam.imgs.image_ring cam.imgs.ring_out) = true := by
      have := hrun.1 0 (by omega)
      rw [fwd_zero _ _ ho0 ho1] at this
      exact this
    obtain ⟨hc1, hc2, hc3⟩ := ring_process_body_cursors cam
    have hslot := ring_process_body_slot cam hp0
    have hbody_np : ∀ j : Nat,
        slot_pending (ring_at (mlp_ring_process_body cam).imgs.image_ring j) = true →
        slot_pending (ring_at cam.imgs.image_ring j) = true ∧ cam.imgs.ring_out.toNat ≠ j := by
      intro j hj
      by_cases hjo : cam.imgs.ring_out.toNat = j
      · exfalso
        have hfl := ((hslot j).1 hjo).1
        unfold slot_pending at hj
        rw [hfl, saved_lor] at hj
        simp at hj
      · rw [(hslot j).2 hjo] at hj
        exact ⟨hj, hjo⟩
    unfold mlp_ring_process_loop
    rw [if_neg (fun hh => hh ((slot_pending_iff _).mpr hp0))]
    simp only
    split
    · rename_i hne
      have hdist := ring_dist_body cam hb.1 hne
      apply ih n (mlp_ring_process_body cam) (ring_bounds_body cam hb) ?_
        (by rw [hdist]; push_cast at hk; omega) (by rw [hdist]; push_cast at hf; omega)
      constructor
      · intro t ht
        rw [hc1, hc3, fwd_shift _ _ t ho1]
        have hpt := hrun.1 (t + 1) (by omega)
        have hdis := fwd_distinct cam.imgs.ring_size cam.imgs.ring_out (t + 1) ho0 ho1
          (by omega) (by push_cast at hk ⊢; omega)
        have hr0 := Int.emod_nonneg (cam.imgs.ring_out + ((t + 1 : Nat) : Int))
          (show cam.imgs.ring_size ≠ 0 by omega)
        have hsame := (hslot ((cam.imgs.ring_out + ((t + 1 : Nat) : Int))
          % cam.imgs.ring_size).toNat).2 (fun hh => hdis hh.symm)
        rw [Int.toNat_of_nonneg hr0] at hsame
        rw [hsame]
        exact hpt
      · intro j hj
        obtain ⟨hjp, hjo⟩ := hbody_np j hj
        obtain ⟨s, hs1, hs2⟩ := hrun.2 j hjp
        have hs0 : s ≠ 0 := by
          intro h0
          rw [h0, fwd_zero _ _ ho0 ho1] at hs2
          exact hjo hs2
        obtain ⟨t, rfl⟩ : ∃ t, s = t + 1 := ⟨s - 1, by omega⟩
        refine ⟨t, by omega, ?_⟩
        rw [hc1, hc3, fwd_shift _ _ t ho1]
        exact hs2
    · rename_i heq
      have hd1 := ring_dist_meet cam hb.1 (not_not.mp heq)
      have hk0 : k = 0 := by rw [hd1] at hk; push_cast at hk; omega
      refine ⟨_, rfl, ?_⟩
      intro j
      cases hj : slot_pending (ring_at (mlp_ring_process_body cam).imgs.image_ring j) with
      | false => rfl
      | true =>
        exfalso
        obtain ⟨hjp, hjo⟩ := hbody_np j hj
        obtain ⟨s, hs1, hs2⟩ := hrun.2 j hjp
        have h0 : s = 0 := by omega
        rw [h0, fwd_zero _ _ ho0 ho1] at hs2
        exact hjo hs2

theorem imgs_actions_event_gap (cam : ctx_dev) : (mlp_actions_event_gap cam).imgs = cam.imgs := by
  unfold mlp_actions_event_gap; split <;> rfl

/-- At `cam_open_event` (cursors in range, stop pending, `event_nr = prev_event`)
the consume cursor is on slot 0, which is not flagged SAVE, and slot 1 is
flagged SAVE and not SAVED; `mlp_actions_event` closes the event (`event_end` is
reported) and slot 1 is still flagged SAVE without SAVED: the loop of
`mlp_ring_process` leaves at the first slot that has nothing to hand over. -/
theorem close_flushes_whole_ring_counterexample :
    ring_inv cam_open_event ∧
    (cam_open_event.event_stop = true ∧ cam_open_event.event_nr = cam_open_event.prev_event) ∧
    slot_pending (ring_at cam_open_event.imgs.image_ring 0) = false ∧
    slot_pending (ring_at cam_open_event.imgs.image_ring 1) = true ∧
    (mlp_actions_event cam_open_event).life.trace = cam_open_event.life.trace ++ [false] ∧
    slot_pending (ring_at (mlp_actions_event cam_open_event).imgs.image_ring 1) = true := by
  decide

/-- When the flush of a closure is complete: for every ring state with the
cursors in range and `ring_size` slots, in which the slots flagged SAVE without
SAVED are exactly the
first `k` slots from the consume cursor (ring order, with wrap-around), `k` at
most the number of steps that bring the consume cursor to the produce cursor
(`ring_size` steps when the two are equal): when `mlp_actions_event` closes an
event (a stop requested or the gap run out, and `event_nr = prev_event`),
`event_end` is reported and no slot is left flagged SAVE without SAVED. -/
theorem close_flushes_pending_run (cam : ctx_dev) (k : Nat) (hb : ring_bounds cam)
    (hstop : cam.event_stop = true ∨ gap_elapsed cam) (hopen : cam.event_nr = cam.prev_event)
    (hrun : pending_run cam k) (hk : (k : Int) ≤ ring_dist cam) :
    (mlp_actions_event cam).life.trace = cam.life.trace ++ [false] ∧
    (∀ j : Nat, slot_pending (ring_at (mlp_actions_event cam).imgs.image_ring j) = false) := by
  constructor
  · have h := life_actions_event cam
    rw [if_pos ⟨hstop, hopen⟩] at h
    exact congrArg dev_life.trace h
  · have himgs := imgs_actions_event_gap cam
    have hs := (stop_actions_event_gap cam).mpr hstop
    have hl := life_actions_event_gap cam
    have hopen2 : (mlp_actions_event_gap cam).event_nr = (mlp_actions_event_gap cam).prev_event :=
      (congrArg dev_life.event_nr hl).trans (hopen.trans (congrArg dev_life.prev_event hl).symm)
    have hb2 : ring_bounds (mlp_actions_event_gap cam) := by
      unfold ring_bounds ring_inv at hb ⊢
      rw [himgs]; exact hb
    have hrun2 : pending_run (mlp_actions_event_gap cam) k := by
      unfold pending_run at hrun ⊢
      rw [himgs]; exact hrun
    have hk2 : (k : Int) ≤ ring_dist (mlp_actions_event_gap cam) := by
      unfold ring_dist at hk ⊢
      rw [himgs]; exact hk
    unfold mlp_actions_event
    rw [ring_actions_event_movie]
    generalize mlp_actions_event_gap cam = c at hs hopen2 hb2 hrun2 hk2
    have hd := (ring_dist_range c hb2.1).2
    obtain ⟨c1, hc1, hp, _⟩ := ring_process_within c hb2.1
    obtain ⟨c2, hc2, hnone⟩ := ring_process_loop_flush k c.imgs.ring_size.toNat c hb2 hrun2 hk2
      (by omega)
    rw [hc1] at hc2
    have e : c1 = c2 := Option.some.inj hc2
    have hring : (mlp_actions_event_stop c).imgs.image_ring = c2.imgs.image_ring := by
      unfold mlp_actions_event_stop
      rw [if_pos hs]
      show (if _ then _ else _ : ctx_dev).imgs.image_ring = _
      rw [if_pos hopen2, ring_actions_event_end, hp, e]
    rw [hring]
    exact hnone

theorem cam_two_pending_run : pending_run cam_two_pending 2 := by
  constructor
  · decide
  · intro j hj
    have hlt := pending_in_range _ _ hj
    have hj3 : j < 3 := by
      rw [Int.toNat_natCast] at hlt
      exact hlt
    interval_cases j
    · exact ⟨0, by decide, by decide⟩
    · exact ⟨1, by decide, by decide⟩
    · exact absurd hj (by decide)

/-- The complete flush at `cam_two_pending` (slots 0 and 1 pending from the consume
cursor on, the produce cursor on slot 2): the closure reports `event_end` and
leaves no slot pending. -/
theorem close_flushes_pending_run_witness :
    (mlp_actions_event cam_two_pending).life.trace = cam_two_pending.life.trace ++ [false] ∧
    slot_pending (ring_at (mlp_actions_event cam_two_pending).imgs.image_ring 0) = false ∧
    slot_pending (ring_at (mlp_actions_event cam_two_pending).imgs.image_ring 1) = false :=
  have h := close_flushes_pending_run cam_two_pending 2 ⟨by decide, by decide⟩
    (Or.inl (by decide)) (by decide) cam_two_pending_run (by decide)
  ⟨h.1, h.2 0, h.2 1⟩

/-! ## The frame pacer -/

theorem shift_fold_length (n : Nat) : ∀ (w : List Int),
    ((List.range n).foldl (fun w indx => w.set indx (w.getD (indx + 1) 0)) w).length
      = w.length := by
  induction n with
  | zero => intro w; rfl
  | succ n ih =>
    intro w
    rw [List.range_succ, List.foldl_append, List.foldl_cons, List.foldl_nil, List.length_set, ih]

theorem getD_set_int (w : List Int) (i j : Nat) (v : Int) :
    (w.set i v).getD j 0 = if i = j ∧ j < w.length then v else w.getD j 0 := by
  simp only [List.getD_eq_getElem?_getD, List.getElem?_set]
  by_cases h : i = j
  · subst h
    by_cases h2 : i < w.length
    · simp [h2]
    · simp [h2, List.getElem?_eq_none (Nat.le_of_not_lt h2)]
  · simp [h]

theorem shift_fold_getD (n : Nat) : ∀ (w : List Int) (j : Nat),
    ((List.range n).foldl (fun w indx => w.set indx (w.getD (indx + 1) 0)) w).getD j 0
      = if j < n ∧ j < w.length then w.getD (j + 1) 0 else w.getD j 0 := by
  induction n with
  | zero => intro w j; simp
  | succ n ih =>
    intro w j
    rw [List.range_succ, List.foldl_append, List.foldl_cons, List.foldl_nil, getD_set_int,
      shift_fold_length, ih, ih]
    by_cases h1 : n = j
    · subst h1
      by_cases h2 : n < w.length
      · rw [if_pos (⟨rfl, h2⟩ : n = n ∧ n < w.length),
          if_neg (fun hh : n + 1 < n ∧ n + 1 < w.length => by omega),
          if_pos (⟨by omega, h2⟩ : n < n + 1 ∧ n < w.length)]
      · rw [if_neg (fun hh : n = n ∧ n < w.length => h2 hh.2),
          if_neg (fun hh : n < n ∧ n < w.length => h2 hh.2),
          if_neg (fun hh : n < n + 1 ∧ n < w.length => h2 hh.2)]
    · rw [if_neg (fun hh : n = j ∧ j < w.length => h1 hh.1)]
      by_cases h3 : j < n ∧ j < w.length
      · rw [if_pos h3, if_pos (⟨by omega, h3.2⟩ : j < n + 1 ∧ j < w.length)]
      · rw [if_neg h3, if_neg]
        intro hh
        exact h3 ⟨by omega, hh.2⟩

theorem frame_wait_shift_length (AVGCNT : Nat) (w : List Int) :
    (frame_wait_shift AVGCNT w).length = w.length :=
  shift_fold_length _ _

theorem frame_wait_shift_getD (AVGCNT : Nat) (w : List Int) (j : Nat) :
    (frame_wait_shift AVGCNT w).getD j 0
      = if j < AVGCNT - 1 ∧ j < w.length then w.getD (j + 1) 0 else w.getD j 0 :=
  shift_fold_getD _ _ _

/-- The elapsed time, in microseconds, that `mlp_frametiming` takes off the new sample. -/
theorem frametiming_frame_wait (AVGCNT : Nat) (to_wait : Int → Int) (cam : ctx_dev)
    (ts2 : timespec) :
    (mlp_frametiming AVGCNT to_wait cam ts2).1.frame_wait
      = ((frame_wait_shift AVGCNT cam.frame_wait).set (AVGCNT - 1)
          (if cam.conf.framerate ≠ 0 then Int.tdiv 1000000 cam.conf.framerate else 0)).set
          (AVGCNT - 1)
          (to_wait ((((frame_wait_shift AVGCNT cam.frame_wait).set (AVGCNT - 1)
              (if cam.conf.framerate ≠ 0 then Int.tdiv 1000000 cam.conf.framerate
                else 0)).getD (AVGCNT - 1) 0)
            - 1000000 * (ts2.tv_sec - cam.frame_curr_ts.tv_sec)
            - Int.tdiv (ts2.tv_nsec - cam.frame_curr_ts.tv_nsec) 1000)) := rfl

theorem frametiming_sleep_eq (AVGCNT : Nat) (to_wait : Int → Int) (cam : ctx_dev)
    (ts2 : timespec) :
    (mlp_frametiming AVGCNT to_wait cam ts2).2
      = frametiming_sleep
          (frame_wait_avg AVGCNT (mlp_frametiming AVGCNT to_wait cam ts2).1.frame_wait) := rfl

theorem frametiming_conf (AVGCNT : Nat) (to_wait : Int → Int) (cam : ctx_dev)
    (ts2 : timespec) :
    (mlp_frametiming AVGCNT to_wait cam ts2).1.conf = cam.conf := rfl

theorem frametiming_length (AVGCNT : Nat) (to_wait : Int → Int) (cam : ctx_dev)
    (ts2 : timespec) :
    (mlp_frametiming AVGCNT to_wait cam ts2).1.frame_wait.length = cam.frame_wait.length := by
  rw [frametiming_frame_wait, List.length_set, List.length_set, frame_wait_shift_length]

/-- The samples after `mlp_frametiming`: the old ones moved down by one place and,
in the last place, the interval of the frame rate less the elapsed time. -/
theorem frametiming_getD (AVGCNT : Nat) (to_wait : Int → Int) (cam : ctx_dev)
    (ts2 : timespec) (h0 : 0 < AVGCNT) (hlen : AVGCNT ≤ cam.frame_wait.length) (j : Nat) :
    (mlp_frametiming AVGCNT to_wait cam ts2).1.frame_wait.getD j 0
      = if j = AVGCNT - 1 then
          to_wait ((if cam.conf.framerate ≠ 0 then Int.tdiv 1000000 cam.conf.framerate else 0)
            - 1000000 * (ts2.tv_sec - cam.frame_curr_ts.tv_sec)
            - Int.tdiv (ts2.tv_nsec - cam.frame_curr_ts.tv_nsec) 1000)
        else if j < AVGCNT - 1 then cam.frame_wait.getD (j + 1) 0
        else cam.frame_wait.getD j 0 := by
  rw [frametiming_frame_wait, getD_set_int, getD_set_int, getD_set_int, List.length_set,
    frame_wait_shift_length, frame_wait_shift_getD, frame_wait_shift_getD]
  by_cases h1 : j = AVGCNT - 1
  · subst h1
    rw [if_pos ⟨rfl, by omega⟩, if_pos rfl, if_pos ⟨rfl, by omega⟩]
  · rw [if_neg (fun hh => h1 hh.1.symm), if_neg (fun hh => h1 hh.1.symm), if_neg h1]
    by_cases h2 : j < AVGCNT - 1
    · rw [if_pos ⟨h2, by omega⟩, if_pos h2]
    · rw [if_neg (fun hh => h2 hh.1), if_neg h2]

theorem frametiming_sleep_cases (avgtime : Int) :
    (avgtime ≤ 0 → frametiming_sleep avgtime = none) ∧
    (0 < avgtime → avgtime < 1000000 →
      frametiming_sleep avgtime = some { tv_sec := 0, tv_nsec := avgtime * 1000 }) ∧
    (1000000 ≤ avgtime → frametiming_sleep avgtime = some { tv_sec := 1, tv_nsec := 0 }) := by
  unfold frametiming_sleep
  refine ⟨fun h => if_neg (by omega), fun h1 h2 => ?_, fun h => ?_⟩
  · rw [if_pos (by omega)]
    exact if_neg (by omega)
  · rw [if_pos (by omega)]
    exact if_pos (by omega)

/-- C18: for every wait history, frame rate and clock reading the sleep asked for
by `mlp_frametiming` is decided by the average `avgtime` of the new history: none
when `avgtime ≤ 0`, exactly `avgtime` microseconds (`avgtime * 1000` nanoseconds)
when `0 < avgtime < 1000000`, exactly one second otherwise; so a sleep is never
negative and never longer than one second.  With frame rate 0 the new sample is
the interval 0 less the elapsed time. -/
theorem frametiming_sleep_bounds (AVGCNT : Nat) (to_wait : Int → Int) (cam : ctx_dev)
    (ts2 : timespec) :
    (frame_wait_avg AVGCNT (mlp_frametiming AVGCNT to_wait cam ts2).1.frame_wait ≤ 0 →
      (mlp_frametiming AVGCNT to_wait cam ts2).2 = none) ∧
    (0 < frame_wait_avg AVGCNT (mlp_frametiming AVGCNT to_wait cam ts2).1.frame_wait →
      frame_wait_avg AVGCNT (mlp_frametiming AVGCNT to_wait cam ts2).1.frame_wait < 1000000 →
      (mlp_frametiming AVGCNT to_wait cam ts2).2 = some { tv_sec := 0, tv_nsec := (
        frame_wait_avg AVGCNT (mlp_frametiming AVGCNT to_wait cam ts2).1.frame_wait * 1000) }) ∧
    (1000000 ≤ frame_wait_avg AVGCNT (mlp_frametiming AVGCNT to_wait cam ts2).1.frame_wait →
      (mlp_frametiming AVGCNT to_wait cam ts2).2 = some { tv_sec := 1, tv_nsec := 0 }) ∧
    (∀ s, (mlp_frametiming AVGCNT to_wait cam ts2).2 = some s →
      0 ≤ s.tv_sec ∧ 0 ≤ s.tv_nsec ∧ s.tv_sec * 1000000000 + s.tv_nsec ≤ 1000000000) ∧
    (cam.conf.framerate = 0 → 0 < AVGCNT → AVGCNT ≤ cam.frame_wait.length →
      (mlp_frametiming AVGCNT to_wait cam ts2).1.frame_wait.getD (AVGCNT - 1) 0
        = to_wait (0 - 1000000 * (ts2.tv_sec - cam.frame_curr_ts.tv_sec)
            - Int.tdiv (ts2.tv_nsec - cam.frame_curr_ts.tv_nsec) 1000)) := by
  rw [frametiming_sleep_eq]
  generalize frame_wait_avg AVGCNT (mlp_frametiming AVGCNT to_wait cam ts2).1.frame_wait = a
  have hc := frametiming_sleep_cases a
  refine ⟨hc.1, hc.2.1, hc.2.2, ?_, ?_⟩
  · intro s hs
    rcases Int.lt_or_le 0 a with hpos | hle
    · rcases Int.lt_or_le a 1000000 with hlt | hge
      · rw [hc.2.1 hpos hlt] at hs
        cases hs
        refine ⟨Int.le_refl 0, ?_, ?_⟩
        · show 0 ≤ a * 1000
          omega
        · show (0 : Int) * 1000000000 + a * 1000 ≤ 1000000000
          omega
      · rw [hc.2.2 hge] at hs
        cases hs
        decide
    · rw [hc.1 hle] at hs
      cases hs
  · intro hf h0 hlen
    rw [frametiming_getD AVGCNT to_wait cam ts2 h0 hlen, if_pos rfl, hf]
    rfl

/-- C18 at the pacer `cam_pacer` with three samples and no elapsed time: the new
average is 450000 microseconds and that is the sleep asked for. -/
theorem frametiming_sleep_bounds_witness :
    (mlp_frametiming 3 id cam_pacer { tv_sec := 0, tv_nsec := 0 }).2
      = some { tv_sec := 0, tv_nsec := 450000 * 1000 } :=
  (frametiming_sleep_bounds 3 id cam_pacer { tv_sec := 0, tv_nsec := 0 }).2.1
    (by decide) (by decide)

theorem pacer_tick_length (AVGCNT : Nat) (to_wait : Int → Int) (cam : ctx_dev) (now : timespec) :
    (pacer_tick AVGCNT to_wait cam now).frame_wait.length = cam.frame_wait.length :=
  frametiming_length AVGCNT to_wait { cam with frame_curr_ts := now } now

theorem pacer_tick_conf (AVGCNT : Nat) (to_wait : Int → Int) (cam : ctx_dev) (now : timespec) :
    (pacer_tick AVGCNT to_wait cam now).conf = cam.conf := rfl

/-- With no elapsed time a tick moves the samples down by one place and puts
the interval of the frame rate in the last place. -/
theorem pacer_tick_getD (AVGCNT : Nat) (to_wait : Int → Int) (cam : ctx_dev) (now : timespec)
    (h0 : 0 < AVGCNT) (hlen : AVGCNT ≤ cam.frame_wait.length) (j : Nat) :
    (pacer_tick AVGCNT to_wait cam now).frame_wait.getD j 0
      = if j = AVGCNT - 1 then
          to_wait (if cam.conf.framerate ≠ 0 then Int.tdiv 1000000 cam.conf.framerate else 0)
        else if j < AVGCNT - 1 then cam.frame_wait.getD (j + 1) 0
        else cam.frame_wait.getD j 0 := by
  have h := frametiming_getD AVGCNT to_wait { cam with frame_curr_ts := now } now h0 hlen j
  have he : ∀ x : Int, x - 1000000 * (now.tv_sec - now.tv_sec)
      - Int.tdiv (now.tv_nsec - now.tv_nsec) 1000 = x := by
    intro x
    rw [Int.sub_self, Int.sub_self, Int.zero_tdiv]
    omega
  exact h.trans (by rw [he])

theorem pacer_filled_tick (AVGCNT : Nat) (to_wait : Int → Int) (cam : ctx_dev) (now : timespec)
    (n : Nat) (h0 : 0 < AVGCNT) (hf : cam.conf.framerate ≠ 0)
    (hw : to_wait (Int.tdiv 1000000 cam.conf.framerate) = Int.tdiv 1000000 cam.conf.framerate)
    (h : pacer_filled AVGCNT (Int.tdiv 1000000 cam.conf.framerate) n cam) :
    pacer_filled AVGCNT (Int.tdiv 1000000 cam.conf.framerate) (n + 1)
      (pacer_tick AVGCNT to_wait cam now) := by
  refine ⟨(pacer_tick_length AVGCNT to_wait cam now).trans h.1, ?_⟩
  intro j hj1 hj2
  rw [pacer_tick_getD AVGCNT to_wait cam now h0 (Nat.le_of_eq h.1.symm) j]
  by_cases h1 : j = AVGCNT - 1
  · rw [if_pos h1, if_pos hf, hw]
  · rw [if_neg h1, if_pos (by omega)]
    exact h.2 (j + 1) (by omega) (by omega)

theorem pacer_filled_ticks (AVGCNT : Nat) (to_wait : Int → Int) (h0 : 0 < AVGCNT) :
    ∀ (nows : List timespec) (cam : ctx_dev) (n : Nat), cam.conf.framerate ≠ 0 →
      to_wait (Int.tdiv 1000000 cam.conf.framerate) = Int.tdiv 1000000 cam.conf.framerate →
      pacer_filled AVGCNT (Int.tdiv 1000000 cam.conf.framerate) n cam →
      (pacer_ticks AVGCNT to_wait cam nows).conf = cam.conf ∧
      pacer_filled AVGCNT (Int.tdiv 1000000 cam.conf.framerate) (n + nows.length)
        (pacer_ticks AVGCNT to_wait cam nows) := by
  intro nows
  induction nows with
  | nil => intro cam n _ _ h; exact ⟨rfl, h⟩
  | cons now rest ih =>
    intro cam n hf hw h
    have hstep := pacer_filled_tick AVGCNT to_wait cam now n h0 hf hw h
    have hr := ih (pacer_tick AVGCNT to_wait cam now) (n + 1) hf hw hstep
    refine ⟨hr.1, ?_⟩
    have hl : n + (now :: rest).length = n + 1 + rest.length := by
      rw [List.length_cons]; omega
    rw [hl]
    exact hr.2

theorem avg_fold_const (w : List Int) (v : Int) (n : Nat)
    (h : ∀ j, j < n → w.getD j 0 = v) :
    (List.range n).foldl (fun avgtime indx => avgtime + w.getD indx 0) 0 = (n : Int) * v := by
  induction n with
  | zero => simp
  | succ n ih =>
    rw [List.range_succ, List.foldl_append, List.foldl_cons, List.foldl_nil,
      ih (fun j hj => h j (by omega)), h n (by omega)]
    push_cast
    ring

theorem frame_wait_avg_const (AVGCNT : Nat) (w : List Int) (v : Int) (h0 : 0 < AVGCNT)
    (h : ∀ j, j < AVGCNT → w.getD j 0 = v) : frame_wait_avg AVGCNT w = v := by
  unfold frame_wait_avg
  rw [avg_fold_const w v AVGCNT h]
  exact Int.mul_tdiv_cancel_left v (by omega)

theorem replicate_of_getD (w : List Int) (v : Int) (n : Nat) (hl : w.length = n)
    (h : ∀ j, j < n → w.getD j 0 = v) : w = List.replicate n v := by
  apply List.ext_getElem
  · rw [hl, List.length_replicate]
  · intro j h1 h2
    rw [List.getElem_replicate]
    have := h j (by omega)
    rwa [List.getD_eq_getElem _ _ h1] at this

/-- C19: with a constant frame rate `f > 0`, no elapsed time between
`mlp_prepare` and `mlp_frametiming` on every tick, and a history of `AVGCNT`
samples of any content, after `AVGCNT` or more consecutive ticks every sample of
the history and the average of the history are `1000000 / f` microseconds.  The
value `1000000 / f` is one the element type of `frame_wait` holds. -/
theorem pacer_converges (AVGCNT : Nat) (to_wait : Int → Int) (cam : ctx_dev)
    (nows : List timespec) (h0 : 0 < AVGCNT) (hlen : cam.frame_wait.length = AVGCNT)
    (hf : 0 < cam.conf.framerate)
    (hw : to_wait (Int.tdiv 1000000 cam.conf.framerate) = Int.tdiv 1000000 cam.conf.framerate)
    (hn : AVGCNT ≤ nows.length) :
    (pacer_ticks AVGCNT to_wait cam nows).frame_wait
        = List.replicate AVGCNT (Int.tdiv 1000000 cam.conf.framerate) ∧
      frame_wait_avg AVGCNT (pacer_ticks AVGCNT to_wait cam nows).frame_wait
        = Int.tdiv 1000000 cam.conf.framerate ∧
      Int.tdiv 1000000 cam.conf.framerate = 1000000 / cam.conf.framerate := by
  have hinit : pacer_filled AVGCNT (Int.tdiv 1000000 cam.conf.framerate) 0 cam :=
    ⟨hlen, fun j h1 h2 => by omega⟩
  have h := (pacer_filled_ticks AVGCNT to_wait h0 nows cam 0 (by omega) hw hinit).2
  have hall : ∀ j, j < AVGCNT →
      (pacer_ticks AVGCNT to_wait cam nows).frame_wait.getD j 0
        = Int.tdiv 1000000 cam.conf.framerate :=
    fun j hj => h.2 j (by omega) hj
  exact ⟨replicate_of_getD _ _ _ h.1 hall, frame_wait_avg_const _ _ _ h0 hall,
    Int.tdiv_eq_ediv (by decide) (Int.le_of_lt hf)⟩

/-- C19 at the pacer `cam_pacer` (three samples, 4 frames a second): after four
ticks the history is three times 250000 microseconds and so is its average. -/
theorem pacer_converges_witness :
    (pacer_ticks 3 id cam_pacer (List.replicate 4 { tv_sec := 7, tv_nsec := 300 })).frame_wait
        = List.replicate 3 (Int.tdiv 1000000 cam_pacer.conf.framerate) ∧
      frame_wait_avg 3
          (pacer_ticks 3 id cam_pacer (List.replicate 4 { tv_sec := 7, tv_nsec := 300 })).frame_wait
        = Int.tdiv 1000000 cam_pacer.conf.framerate ∧
      Int.tdiv 1000000 cam_pacer.conf.framerate = 1000000 / cam_pacer.conf.framerate :=
  pacer_converges 3 id cam_pacer (List.replicate 4 { tv_sec := 7, tv_nsec := 300 })
    (by decide) rfl (by decide) rfl (by decide)

/-! ## The watchdog -/

theorem getD_set_any {α : Type} (l : List α) (i j : Nat) (v d : α) :
    (l.set i v).getD j d = if i = j ∧ j < l.length then v else l.getD j d := by
  simp only [List.getD_eq_getElem?_getD, List.getElem?_set]
  by_cases h : i = j
  · subst h
    by_cases h2 : i < l.length
    · simp [h2]
    · simp [h2, List.getElem?_eq_none (Nat.le_of_not_lt h2)]
  · simp [h]

theorem set_getD_self {α : Type} (d : α) : ∀ (l : List α) (i : Nat), l.set i (l.getD i d) = l
  | [], _ => rfl
  | _ :: _, 0 => rfl
  | a :: l, i + 1 => by
    rw [List.set_cons_succ, List.getD_cons_succ, set_getD_self d l i]

theorem cam_at_ofNat (cam_list : List ctx_dev) (indx : Nat) :
    cam_at cam_list (Int.ofNat indx) = cam_list.getD indx dev_none := rfl

/-- A loop over the devices that rewrites each device by `g`. -/
theorem fold_cam_length (step : ctx_motapp → Nat → ctx_motapp) (g : ctx_dev → ctx_dev)
    (hstep : ∀ m i, (step m i).cam_list = m.cam_list.set i (g (m.cam_list.getD i dev_none)))
    (n : Nat) : ∀ m, ((List.range n).foldl step m).cam_list.length = m.cam_list.length := by
  induction n with
  | zero => intro m; rfl
  | succ n ih =>
    intro m
    rw [List.range_succ, List.foldl_append, List.foldl_cons, List.foldl_nil, hstep,
      List.length_set, ih]

theorem fold_cam_getD (step : ctx_motapp → Nat → ctx_motapp) (g : ctx_dev → ctx_dev)
    (hstep : ∀ m i, (step m i).cam_list = m.cam_list.set i (g (m.cam_list.getD i dev_none)))
    (n : Nat) : ∀ m j, ((List.range n).foldl step m).cam_list.getD j dev_none
      = if j < n ∧ j < m.cam_list.length then g (m.cam_list.getD j dev_none)
        else m.cam_list.getD j dev_none := by
  induction n with
  | zero => intro m j; simp
  | succ n ih =>
    intro m j
    rw [List.range_succ, List.foldl_append, List.foldl_cons, List.foldl_nil, hstep,
      getD_set_any, fold_cam_length step g hstep, ih, ih]
    by_cases h1 : n = j
    · subst h1
      by_cases h2 : n < m.cam_list.length
      · rw [if_pos (⟨rfl, h2⟩ : n = n ∧ n < m.cam_list.length),
          if_neg (fun hh : n < n ∧ n < m.cam_list.length => by omega),
          if_pos (⟨by omega, h2⟩ : n < n + 1 ∧ n < m.cam_list.length)]
      · rw [if_neg (fun hh : n = n ∧ n < m.cam_list.length => h2 hh.2),
          if_neg (fun hh : n < n ∧ n < m.cam_list.length => h2 hh.2),
          if_neg (fun hh : n < n + 1 ∧ n < m.cam_list.length => h2 hh.2)]
    · rw [if_neg (fun hh : n = j ∧ j < m.cam_list.length => h1 hh.1)]
      by_cases h3 : j < n ∧ j < m.cam_list.length
      · rw [if_pos h3, if_pos (⟨by omega, h3.2⟩ : j < n + 1 ∧ j < m.cam_list.length)]
      · rw [if_neg h3, if_neg]
        intro hh
        exact h3 ⟨by omega, hh.2⟩

theorem fold_keeps {β : Type} (step : ctx_motapp → Nat → ctx_motapp) (p : ctx_motapp → β)
    (hp : ∀ m i, p (step m i) = p m) (n : Nat) :
    ∀ m, p ((List.range n).foldl step m) = p m := by
  induction n with
  | zero => intro m; rfl
  | succ n ih =>
    intro m
    rw [List.range_succ, List.foldl_append, List.foldl_cons, List.foldl_nil, hp, ih]

theorem shutdown_step_list (m : ctx_motapp) (i : Nat) :
    (watchdog_shutdown_step m i).cam_list
      = m.cam_list.set i (watchdog_shutdown_dev (m.cam_list.getD i dev_none)) := rfl

theorem kill_step_list (m : ctx_motapp) (i : Nat) :
    (watchdog_kill_step m i).cam_list
      = m.cam_list.set i (watchdog_kill_dev (m.cam_list.getD i dev_none)) := rfl

theorem recoveries_append (a b : List app_call) :
    recoveries (a ++ b) = recoveries a + recoveries b :=
  List.countP_append _ _ _

theorem recoveries_shutdown_calls (dbse : Bool) (cam : ctx_dev) (indx : Nat) :
    recoveries (watchdog_shutdown_calls dbse cam indx) = 0 := by
  unfold watchdog_shutdown_calls
  simp only [recoveries_append]
  cases dbse <;> cases netcam_live cam cam.netcam <;> cases netcam_live cam cam.netcam_high <;> rfl

theorem recoveries_kill_calls (cam : ctx_dev) (indx : Nat) :
    recoveries (watchdog_kill_calls cam indx) = 0 := by
  unfold watchdog_kill_calls
  simp only [recoveries_append]
  cases netcam_unfinished cam.netcam <;> cases netcam_unfinished cam.netcam_high <;>
    cases cam.running_dev <;> rfl

theorem shutdown_step_recoveries (m : ctx_motapp) (i : Nat) :
    recoveries (watchdog_shutdown_step m i).calls = recoveries m.calls :=
  (recoveries_append _ _).trans (by rw [recoveries_shutdown_calls]; rfl)

theorem kill_step_recoveries (m : ctx_motapp) (i : Nat) :
    recoveries (watchdog_kill_step m i).calls = recoveries m.calls :=
  (recoveries_append _ _).trans (by rw [recoveries_kill_calls]; rfl)

theorem shutdown_dev_flags (cam : ctx_dev) :
    (watchdog_shutdown_dev cam).event_stop = true ∧
      (watchdog_shutdown_dev cam).finish_dev = true := ⟨rfl, rfl⟩

theorem kill_dev_flags (cam : ctx_dev) :
    (watchdog_kill_dev cam).event_stop = cam.event_stop ∧
      (watchdog_kill_dev cam).finish_dev = cam.finish_dev ∧
      (watchdog_kill_dev cam).running_dev = false ∧
      (watchdog_kill_dev cam).restart_dev = false := ⟨rfl, rfl, rfl, rfl⟩

/-- The state after the forced recovery. -/
theorem watchdog_timeout_state (m : ctx_motapp) (camindx : Int)
    (hcnt : m.cam_cnt = (m.cam_list.length : Int)) :
    (watchdog_timeout m camindx).restart_all = true ∧
    (watchdog_timeout m camindx).finish_all = true ∧
    (watchdog_timeout m camindx).webcontrol_finish = true ∧
    (watchdog_timeout m camindx).threads_running = 0 ∧
    (watchdog_timeout m camindx).cam_cnt = m.cam_cnt ∧
    (watchdog_timeout m camindx).cam_list.length = m.cam_list.length ∧
    recoveries (watchdog_timeout m camindx).calls = recoveries m.calls + 1 ∧
    ∀ j, j < m.cam_list.length →
      (watchdog_timeout m camindx).cam_list.getD j dev_none
        = watchdog_kill_dev (watchdog_shutdown_dev (m.cam_list.getD j dev_none)) := by
  have hn : m.cam_cnt.toNat = m.cam_list.length := by rw [hcnt]; exact Int.toNat_natCast _
  have hc1 : ((List.range m.cam_cnt.toNat).foldl watchdog_shutdown_step m).cam_cnt = m.cam_cnt :=
    fold_keeps watchdog_shutdown_step (fun m => m.cam_cnt) (fun _ _ => rfl) _ m
  have hl1 := fold_cam_length watchdog_shutdown_step watchdog_shutdown_dev shutdown_step_list
    m.cam_cnt.toNat m
  have hg1 := fold_cam_getD watchdog_shutdown_step watchdog_shutdown_dev shutdown_step_list
    m.cam_cnt.toNat m
  have hr1 := fold_keeps watchdog_shutdown_step (fun m => recoveries m.calls)
    shutdown_step_recoveries m.cam_cnt.toNat m
  simp only [watchdog_timeout]
  generalize (List.range m.cam_cnt.toNat).foldl watchdog_shutdown_step m = A at hc1 hl1 hg1 hr1
  have hB : ∀ B : ctx_motapp, B.cam_list = A.cam_list → B.cam_cnt = A.cam_cnt →
      recoveries B.calls = recoveries A.calls + 1 →
      ((List.range A.cam_cnt.toNat).foldl watchdog_kill_step B).cam_cnt = m.cam_cnt ∧
      ((List.range A.cam_cnt.toNat).foldl watchdog_kill_step B).cam_list.length
        = m.cam_list.length ∧
      recoveries ((List.range A.cam_cnt.toNat).foldl watchdog_kill_step B).calls
        = recoveries m.calls + 1 ∧
      ∀ j, j < m.cam_list.length →
        ((List.range A.cam_cnt.toNat).foldl watchdog_kill_step B).cam_list.getD j dev_none
          = watchdog_kill_dev (watchdog_shutdown_dev (m.cam_list.getD j dev_none)) := by
    intro B hBl hBc hBr
    refine ⟨?_, ?_, ?_, ?_⟩
    · rw [fold_keeps watchdog_kill_step (fun m => m.cam_cnt) (fun _ _ => rfl) _ B, hBc, hc1]
    · rw [fold_cam_length watchdog_kill_step watchdog_kill_dev kill_step_list, hBl, hl1]
    · rw [fold_keeps watchdog_kill_step (fun m => recoveries m.calls) kill_step_recoveries _ B,
        hBr, hr1]
    · intro j hj
      rw [fold_cam_getD watchdog_kill_step watchdog_kill_dev kill_step_list, hBl, hl1, hc1, hn,
        if_pos ⟨hj, hj⟩, hg1, hn, if_pos ⟨hj, hj⟩]
  refine ⟨trivial, trivial, trivial, trivial, ?_⟩
  exact hB _ rfl rfl ((recoveries_append _ _).trans rfl)

theorem cam_at_upd (m : ctx_motapp) (i : Int) (f : ctx_dev → ctx_dev)
    (hi : i.toNat < m.cam_list.length) :
    cam_at (m.upd_cam i f).cam_list i = f (cam_at m.cam_list i) := by
  unfold cam_at ctx_motapp.upd_cam
  rw [getD_set_any, if_pos ⟨rfl, hi⟩]
  rfl

theorem upd_cam_twice (m : ctx_motapp) (i : Int) (f g : ctx_dev → ctx_dev)
    (hi : i.toNat < m.cam_list.length) :
    (m.upd_cam i f).upd_cam i g = m.upd_cam i (fun cam => g (f cam)) := by
  have h := cam_at_upd m i f hi
  unfold ctx_motapp.upd_cam at h ⊢
  simp only [h, List.set_set]

theorem upd_cam_self (m : ctx_motapp) (i : Int) (f : ctx_dev → ctx_dev)
    (hf : f (cam_at m.cam_list i) = cam_at m.cam_list i) : m.upd_cam i f = m := by
  unfold ctx_motapp.upd_cam
  rw [hf]
  unfold cam_at
  rw [set_getD_self]

theorem upd_cam_congr (m : ctx_motapp) (i : Int) (f g : ctx_dev → ctx_dev)
    (h : f (cam_at m.cam_list i) = g (cam_at m.cam_list i)) : m.upd_cam i f = m.upd_cam i g := by
  unfold ctx_motapp.upd_cam
  rw [h]

/-- A call while the counter is above 1 is a decrement of the counter. -/
theorem watchdog_decrement (m : ctx_motapp) (i : Int) (hi : i.toNat < m.cam_list.length)
    (hrun : (cam_at m.cam_list i).running_dev = true)
    (hw : 1 < (cam_at m.cam_list i).watchdog) :
    motpls_watchdog m i = m.upd_cam i (fun cam => { cam with watchdog := cam.watchdog - 1 }) := by
  unfold motpls_watchdog
  rw [if_neg (by rw [hrun]; decide)]
  simp only []
  rw [if_pos]
  rw [cam_at_upd m i _ hi]
  show (cam_at m.cam_list i).watchdog - 1 > 0
  omega

/-- A call with the counter at 1 or below is the forced recovery. -/
theorem watchdog_expire (m : ctx_motapp) (i : Int) (hi : i.toNat < m.cam_list.length)
    (hrun : (cam_at m.cam_list i).running_dev = true)
    (hw : (cam_at m.cam_list i).watchdog ≤ 1) :
    motpls_watchdog m i
      = watchdog_timeout (m.upd_cam i (fun cam => { cam with watchdog := cam.watchdog - 1 })) i := by
  unfold motpls_watchdog
  rw [if_neg (by rw [hrun]; decide)]
  simp only []
  rw [if_neg]
  rw [cam_at_upd m i _ hi]
  show ¬ (cam_at m.cam_list i).watchdog - 1 > 0
  omega

/-- A call for a device that does not run changes nothing. -/
theorem watchdog_idle (m : ctx_motapp) (i : Int)
    (hrun : (cam_at m.cam_list i).running_dev = false) : motpls_watchdog m i = m := by
  unfold motpls_watchdog
  rw [if_pos hrun]

theorem watchdog_calls_snoc (m : ctx_motapp) (indxs : List Int) (i : Int) :
    watchdog_calls m (indxs ++ [i]) = motpls_watchdog (watchdog_calls m indxs) i := by
  unfold watchdog_calls
  rw [List.foldl_append, List.foldl_cons, List.foldl_nil]

/-- The calls before the counter runs out: each one a decrement. -/
theorem watchdog_countdown (m : ctx_motapp) (i : Int) (hi : i.toNat < m.cam_list.length)
    (hrun : (cam_at m.cam_list i).running_dev = true) :
    ∀ k : Nat, (k : Int) < (cam_at m.cam_list i).watchdog →
      watchdog_calls m (List.replicate k i)
        = m.upd_cam i (fun cam => { cam with watchdog := (cam_at m.cam_list i).watchdog - k }) := by
  intro k
  induction k with
  | zero =>
    intro _
    refine (upd_cam_self m i _ ?_).symm
    show { cam_at m.cam_list i with watchdog := (cam_at m.cam_list i).watchdog - ((0 : Nat) : Int) }
      = cam_at m.cam_list i
    rw [Int.natCast_zero, Int.sub_zero]
  | succ k ih =>
    intro hk
    have hk1 : (k : Int) < (cam_at m.cam_list i).watchdog := by push_cast at hk; omega
    rw [List.replicate_succ', watchdog_calls_snoc, ih hk1]
    have hi2 : i.toNat < (m.upd_cam i (fun cam =>
        { cam with watchdog := (cam_at m.cam_list i).watchdog - k })).cam_list.length := by
      unfold ctx_motapp.upd_cam
      rw [List.length_set]
      exact hi
    have hc := cam_at_upd m i (fun cam =>
      { cam with watchdog := (cam_at m.cam_list i).watchdog - k }) hi
    rw [watchdog_decrement _ i hi2 (by rw [hc]; exact hrun)
      (by rw [hc]; show 1 < (cam_at m.cam_list i).watchdog - k; push_cast at hk; omega),
      upd_cam_twice m i _ _ hi]
    refine upd_cam_congr m i _ _ ?_
    show { cam_at m.cam_list i with watchdog := (cam_at m.cam_list i).watchdog - k - 1 }
      = { cam_at m.cam_list i with watchdog := (cam_at m.cam_list i).watchdog - ((k + 1 : Nat) : Int) }
    rw [show (cam_at m.cam_list i).watchdog - (k : Int) - 1
      = (cam_at m.cam_list i).watchdog - ((k + 1 : Nat) : Int) by push_cast; omega]

theorem watchdog_calls_idle (m : ctx_motapp) :
    ∀ indxs : List Int, (∀ i ∈ indxs, (cam_at m.cam_list i).running_dev = false) →
      watchdog_calls m indxs = m
  | [], _ => rfl
  | i :: rest, h => by
    unfold watchdog_calls
    rw [List.foldl_cons, watchdog_idle m i (h i (List.mem_cons_self _ _))]
    exact watchdog_calls_idle m rest (fun j hj => h j (List.mem_cons_of_mem _ hj))

/-- The call on which the counter runs out is the forced recovery, on a state
that differs from the first one in the counter only. -/
theorem watchdog_last_call (m : ctx_motapp) (i : Int) (hi : i.toNat < m.cam_list.length)
    (hrun : (cam_at m.cam_list i).running_dev = true)
    (ht : 1 ≤ (cam_at m.cam_list i).watchdog) :
    ∃ B : ctx_motapp, watchdog_calls m (List.replicate (cam_at m.cam_list i).watchdog.toNat i)
        = watchdog_timeout B i ∧
      B.cam_cnt = m.cam_cnt ∧ B.cam_list.length = m.cam_list.length ∧ B.calls = m.calls := by
  have hk : (cam_at m.cam_list i).watchdog.toNat
      = ((cam_at m.cam_list i).watchdog.toNat - 1) + 1 := by omega
  have hk1 : (((cam_at m.cam_list i).watchdog.toNat - 1 : Nat) : Int)
      < (cam_at m.cam_list i).watchdog := by omega
  have hS := watchdog_countdown m i hi hrun _ hk1
  have hc := cam_at_upd m i (fun cam => { cam with watchdog :=
    (cam_at m.cam_list i).watchdog - (((cam_at m.cam_list i).watchdog.toNat - 1 : Nat) : Int) }) hi
  have hi2 : i.toNat < (m.upd_cam i (fun cam => { cam with watchdog :=
      (cam_at m.cam_list i).watchdog
        - (((cam_at m.cam_list i).watchdog.toNat - 1 : Nat) : Int) })).cam_list.length := by
    unfold ctx_motapp.upd_cam
    rw [List.length_set]
    exact hi
  refine ⟨(m.upd_cam i (fun cam => { cam with watchdog :=
      (cam_at m.cam_list i).watchdog
        - (((cam_at m.cam_list i).watchdog.toNat - 1 : Nat) : Int) })).upd_cam i
      (fun cam => { cam with watchdog := cam.watchdog - 1 }), ?_, ?_, ?_, ?_⟩
  · rw [hk, List.replicate_succ', watchdog_calls_snoc, hS]
    exact watchdog_expire _ i hi2 (by rw [hc]; exact hrun)
      (by
        rw [hc]
        show (cam_at m.cam_list i).watchdog
          - (((cam_at m.cam_list i).watchdog.toNat - 1 : Nat) : Int) ≤ 1
        omega)
  · rfl
  · unfold ctx_motapp.upd_cam
    rw [List.length_set, List.length_set]
  · rfl

/-- C20: a running device `camindx` whose watchdog counter holds `t ≥ 1` and is
not reloaded.  The first `k < t` calls of `motpls_watchdog` for it leave the
state as it was but for the counter, which holds `t - k`, and no forced recovery
is on record; after the `t`-th call `restart_all` and `finish_all` are set, every
device of `cam_list` is marked to finish (`finish_dev`, `event_stop`) and does
not run, and one forced recovery is on record; further calls, for any devices of
`cam_list`, leave that state as it is. -/
theorem watchdog_recovers_once (motapp : ctx_motapp) (camindx t : Int)
    (hcnt : motapp.cam_cnt = (motapp.cam_list.length : Int))
    (h0 : 0 ≤ camindx) (h1 : camindx < motapp.cam_cnt)
    (hrun : (cam_at motapp.cam_list camindx).running_dev = true)
    (hw : (cam_at motapp.cam_list camindx).watchdog = t) (ht : 1 ≤ t) :
    (∀ k : Nat, (k : Int) < t →
      watchdog_calls motapp (List.replicate k camindx)
          = motapp.upd_cam camindx (fun cam => { cam with watchdog := t - k }) ∧
        recoveries (watchdog_calls motapp (List.replicate k camindx)).calls
          = recoveries motapp.calls) ∧
    (watchdog_calls motapp (List.replicate t.toNat camindx)).restart_all = true ∧
    (watchdog_calls motapp (List.replicate t.toNat camindx)).finish_all = true ∧
    (∀ i : Int, 0 ≤ i → i < motapp.cam_cnt →
      (cam_at (watchdog_calls motapp (List.replicate t.toNat camindx)).cam_list i).finish_dev
          = true ∧
        (cam_at (watchdog_calls motapp (List.replicate t.toNat camindx)).cam_list i).event_stop
          = true ∧
        (cam_at (watchdog_calls motapp (List.replicate t.toNat camindx)).cam_list i).running_dev
          = false) ∧
    recoveries (watchdog_calls motapp (List.replicate t.toNat camindx)).calls
      = recoveries motapp.calls + 1 ∧
    (∀ later : List Int, (∀ i ∈ later, 0 ≤ i ∧ i < motapp.cam_cnt) →
      watchdog_calls (watchdog_calls motapp (List.replicate t.toNat camindx)) later
        = watchdog_calls motapp (List.replicate t.toNat camindx)) := by
  subst hw
  have hi : camindx.toNat < motapp.cam_list.length := by omega
  obtain ⟨B, hR, hBc, hBl, hBcalls⟩ := watchdog_last_call motapp camindx hi hrun ht
  have hT := watchdog_timeout_state B camindx (by rw [hBc, hBl]; exact hcnt)
  rw [hR]
  have hdev : ∀ i : Int, 0 ≤ i → i < motapp.cam_cnt →
      cam_at (watchdog_timeout B camindx).cam_list i
        = watchdog_kill_dev (watchdog_shutdown_dev (B.cam_list.getD i.toNat dev_none)) :=
    fun i hi0 hi1 => hT.2.2.2.2.2.2.2 i.toNat (by omega)
  refine ⟨fun k hk => ?_, hT.1, hT.2.1, fun i hi0 hi1 => ?_, ?_, fun later hl => ?_⟩
  · have he := watchdog_countdown motapp camindx hi hrun k hk
    exact ⟨he, congrArg (fun m => recoveries m.calls) he⟩
  · rw [hdev i hi0 hi1]
    exact ⟨rfl, rfl, rfl⟩
  · rw [hT.2.2.2.2.2.2.1, hBcalls]
  · refine watchdog_calls_idle _ later (fun i hi => ?_)
    rw [hdev i (hl i hi).1 (hl i hi).2]
    rfl

/-- C20 at `app_two_devs`, for the first device with the counter at 3: two calls
take the counter to 1 with no recovery; the third call sets `finish_all` and
stops the second device too, with one recovery on record; a fourth call for the
second device changes nothing. -/
theorem watchdog_recovers_once_witness :
    recoveries (watchdog_calls app_two_devs (List.replicate 2 0)).calls
        = recoveries app_two_devs.calls ∧
      (watchdog_calls app_two_devs (List.replicate (3 : Int).toNat 0)).finish_all = true ∧
      (cam_at (watchdog_calls app_two_devs
          (List.replicate (3 : Int).toNat 0)).cam_list 1).running_dev = false ∧
      recoveries (watchdog_calls app_two_devs (List.replicate (3 : Int).toNat 0)).calls
        = recoveries app_two_devs.calls + 1 ∧
      watchdog_calls (watchdog_calls app_two_devs (List.replicate (3 : Int).toNat 0)) [1]
        = watchdog_calls app_two_devs (List.replicate (3 : Int).toNat 0) :=
  have h := watchdog_recovers_once app_two_devs 0 3 rfl (by decide) (by decide) rfl rfl
    (by decide)
  ⟨(h.1 2 (by decide)).2, h.2.2.1, (h.2.2.2.1 1 (by decide) (by decide)).2.2, h.2.2.2.2.1,
    h.2.2.2.2.2 [1] (by
      intro i hi
      rw [List.mem_singleton] at hi
      subst hi
      exact ⟨by decide, by decide⟩)⟩

/-! ## The size check and the retry of the capture backend -/

theorem tmod_ne_zero_iff (a b : Int) : Int.tmod a b ≠ 0 ↔ ¬ (b ∣ a) :=
  not_congr ⟨Int.dvd_of_tmod_eq_zero, Int.tmod_eq_zero_of_dvd⟩

/-- C26: `mlp_check_szimg` sets the status to `STATUS_RESET` when the width or
the height is not a multiple of 8 or is below 64, and leaves it as it was
otherwise; whatever the width and the height, no other field of the device
changes. -/
theorem check_szimg_resets (cam : ctx_dev) :
    mlp_check_szimg cam = { cam with device_status :=
      if ¬ (8 ∣ cam.imgs.width) ∨ ¬ (8 ∣ cam.imgs.height) ∨
          cam.imgs.width < 64 ∨ cam.imgs.height < 64
      then device_status.STATUS_RESET else cam.device_status } := by
  unfold mlp_check_szimg
  simp only [tmod_ne_zero_iff]
  by_cases h1 : ¬ (8 ∣ cam.imgs.width) ∨ ¬ (8 ∣ cam.imgs.height)
  · have h3 : ¬ (8 ∣ cam.imgs.width) ∨ ¬ (8 ∣ cam.imgs.height) ∨
        cam.imgs.width < 64 ∨ cam.imgs.height < 64 := by tauto
    rw [if_pos h1, if_pos h3]
    by_cases h2 : cam.imgs.width < 64 ∨ cam.imgs.height < 64
    · exact if_pos h2
    · exact if_neg h2
  · rw [if_neg h1]
    by_cases h2 : cam.imgs.width < 64 ∨ cam.imgs.height < 64
    · have h3 : ¬ (8 ∣ cam.imgs.width) ∨ ¬ (8 ∣ cam.imgs.height) ∨
          cam.imgs.width < 64 ∨ cam.imgs.height < 64 := by tauto
      rw [if_pos h2, if_pos h3]
    · have h3 : ¬ (¬ (8 ∣ cam.imgs.width) ∨ ¬ (8 ∣ cam.imgs.height) ∨
          cam.imgs.width < 64 ∨ cam.imgs.height < 64) := by tauto
      rw [if_neg h2, if_neg h3]

theorem cam_starts_append (a b : List ext_call) :
    cam_starts (a ++ b) = cam_starts a + cam_starts b :=
  List.countP_append _ _ _

theorem check_szimg_calls (cam : ctx_dev) : (mlp_check_szimg cam).calls = cam.calls := by
  unfold mlp_check_szimg
  simp only [apply_ite ctx_dev.calls, ite_self]

/-- The record of calls after the statements of `mlp_retry` under its test. -/
theorem retry_calls (cam : ctx_dev) (out : cam_start_out)
    (h : cam.device_status = device_status.STATUS_CLOSED ∧
      Int.tmod cam.frame_curr_ts.tv_sec 10 = 0 ∧ cam.shots = 0) :
    (mlp_retry cam out).calls = (mlp_cam_start cam out).calls := by
  unfold mlp_retry
  rw [if_pos h]
  simp only [apply_ite ctx_dev.calls, ite_self]
  exact check_szimg_calls _

theorem v4l2_set_imgs_calls (cam : ctx_dev) (out : cam_start_out) :
    (v4l2_set_imgs cam out).calls = cam.calls := by
  unfold v4l2_set_imgs
  split <;> rfl

/-- `v4l2_start` records one start of the backend. -/
theorem v4l2_start_starts (cam : ctx_dev) (out : cam_start_out) :
    cam_starts (v4l2_start cam out).calls = cam_starts cam.calls + 1 := by
  unfold v4l2_start
  simp only []
  split
  · show cam_starts ((v4l2_set_imgs _ out).calls ++ [_]) = _
    rw [cam_starts_append, v4l2_set_imgs_calls]
    show cam_starts (cam.calls ++ [_]) + _ = _
    rw [cam_starts_append]
    rfl
  · show cam_starts (v4l2_set_imgs _ out).calls = _
    rw [v4l2_set_imgs_calls]
    show cam_starts (cam.calls ++ [_]) = _
    rw [cam_starts_append]
    rfl

/-- The start of the backend of a device with a camera type is recorded once. -/
theorem cam_start_starts (cam : ctx_dev) (out : cam_start_out)
    (h : cam.camera_type ≠ camera_type.CAMERA_TYPE_UNKNOWN) :
    cam_starts (mlp_cam_start cam out).calls = cam_starts cam.calls + 1 := by
  have hb : cam_starts (backend_start cam out).calls = cam_starts cam.calls + 1 := by
    show cam_starts (cam.calls ++ [_]) = _
    rw [cam_starts_append]
    rfl
  unfold mlp_cam_start
  split
  · exact hb
  · split
    · exact hb
    · split
      · exact v4l2_start_starts cam out
      · rename_i h1 h2 h3
        cases hc : cam.camera_type
        · exact absurd hc h
        · exact absurd hc h3
        · exact absurd hc h1
        · exact absurd hc h2

/-- C27, as the spec states it, fails: `cam_closed_7` is closed and at the first
frame (`shots = 0`) of second 7 of the steady clock; whatever the backend would
do, `mlp_retry` leaves the device as it is and no start of the backend is on
record. -/
theorem retry_every_second_counterexample :
    cam_closed_7.device_status = device_status.STATUS_CLOSED ∧ cam_closed_7.shots = 0 ∧
    cam_closed_7.camera_type = camera_type.CAMERA_TYPE_V4L2 ∧
    ∀ out : cam_start_out, mlp_retry cam_closed_7 out = cam_closed_7 ∧
      cam_starts (mlp_retry cam_closed_7 out).calls = 0 :=
  ⟨rfl, rfl, rfl, fun _ => ⟨rfl, rfl⟩⟩

/-- C27, amended: `mlp_retry` starts the capture backend of a device with a
backend when, and only when, the status is closed, the second of the steady
clock read by `mlp_prepare` is a multiple of 10, and the frame is the first one
of that second (`shots = 0`): then one start is recorded, and in every other case
the device is left as it is.  After `mlp_prepare`, `shots` is 0 on the first
frame of a second and is not on a later frame of the same second. -/
theorem retry_every_tenth_second (cam : ctx_dev) (out : cam_start_out) :
    (cam.device_status = device_status.STATUS_CLOSED → 10 ∣ cam.frame_curr_ts.tv_sec →
      cam.shots = 0 → cam.camera_type ≠ camera_type.CAMERA_TYPE_UNKNOWN →
      cam_starts (mlp_retry cam out).calls = cam_starts cam.calls + 1) ∧
    (¬ (cam.device_status = device_status.STATUS_CLOSED ∧ 10 ∣ cam.frame_curr_ts.tv_sec ∧
        cam.shots = 0) → mlp_retry cam out = cam) ∧
    (∀ now : timespec,
      (now.tv_sec ≠ cam.frame_curr_ts.tv_sec → (mlp_prepare cam now).shots = 0) ∧
      (now.tv_sec = cam.frame_curr_ts.tv_sec → 0 ≤ cam.shots →
        (mlp_prepare cam now).shots ≠ 0) ∧
      (mlp_prepare cam now).frame_curr_ts = now ∧
      (mlp_prepare cam now).device_status = cam.device_status) := by
  refine ⟨fun hs hd h0 hb => ?_, fun hn => ?_, fun now => ?_⟩
  · rw [retry_calls cam out ⟨hs, Int.tmod_eq_zero_of_dvd hd, h0⟩]
    exact cam_start_starts cam out hb
  · unfold mlp_retry
    rw [if_neg]
    intro hh
    exact hn ⟨hh.1, Int.dvd_of_tmod_eq_zero hh.2.1, hh.2.2⟩
  · have hshots : (mlp_prepare cam now).shots
        = (if cam.frame_curr_ts.tv_sec ≠ now.tv_sec then -1 else cam.shots) + 1 := by
      simp only [mlp_prepare, apply_ite ctx_dev.shots, apply_ite ctx_dev.frame_last_ts,
        apply_ite ctx_dev.frame_curr_ts, ite_self]
    have hts : (mlp_prepare cam now).frame_curr_ts = now := by
      simp only [mlp_prepare, apply_ite ctx_dev.frame_curr_ts, ite_self]
    have hst : (mlp_prepare cam now).device_status = cam.device_status := by
      simp only [mlp_prepare, apply_ite ctx_dev.device_status, ite_self]
    refine ⟨fun hne => ?_, fun heq h0 => ?_, hts, hst⟩
    · rw [hshots, if_pos (fun hh => hne hh.symm)]
      rfl
    · rw [hshots, if_neg (fun hh => hh heq.symm)]
      omega

/-- C27, amended, at a closed V4L2 device on the first frame of second 20: one
start of the backend is recorded. -/
theorem retry_every_tenth_second_witness :
    cam_starts (mlp_retry { cam_closed_7 with frame_curr_ts := { tv_sec := 20 } } {}).calls
      = cam_starts ({ cam_closed_7 with frame_curr_ts := { tv_sec := 20 } } : ctx_dev).calls + 1 :=
  (retry_every_tenth_second { cam_closed_7 with frame_curr_ts := { tv_sec := 20 } } {}).1
    rfl (by decide) rfl (by decide)

/-! ## Failed captures -/

/-- A write through `cam->current_image` changes the ring and nothing else. -/
theorem upd_cur_eq (cam : ctx_dev) (f : ctx_image_data → ctx_image_data) :
    cam.upd_cur f
      = { cam with imgs := { cam.imgs with image_ring := (cam.upd_cur f).imgs.image_ring } } := by
  unfold ctx_dev.upd_cur
  split <;> rfl

theorem cur_upd_cur (cam : ctx_dev) (f : ctx_image_data → ctx_image_data) (i : Int)
    (hc : cam.current_image = some i) (hi : i.toNat < cam.imgs.image_ring.length) :
    (cam.upd_cur f).cur = f cam.cur := by
  rw [cur_eq _ i ((current_upd_cur cam f).trans hc), ring_upd_cur cam f i hc,
    ring_at_upd_same _ _ _ hi, cur_eq cam i hc]

theorem capture_upd_cur (cam : ctx_dev) (f : ctx_image_data → ctx_image_data) :
    (cam.upd_cur f).capture = cam.capture := by
  rw [upd_cur_eq]; rfl

theorem cam_losts_append (a b : List ext_call) :
    cam_losts (a ++ b) = cam_losts a + cam_losts b :=
  List.countP_append _ _ _

theorem cam_closes_append (a b : List ext_call) :
    cam_closes (a ++ b) = cam_closes a + cam_closes b :=
  List.countP_append _ _ _

theorem v4l2_next_eq (cam : ctx_dev) (inp : capture_input) :
    (v4l2_next cam inp).1 = { cam with imgs := { cam.imgs with
      image_ring := (v4l2_next cam inp).1.imgs.image_ring } } := by
  unfold v4l2_next
  split
  · rfl
  · exact upd_cur_eq _ _

/-- The state handed to the branches of `mlp_capture` by `mlp_cam_next`. -/
theorem cam_next_eq (cam : ctx_dev) (inp : capture_input) :
    (mlp_cam_next cam inp).1 = { cam with imgs := { cam.imgs with
      image_ring := (mlp_cam_next cam inp).1.imgs.image_ring } } := by
  unfold mlp_cam_next
  split
  · exact upd_cur_eq _ _
  · split
    · exact upd_cur_eq _ _
    · split
      · exact v4l2_next_eq _ _
      · rfl

/-- A failed capture on an opened device is the failure branch. -/
theorem capture_failed_eq (e : ctx_dev) (inp : capture_input)
    (hopen : e.device_status = device_status.STATUS_OPENED)
    (hfail : (mlp_cam_next e inp).2 = capture_retcd.CAPTURE_FAILURE) :
    mlp_capture e inp = mlp_capture_failure (mlp_cam_next e inp).1 inp := by
  unfold mlp_capture
  rw [if_neg (not_not.mpr hopen)]
  simp only []
  rw [if_neg (by rw [hfail]; decide)]

theorem capture_missing (cam : ctx_dev) (inp : capture_input) :
    (mlp_capture_missing cam inp).capture
        = { cam.capture with missing_frame_counter := cam.missing_frame_counter + 1 } ∧
      (mlp_capture_missing cam inp).imgs = cam.imgs ∧
      (mlp_capture_missing cam inp).current_image = cam.current_image ∧
      (mlp_capture_missing cam inp).lost_connection = cam.lost_connection ∧
      cam_backend (mlp_capture_missing cam inp) = cam_backend cam ∧
      (mlp_capture_missing cam inp).text_scale = cam.text_scale ∧
      (mlp_capture_missing cam inp).connectionlosttime
        = (if cam.connectionlosttime.tv_sec = 0 then inp.realtime
           else cam.connectionlosttime) := by
  unfold mlp_capture_missing
  refine ⟨?_, ?_, ?_, ?_, ?_, ?_, ?_⟩
  · simp only [ctx_dev.capture, apply_ite ctx_dev.device_status,
      apply_ite ctx_dev.missing_frame_counter, apply_ite ctx_dev.conf, apply_ite ctx_dev.calls,
      ite_self]
  · simp only [apply_ite ctx_dev.imgs, ite_self]
  · simp only [apply_ite ctx_dev.current_image, ite_self]
  · simp only [apply_ite ctx_dev.lost_connection, ite_self]
  · simp only [cam_backend, apply_ite ctx_dev.libcam, apply_ite ctx_dev.netcam,
      apply_ite ctx_dev.v4l2cam, ite_self]
  · simp only [apply_ite ctx_dev.text_scale, ite_self]
  · simp only [apply_ite ctx_dev.connectionlosttime]

theorem cam_close_capture (cam : ctx_dev) (hb : cam_backend cam = true) :
    (mlp_cam_close cam).capture
        = { cam.capture with device_status := device_status.STATUS_CLOSED,
                             closes := cam.capture.closes + 1 } ∧
      (mlp_cam_close cam).imgs = cam.imgs ∧
      (mlp_cam_close cam).current_image = cam.current_image ∧
      (mlp_cam_close cam).lost_connection = cam.lost_connection := by
  unfold mlp_cam_close
  by_cases h1 : cam.libcam = true
  · rw [if_pos h1]
    exact ⟨by simp only [ctx_dev.capture, ctx_dev.call, cam_closes_append, cam_losts_append]; rfl,
      rfl, rfl, rfl⟩
  · rw [if_neg h1]
    by_cases h2 : cam.netcam.isSome = true
    · rw [if_pos h2]
      exact ⟨by simp only [ctx_dev.capture, ctx_dev.call, cam_closes_append, cam_losts_append]; rfl,
        rfl, rfl, rfl⟩
    · rw [if_neg h2]
      have h3 : cam.v4l2cam = true := by
        unfold cam_backend at hb
        simp only [Bool.or_eq_true] at hb
        tauto
      rw [if_pos h3]
      unfold v4l2_cleanup
      exact ⟨by simp only [ctx_dev.capture, ctx_dev.call, cam_closes_append, cam_losts_append]; rfl,
        rfl, rfl, rfl⟩

/-- The `else` part of a failed capture on an opened device with a backend. -/
theorem capture_lost (cam : ctx_dev) (inp : capture_input)
    (hopen : cam.device_status = device_status.STATUS_OPENED)
    (hb : cam_backend cam = true) :
    (mlp_capture_lost cam inp).capture
        = { device_status :=
              if cam.missing_frame_counter = (cam.conf.device_tmo * 4) * cam.conf.framerate
              then device_status.STATUS_CLOSED else device_status.STATUS_OPENED,
            missing_frame_counter := cam.missing_frame_counter,
            budget := cam.conf.device_tmo * cam.conf.framerate,
            losts := cam_losts cam.calls +
              (if cam.missing_frame_counter = cam.conf.device_tmo * cam.conf.framerate
               then 1 else 0),
            closes := cam_closes cam.calls +
              (if cam.missing_frame_counter = (cam.conf.device_tmo * 4) * cam.conf.framerate
               then 1 else 0) } ∧
      (mlp_capture_lost cam inp).lost_connection = 1 ∧
      (mlp_capture_lost cam inp).current_image = cam.current_image ∧
      (mlp_capture_lost cam inp).imgs.image_ring
        = ({ cam with lost_connection := 1 }.upd_cur (fun img =>
            { img with image_norm :=
                (inp.draw_text (memset img.image_norm 0x80 cam.imgs.size_norm)
                  cam.imgs.width cam.imgs.height 10 (20 * cam.text_scale)
                  (inp.mystrftime "CONNECTION TO CAMERA LOST\\nSINCE %Y-%m-%d %T"
                    cam.connectionlosttime) cam.text_scale) })).imgs.image_ring := by
  unfold mlp_capture_lost
  simp only []
  rw [if_pos hopen]
  generalize hL : ({ cam with lost_connection := 1 } : ctx_dev).upd_cur (fun img =>
    { img with image_norm :=
        (inp.draw_text (memset img.image_norm 0x80 cam.imgs.size_norm)
          cam.imgs.width cam.imgs.height 10 (20 * cam.text_scale)
          (inp.mystrftime "CONNECTION TO CAMERA LOST\\nSINCE %Y-%m-%d %T"
            cam.connectionlosttime) cam.text_scale) }) = L
  have hLe : L = { cam with lost_connection := 1, imgs := { cam.imgs with
      image_ring := L.imgs.image_ring } } := by
    rw [← hL]; exact upd_cur_eq _ _
  have hLcur : L.current_image = cam.current_image := by rw [hLe]
  have hLst : L.device_status = cam.device_status := by rw [hLe]
  have hLmis : L.missing_frame_counter = cam.missing_frame_counter := by rw [hLe]
  have hLconf : L.conf = cam.conf := by rw [hLe]
  have hLcalls : L.calls = cam.calls := by rw [hLe]
  have hLlost : L.lost_connection = 1 := by rw [hLe]
  have hLb : cam_backend L = cam_backend cam := by rw [hLe]; rfl
  clear hLe hL
  rw [hLmis, hLconf]
  generalize hM : (if cam.missing_frame_counter = cam.conf.device_tmo * cam.conf.framerate
    then L.call (ext_call.event EVENT_CAMERA_LOST none) else L) = M
  have hMcur : M.current_image = cam.current_image := by
    rw [← hM, apply_ite ctx_dev.current_image]; exact (ite_self _).trans hLcur
  have hMst : M.device_status = cam.device_status := by
    rw [← hM, apply_ite ctx_dev.device_status]; exact (ite_self _).trans hLst
  have hMmis : M.missing_frame_counter = cam.missing_frame_counter := by
    rw [← hM, apply_ite ctx_dev.missing_frame_counter]; exact (ite_self _).trans hLmis
  have hMconf : M.conf = cam.conf := by
    rw [← hM, apply_ite ctx_dev.conf]; exact (ite_self _).trans hLconf
  have hMlost : M.lost_connection = 1 := by
    rw [← hM, apply_ite ctx_dev.lost_connection]; exact (ite_self _).trans hLlost
  have hMimgs : M.imgs = L.imgs := by
    rw [← hM, apply_ite ctx_dev.imgs]; exact ite_self _
  have hMb : cam_backend M = cam_backend cam := by
    rw [← hM, apply_ite cam_backend]; exact (ite_self _).trans hLb
  have hMlosts : cam_losts M.calls = cam_losts cam.calls +
      (if cam.missing_frame_counter = cam.conf.device_tmo * cam.conf.framerate then 1 else 0) := by
    rw [← hM]
    split
    · show cam_losts (L.calls ++ _) = _
      rw [cam_losts_append, hLcalls]; rfl
    · rw [hLcalls]; rfl
  have hMcloses : cam_closes M.calls = cam_closes cam.calls := by
    rw [← hM]
    split
    · show cam_closes (L.calls ++ _) = _
      rw [cam_closes_append, hLcalls]; rfl
    · rw [hLcalls]
  clear hM
  rw [hMst, hMmis, hMconf]
  by_cases h2 : cam.missing_frame_counter = (cam.conf.device_tmo * 4) * cam.conf.framerate
  · rw [if_pos (⟨hopen, h2⟩ : _ ∧ _), if_pos h2, if_pos h2]
    obtain ⟨hc, hi, hcu, hl⟩ := cam_close_capture M (hMb.trans hb)
    refine ⟨?_, hl.trans hMlost, hcu.trans hMcur, ?_⟩
    · rw [hc]
      simp only [ctx_dev.capture, hMmis, hMconf, hMlosts, hMcloses]
    · rw [hi, hMimgs]
  · rw [if_neg (fun hh : _ ∧ _ => h2 hh.2), if_neg h2, if_neg h2]
    refine ⟨?_, hMlost, hMcur, by rw [hMimgs]⟩
    simp only [ctx_dev.capture, hMmis, hMconf, hMlosts, hMcloses, hMst, hopen, Nat.add_zero]

theorem cam_next_fields (e : ctx_dev) (inp : capture_input) :
    (mlp_cam_next e inp).1.capture = e.capture ∧
    (mlp_cam_next e inp).1.current_image = e.current_image ∧
    (mlp_cam_next e inp).1.lost_connection = e.lost_connection ∧
    cam_backend (mlp_cam_next e inp).1 = cam_backend e ∧
    (mlp_cam_next e inp).1.imgs.image_vprvcy = e.imgs.image_vprvcy ∧
    (mlp_cam_next e inp).1.imgs.size_norm = e.imgs.size_norm ∧
    (mlp_cam_next e inp).1.imgs.image_ring.length = e.imgs.image_ring.length ∧
    (mlp_cam_next e inp).1.imgs.width = e.imgs.width ∧
    (mlp_cam_next e inp).1.imgs.height = e.imgs.height ∧
    (mlp_cam_next e inp).1.text_scale = e.text_scale ∧
    (mlp_cam_next e inp).1.connectionlosttime = e.connectionlosttime := by
  refine ⟨?_, ?_, ?_, ?_, ?_, ?_, ?_, ?_, ?_, ?_, ?_⟩
  · rw [cam_next_eq]; rfl
  · rw [cam_next_eq]
  · rw [cam_next_eq]
  · rw [cam_next_eq]; rfl
  · rw [cam_next_eq]
  · rw [cam_next_eq]
  · unfold mlp_cam_next
    split
    · exact upd_cur_length _ _
    · split
      · exact upd_cur_length _ _
      · split
        · unfold v4l2_next
          split
          · rfl
          · exact upd_cur_length _ _
        · rfl
  · rw [cam_next_eq]
  · rw [cam_next_eq]
  · rw [cam_next_eq]
  · rw [cam_next_eq]

/-- One failed capture on an opened device that holds a backend, by the number
`k = missing_frame_counter + 1` of the failure and the budget
`B = device_tmo * framerate`: what `ctx_dev.capture` shows afterwards, the lost
state and the current frame. -/
theorem capture_failure_step (e : ctx_dev) (inp : capture_input)
    (hopen : e.device_status = device_status.STATUS_OPENED) (hb : cam_backend e = true)
    (hfail : (mlp_cam_next e inp).2 = capture_retcd.CAPTURE_FAILURE) :
    (e.missing_frame_counter + 1 < e.conf.device_tmo * e.conf.framerate →
      (mlp_capture e inp).capture
          = { e.capture with missing_frame_counter := e.missing_frame_counter + 1 } ∧
        (mlp_capture e inp).lost_connection = e.lost_connection ∧
        ∀ i : Int, e.current_image = some i → i.toNat < e.imgs.image_ring.length →
          (mlp_capture e inp).cur.image_norm
            = e.imgs.image_vprvcy.take e.imgs.size_norm.toNat ++
                (mlp_cam_next e inp).1.cur.image_norm.drop e.imgs.size_norm.toNat) ∧
    (e.conf.device_tmo * e.conf.framerate ≤ e.missing_frame_counter + 1 →
      (mlp_capture e inp).capture
          = { device_status :=
                if e.missing_frame_counter + 1 = (e.conf.device_tmo * 4) * e.conf.framerate
                then device_status.STATUS_CLOSED else device_status.STATUS_OPENED,
              missing_frame_counter := e.missing_frame_counter + 1,
              budget := e.conf.device_tmo * e.conf.framerate,
              losts := cam_losts e.calls +
                (if e.missing_frame_counter + 1 = e.conf.device_tmo * e.conf.framerate
                 then 1 else 0),
              closes := cam_closes e.calls +
                (if e.missing_frame_counter + 1 = (e.conf.device_tmo * 4) * e.conf.framerate
                 then 1 else 0) } ∧
        (mlp_capture e inp).lost_connection = 1 ∧
        ∀ i : Int, e.current_image = some i → i.toNat < e.imgs.image_ring.length →
          (mlp_capture e inp).cur.image_norm
            = inp.draw_text
                (List.replicate e.imgs.size_norm.toNat 0x80 ++
                  (mlp_cam_next e inp).1.cur.image_norm.drop e.imgs.size_norm.toNat)
                e.imgs.width e.imgs.height 10 (20 * e.text_scale)
                (inp.mystrftime "CONNECTION TO CAMERA LOST\\nSINCE %Y-%m-%d %T"
                  (if e.connectionlosttime.tv_sec = 0 then inp.realtime
                   else e.connectionlosttime))
                e.text_scale) := by
  rw [capture_failed_eq e inp hopen hfail]
  obtain ⟨hXc, hXcur, hXlost, hXb, hXv, hXs, hXlen, hXw, hXh, hXts, hXclt⟩ :=
    cam_next_fields e inp
  generalize (mlp_cam_next e inp).1 = X at *
  obtain ⟨hYc, hYimgs, hYcur, hYlost, hYb, hYts, hYclt⟩ := capture_missing X inp
  unfold mlp_capture_failure
  simp only []
  generalize mlp_capture_missing X inp = Y at *
  have hYst : Y.device_status = e.device_status :=
    (congrArg dev_capture.device_status hYc).trans (congrArg dev_capture.device_status hXc)
  have hYmis : Y.missing_frame_counter = e.missing_frame_counter + 1 :=
    (congrArg dev_capture.missing_frame_counter hYc).trans
      (congrArg (fun v => v + 1) (congrArg dev_capture.missing_frame_counter hXc))
  have hYbud : Y.conf.device_tmo * Y.conf.framerate = e.conf.device_tmo * e.conf.framerate :=
    (congrArg dev_capture.budget hYc).trans (congrArg dev_capture.budget hXc)
  have hYlosts : cam_losts Y.calls = cam_losts e.calls :=
    (congrArg dev_capture.losts hYc).trans (congrArg dev_capture.losts hXc)
  have hYcloses : cam_closes Y.calls = cam_closes e.calls :=
    (congrArg dev_capture.closes hYc).trans (congrArg dev_capture.closes hXc)
  have hcurY : Y.cur = X.cur := by
    unfold ctx_dev.cur
    rw [hYcur, hYimgs]
  constructor
  · intro hk
    rw [if_pos (⟨hYst.trans hopen, by rw [hYmis, hYbud]; exact hk⟩ : _ ∧ _)]
    refine ⟨?_, ?_, ?_⟩
    · rw [capture_upd_cur]
      simp only [ctx_dev.capture, hYst, hYmis, hYbud, hYlosts, hYcloses]
    · rw [upd_cur_eq]
      exact hYlost.trans hXlost
    · intro i hi hlen
      rw [cur_upd_cur Y _ i (hYcur.trans (hXcur.trans hi))
        (by rw [hYimgs, hXlen]; exact hlen), hcurY, hYimgs, hXv, hXs]
      rfl
  · intro hk
    rw [if_neg (fun hh : _ ∧ _ => by
      have := hh.2
      rw [hYmis, hYbud] at this
      omega)]
    obtain ⟨hc, hl, hcu, hr⟩ :=
      capture_lost Y inp (hYst.trans hopen) (hYb.trans (hXb.trans hb))
    refine ⟨?_, hl, ?_⟩
    · rw [hc]
      have h4 : Y.conf.device_tmo * 4 * Y.conf.framerate
          = e.conf.device_tmo * 4 * e.conf.framerate := by
        have e1 : Y.conf.device_tmo * 4 * Y.conf.framerate
            = 4 * (Y.conf.device_tmo * Y.conf.framerate) := by ring
        have e2 : e.conf.device_tmo * 4 * e.conf.framerate
            = 4 * (e.conf.device_tmo * e.conf.framerate) := by ring
        rw [e1, e2, hYbud]
      rw [hYmis, hYbud, h4, hYlosts, hYcloses]
    · intro i hi hlen
      have hci : (mlp_capture_lost Y inp).current_image = some i :=
        hcu.trans (hYcur.trans (hXcur.trans hi))
      have hYi : ({ Y with lost_connection := 1 } : ctx_dev).current_image = some i :=
        hYcur.trans (hXcur.trans hi)
      rw [cur_eq _ i hci, hr, ring_upd_cur _ _ i hYi,
        ring_at_upd_same _ _ _ (by
          show i.toNat < Y.imgs.image_ring.length
          rw [hYimgs, hXlen]; exact hlen)]
      show inp.draw_text (memset (ring_at Y.imgs.image_ring i).image_norm 0x80 Y.imgs.size_norm)
        Y.imgs.width Y.imgs.height 10 (20 * Y.text_scale)
        (inp.mystrftime _ Y.connectionlosttime) Y.text_scale = _
      rw [hYimgs, hXs, hXw, hXh, hYts, hXts, hYclt, hXclt, cur_eq X i (hXcur.trans hi)]
      rfl

/-- What `ctx_dev.capture` shows after `n` consecutive failed captures that
started with the counter at 0 and a budget `B ≥ 1`. -/
theorem failed_captures_view (c : ctx_dev)
    (hB : 1 ≤ c.conf.device_tmo * c.conf.framerate) (h0 : c.missing_frame_counter = 0) :
    ∀ (n : Nat) (m : ctx_dev), failed_captures c n m →
      (n : Int) ≤ 4 * (c.conf.device_tmo * c.conf.framerate) ∧
      (1 ≤ n → m.device_status =
        if (n : Int) = 4 * (c.conf.device_tmo * c.conf.framerate)
        then device_status.STATUS_CLOSED else device_status.STATUS_OPENED) ∧
      m.missing_frame_counter = n ∧
      m.conf.device_tmo * m.conf.framerate = c.conf.device_tmo * c.conf.framerate ∧
      cam_losts m.calls = cam_losts c.calls +
        (if c.conf.device_tmo * c.conf.framerate ≤ n then 1 else 0) ∧
      cam_closes m.calls = cam_closes c.calls +
        (if (n : Int) = 4 * (c.conf.device_tmo * c.conf.framerate) then 1 else 0) := by
  intro n m h
  induction h with
  | start =>
    refine ⟨by omega, fun h => absurd h (by decide), by rw [h0]; rfl, rfl, ?_, ?_⟩
    · rw [if_neg (by push_cast; omega)]; rfl
    · rw [if_neg (by push_cast; omega)]; rfl
  | fail n m e inp _ he hopen hb hfail ih =>
    obtain ⟨hn, hst, hmis, hbud, hlosts, hcloses⟩ := ih
    have est : e.device_status = m.device_status := congrArg dev_capture.device_status he
    have emis : e.missing_frame_counter = n :=
      (congrArg dev_capture.missing_frame_counter he).trans hmis
    have ebud : e.conf.device_tmo * e.conf.framerate
        = c.conf.device_tmo * c.conf.framerate := (congrArg dev_capture.budget he).trans hbud
    have elosts : cam_losts e.calls = cam_losts c.calls +
        (if c.conf.device_tmo * c.conf.framerate ≤ n then 1 else 0) :=
      (congrArg dev_capture.losts he).trans hlosts
    have ecloses : cam_closes e.calls = cam_closes c.calls +
        (if (n : Int) = 4 * (c.conf.device_tmo * c.conf.framerate) then 1 else 0) :=
      (congrArg dev_capture.closes he).trans hcloses
    have e4 : e.conf.device_tmo * 4 * e.conf.framerate
        = 4 * (c.conf.device_tmo * c.conf.framerate) := by
      rw [← ebud]; ring
    have hlt : (n : Int) < 4 * (c.conf.device_tmo * c.conf.framerate) := by
      rcases Nat.eq_zero_or_pos n with h | h
      · rw [h]; push_cast; omega
      · have h2 := hst h
        rw [← est, hopen] at h2
        by_cases h3 : (n : Int) = 4 * (c.conf.device_tmo * c.conf.framerate)
        · rw [if_pos h3] at h2; cases h2
        · omega
    rw [if_neg (Int.ne_of_lt hlt), Nat.add_zero] at ecloses
    obtain ⟨hs1, hs2⟩ := capture_failure_step e inp hopen hb hfail
    rw [emis, ebud] at hs1
    rw [emis, ebud, e4, elosts, ecloses] at hs2
    have hcast : ((n + 1 : Nat) : Int) = (n : Int) + 1 := by push_cast; rfl
    rw [hcast]
    by_cases hk : (n : Int) + 1 < c.conf.device_tmo * c.conf.framerate
    · have hv := (hs1 hk).1
      refine ⟨by omega, fun _ => ?_, ?_, ?_, ?_, ?_⟩
      · rw [if_neg (by omega)]
        exact (congrArg dev_capture.device_status hv).trans hopen
      · exact congrArg dev_capture.missing_frame_counter hv
      · exact (congrArg dev_capture.budget hv).trans ebud
      · rw [if_neg (by omega)]
        refine (congrArg dev_capture.losts hv).trans (elosts.trans ?_)
        rw [if_neg (by omega)]
      · rw [if_neg (by omega)]
        exact (congrArg dev_capture.closes hv).trans ecloses
    · have hv := (hs2 (by omega)).1
      refine ⟨by omega, fun _ => ?_, ?_, ?_, ?_, ?_⟩
      · exact congrArg dev_capture.device_status hv
      · exact congrArg dev_capture.missing_frame_counter hv
      · exact (congrArg dev_capture.budget hv).trans rfl
      · refine (congrArg dev_capture.losts hv).trans ?_
        show cam_losts c.calls + _ + _ = _
        rw [if_pos (by omega : c.conf.device_tmo * c.conf.framerate ≤ (n : Int) + 1)]
        by_cases h5 : c.conf.device_tmo * c.conf.framerate ≤ (n : Int)
        · rw [if_pos h5, if_neg (by omega)]
        · rw [if_neg h5, if_pos (by omega)]
      · exact congrArg dev_capture.closes hv

/-- C28: a run of consecutive failed captures on an opened device that holds a
backend, from a state with the missing-frame counter at 0 and the budget
`B = device_tmo * framerate ≥ 1`.  After `n` failures the counter is `n`, `n` is at
most `4 * B`, one camera-lost notification has been made if `B ≤ n` and none
otherwise, and one cleanup of the backend if `n = 4 * B` and none otherwise.
Failure number `n + 1` of the run leaves, if `n + 1 < B`, the lost state and the
notifications as they were, and the first `size_norm` bytes of the current
frame are those of the last good masked image (`image_vprvcy`), the bytes after
them being what the backend left; if `B ≤ n + 1`, it sets the lost state, and
the current frame is the placeholder: its first `size_norm` bytes set to 0x80
and the text "CONNECTION TO CAMERA LOST" with the time of the loss drawn on it
by `draw_text` at (10, 20 * `text_scale`). -/
theorem capture_failure_run (c : ctx_dev)
    (hB : 1 ≤ c.conf.device_tmo * c.conf.framerate) (h0 : c.missing_frame_counter = 0) :
    (∀ (n : Nat) (m : ctx_dev), failed_captures c n m →
      m.missing_frame_counter = n ∧
      (n : Int) ≤ 4 * (c.conf.device_tmo * c.conf.framerate) ∧
      cam_losts m.calls = cam_losts c.calls +
        (if c.conf.device_tmo * c.conf.framerate ≤ n then 1 else 0) ∧
      cam_closes m.calls = cam_closes c.calls +
        (if (n : Int) = 4 * (c.conf.device_tmo * c.conf.framerate) then 1 else 0)) ∧
    (∀ (n : Nat) (m e : ctx_dev) (inp : capture_input), failed_captures c n m →
      e.capture = m.capture → e.device_status = device_status.STATUS_OPENED →
      cam_backend e = true → (mlp_cam_next e inp).2 = capture_retcd.CAPTURE_FAILURE →
      ((n : Int) + 1 < c.conf.device_tmo * c.conf.framerate →
        (mlp_capture e inp).lost_connection = e.lost_connection ∧
        cam_losts (mlp_capture e inp).calls = cam_losts e.calls ∧
        ∀ i : Int, e.current_image = some i → i.toNat < e.imgs.image_ring.length →
          (mlp_capture e inp).cur.image_norm
            = e.imgs.image_vprvcy.take e.imgs.size_norm.toNat ++
                (mlp_cam_next e inp).1.cur.image_norm.drop e.imgs.size_norm.toNat) ∧
      (c.conf.device_tmo * c.conf.framerate ≤ (n : Int) + 1 →
        (mlp_capture e inp).lost_connection = 1 ∧
        ∀ i : Int, e.current_image = some i → i.toNat < e.imgs.image_ring.length →
          (mlp_capture e inp).cur.image_norm
            = inp.draw_text
                (List.replicate e.imgs.size_norm.toNat 0x80 ++
                  (mlp_cam_next e inp).1.cur.image_norm.drop e.imgs.size_norm.toNat)
                e.imgs.width e.imgs.height 10 (20 * e.text_scale)
                (inp.mystrftime "CONNECTION TO CAMERA LOST\\nSINCE %Y-%m-%d %T"
                  (if e.connectionlosttime.tv_sec = 0 then inp.realtime
                   else e.connectionlosttime))
                e.text_scale)) := by
  constructor
  · intro n m h
    obtain ⟨h1, _, h3, _, h5, h6⟩ := failed_captures_view c hB h0 n m h
    exact ⟨h3, h1, h5, h6⟩
  · intro n m e inp h he hopen hb hfail
    obtain ⟨_, _, h3, h4, _, _⟩ := failed_captures_view c hB h0 n m h
    have emis : e.missing_frame_counter = n :=
      (congrArg dev_capture.missing_frame_counter he).trans h3
    have ebud : e.conf.device_tmo * e.conf.framerate
        = c.conf.device_tmo * c.conf.framerate := (congrArg dev_capture.budget he).trans h4
    obtain ⟨hs1, hs2⟩ := capture_failure_step e inp hopen hb hfail
    rw [emis, ebud] at hs1 hs2
    constructor
    · intro hk
      obtain ⟨hv, hl, hf⟩ := hs1 hk
      exact ⟨hl, congrArg dev_capture.losts hv, hf⟩
    · intro hk
      obtain ⟨_, hl, hf⟩ := hs2 hk
      exact ⟨hl, hf⟩

/-- The device `cam_capturing` (budget 2) after two failed captures in a row. -/
theorem cam_capturing_run :
    failed_captures cam_capturing 2
      (mlp_capture (mlp_capture cam_capturing frame_77) frame_77) :=
  failed_captures.fail 1 _ _ frame_77
    (failed_captures.fail 0 _ _ frame_77 failed_captures.start rfl rfl rfl rfl) rfl rfl rfl rfl

set_option maxRecDepth 100000 in
/-- C28 at `cam_capturing` (budget 2, images of two bytes, a backend that leaves
[7, 7] in the frame): after two failed captures the counter is 2 and one
camera-lost notification is on record; the first failure leaves the last good
masked image [1, 2] in the frame, the second the grey frame with the stand-in
for the text on it, [0, 128]. -/
theorem capture_failure_run_witness :
    (mlp_capture (mlp_capture cam_capturing frame_77) frame_77).missing_frame_counter
      = ((2 : Nat) : Int) ∧
    cam_losts (mlp_capture (mlp_capture cam_capturing frame_77) frame_77).calls = 1 ∧
    (mlp_capture cam_capturing frame_77).cur.image_norm = [1, 2] ∧
    (mlp_capture (mlp_capture cam_capturing frame_77) frame_77).cur.image_norm = [0, 128] ∧
    (mlp_capture cam_capturing frame_77).cur.image_norm
      = cam_capturing.imgs.image_vprvcy.take cam_capturing.imgs.size_norm.toNat ++
          (mlp_cam_next cam_capturing frame_77).1.cur.image_norm.drop
            cam_capturing.imgs.size_norm.toNat :=
  have h := capture_failure_run cam_capturing (by decide) rfl
  ⟨(h.1 2 _ cam_capturing_run).1, by decide, by decide, by decide,
    ((h.2 0 _ cam_capturing frame_77 failed_captures.start rfl rfl rfl rfl).1 (by decide)).2.2
      0 rfl (by decide)⟩

/-! ## Loops over the device lists -/

theorem dev_loop_length (cnt : Int) (f : Nat → ctx_dev → ctx_dev) (list : List ctx_dev) :
    (dev_loop cnt f list).length = list.length := by
  unfold dev_loop
  generalize cnt.toNat = n
  induction n with
  | zero => rfl
  | succ n ih =>
    rw [List.range_succ, List.foldl_append, List.foldl_cons, List.foldl_nil, List.length_set, ih]

/-- The device `j` after a loop over the first `cnt` devices. -/
theorem dev_loop_getD (cnt : Int) (f : Nat → ctx_dev → ctx_dev) (list : List ctx_dev) (j : Nat) :
    (dev_loop cnt f list).getD j dev_none
      = if j < cnt.toNat ∧ j < list.length then f j (list.getD j dev_none)
        else list.getD j dev_none := by
  have hlen : ∀ n : Nat, ((List.range n).foldl
      (fun l indx => l.set indx (f indx (l.getD indx dev_none))) list).length = list.length := by
    intro n
    induction n with
    | zero => rfl
    | succ n ih =>
      rw [List.range_succ, List.foldl_append, List.foldl_cons, List.foldl_nil, List.length_set, ih]
  unfold dev_loop
  generalize cnt.toNat = n
  induction n generalizing j with
  | zero => simp
  | succ n ih =>
    rw [List.range_succ, List.foldl_append, List.foldl_cons, List.foldl_nil, getD_set_any, hlen,
      ih, ih]
    by_cases h1 : n = j
    · subst h1
      by_cases h2 : n < list.length
      · rw [if_pos (⟨rfl, h2⟩ : n = n ∧ n < list.length),
          if_neg (fun hh : n < n ∧ n < list.length => by omega),
          if_pos (⟨by omega, h2⟩ : n < n + 1 ∧ n < list.length)]
      · rw [if_neg (fun hh : n = n ∧ n < list.length => h2 hh.2),
          if_neg (fun hh : n < n ∧ n < list.length => h2 hh.2),
          if_neg (fun hh : n < n + 1 ∧ n < list.length => h2 hh.2)]
    · rw [if_neg (fun hh : n = j ∧ j < list.length => h1 hh.1)]
      by_cases h3 : j < n ∧ j < list.length
      · rw [if_pos h3, if_pos (⟨by omega, h3.2⟩ : j < n + 1 ∧ j < list.length)]
      · rw [if_neg h3, if_neg]
        intro hh
        exact h3 ⟨by omega, hh.2⟩

/-- A loop that can only set a flag leaves it clear exactly when it was clear
and no pass set it. -/
theorem foldl_flag_false (G : Nat → Bool → Bool) (Q : Nat → Prop)
    (hG : ∀ i b, G i b = false ↔ b = false ∧ Q i) :
    ∀ (l : List Nat) (b0 : Bool),
      l.foldl (fun b i => G i b) b0 = false ↔ b0 = false ∧ ∀ i ∈ l, Q i := by
  intro l
  induction l with
  | nil => intro b0; simp
  | cons x xs ih =>
    intro b0
    rw [List.foldl_cons, ih, hG]
    constructor
    · rintro ⟨⟨hb, hx⟩, hxs⟩
      refine ⟨hb, fun i hi => ?_⟩
      rcases List.mem_cons.mp hi with h | h
      · rw [h]; exact hx
      · exact hxs i h
    · rintro ⟨hb, hall⟩
      exact ⟨⟨hb, hall x (List.mem_cons_self _ _)⟩,
        fun i hi => hall i (List.mem_cons_of_mem _ hi)⟩

/-! ## Signals -/

/-- The forced recovery does not touch the audio sources. -/
theorem watchdog_timeout_snd (m : ctx_motapp) (camindx : Int) :
    (watchdog_timeout m camindx).snd_list = m.snd_list ∧
    (watchdog_timeout m camindx).snd_cnt = m.snd_cnt := by
  unfold watchdog_timeout
  simp only []
  constructor
  · rw [fold_keeps watchdog_kill_step (fun m => m.snd_list) (fun _ _ => rfl)]
    exact fold_keeps watchdog_shutdown_step (fun m => m.snd_list) (fun _ _ => rfl) _ m
  · rw [fold_keeps watchdog_kill_step (fun m => m.snd_cnt) (fun _ _ => rfl)]
    exact fold_keeps watchdog_shutdown_step (fun m => m.snd_cnt) (fun _ _ => rfl) _ m

/-- C21, as the spec states it, fails: in `app_cam_snd` the watchdog counter of
the camera runs out on the next call; the forced recovery runs (`restart_all`
and `finish_all` are set, the camera is marked to finish) and the audio source is
as it was, not marked to finish and still marked to restart. -/
theorem recovery_marks_audio_counterexample :
    (motpls_watchdog app_cam_snd 0).restart_all = true ∧
    (motpls_watchdog app_cam_snd 0).finish_all = true ∧
    ((motpls_watchdog app_cam_snd 0).cam_list.getD 0 dev_none).finish_dev = true ∧
    ((motpls_watchdog app_cam_snd 0).snd_list.getD 0 dev_none).finish_dev = false ∧
    ((motpls_watchdog app_cam_snd 0).snd_list.getD 0 dev_none).restart_dev = true := by
  decide

/-- C21, amended: on the call of `motpls_watchdog` on which the counter of a
running camera runs out (it holds 1 or less), the forced recovery runs once:
every camera of `cam_list` ends up marked to finish (`finish_dev` and
`event_stop` set, `restart_dev` and `running_dev` cleared), `restart_all` and
`finish_all` are set, and the audio sources are left as they were. -/
theorem recovery_marks_cameras (motapp : ctx_motapp) (camindx : Int)
    (hcnt : motapp.cam_cnt = (motapp.cam_list.length : Int))
    (h0 : 0 ≤ camindx) (h1 : camindx < motapp.cam_cnt)
    (hrun : (cam_at motapp.cam_list camindx).running_dev = true)
    (hw : (cam_at motapp.cam_list camindx).watchdog ≤ 1) :
    recoveries (motpls_watchdog motapp camindx).calls = recoveries motapp.calls + 1 ∧
    (motpls_watchdog motapp camindx).restart_all = true ∧
    (motpls_watchdog motapp camindx).finish_all = true ∧
    (∀ i : Int, 0 ≤ i → i < motapp.cam_cnt →
      (cam_at (motpls_watchdog motapp camindx).cam_list i).finish_dev = true ∧
      (cam_at (motpls_watchdog motapp camindx).cam_list i).event_stop = true ∧
      (cam_at (motpls_watchdog motapp camindx).cam_list i).restart_dev = false ∧
      (cam_at (motpls_watchdog motapp camindx).cam_list i).running_dev = false) ∧
    (motpls_watchdog motapp camindx).snd_list = motapp.snd_list ∧
    (motpls_watchdog motapp camindx).snd_cnt = motapp.snd_cnt := by
  have hi : camindx.toNat < motapp.cam_list.length := by omega
  rw [watchdog_expire motapp camindx hi hrun hw]
  have hBl : (motapp.upd_cam camindx
      (fun cam => { cam with watchdog := cam.watchdog - 1 })).cam_list.length
      = motapp.cam_list.length := by
    unfold ctx_motapp.upd_cam
    rw [List.length_set]
  have hT := watchdog_timeout_state (motapp.upd_cam camindx
    (fun cam => { cam with watchdog := cam.watchdog - 1 })) camindx (by rw [hBl]; exact hcnt)
  have hS := watchdog_timeout_snd (motapp.upd_cam camindx
    (fun cam => { cam with watchdog := cam.watchdog - 1 })) camindx
  refine ⟨hT.2.2.2.2.2.2.1, hT.1, hT.2.1, fun i hi0 hi1 => ?_, hS.1, hS.2⟩
  have := hT.2.2.2.2.2.2.2 i.toNat (by rw [hBl]; omega)
  unfold cam_at
  rw [this]
  exact ⟨rfl, rfl, rfl, rfl⟩

/-- C21, amended, at `app_cam_snd`: the recovery stops the camera and leaves the
list of audio sources as it was. -/
theorem recovery_marks_cameras_witness :
    (cam_at (motpls_watchdog app_cam_snd 0).cam_list 0).finish_dev = true ∧
    (motpls_watchdog app_cam_snd 0).snd_list = app_cam_snd.snd_list :=
  have h := recovery_marks_cameras app_cam_snd 0 rfl (by decide) (by decide) rfl (by decide)
  ⟨(h.2.2.2.1 0 (by decide) (by decide)).1, h.2.2.2.2.1⟩

/-! ## Adding a camera -/

/-- The value `indx` after the loop of `motpls_cam_add`: at least 1, at least
every device id of the list, and 1 or one of those ids. -/
theorem cam_add_indx_max (m : ctx_motapp) :
    1 ≤ cam_add_indx m ∧
    (∀ j, j < m.cam_cnt.toNat → (m.cam_list.getD j dev_none).device_id ≤ cam_add_indx m) ∧
    (cam_add_indx m = 1 ∨
      ∃ j, j < m.cam_cnt.toNat ∧ cam_add_indx m = (m.cam_list.getD j dev_none).device_id) := by
  unfold cam_add_indx
  generalize m.cam_cnt.toNat = n
  induction n with
  | zero => exact ⟨Int.le_refl 1, fun j hj => absurd hj (Nat.not_lt_zero j), Or.inl rfl⟩
  | succ n ih =>
    rw [List.range_succ, List.foldl_append, List.foldl_cons, List.foldl_nil]
    obtain ⟨h1, h2, h3⟩ := ih
    generalize (List.range n).foldl (fun indx indx_cam =>
      if indx < (m.cam_list.getD indx_cam dev_none).device_id
      then (m.cam_list.getD indx_cam dev_none).device_id else indx) 1 = r at h1 h2 h3
    by_cases hlt : r < (m.cam_list.getD n dev_none).device_id
    · rw [if_pos hlt]
      refine ⟨by omega, fun j hj => ?_, Or.inr ⟨n, by omega, rfl⟩⟩
      rcases Nat.lt_succ_iff_lt_or_eq.mp hj with h | h
      · have := h2 j h; omega
      · rw [h]
    · rw [if_neg hlt]
      refine ⟨h1, fun j hj => ?_, ?_⟩
      · rcases Nat.lt_succ_iff_lt_or_eq.mp hj with h | h
        · exact h2 j h
        · rw [h]; omega
      · rcases h3 with h | ⟨j, hj, h⟩
        · exact Or.inl h
        · exact Or.inr ⟨j, by omega, h⟩

theorem set_length_append {α : Type} (l : List α) (x y : α) :
    (l ++ [x]).set l.length y = l ++ [y] := by
  induction l with
  | nil => rfl
  | cons a l ih => simp [ih]

theorem getD_length_append {α : Type} (l : List α) (x d : α) :
    (l ++ [x]).getD l.length d = x := by
  induction l with
  | nil => rfl
  | cons a l ih => simp [ih]

theorem getD_append_lt {α : Type} (l1 l2 : List α) (d : α) (j : Nat) (hj : j < l1.length) :
    (l1 ++ l2).getD j d = l1.getD j d := by
  rw [List.getD_eq_getElem _ _ (by rw [List.length_append]; omega), List.getD_eq_getElem _ _ hj,
    List.getElem_append_left hj]

/-- C22, as the spec states it, fails: `app_add_gap` has one camera of id 5 and
one audio source of id 9; the camera that is added gets the id 6, and the ids
are then 5, 6 and 9, while 1 is a smaller positive integer that is the id of no
device. -/
theorem cam_add_smallest_id_counterexample :
    app_add_gap.cam_add = true ∧
    ((motpls_cam_add app_add_gap {}).cam_list.getD 1 dev_none).device_id = 6 ∧
    device_ids (motpls_cam_add app_add_gap {}) = [5, 6, 9] ∧
    (1 : Int) ∉ device_ids (motpls_cam_add app_add_gap {}) := by
  decide

/-- At `app_add_pending` (one camera of id 5, one audio source of id 6) the
camera that is added gets the id 6, the id of the audio source. -/
theorem cam_add_audio_id_clash :
    ((motpls_cam_add app_add_pending {}).cam_list.getD 1 dev_none).device_id = 6 ∧
    ((motpls_cam_add app_add_pending {}).snd_list.getD 0 dev_none).device_id = 6 := by
  decide

/-- C22, amended: with an add request pending, `motpls_cam_add` appends the new
camera with the id `id` that is one more than the largest of 1, the ids of the
cameras of the list and the id that `conf_camera_add` gave to the new camera.
So `id ≥ 2` and `id` is above, hence different from, the id of every other
camera.  The other devices and their ids are unchanged and the request is
cleared. -/
theorem cam_add_next_id (motapp : ctx_motapp) (newcam : ctx_dev)
    (hadd : motapp.cam_add = true)
    (hcnt : motapp.cam_cnt = (motapp.cam_list.length : Int)) :
    ∃ id : Int,
      (motpls_cam_add motapp newcam).cam_list = motapp.cam_list ++
        [{ newcam with
            device_id := id,
            conf := { newcam.conf with device_id := id, webcontrol_port := 0 } }] ∧
      (motpls_cam_add motapp newcam).cam_cnt = motapp.cam_cnt + 1 ∧
      (motpls_cam_add motapp newcam).snd_list = motapp.snd_list ∧
      (motpls_cam_add motapp newcam).cam_add = false ∧
      2 ≤ id ∧ (∀ cam ∈ motapp.cam_list, cam.device_id < id) ∧ newcam.device_id < id ∧
      (id = 2 ∨ id = newcam.device_id + 1 ∨ ∃ cam ∈ motapp.cam_list, id = cam.device_id + 1) := by
  have hA : (conf_camera_add (motapp.call (app_call.pthread_mutex_lock app_mutex.mutex_camlst))
      newcam).call (app_call.pthread_mutex_unlock app_mutex.mutex_camlst)
      = { motapp with
          cam_list := motapp.cam_list ++ [newcam], cam_cnt := motapp.cam_cnt + 1,
          calls := (motapp.calls ++ [app_call.pthread_mutex_lock app_mutex.mutex_camlst]
            ++ [app_call.pthread_mutex_unlock app_mutex.mutex_camlst]) } := rfl
  unfold motpls_cam_add
  rw [if_neg (by rw [hadd]; decide)]
  simp only []
  rw [hA]
  generalize hAA : ({ motapp with
    cam_list := motapp.cam_list ++ [newcam],
    cam_cnt := motapp.cam_cnt + 1,
    calls := (motapp.calls ++ [app_call.pthread_mutex_lock app_mutex.mutex_camlst]
      ++ [app_call.pthread_mutex_unlock app_mutex.mutex_camlst]) } : ctx_motapp) = A
  have hAl : A.cam_list = motapp.cam_list ++ [newcam] := by rw [← hAA]
  have hAc : A.cam_cnt = motapp.cam_cnt + 1 := by rw [← hAA]
  have hAs : A.snd_list = motapp.snd_list := by rw [← hAA]
  have hn : A.cam_cnt.toNat = motapp.cam_list.length + 1 := by rw [hAc, hcnt]; omega
  have hk : (A.cam_cnt - 1).toNat = motapp.cam_list.length := by rw [hAc, hcnt]; omega
  obtain ⟨h1, h2, h3⟩ := cam_add_indx_max A
  rw [hn, hAl] at h2 h3
  refine ⟨cam_add_indx A + 1, ?_, hAc, hAs, trivial, by omega, ?_, ?_, ?_⟩
  · show A.cam_list.set (A.cam_cnt - 1).toNat _ = _
    unfold cam_at
    rw [hk, hAl, getD_length_append, set_length_append]
  · intro cam hcam
    obtain ⟨j, hj, hjc⟩ := List.getElem_of_mem hcam
    have := h2 j (by omega)
    rw [getD_append_lt _ _ _ _ hj, List.getD_eq_getElem _ _ hj, hjc] at this
    omega
  · have := h2 motapp.cam_list.length (by omega)
    rw [getD_length_append] at this
    omega
  · rcases h3 with h | ⟨j, hj, h⟩
    · exact Or.inl (by omega)
    · rcases Nat.lt_succ_iff_lt_or_eq.mp hj with hlt | heq
      · rw [getD_append_lt _ _ _ _ hlt, List.getD_eq_getElem _ _ hlt] at h
        exact Or.inr (Or.inr ⟨_, List.getElem_mem _, by rw [h]⟩)
      · rw [heq, getD_length_append] at h
        exact Or.inr (Or.inl (by rw [h]))

/-- C22, amended, at `app_add_gap`: the camera is appended with the id 6, one
more than the id of the camera of the list, the audio sources are as they were
and the request is cleared. -/
theorem cam_add_next_id_witness :
    ((motpls_cam_add app_add_gap {}).cam_list.getD 1 dev_none).device_id = 6 ∧
    ∃ id : Int,
      (motpls_cam_add app_add_gap {}).cam_list = app_add_gap.cam_list ++
        [{ dev_none with
            device_id := id,
            conf := { dev_none.conf with device_id := id, webcontrol_port := 0 } }] ∧
      (motpls_cam_add app_add_gap {}).snd_list = app_add_gap.snd_list ∧
      (motpls_cam_add app_add_gap {}).cam_add = false :=
  ⟨by decide, (cam_add_next_id app_add_gap {} rfl rfl).imp
    (fun _ h => ⟨h.1, h.2.2.1, h.2.2.2.1⟩)⟩

/-! ## The device ids -/

theorem device_ids_clash_false (id : Int) (list : List ctx_dev) (indxs : List Nat) (b : Bool) :
    device_ids_clash id list indxs b = false ↔
      b = false ∧ ∀ k ∈ indxs, id ≠ (list.getD k dev_none).device_id := by
  unfold device_ids_clash
  refine foldl_flag_false
    (fun k b => if id = (list.getD k dev_none).device_id then true else b)
    (fun k => id ≠ (list.getD k dev_none).device_id) ?_ indxs b
  intro k b
  show (if id = (list.getD k dev_none).device_id then true else b) = false ↔ _
  by_cases h : id = (list.getD k dev_none).device_id
  · rw [if_pos h]
    exact ⟨fun hh => Bool.noConfusion hh, fun hh => absurd h hh.2⟩
  · rw [if_neg h]
    exact ⟨fun hb => ⟨hb, h⟩, fun hh => hh.1⟩

/-- The check of `motpls_device_ids` leaves `invalid_ids` clear exactly when no
two devices, of either kind, have the same id. -/
theorem device_ids_invalid_false (m : ctx_motapp) :
    device_ids_invalid m = false ↔
      (∀ i, i < m.cam_cnt.toNat →
        (∀ k, i < k → k < m.cam_cnt.toNat →
          (m.cam_list.getD i dev_none).device_id ≠ (m.cam_list.getD k dev_none).device_id) ∧
        (∀ k, k < m.snd_cnt.toNat →
          (m.cam_list.getD i dev_none).device_id ≠ (m.snd_list.getD k dev_none).device_id)) ∧
      (∀ i, i < m.snd_cnt.toNat → ∀ k, i < k → k < m.snd_cnt.toNat →
        (m.snd_list.getD i dev_none).device_id ≠ (m.snd_list.getD k dev_none).device_id) := by
  unfold device_ids_invalid
  simp only []
  rw [foldl_flag_false
    (fun indx b => device_ids_clash (m.snd_list.getD indx dev_none).device_id m.snd_list
      (List.range' (indx + 1) (m.snd_cnt.toNat - (indx + 1))) b)
    (fun i => ∀ k, i < k → k < m.snd_cnt.toNat →
      (m.snd_list.getD i dev_none).device_id ≠ (m.snd_list.getD k dev_none).device_id)
    (fun i b => by
      rw [device_ids_clash_false]
      simp only [List.mem_range'_1]
      constructor
      · rintro ⟨hb, h⟩
        exact ⟨hb, fun k h1 h2 => h k ⟨by omega, by omega⟩⟩
      · rintro ⟨hb, h⟩
        exact ⟨hb, fun k hk => h k (by omega) (by omega)⟩),
    foldl_flag_false
    (fun indx b => device_ids_clash (m.cam_list.getD indx dev_none).device_id m.snd_list
      (List.range m.snd_cnt.toNat)
      (device_ids_clash (m.cam_list.getD indx dev_none).device_id m.cam_list
        (List.range' (indx + 1) (m.cam_cnt.toNat - (indx + 1))) b))
    (fun i => (∀ k, i < k → k < m.cam_cnt.toNat →
        (m.cam_list.getD i dev_none).device_id ≠ (m.cam_list.getD k dev_none).device_id) ∧
      (∀ k, k < m.snd_cnt.toNat →
        (m.cam_list.getD i dev_none).device_id ≠ (m.snd_list.getD k dev_none).device_id))
    (fun i b => by
      rw [device_ids_clash_false, device_ids_clash_false]
      simp only [List.mem_range'_1, List.mem_range]
      constructor
      · rintro ⟨⟨hb, h1⟩, h2⟩
        exact ⟨hb, fun k h3 h4 => h1 k ⟨by omega, by omega⟩, h2⟩
      · rintro ⟨hb, h1, h2⟩
        exact ⟨⟨hb, fun k hk => h1 k (by omega) (by omega)⟩, h2⟩)]
  simp only [List.mem_range, true_and]

/-- Ids that differ pairwise within the cameras, within the audio sources and
between the two are pairwise distinct over both lists taken together. -/
theorem nodup_ids (cams snds : List ctx_dev)
    (h1 : ∀ i k, i < k → k < cams.length →
      (cams.getD i dev_none).device_id ≠ (cams.getD k dev_none).device_id)
    (h2 : ∀ i k, i < cams.length → k < snds.length →
      (cams.getD i dev_none).device_id ≠ (snds.getD k dev_none).device_id)
    (h3 : ∀ i k, i < k → k < snds.length →
      (snds.getD i dev_none).device_id ≠ (snds.getD k dev_none).device_id) :
    ((cams ++ snds).map (fun cam => cam.device_id)).Nodup := by
  have hn : ∀ l : List ctx_dev, (∀ i k, i < k → k < l.length →
      (l.getD i dev_none).device_id ≠ (l.getD k dev_none).device_id) →
      (l.map (fun cam => cam.device_id)).Nodup := by
    intro l h
    rw [List.Nodup, List.pairwise_iff_getElem]
    intro i k hi hk hik
    rw [List.length_map] at hi hk
    have := h i k hik hk
    rw [List.getD_eq_getElem _ _ hi, List.getD_eq_getElem _ _ hk] at this
    rw [List.getElem_map, List.getElem_map]
    exact this
  rw [List.map_append, List.nodup_append]
  refine ⟨hn cams h1, hn snds h3, ?_⟩
  intro a ha hb
  obtain ⟨c, hc, hca⟩ := List.mem_map.mp ha
  obtain ⟨s, hs, hsa⟩ := List.mem_map.mp hb
  obtain ⟨i, hi, hic⟩ := List.getElem_of_mem hc
  obtain ⟨k, hk, hks⟩ := List.getElem_of_mem hs
  have := h2 i k hi hk
  rw [List.getD_eq_getElem _ _ hi, List.getD_eq_getElem _ _ hk, hic, hks] at this
  exact this (hca.trans hsa.symm)

theorem device_ids_default_lists (m : ctx_motapp) :
    (device_ids_default m).cam_list = dev_loop m.cam_cnt
      (fun indx cam => if cam.conf.device_id ≠ 0 then { cam with device_id := cam.conf.device_id }
        else { cam with device_id := (indx : Int) + 1 }) m.cam_list ∧
    (device_ids_default m).snd_list = dev_loop m.snd_cnt
      (fun indx cam => if cam.conf.device_id ≠ 0 then { cam with device_id := cam.conf.device_id }
        else { cam with device_id := m.cam_cnt + (indx : Int) + 1 }) m.snd_list :=
  ⟨rfl, rfl⟩

theorem device_ids_sequence_lists (m : ctx_motapp) :
    (device_ids_sequence m).cam_list = dev_loop m.cam_cnt
      (fun indx cam => { cam with device_id := (indx : Int) + 1 }) m.cam_list ∧
    (device_ids_sequence m).snd_list = dev_loop m.snd_cnt
      (fun indx cam => { cam with device_id := m.cam_cnt + (indx : Int) + 1 }) m.snd_list :=
  ⟨rfl, rfl⟩

/-- C23: whatever the configured ids of the cameras and of the audio sources
(0 for an id that is not set), after `motpls_device_ids` the ids of all the
devices, the cameras and the audio sources taken together, are pairwise
distinct; the lists hold the same number of devices as before. -/
theorem device_ids_distinct (motapp : ctx_motapp)
    (hc : motapp.cam_cnt = (motapp.cam_list.length : Int))
    (hs : motapp.snd_cnt = (motapp.snd_list.length : Int)) :
    (device_ids (motpls_device_ids motapp)).Nodup ∧
    (motpls_device_ids motapp).cam_list.length = motapp.cam_list.length ∧
    (motpls_device_ids motapp).snd_list.length = motapp.snd_list.length := by
  have hDc : (device_ids_default motapp).cam_cnt = motapp.cam_cnt := rfl
  have hDs : (device_ids_default motapp).snd_cnt = motapp.snd_cnt := rfl
  have hDcl : (device_ids_default motapp).cam_list.length = motapp.cam_list.length := by
    rw [(device_ids_default_lists motapp).1]; exact dev_loop_length _ _ _
  have hDsl : (device_ids_default motapp).snd_list.length = motapp.snd_list.length := by
    rw [(device_ids_default_lists motapp).2]; exact dev_loop_length _ _ _
  have hnc : motapp.cam_cnt.toNat = motapp.cam_list.length := by rw [hc]; exact Int.toNat_natCast _
  have hns : motapp.snd_cnt.toNat = motapp.snd_list.length := by rw [hs]; exact Int.toNat_natCast _
  unfold motpls_device_ids
  simp only []
  by_cases hinv : device_ids_invalid (device_ids_default motapp) = true
  · rw [if_pos hinv]
    generalize device_ids_default motapp = D at hDc hDs hDcl hDsl
    have hSc : ∀ j, j < D.cam_list.length →
        ((device_ids_sequence D).cam_list.getD j dev_none).device_id = (j : Int) + 1 := by
      intro j hj
      rw [(device_ids_sequence_lists D).1, dev_loop_getD,
        if_pos ⟨by rw [hDc, hnc, ← hDcl]; exact hj, hj⟩]
    have hSs : ∀ j, j < D.snd_list.length →
        ((device_ids_sequence D).snd_list.getD j dev_none).device_id
          = D.cam_cnt + (j : Int) + 1 := by
      intro j hj
      rw [(device_ids_sequence_lists D).2, dev_loop_getD,
        if_pos ⟨by rw [hDs, hns, ← hDsl]; exact hj, hj⟩]
    have hScl : (device_ids_sequence D).cam_list.length = D.cam_list.length := by
      rw [(device_ids_sequence_lists D).1]; exact dev_loop_length _ _ _
    have hSsl : (device_ids_sequence D).snd_list.length = D.snd_list.length := by
      rw [(device_ids_sequence_lists D).2]; exact dev_loop_length _ _ _
    refine ⟨nodup_ids _ _ ?_ ?_ ?_, hScl.trans hDcl, hSsl.trans hDsl⟩
    · intro i k hik hk
      rw [hScl] at hk
      rw [hSc i (by omega), hSc k hk]
      omega
    · intro i k hi hk
      rw [hScl] at hi
      rw [hSsl] at hk
      rw [hSc i hi, hSs k hk, hDc, hc, ← hDcl]
      omega
    · intro i k hik hk
      rw [hSsl] at hk
      rw [hSs i (by omega), hSs k hk]
      omega
  · rw [if_neg hinv]
    have hf := (device_ids_invalid_false (device_ids_default motapp)).mp
      (by simpa using hinv)
    rw [hDc, hDs, hnc, hns, ← hDcl, ← hDsl] at hf
    generalize device_ids_default motapp = D at hDc hDs hDcl hDsl hf
    refine ⟨nodup_ids _ _ ?_ ?_ ?_, hDcl, hDsl⟩
    · intro i k hik hk
      exact (hf.1 i (by omega)).1 k hik hk
    · intro i k hi hk
      exact (hf.1 i hi).2 k hk
    · intro i k hik hk
      exact hf.2 i (by omega) k hik hk

/-- C23 at an application with two cameras and one audio source that are all
configured with the id 7: the ids after `motpls_device_ids` are 1, 2 and 3. -/
theorem device_ids_distinct_witness :
    (device_ids (motpls_device_ids
      { cam_list := [{ conf := { device_id := 7 } }, { conf := { device_id := 7 } }],
        cam_cnt := 2, snd_list := [{ conf := { device_id := 7 } }], snd_cnt := 1 })).Nodup ∧
    device_ids (motpls_device_ids
      { cam_list := [{ conf := { device_id := 7 } }, { conf := { device_id := 7 } }],
        cam_cnt := 2, snd_list := [{ conf := { device_id := 7 } }], snd_cnt := 1 }) = [1, 2, 3] :=
  ⟨(device_ids_distinct
      { cam_list := [{ conf := { device_id := 7 } }, { conf := { device_id := 7 } }],
        cam_cnt := 2, snd_list := [{ conf := { device_id := 7 } }], snd_cnt := 1 } rfl rfl).1,
    by decide⟩

/-! ## Deleting a camera -/

/-- The value of `indx1` after the wait of `motpls_cam_delete`: the first read
of `running_dev` that gives false, or `maxcnt` if the first `maxcnt` reads give
true. -/
theorem cam_delete_wait_first (running : Nat → Bool) :
    ∀ (left indx1 : Nat),
      indx1 ≤ cam_delete_wait running left indx1 ∧
      cam_delete_wait running left indx1 ≤ indx1 + left ∧
      (∀ j, indx1 ≤ j → j < cam_delete_wait running left indx1 → running j = true) ∧
      (cam_delete_wait running left indx1 < indx1 + left →
        running (cam_delete_wait running left indx1) = false) := by
  intro left
  induction left with
  | zero =>
    intro indx1
    exact ⟨Nat.le_refl _, Nat.le_refl _, fun j h1 h2 => absurd h2 (by
      show ¬ j < indx1
      omega), fun h => absurd h (Nat.lt_irrefl _)⟩
  | succ left ih =>
    intro indx1
    unfold cam_delete_wait
    by_cases hr : running indx1 = true
    · rw [if_pos hr]
      obtain ⟨h1, h2, h3, h4⟩ := ih (indx1 + 1)
      refine ⟨by omega, by omega, fun j hj1 hj2 => ?_, fun h => h4 (by omega)⟩
      rcases Nat.eq_or_lt_of_le hj1 with h | h
      · rw [← h]; exact hr
      · exact h3 j h hj2
    · rw [if_neg hr]
      refine ⟨Nat.le_refl _, by omega, fun j h1 h2 => absurd h2 (by omega), fun _ => ?_⟩
      cases hv : running indx1
      · rfl
      · exact absurd hv hr

theorem cam_delete_wait_timeout (running : Nat → Bool) (maxcnt : Nat) :
    cam_delete_wait running maxcnt 0 = maxcnt ↔ ∀ k, k < maxcnt → running k = true := by
  obtain ⟨_, h2, h3, h4⟩ := cam_delete_wait_first running maxcnt 0
  constructor
  · intro h k hk
    exact h3 k (Nat.zero_le k) (by rw [h]; exact hk)
  · intro h
    by_contra hne
    have hlt : cam_delete_wait running maxcnt 0 < 0 + maxcnt := by omega
    have := h4 hlt
    rw [h _ (by omega)] at this
    cases this

theorem eraseIdx_set_same {α : Type} : ∀ (l : List α) (i : Nat) (x : α),
    (l.set i x).eraseIdx i = l.eraseIdx i
  | [], _, _ => rfl
  | _ :: _, 0, _ => rfl
  | a :: l, i + 1, x => by
    rw [List.set_cons_succ, List.eraseIdx_cons_succ, List.eraseIdx_cons_succ,
      eraseIdx_set_same l i x]

/-- The copy loop of `motpls_cam_delete` leaves the devices other than the
deleted one, in their order. -/
theorem cam_delete_copy_eq (m : ctx_motapp) (hcnt : m.cam_cnt = (m.cam_list.length : Int))
    (h0 : 0 ≤ m.cam_delete) :
    cam_delete_copy m = m.cam_list.eraseIdx m.cam_delete.toNat := by
  have hn : m.cam_cnt.toNat = m.cam_list.length := by rw [hcnt]; exact Int.toNat_natCast _
  have key : ∀ n, n ≤ m.cam_list.length →
      (List.range n).foldl (fun (tmp : List ctx_dev) (indx1 : Nat) =>
        if (indx1 : Int) ≠ m.cam_delete then tmp ++ [m.cam_list.getD indx1 dev_none]
        else tmp) [] = (m.cam_list.take n).eraseIdx m.cam_delete.toNat := by
    intro n
    induction n with
    | zero => intro _; rfl
    | succ n ih =>
      intro hle
      have hlt : n < m.cam_list.length := by omega
      rw [List.range_succ, List.foldl_append, List.foldl_cons, List.foldl_nil, ih (by omega),
        List.take_succ, List.getElem?_eq_getElem hlt, List.getD_eq_getElem _ _ hlt]
      have hlen : (m.cam_list.take n).length = n := by
        rw [List.length_take]; omega
      show (if (n : Int) ≠ m.cam_delete then _ else _) = _
      by_cases hd : (n : Int) = m.cam_delete
      · rw [if_neg (not_not.mpr hd)]
        have hdn : m.cam_delete.toNat = n := by omega
        rw [hdn, List.eraseIdx_append_of_length_le (by omega),
          List.eraseIdx_of_length_le (by omega), hlen, Nat.sub_self]
        simp
      · rw [if_pos hd]
        rcases Nat.lt_or_ge m.cam_delete.toNat n with h | h
        · rw [List.eraseIdx_append_of_lt_length (by omega)]
          rfl
        · rw [List.eraseIdx_of_length_le (by omega),
            List.eraseIdx_of_length_le (by
              rw [List.length_append, hlen]
              show n + 1 ≤ m.cam_delete.toNat
              omega)]
          rfl
  unfold cam_delete_copy
  rw [hn, key _ (Nat.le_refl _), List.take_length]

/-- C24, as the spec states it, fails: in `app_delete_pending` the worker of the
camera to delete reports running at the 100 polls that are followed by a sleep
and no longer reports running at the read that ends the wait (poll 100, after
the last sleep); the deletion is abandoned (three cameras remain, the one to
delete among them) although the worker does not report running when the wait
ends. -/
theorem cam_delete_abandon_counterexample :
    (fun k : Nat => decide (k < 100)) 100 = false ∧
    (motpls_cam_delete app_delete_pending (fun k => decide (k < 100))).cam_cnt = 3 ∧
    ((motpls_cam_delete app_delete_pending (fun k => decide (k < 100))).cam_list.map
      (fun cam => cam.device_id)) = [1, 2, 3] ∧
    (motpls_cam_delete app_delete_pending (fun k => decide (k < 100))).cam_delete = -1 := by
  decide

/-- C24, amended: for a valid pending delete index, `motpls_cam_delete` marks the
camera to finish and abandons the deletion (the cameras and the count stay) if
and only if the worker reported running at each of the 100 polls that are
followed by a sleep (`running k` is the read of `running_dev` at poll `k`),
whatever it reports after the last sleep; in every other case the camera is
removed, the count drops by one and the other cameras keep their order; in
both cases the pending delete request is reset to -1. -/
theorem cam_delete_outcome (motapp : ctx_motapp) (running : Nat → Bool)
    (hcnt : motapp.cam_cnt = (motapp.cam_list.length : Int))
    (h0 : 0 ≤ motapp.cam_delete) (h1 : motapp.cam_delete < motapp.cam_cnt) :
    ((∀ k, k < 100 → running k = true) →
      (motpls_cam_delete motapp running).cam_list
          = (motapp.upd_cam motapp.cam_delete
              (fun cam => { cam with restart_dev := false, finish_dev := true })).cam_list ∧
        (motpls_cam_delete motapp running).cam_cnt = motapp.cam_cnt ∧
        (motpls_cam_delete motapp running).cam_delete = -1) ∧
    (¬ (∀ k, k < 100 → running k = true) →
      (motpls_cam_delete motapp running).cam_list
          = motapp.cam_list.eraseIdx motapp.cam_delete.toNat ∧
        (motpls_cam_delete motapp running).cam_cnt = motapp.cam_cnt - 1 ∧
        (motpls_cam_delete motapp running).cam_delete = -1) := by
  have hi : motapp.cam_delete.toNat < motapp.cam_list.length := by omega
  unfold motpls_cam_delete
  rw [if_neg (by omega), if_neg (by omega)]
  simp only []
  constructor
  · intro h
    rw [if_pos ((cam_delete_wait_timeout running 100).mpr h)]
    exact ⟨rfl, rfl, rfl⟩
  · intro h
    rw [if_neg (fun hh => h ((cam_delete_wait_timeout running 100).mp hh))]
    have hX : ∀ (X : ctx_motapp) (y : ctx_dev),
        X.cam_list = motapp.cam_list.set motapp.cam_delete.toNat y →
        X.cam_cnt = motapp.cam_cnt → X.cam_delete = motapp.cam_delete →
        cam_delete_copy X = motapp.cam_list.eraseIdx motapp.cam_delete.toNat := by
      intro X y hl hc hd
      rw [cam_delete_copy_eq X (by rw [hc, hl, List.length_set]; exact hcnt) (by rw [hd]; exact h0),
        hl, hd]
      exact eraseIdx_set_same _ _ _
    exact ⟨hX _ _ rfl rfl rfl, rfl, rfl⟩

/-- C24, amended, at `app_delete_pending`.  With a worker that has stopped at
the third poll the second camera is removed and the cameras of ids 1 and 3
remain; with a worker that reports running at every poll the deletion is
abandoned, the three cameras remain and the second is marked to finish. -/
theorem cam_delete_outcome_witness :
    ((motpls_cam_delete app_delete_pending (fun k => decide (k < 2))).cam_list
        = app_delete_pending.cam_list.eraseIdx app_delete_pending.cam_delete.toNat ∧
      (motpls_cam_delete app_delete_pending (fun k => decide (k < 2))).cam_cnt
        = app_delete_pending.cam_cnt - 1 ∧
      (motpls_cam_delete app_delete_pending (fun k => decide (k < 2))).cam_delete = -1) ∧
    ((motpls_cam_delete app_delete_pending (fun _ => true)).cam_list
        = (app_delete_pending.upd_cam app_delete_pending.cam_delete
            (fun cam => { cam with restart_dev := false, finish_dev := true })).cam_list ∧
      (motpls_cam_delete app_delete_pending (fun _ => true)).cam_cnt
        = app_delete_pending.cam_cnt ∧
      (motpls_cam_delete app_delete_pending (fun _ => true)).cam_delete = -1) :=
  ⟨(cam_delete_outcome app_delete_pending (fun k => decide (k < 2)) rfl (by decide)
      (by decide)).2 (fun h => Bool.noConfusion (h 2 (by decide))),
    (cam_delete_outcome app_delete_pending (fun _ => true) rfl (by decide)
      (by decide)).1 (fun _ _ => rfl)⟩

/-! ## The post-capture budget over a run -/

theorem trigger_bit_TS (f : image_flags) :
    (f ||| (IMAGE_TRIGGER ||| IMAGE_SAVE)).trigger = true := by
  simp [IMAGE_TRIGGER, IMAGE_SAVE]

theorem tags_PS (f : image_flags) :
    (f ||| (IMAGE_POSTCAP ||| IMAGE_SAVE)).postcap = true ∧
    (f ||| (IMAGE_POSTCAP ||| IMAGE_SAVE)).precap = f.precap ∧
    (f ||| (IMAGE_POSTCAP ||| IMAGE_SAVE)).trigger = f.trigger := by
  simp [IMAGE_POSTCAP, IMAGE_SAVE]

theorem tags_P (f : image_flags) :
    (f ||| IMAGE_PRECAP).precap = true ∧
    (f ||| IMAGE_PRECAP).postcap = f.postcap ∧
    (f ||| IMAGE_PRECAP).trigger = f.trigger := by
  simp [IMAGE_PRECAP]

/-- The three outcomes of the trigger step of `mlp_actions` for the current
slot `i`: the frame is flagged TRIGGER and the budget is the configured one (or
kept, on a forced trigger with no post-capture configured); or the budget was
positive, loses one, and the only write to the flags is POSTCAP and SAVE on the
current slot; or the budget was not positive, stays, and the only write to the
flags is PRECAP on the current slot. -/
theorem trigger_tags (cam : ctx_dev) (i : Int) (hc : cam.current_image = some i)
    (hi : i.toNat < cam.imgs.image_ring.length) :
    ((ring_at (mlp_actions_trigger cam).imgs.image_ring i).flags.trigger = true ∧
      ((mlp_actions_trigger cam).postcap = cam.conf.post_capture ∨
        ((mlp_actions_trigger cam).postcap = cam.postcap ∧ cam.conf.post_capture ≤ 0))) ∨
    (cam.postcap > 0 ∧ (mlp_actions_trigger cam).postcap = cam.postcap - 1 ∧
      ∀ j : Int, (ring_at (mlp_actions_trigger cam).imgs.image_ring j).flags
        = (ring_at (ring_upd cam.imgs.image_ring i
            (set_flags (IMAGE_POSTCAP ||| IMAGE_SAVE))) j).flags) ∨
    (¬ cam.postcap > 0 ∧ (mlp_actions_trigger cam).postcap = cam.postcap ∧
      ∀ j : Int, (ring_at (mlp_actions_trigger cam).imgs.image_ring j).flags
        = (ring_at (ring_upd cam.imgs.image_ring i (set_flags IMAGE_PRECAP)) j).flags) := by
  have hTS : ∀ r : List ctx_image_data, r = cam.imgs.image_ring →
      (ring_at (ring_save_all (ring_upd r i (set_flags (IMAGE_TRIGGER ||| IMAGE_SAVE)))
        cam.imgs.ring_size) i).flags.trigger = true := by
    intro r hr
    have hu : ring_at (ring_upd r i (set_flags (IMAGE_TRIGGER ||| IMAGE_SAVE))) i
        = set_flags (IMAGE_TRIGGER ||| IMAGE_SAVE) (ring_at r i) :=
      ring_at_upd_same _ _ _ (hr ▸ hi)
    rw [ring_at_save_all]
    split
    · rw [set_flags_flags, hu, set_flags_flags, trigger_bit_S]
      exact trigger_bit_TS _
    · rw [hu, set_flags_flags]
      exact trigger_bit_TS _
  have hPS : (cam.upd_cur (set_flags (IMAGE_POSTCAP ||| IMAGE_SAVE))).imgs.image_ring
      = ring_upd cam.imgs.image_ring i (set_flags (IMAGE_POSTCAP ||| IMAGE_SAVE)) :=
    ring_upd_cur cam _ i hc
  have hP : (cam.upd_cur (set_flags IMAGE_PRECAP)).imgs.image_ring
      = ring_upd cam.imgs.image_ring i (set_flags IMAGE_PRECAP) :=
    ring_upd_cur cam _ i hc
  have hPc : (cam.upd_cur (set_flags IMAGE_PRECAP)).postcap = cam.postcap :=
    congrArg dev_ctl.postcap (ctl_upd_cur cam _)
  by_cases h : (cam.conf.emulate_motion || cam.event_user) = true ∧ cam.startup_frames = 0
  · rw [trigger_forced cam h]
    refine Or.inl ⟨?_, ?_⟩
    · rw [emulate_flags cam i hc i]
      exact hTS _ rfl
    · have hctl : (mlp_actions_emulate cam).postcap
          = if cam.conf.post_capture > 0 then cam.conf.post_capture else cam.postcap :=
        congrArg dev_ctl.postcap ((emulate_ctl cam).trans (emulate_mark_ctl cam))
      rw [hctl]
      by_cases hq : cam.conf.post_capture > 0
      · rw [if_pos hq]; exact Or.inl rfl
      · rw [if_neg hq]; exact Or.inr ⟨rfl, by omega⟩
  · by_cases hm : (cam.cur.flags &&& IMAGE_MOTION).test = true ∧ cam.startup_frames = 0
    · rw [trigger_motion cam h hm]
      have hctl : (mlp_actions_motion cam).postcap = (mlp_actions_motion_mark cam).postcap :=
        congrArg dev_ctl.postcap (motion_ctl cam)
      by_cases hcnt : cam.frame_count ≥ cam.conf.minimum_motion_frames
      · refine Or.inl ⟨?_, Or.inl ?_⟩
        · rw [motion_flags, (motion_mark_trigger cam hcnt).1, ring_upd_cur cam _ i hc]
          exact hTS _ rfl
        · rw [hctl]
          exact congrArg dev_ctl.postcap (motion_mark_trigger cam hcnt).2.2.1
      · by_cases hq : cam.postcap > 0
        · refine Or.inr (Or.inl ⟨hq, ?_, fun j => ?_⟩)
          · rw [hctl, motion_mark_postcap cam hcnt hq]
          · rw [motion_flags, motion_mark_postcap cam hcnt hq]
            exact congrArg (fun r => (ring_at r j).flags) hPS
        · refine Or.inr (Or.inr ⟨hq, ?_, fun j => ?_⟩)
          · rw [hctl, motion_mark_precap cam hcnt hq]
            exact hPc
          · rw [motion_flags, motion_mark_precap cam hcnt hq, hP]
    · by_cases hq : cam.postcap > 0
      · refine Or.inr (Or.inl ⟨hq, ?_, fun j => ?_⟩)
        · rw [trigger_postcap cam h hm hq]
        · rw [trigger_postcap cam h hm hq]
          exact congrArg (fun r => (ring_at r j).flags) hPS
      · refine Or.inr (Or.inr ⟨hq, ?_, fun j => ?_⟩)
        · rw [trigger_precap cam h hm hq]
          exact hPc
        · rw [trigger_precap cam h hm hq]
          exact congrArg (fun r => (ring_at r j).flags) hP

/-- The budget after the trigger step of `mlp_actions`: the configured
post-capture, the budget as it was, or one less than a positive budget. -/
theorem trigger_budget (cam : ctx_dev) :
    (mlp_actions_trigger cam).postcap = cam.conf.post_capture ∨
    (mlp_actions_trigger cam).postcap = cam.postcap ∨
    (cam.postcap > 0 ∧ (mlp_actions_trigger cam).postcap = cam.postcap - 1) := by
  by_cases h : (cam.conf.emulate_motion || cam.event_user) = true ∧ cam.startup_frames = 0
  · rw [trigger_forced cam h]
    have hctl : (mlp_actions_emulate cam).postcap
        = if cam.conf.post_capture > 0 then cam.conf.post_capture else cam.postcap :=
      congrArg dev_ctl.postcap ((emulate_ctl cam).trans (emulate_mark_ctl cam))
    rw [hctl]
    by_cases hq : cam.conf.post_capture > 0
    · rw [if_pos hq]; exact Or.inl rfl
    · rw [if_neg hq]; exact Or.inr (Or.inl rfl)
  · by_cases hm : (cam.cur.flags &&& IMAGE_MOTION).test = true ∧ cam.startup_frames = 0
    · rw [trigger_motion cam h hm]
      have hctl : (mlp_actions_motion cam).postcap = (mlp_actions_motion_mark cam).postcap :=
        congrArg dev_ctl.postcap (motion_ctl cam)
      rw [hctl]
      by_cases hcnt : cam.frame_count ≥ cam.conf.minimum_motion_frames
      · exact Or.inl (congrArg dev_ctl.postcap (motion_mark_trigger cam hcnt).2.2.1)
      · by_cases hq : cam.postcap > 0
        · rw [motion_mark_postcap cam hcnt hq]; exact Or.inr (Or.inr ⟨hq, rfl⟩)
        · rw [motion_mark_precap cam hcnt hq]
          exact Or.inr (Or.inl (congrArg dev_ctl.postcap (ctl_upd_cur cam _)))
    · by_cases hq : cam.postcap > 0
      · rw [trigger_postcap cam h hm hq]; exact Or.inr (Or.inr ⟨hq, rfl⟩)
      · rw [trigger_precap cam h hm hq]
        exact Or.inr (Or.inl (congrArg dev_ctl.postcap (ctl_upd_cur cam _)))

/-- One call of `mlp_actions` keeps the budget between 0 and the configured
post-capture. -/
theorem actions_budget (cam : ctx_dev) (h0 : 0 ≤ cam.postcap)
    (h1 : cam.postcap ≤ cam.conf.post_capture) :
    0 ≤ (mlp_actions cam).postcap ∧ (mlp_actions cam).postcap ≤ cam.conf.post_capture := by
  have hc : (mlp_actions_classify cam).postcap = cam.postcap :=
    congrArg dev_ctl.postcap (classify_ctl cam)
  have hconf : (mlp_actions_classify cam).conf = cam.conf :=
    congrArg dev_core.conf (classify_core cam)
  have ht := trigger_budget (mlp_actions_classify cam)
  rw [hc, hconf] at ht
  rcases (actions_postcap cam).1 with ha | ha
  · rw [ha]
    rcases ht with ht | ht | ⟨_, ht⟩ <;> (rw [ht]; omega)
  · rw [ha]; omega

/-- What reaches `frame_step` in an iteration of the loop: a state with the
ring, the budget and the configuration of the state before the iteration. -/
theorem loop_step_frame (cam : ctx_dev) (t : loop_input) :
    ∃ P : ctx_dev, loop_step cam t = frame_step P t.tick.frame ∧
      P.imgs = cam.imgs ∧ P.postcap = cam.postcap ∧
      P.conf.post_capture = cam.conf.post_capture := by
  refine ⟨mlp_prepare (if t.event_stop then { cam with event_stop := true } else cam)
    t.tick.now, rfl, ?_, ?_, ?_⟩
  · simp only [mlp_prepare, apply_ite ctx_dev.imgs, ite_self]
  · have h := congrArg dev_ctl.postcap
      (ctl_prepare (if t.event_stop then { cam with event_stop := true } else cam) t.tick.now)
    refine h.trans ?_
    show (if t.event_stop then { cam with event_stop := true } else cam).postcap = cam.postcap
    simp only [apply_ite ctx_dev.postcap, ite_self]
  · simp only [mlp_prepare, apply_ite ctx_dev.conf, apply_ite ctx_config.post_capture, ite_self]

theorem ring_bounds_of_imgs (a b : ctx_dev) (h : b.imgs = a.imgs) (ha : ring_bounds a) :
    ring_bounds b :=
  ring_bounds_of_cursors a b (by unfold ctx_dev.cursors; rw [h]) ha

theorem ring_bounds_loop (cam : ctx_dev) (t : loop_input) (h : ring_bounds cam) :
    ring_bounds (loop_step cam t) := by
  obtain ⟨P, he, hi, _, _⟩ := loop_step_frame cam t
  rw [he]
  unfold frame_step
  apply ring_bounds_actions
  apply ring_bounds_of_cursors _ _ (cursors_upd_cur _ _)
  apply ring_bounds_resetimages
  exact ring_bounds_of_imgs cam P hi h

/-- The tag and the budget of one frame: the frame is flagged TRIGGER; or the
budget was positive, the frame is flagged POSTCAP and not PRECAP, and the
budget is one less or 0; or the budget was not positive, the frame is flagged
PRECAP and not POSTCAP, and the budget is as it was or 0. -/
theorem frame_tags (cam : ctx_dev) (f : frame_input) (h : ring_bounds cam) :
    (frame_step cam f).cur.flags.trigger = true ∨
    (cam.postcap > 0 ∧ (frame_step cam f).cur.flags.postcap = true ∧
      (frame_step cam f).cur.flags.precap = false ∧
      ((frame_step cam f).postcap = cam.postcap - 1 ∨ (frame_step cam f).postcap = 0)) ∨
    (¬ cam.postcap > 0 ∧ (frame_step cam f).cur.flags.precap = true ∧
      (frame_step cam f).cur.flags.postcap = false ∧
      ((frame_step cam f).postcap = cam.postcap ∨ (frame_step cam f).postcap = 0)) := by
  have hok : ring_ok cam := ⟨h.2, h.1.2.1⟩
  have hr := next_slot_range _ _ h.1.2.1.1 h.1.2.1.2
  have hcC := classified_current cam f
  have hlen : (next_slot cam.imgs.ring_size cam.imgs.ring_in).toNat
      < (frame_classified cam f).imgs.image_ring.length := by
    rw [classified_length cam f hok]
    have := h.2
    omega
  have hcur : (frame_step cam f).cur
      = ring_at (frame_step cam f).imgs.image_ring
          (next_slot cam.imgs.ring_size cam.imgs.ring_in) :=
    cur_eq _ _ (frame_current cam f)
  have hCf : (ring_at (frame_classified cam f).imgs.image_ring
      (next_slot cam.imgs.ring_size cam.imgs.ring_in)).flags.postcap = false ∧
      (ring_at (frame_classified cam f).imgs.image_ring
      (next_slot cam.imgs.ring_size cam.imgs.ring_in)).flags.precap = false := by
    rw [← cur_eq _ _ hcC, classified_cur_flags cam f hok]
    split <;> exact ⟨rfl, rfl⟩
  have hCp : (frame_classified cam f).postcap = cam.postcap :=
    congrArg dev_ctl.postcap (classified_ctl cam f)
  have hA : (frame_step cam f).postcap
        = (mlp_actions_trigger (frame_classified cam f)).postcap ∨
      (frame_step cam f).postcap = 0 := by
    rw [frame_step_eq]
    exact (actions_postcap (frame_scored cam f)).1
  rw [hcur, frame_bits cam f image_flags.trigger (fun _ => rfl),
    frame_bits cam f image_flags.postcap (fun _ => rfl),
    frame_bits cam f image_flags.precap (fun _ => rfl)]
  rcases trigger_tags (frame_classified cam f) _ hcC hlen with ht | ⟨hq, hp, hfl⟩ | ⟨hq, hp, hfl⟩
  · exact Or.inl ht.1
  · rw [hCp] at hq hp
    rw [hp] at hA
    refine Or.inr (Or.inl ⟨hq, ?_, ?_, hA⟩)
    · rw [hfl, ring_at_upd_same _ _ _ hlen, set_flags_flags]
      exact (tags_PS _).1
    · rw [hfl, ring_at_upd_same _ _ _ hlen, set_flags_flags, (tags_PS _).2.1]
      exact hCf.2
  · rw [hCp] at hq hp
    rw [hp] at hA
    refine Or.inr (Or.inr ⟨hq, ?_, ?_, hA⟩)
    · rw [hfl, ring_at_upd_same _ _ _ hlen, set_flags_flags]
      exact (tags_P _).1
    · rw [hfl, ring_at_upd_same _ _ _ hlen, set_flags_flags, (tags_P _).2.1]
      exact hCf.1

theorem run_loop_snoc (cam : ctx_dev) (ts : List loop_input) (t : loop_input) :
    run_loop cam (ts ++ [t]) = loop_step (run_loop cam ts) t := by
  unfold run_loop
  rw [List.foldl_append]
  rfl

/-- The state after `k + 1` iterations is one iteration from the state after `k`. -/
theorem run_loop_take (cam : ctx_dev) (ts : List loop_input) (k : Nat) (hk : k < ts.length) :
    run_loop cam (ts.take (k + 1)) = loop_step (run_loop cam (ts.take k)) (ts.get ⟨k, hk⟩) := by
  rw [List.take_succ, List.getElem?_eq_getElem hk]
  exact run_loop_snoc cam _ _

/-- The ring stays in bounds, the configured post-capture stays, and the budget
stays between 0 and the configured post-capture along a run. -/
theorem run_loop_budget (cam : ctx_dev) (ts : List loop_input) (hb : ring_bounds cam)
    (h0 : 0 ≤ cam.postcap) (h1 : cam.postcap ≤ cam.conf.post_capture) (k : Nat) :
    ring_bounds (run_loop cam (ts.take k)) ∧
    (run_loop cam (ts.take k)).conf.post_capture = cam.conf.post_capture ∧
    0 ≤ (run_loop cam (ts.take k)).postcap ∧
    (run_loop cam (ts.take k)).postcap ≤ cam.conf.post_capture := by
  induction k with
  | zero => exact ⟨hb, rfl, h0, h1⟩
  | succ k ih =>
    by_cases hk : k < ts.length
    · rw [run_loop_take cam ts k hk]
      obtain ⟨P, he, hi, hp, hc⟩ := loop_step_frame (run_loop cam (ts.take k)) (ts.get ⟨k, hk⟩)
      refine ⟨ring_bounds_loop _ _ ih.1, ?_, ?_⟩
      · rw [he, frame_conf, hc]
        exact ih.2.1
      · rw [he, frame_step_eq]
        have hs : (frame_scored P (ts.get ⟨k, hk⟩).tick.frame).postcap = P.postcap :=
          congrArg dev_ctl.postcap (scored_ctl P (ts.get ⟨k, hk⟩).tick.frame)
        have hsc : (frame_scored P (ts.get ⟨k, hk⟩).tick.frame).conf = P.conf :=
          congrArg dev_core.conf (scored_core P (ts.get ⟨k, hk⟩).tick.frame)
        have := actions_budget (frame_scored P (ts.get ⟨k, hk⟩).tick.frame)
          (by rw [hs, hp]; exact ih.2.2.1)
          (by rw [hs, hp, hsc, hc, ih.2.1]; exact ih.2.2.2)
        rw [hsc, hc, ih.2.1] at this
        exact this
    · have e : ts.take (k + 1) = ts.take k := by
        rw [List.take_of_length_le (by omega), List.take_of_length_le (by omega)]
      rw [e]
      exact ih

/-- The tag and the budget of frame `k` of a run, from the budget before it. -/
theorem run_loop_tags (cam : ctx_dev) (ts : List loop_input) (hb : ring_bounds cam)
    (k : Nat) (hk : k < ts.length) :
    (frame_tag cam ts k).trigger = true ∨
    ((run_loop cam (ts.take k)).postcap > 0 ∧ (frame_tag cam ts k).postcap = true ∧
      (frame_tag cam ts k).precap = false ∧
      ((run_loop cam (ts.take (k + 1))).postcap = (run_loop cam (ts.take k)).postcap - 1 ∨
        (run_loop cam (ts.take (k + 1))).postcap = 0)) ∨
    (¬ (run_loop cam (ts.take k)).postcap > 0 ∧ (frame_tag cam ts k).precap = true ∧
      (frame_tag cam ts k).postcap = false ∧
      ((run_loop cam (ts.take (k + 1))).postcap = (run_loop cam (ts.take k)).postcap ∨
        (run_loop cam (ts.take (k + 1))).postcap = 0)) := by
  have hbk : ring_bounds (run_loop cam (ts.take k)) := by
    induction k with
    | zero => exact hb
    | succ k ih =>
      rw [run_loop_take cam ts k (by omega)]
      exact ring_bounds_loop _ _ (ih (by omega))
  unfold frame_tag
  rw [run_loop_take cam ts k hk]
  obtain ⟨P, he, hi, hp, _⟩ := loop_step_frame (run_loop cam (ts.take k)) (ts.get ⟨k, hk⟩)
  rw [he, ← hp]
  exact frame_tags P _ (ring_bounds_of_imgs _ P hi hbk)

theorem postcap_frames_succ (cam : ctx_dev) (ts : List loop_input) (a n : Nat) :
    postcap_frames cam ts a (n + 1) = postcap_frames cam ts a n +
      (if (frame_tag cam ts (a + n)).postcap = true then 1 else 0) := by
  unfold postcap_frames
  rw [List.range_succ, List.countP_append, List.countP_singleton]

/-- Over `n` frames from frame `a` on, none flagged TRIGGER, the frames flagged
POSTCAP and the budget left after them are together at most the budget before
frame `a`. -/
theorem postcap_frames_le (cam : ctx_dev) (ts : List loop_input) (hb : ring_bounds cam)
    (h0 : 0 ≤ cam.postcap) (h1 : cam.postcap ≤ cam.conf.post_capture) (a : Nat) :
    ∀ n : Nat, a + n ≤ ts.length →
      (∀ d, d < n → (frame_tag cam ts (a + d)).trigger = false) →
      (postcap_frames cam ts a n : Int) + (run_loop cam (ts.take (a + n))).postcap
        ≤ (run_loop cam (ts.take a)).postcap := by
  intro n
  induction n with
  | zero =>
    intro _ _
    show ((0 : Nat) : Int) + (run_loop cam (ts.take a)).postcap ≤ _
    omega
  | succ n ih =>
    intro hlen hq
    have ih1 := ih (by omega) (fun d hd => hq d (by omega))
    have hn := hq n (by omega)
    have hge := (run_loop_budget cam ts hb h0 h1 (a + n)).2.2.1
    rw [postcap_frames_succ, show a + (n + 1) = a + n + 1 from rfl]
    rcases run_loop_tags cam ts hb (a + n) (by omega) with ht | ⟨hq1, hp, _, hv⟩ | ⟨hq1, _, hp, hv⟩
    · rw [hn] at ht
      exact absurd ht (by decide)
    · rw [if_pos hp]
      push_cast
      rcases hv with hv | hv <;> omega
    · rw [if_neg (by rw [hp]; decide)]
      push_cast
      rcases hv with hv | hv <;> omega

/-- Among `n` frames from frame `a` on, none flagged TRIGGER, the frames after
one flagged PRECAP are flagged PRECAP and not POSTCAP. -/
theorem precap_absorbs (cam : ctx_dev) (ts : List loop_input) (hb : ring_bounds cam)
    (a n : Nat) (hlen : a + n ≤ ts.length)
    (hq : ∀ d, d < n → (frame_tag cam ts (a + d)).trigger = false)
    (d e : Nat) (hde : d ≤ e) (he : e < n) (hp : (frame_tag cam ts (a + d)).precap = true) :
    (frame_tag cam ts (a + e)).precap = true ∧ (frame_tag cam ts (a + e)).postcap = false := by
  have hd : (run_loop cam (ts.take (a + d))).postcap ≤ 0 := by
    rcases run_loop_tags cam ts hb (a + d) (by omega) with ht | ⟨_, _, hx, _⟩ | ⟨hx, _, _, _⟩
    · rw [hq d (by omega)] at ht
      exact absurd ht (by decide)
    · rw [hp] at hx
      exact absurd hx (by decide)
    · omega
  have hm : ∀ m : Nat, m < n → d ≤ m → (run_loop cam (ts.take (a + m))).postcap ≤ 0 := by
    intro m
    induction m with
    | zero =>
      intro _ h
      have : d = 0 := by omega
      rw [← this]
      exact hd
    | succ m ih =>
      intro h1 h2
      by_cases hdm : d = m + 1
      · rw [← hdm]
        exact hd
      · have ihm := ih (by omega) (by omega)
        rcases run_loop_tags cam ts hb (a + m) (by omega) with ht | ⟨hx, _, _, _⟩ | ⟨_, _, _, hv⟩
        · rw [hq m (by omega)] at ht
          exact absurd ht (by decide)
        · omega
        · rw [show a + (m + 1) = a + m + 1 from rfl]
          rcases hv with hv | hv <;> omega
  have hle := hm e he hde
  rcases run_loop_tags cam ts hb (a + e) (by omega) with ht | ⟨hx, _, _, _⟩ | ⟨_, h1, h2, _⟩
  · rw [hq e he] at ht
    exact absurd ht (by decide)
  · omega
  · exact ⟨h1, h2⟩

/-- C30: with the configured post-capture `c >= 0`, every call of `mlp_actions`
keeps a budget (`postcap`) that lies between 0 and `c` between 0 and `c`; so
in a run of the loop (stop requests from outside included) that starts with
the budget 0 the budget lies between 0 and `c` after every iteration; and among
any `n` consecutive frames of the run, from frame `a` on, none of which is
flagged TRIGGER, at most `c` are flagged POSTCAP, and every frame that follows
one flagged PRECAP is flagged PRECAP and not POSTCAP. -/
theorem postcap_budget_bounded (c : Int) (cam : ctx_dev) (ts : List loop_input)
    (hc : 0 ≤ c) (hconf : cam.conf.post_capture = c) (h0 : cam.postcap = 0)
    (hb : ring_bounds cam) :
    (∀ S : ctx_dev, S.conf.post_capture = c → 0 ≤ S.postcap → S.postcap ≤ c →
      0 ≤ (mlp_actions S).postcap ∧ (mlp_actions S).postcap ≤ c) ∧
    (∀ k : Nat, 0 ≤ (run_loop cam (ts.take k)).postcap ∧
      (run_loop cam (ts.take k)).postcap ≤ c) ∧
    (∀ a n : Nat, a + n ≤ ts.length →
      (∀ d, d < n → (frame_tag cam ts (a + d)).trigger = false) →
      (postcap_frames cam ts a n : Int) ≤ c ∧
      ∀ d e : Nat, d ≤ e → e < n → (frame_tag cam ts (a + d)).precap = true →
        (frame_tag cam ts (a + e)).precap = true ∧
        (frame_tag cam ts (a + e)).postcap = false) := by
  have h0c : 0 ≤ cam.postcap := by omega
  have h1c : cam.postcap ≤ cam.conf.post_capture := by omega
  refine ⟨?_, ?_, ?_⟩
  · intro S hS hS0 hS1
    have := actions_budget S hS0 (by omega)
    rw [hS] at this
    exact this
  · intro k
    have := run_loop_budget cam ts hb h0c h1c k
    rw [hconf] at this
    exact this.2.2
  · intro a n hlen hq
    refine ⟨?_, precap_absorbs cam ts hb a n hlen hq⟩
    have hle := postcap_frames_le cam ts hb h0c h1c a n hlen hq
    have hA := run_loop_budget cam ts hb h0c h1c a
    have hB := run_loop_budget cam ts hb h0c h1c (a + n)
    omega

set_option maxRecDepth 100000 in
/-- C30 at `cam_budget` (post-capture 2, budget 0) and `loop_motion_quiet`: frame
0 is flagged TRIGGER; of the five frames after it, none flagged TRIGGER, two
are flagged POSTCAP, frame 3 is flagged PRECAP, and so is every frame after it. -/
theorem postcap_budget_bounded_witness :
    (frame_tag cam_budget loop_motion_quiet 0).trigger = true ∧
    postcap_frames cam_budget loop_motion_quiet 1 5 = 2 ∧
    (frame_tag cam_budget loop_motion_quiet 3).precap = true ∧
    ((postcap_frames cam_budget loop_motion_quiet 1 5 : Int) ≤ 2 ∧
      ∀ d e : Nat, d ≤ e → e < 5 →
        (frame_tag cam_budget loop_motion_quiet (1 + d)).precap = true →
        (frame_tag cam_budget loop_motion_quiet (1 + e)).precap = true ∧
        (frame_tag cam_budget loop_motion_quiet (1 + e)).postcap = false) :=
  ⟨by decide, by decide, by decide,
    (postcap_budget_bounded 2 cam_budget loop_motion_quiet (by decide) rfl rfl
      ⟨by decide, by decide⟩).2.2 1 5 (by decide) (by decide)⟩

/-! ## No pending slot is recycled -/

/-- The two predicates of the ring between frames read the slots and the
cursors only. -/
theorem window_transfer (a b : ctx_dev) (hr : b.imgs.image_ring = a.imgs.image_ring)
    (hc : b.cursors = a.cursors) :
    (window_saved a → window_saved b) ∧ (out_done a → out_done b) := by
  have h1 : b.imgs.ring_size = a.imgs.ring_size := congrArg dev_cursors.ring_size hc
  have h2 : b.imgs.ring_in = a.imgs.ring_in := congrArg dev_cursors.ring_in hc
  have h3 : b.imgs.ring_out = a.imgs.ring_out := congrArg dev_cursors.ring_out hc
  unfold window_saved out_done ring_window
  rw [hr, h1, h2, h3]
  exact ⟨id, id⟩

theorem saved_not_pending (img : ctx_image_data) (h : img.flags.saved = true) :
    slot_pending img = false := by
  unfold slot_pending
  rw [h]
  simp

theorem clear_not_pending (img : ctx_image_data) (h : img.flags = IMAGE_NONE) :
    slot_pending img = false := by
  unfold slot_pending
  rw [h]
  rfl

/-- One pass of the loop of `mlp_ring_process` keeps every slot outside the
cursors flagged SAVED: the slot it leaves behind has just been flagged. -/
theorem window_saved_body (cam : ctx_dev) (hb : ring_bounds cam) (hw : window_saved cam) :
    window_saved (mlp_ring_process_body cam) := by
  obtain ⟨ho, hi, hs⟩ := ring_process_body_cursors cam
  have hring := ring_process_body_ring cam
  obtain ⟨⟨hsz, ⟨hi0, hi1⟩, ⟨ho0, ho1⟩⟩, hlen⟩ := hb
  intro j hj0 hj1 hnw
  rw [hs] at hj1
  rw [hring]
  by_cases hjo : j = cam.imgs.ring_out
  · rw [hjo, ring_at_upd_same _ _ _ (by omega), set_flags_flags]
    exact saved_lor _
  · rw [ring_at_upd_ne _ _ _ _ (by omega)]
    apply hw j hj0 hj1
    intro hin
    apply hnw
    unfold ring_window at hin ⊢
    rw [ho, hi]
    unfold next_slot
    split <;> omega

/-- The loop of `mlp_ring_process` keeps every slot outside the cursors flagged
SAVED, and where it leaves the slot at the consume cursor has nothing to hand
over, or the consume cursor has met the produce cursor. -/
theorem window_process_loop (fuel : Nat) : ∀ cam c : ctx_dev,
    mlp_ring_process_loop fuel cam = some c → ring_bounds cam → window_saved cam →
    window_saved c ∧ out_done c := by
  induction fuel with
  | zero => intro cam c h; exact absurd h (by simp [mlp_ring_process_loop])
  | succ n ih =>
    intro cam c h hb hw
    rw [mlp_ring_process_loop] at h
    by_cases hp : (ring_at cam.imgs.image_ring cam.imgs.ring_out).flags
        &&& (IMAGE_SAVE ||| IMAGE_SAVED) ≠ IMAGE_SAVE
    · rw [if_pos hp] at h
      have hc : cam = c := Option.some.inj h
      rw [← hc]
      refine ⟨hw, Or.inl ?_⟩
      cases hsp : slot_pending (ring_at cam.imgs.image_ring cam.imgs.ring_out)
      · rfl
      · exact absurd ((slot_pending_iff _).2 hsp) hp
    · rw [if_neg hp] at h
      have hb2 := ring_bounds_body cam hb
      have hw2 := window_saved_body cam hb hw
      by_cases hne : (mlp_ring_process_body cam).imgs.ring_out
          ≠ (mlp_ring_process_body cam).imgs.ring_in
      · simp only [] at h
        rw [if_pos hne] at h
        exact ih _ c h hb2 hw2
      · simp only [] at h
        rw [if_neg hne] at h
        have hc : mlp_ring_process_body cam = c := Option.some.inj h
        rw [← hc]
        refine ⟨hw2, ?_⟩
        have heq : (mlp_ring_process_body cam).imgs.ring_out
            = (mlp_ring_process_body cam).imgs.ring_in := not_not.mp hne
        by_cases h2 : 2 ≤ (mlp_ring_process_body cam).imgs.ring_size
        · exact Or.inr ⟨heq, h2⟩
        · left
          obtain ⟨ho, hi, hs⟩ := ring_process_body_cursors cam
          obtain ⟨⟨hsz, ⟨hi0, hi1⟩, ⟨ho0, ho1⟩⟩, hlen⟩ := hb
          rw [hs] at h2
          have hout : cam.imgs.ring_out = 0 := by omega
          have hout2 : (mlp_ring_process_body cam).imgs.ring_out = cam.imgs.ring_out := by
            rw [ho, hout]
            unfold next_slot
            split <;> omega
          apply saved_not_pending
          rw [hout2, ring_process_body_ring, ring_at_upd_same _ _ _ (by omega), set_flags_flags]
          exact saved_lor _

/-- After `mlp_ring_process` every slot outside the cursors is still flagged
SAVED, and the slot at the consume cursor has nothing to hand over unless the
consume cursor has met the produce cursor. -/
theorem window_process (cam : ctx_dev) (hb : ring_bounds cam) (hw : window_saved cam) :
    window_saved (mlp_ring_process cam) ∧ out_done (mlp_ring_process cam) := by
  obtain ⟨c, hl, he, _⟩ := ring_process_within cam hb.1
  have h := window_process_loop _ cam c hl hb hw
  have ht := window_transfer c (mlp_ring_process cam) (by rw [he]) (by rw [he]; rfl)
  exact ⟨ht.1 h.1, ht.2 h.2⟩

/-- With nothing to hand over at the consume cursor `mlp_ring_process` leaves
the ring and the cursors as they are. -/
theorem process_idle (cam : ctx_dev)
    (h : slot_pending (ring_at cam.imgs.image_ring cam.imgs.ring_out) = false) :
    (mlp_ring_process cam).imgs = cam.imgs := by
  have hp : (ring_at cam.imgs.image_ring cam.imgs.ring_out).flags
      &&& (IMAGE_SAVE ||| IMAGE_SAVED) ≠ IMAGE_SAVE := by
    intro hh
    rw [(slot_pending_iff _).1 hh] at h
    exact absurd h (by decide)
  have hl : mlp_ring_process_loop (cam.imgs.image_ring.length + 1) cam = some cam := by
    rw [mlp_ring_process_loop, if_pos hp]
  unfold mlp_ring_process
  rw [hl]

theorem cursors_of_imgs (a b : ctx_dev) (h : b.imgs = a.imgs) : b.cursors = a.cursors := by
  unfold ctx_dev.cursors
  rw [h]

/-- The ring and the cursors after the second `if` of `mlp_actions_event` are
those before it, or those `mlp_ring_process` makes of them. -/
theorem stop_ring_cases (c : ctx_dev) :
    ((mlp_actions_event_stop c).imgs.image_ring = c.imgs.image_ring ∧
      (mlp_actions_event_stop c).cursors = c.cursors) ∨
    ((mlp_actions_event_stop c).imgs.image_ring = (mlp_ring_process c).imgs.image_ring ∧
      (mlp_actions_event_stop c).cursors = (mlp_ring_process c).cursors) := by
  unfold mlp_actions_event_stop
  simp only []
  split
  · show ((if _ then _ else _ : ctx_dev).imgs.image_ring = _ ∧
        (if _ then _ else _ : ctx_dev).cursors = _) ∨
      ((if _ then _ else _ : ctx_dev).imgs.image_ring = _ ∧
        (if _ then _ else _ : ctx_dev).cursors = _)
    split
    · exact Or.inr ⟨ring_actions_event_end _, cursors_actions_event_end _⟩
    · exact Or.inl ⟨rfl, rfl⟩
  · exact Or.inl ⟨rfl, rfl⟩

/-- The ring and the cursors after `mlp_actions_event` are those before it, or
those `mlp_ring_process` makes of them. -/
theorem actions_event_ring_cases (cam : ctx_dev) :
    ∃ G : ctx_dev, G.imgs = cam.imgs ∧
      (((mlp_actions_event cam).imgs.image_ring = cam.imgs.image_ring ∧
        (mlp_actions_event cam).cursors = cam.cursors) ∨
      ((mlp_actions_event cam).imgs.image_ring = (mlp_ring_process G).imgs.image_ring ∧
        (mlp_actions_event cam).cursors = (mlp_ring_process G).cursors)) := by
  refine ⟨mlp_actions_event_gap cam, imgs_actions_event_gap cam, ?_⟩
  unfold mlp_actions_event
  rw [ring_actions_event_movie, cursors_actions_event_movie]
  rcases stop_ring_cases (mlp_actions_event_gap cam) with h | h
  · left
    rw [h.1, h.2, imgs_actions_event_gap]
    exact ⟨rfl, cursors_of_imgs _ _ (imgs_actions_event_gap cam)⟩
  · exact Or.inr h

theorem window_actions_event (cam : ctx_dev) (hb : ring_bounds cam) (hw : window_saved cam)
    (hd : out_done cam) :
    window_saved (mlp_actions_event cam) ∧ out_done (mlp_actions_event cam) := by
  obtain ⟨G, hG, h | h⟩ := actions_event_ring_cases cam
  · have ht := window_transfer cam (mlp_actions_event cam) h.1 h.2
    exact ⟨ht.1 hw, ht.2 hd⟩
  · have hbG := ring_bounds_of_imgs cam G hG hb
    have hwG := (window_transfer cam G (by rw [hG]) (cursors_of_imgs _ _ hG)).1 hw
    have hp := window_process G hbG hwG
    have ht := window_transfer (mlp_ring_process G) (mlp_actions_event cam) h.1 h.2
    exact ⟨ht.1 hp.1, ht.2 hp.2⟩

/-- With nothing to hand over at the consume cursor `mlp_actions_event` leaves
the ring and the cursors as they are. -/
theorem actions_event_idle (cam : ctx_dev)
    (hp : slot_pending (ring_at cam.imgs.image_ring cam.imgs.ring_out) = false) :
    (mlp_actions_event cam).imgs.image_ring = cam.imgs.image_ring ∧
    (mlp_actions_event cam).cursors = cam.cursors := by
  obtain ⟨G, hG, h | h⟩ := actions_event_ring_cases cam
  · exact h
  · have hi : (mlp_ring_process G).imgs = cam.imgs := by
      rw [process_idle G (by rw [hG]; exact hp), hG]
    exact ⟨h.1.trans (by rw [hi]), h.2.trans (cursors_of_imgs _ _ hi)⟩

/-- The trigger step of `mlp_actions` leaves a flag that none of its four
writes touches as it was, on every slot. -/
theorem trigger_flag_bit (cam : ctx_dev) (p : image_flags → Bool)
    (hTS : ∀ f, p (f ||| (IMAGE_TRIGGER ||| IMAGE_SAVE)) = p f)
    (hPS : ∀ f, p (f ||| (IMAGE_POSTCAP ||| IMAGE_SAVE)) = p f)
    (hP : ∀ f, p (f ||| IMAGE_PRECAP) = p f)
    (hS : ∀ f, p (f ||| IMAGE_SAVE) = p f) (j : Int) :
    p (ring_at (mlp_actions_trigger cam).imgs.image_ring j).flags
      = p (ring_at cam.imgs.image_ring j).flags := by
  by_cases h : (cam.conf.emulate_motion || cam.event_user) = true ∧ cam.startup_frames = 0
  · rw [trigger_forced cam h]
    have e : (ring_at (mlp_actions_emulate cam).imgs.image_ring j).flags
        = (ring_at (mlp_actions_emulate_mark cam).imgs.image_ring j).flags := by
      apply flags_of_map_eq
      unfold mlp_actions_emulate
      simp only []
      split
      · exact flags_detected _ _
      · rfl
    rw [e, emulate_mark_ring_cur, save_all_flag_bit _ _ p hS, upd_cur_flag_bit _ _ p hTS]
  · by_cases hm : (cam.cur.flags &&& IMAGE_MOTION).test = true ∧ cam.startup_frames = 0
    · rw [trigger_motion cam h hm, motion_flags]
      by_cases hcnt : cam.frame_count ≥ cam.conf.minimum_motion_frames
      · rw [(motion_mark_trigger cam hcnt).1, save_all_flag_bit _ _ p hS,
          upd_cur_flag_bit _ _ p hTS]
      · by_cases hq : cam.postcap > 0
        · rw [motion_mark_postcap cam hcnt hq]
          exact upd_cur_flag_bit _ _ p hPS j
        · rw [motion_mark_precap cam hcnt hq]
          exact upd_cur_flag_bit _ _ p hP j
    · by_cases hq : cam.postcap > 0
      · rw [trigger_postcap cam h hm hq]
        exact upd_cur_flag_bit _ _ p hPS j
      · rw [trigger_precap cam h hm hq]
        exact upd_cur_flag_bit _ _ p hP j

theorem frame_step_marked (cam : ctx_dev) (f : frame_input) :
    frame_step cam f = mlp_actions_event (mlp_ring_process (frame_marked cam f)) := rfl

theorem marked_ring (cam : ctx_dev) (f : frame_input) :
    (frame_marked cam f).imgs.image_ring
      = (mlp_actions_trigger (frame_classified cam f)).imgs.image_ring := by
  unfold frame_marked
  rw [ring_areadetect, ring_actions_lasttime]

/-- The cursors `frame_step` hands to `mlp_ring_process` are those
`mlp_resetimages` has made. -/
theorem marked_cursors (cam : ctx_dev) (f : frame_input) :
    (frame_marked cam f).imgs.ring_size = cam.imgs.ring_size ∧
    (frame_marked cam f).imgs.ring_in = next_slot cam.imgs.ring_size cam.imgs.ring_in ∧
    (frame_marked cam f).imgs.ring_out
      = (if next_slot cam.imgs.ring_size cam.imgs.ring_in = cam.imgs.ring_out
         then next_slot cam.imgs.ring_size cam.imgs.ring_out else cam.imgs.ring_out) ∧
    (frame_marked cam f).imgs.image_ring.length = cam.imgs.image_ring.length := by
  have hc : (frame_marked cam f).cursors
      = (mlp_resetimages cam f.realtime f.monotonic).cursors :=
    (cursors_areadetect _).trans ((cursors_actions_lasttime _).trans
      ((cursors_trigger _).trans ((cursors_classify _).trans (cursors_upd_cur _ _))))
  refine ⟨(congrArg dev_cursors.ring_size hc).trans ?_,
    (congrArg dev_cursors.ring_in hc).trans (mlp_resetimages_ring_in cam f.realtime f.monotonic),
    (congrArg dev_cursors.ring_out hc).trans (mlp_resetimages_ring_out cam f.realtime f.monotonic),
    (congrArg dev_cursors.len hc).trans ?_⟩
  · rfl
  · show (mlp_resetimages cam f.realtime f.monotonic).imgs.image_ring.length = _
    rw [mlp_resetimages_ring, ring_upd_length]

theorem next_slot_cases (n x : Int) :
    (x + 1 ≥ n ∧ next_slot n x = 0) ∨ (x + 1 < n ∧ next_slot n x = x + 1) := by
  unfold next_slot
  split <;> omega

/-- A slot outside the cursors after `mlp_resetimages` has moved them is not the
new current slot and was outside the cursors before; and there is no such slot
when the produce cursor has caught the consume cursor. -/
theorem window_advance (n i o j : Int) (hi : 0 ≤ i ∧ i < n)
    (ho : 0 ≤ o ∧ o < n) (hj : 0 ≤ j ∧ j < n)
    (hnw : ¬ (((if next_slot n i = o then next_slot n o else o) ≤ next_slot n i ∧
          (if next_slot n i = o then next_slot n o else o) ≤ j ∧ j ≤ next_slot n i) ∨
        (next_slot n i < (if next_slot n i = o then next_slot n o else o) ∧
          ((if next_slot n i = o then next_slot n o else o) ≤ j ∨ j ≤ next_slot n i)))) :
    j ≠ next_slot n i ∧ next_slot n i ≠ o ∧
    ¬ ((o ≤ i ∧ o ≤ j ∧ j ≤ i) ∨ (i < o ∧ (o ≤ j ∨ j ≤ i))) := by
  rcases next_slot_cases n i with ⟨a1, a2⟩ | ⟨a1, a2⟩ <;>
  rcases next_slot_cases n o with ⟨b1, b2⟩ | ⟨b1, b2⟩ <;>
  by_cases hro : next_slot n i = o
  all_goals first
    | (rw [if_pos hro] at hnw; omega)
    | (rw [if_neg hro] at hnw; omega)

theorem ring_bounds_marked (cam : ctx_dev) (f : frame_input) (h : ring_bounds cam) :
    ring_bounds (frame_marked cam f) :=
  ring_bounds_of_cursors _ _
    ((cursors_areadetect _).trans ((cursors_actions_lasttime _).trans
      ((cursors_trigger _).trans ((cursors_classify _).trans (cursors_upd_cur _ _)))))
    (ring_bounds_resetimages cam f.realtime f.monotonic h)

/-- Before `mlp_ring_process` a frame has not written the SAVED flag of a slot
other than the current one. -/
theorem marked_saved (cam : ctx_dev) (f : frame_input) (h : ring_ok cam) (j : Int)
    (hj : j.toNat ≠ (next_slot cam.imgs.ring_size cam.imgs.ring_in).toNat) :
    (ring_at (frame_marked cam f).imgs.image_ring j).flags.saved
      = (ring_at cam.imgs.image_ring j).flags.saved := by
  rw [marked_ring, trigger_flag_bit _ image_flags.saved
      (fun x => by simp [IMAGE_TRIGGER, IMAGE_SAVE])
      (fun x => by simp [IMAGE_POSTCAP, IMAGE_SAVE])
      (fun x => by simp [IMAGE_PRECAP])
      (fun x => by simp [IMAGE_SAVE]) j,
    classified_other cam f h j hj]

/-- A frame that ends without the TRIGGER flag has not written the flags of a
slot other than the current one before `mlp_ring_process`. -/
theorem marked_quiet (cam : ctx_dev) (f : frame_input) (h : ring_bounds cam)
    (ht : (frame_step cam f).cur.flags.trigger = false) (j : Int)
    (hj : j.toNat ≠ (next_slot cam.imgs.ring_size cam.imgs.ring_in).toNat) :
    (ring_at (frame_marked cam f).imgs.image_ring j).flags
      = (ring_at cam.imgs.image_ring j).flags := by
  have hok : ring_ok cam := ⟨h.2, h.1.2.1⟩
  have hr := next_slot_range _ _ h.1.2.1.1 h.1.2.1.2
  have hcC := classified_current cam f
  have hlen : (next_slot cam.imgs.ring_size cam.imgs.ring_in).toNat
      < (frame_classified cam f).imgs.image_ring.length := by
    rw [classified_length cam f hok]
    have := h.2
    omega
  rw [cur_eq _ _ (frame_current cam f), frame_bits cam f image_flags.trigger (fun _ => rfl)] at ht
  rw [marked_ring]
  rcases trigger_tags (frame_classified cam f) _ hcC hlen with h1 | ⟨_, _, hfl⟩ | ⟨_, _, hfl⟩
  · rw [h1.1] at ht
    exact absurd ht (by decide)
  · rw [hfl j, ring_at_upd_ne _ _ _ _ (fun hh => hj hh.symm), classified_other cam f hok j hj]
  · rw [hfl j, ring_at_upd_ne _ _ _ _ (fun hh => hj hh.symm), classified_other cam f hok j hj]

/-- A frame keeps every slot outside the cursors flagged SAVED, and leaves the
slot at the consume cursor with nothing to hand over unless the cursors have
met; it is enough for this that the produce cursor catches the consume cursor
in this frame. -/
theorem frame_window (cam : ctx_dev) (f : frame_input) (hb : ring_bounds cam)
    (hw : window_saved cam ∨
      next_slot cam.imgs.ring_size cam.imgs.ring_in = cam.imgs.ring_out) :
    window_saved (frame_step cam f) ∧ out_done (frame_step cam f) := by
  have hbm := ring_bounds_marked cam f hb
  have hwm : window_saved (frame_marked cam f) := by
    obtain ⟨hs, hi, ho, _⟩ := marked_cursors cam f
    have hok : ring_ok cam := ⟨hb.2, hb.1.2.1⟩
    obtain ⟨⟨hsz, hi01, ho01⟩, hlen⟩ := hb
    intro j hj0 hj1 hnw
    rw [hs] at hj1
    unfold ring_window at hnw
    rw [hi, ho] at hnw
    have ha := window_advance _ _ _ j hi01 ho01 ⟨hj0, hj1⟩ hnw
    have hr := next_slot_range _ _ hi01.1 hi01.2
    rw [marked_saved cam f hok j (by omega)]
    rcases hw with hw | hw
    · exact hw j hj0 hj1 ha.2.2
    · exact absurd hw ha.2.1
  have hp := window_process (frame_marked cam f) hbm hwm
  rw [frame_step_marked]
  exact window_actions_event _ (ring_bounds_process _ hbm).1 hp.1 hp.2

/-- A frame that ends without the TRIGGER flag, `n` frames into a run from a
freshly sized ring whose produce cursor does not wrap in this frame, leaves
the consume cursor on slot 0 and the slots ahead of the produce cursor clear. -/
theorem frame_fresh (cam : ctx_dev) (f : frame_input) (n : Nat) (hb : ring_bounds cam)
    (hf : ring_fresh cam n) (hn : (n : Int) + 1 < cam.imgs.ring_size)
    (ht : (frame_step cam f).cur.flags.trigger = false) :
    ring_fresh (frame_step cam f) (n + 1) := by
  obtain ⟨hs, hi, ho, _⟩ := marked_cursors cam f
  obtain ⟨_, hout, hin, hcl⟩ := hf
  have hr : next_slot cam.imgs.ring_size cam.imgs.ring_in = (n : Int) + 1 := by
    rcases next_slot_cases cam.imgs.ring_size cam.imgs.ring_in with ⟨a1, a2⟩ | ⟨a1, a2⟩ <;> omega
  rw [hr] at hi
  rw [hr, hout, if_neg (by omega)] at ho
  have hfl : ∀ j : Int, 0 ≤ j → j ≠ (n : Int) + 1 →
      (ring_at (frame_marked cam f).imgs.image_ring j).flags
        = (ring_at cam.imgs.image_ring j).flags :=
    fun j hj0 hj => marked_quiet cam f hb ht j (by rw [hr]; omega)
  have hp : slot_pending (ring_at (frame_marked cam f).imgs.image_ring
      (frame_marked cam f).imgs.ring_out) = false := by
    rw [ho]
    apply clear_not_pending
    rw [hfl 0 (le_refl 0) (by omega)]
    exact hcl 0 (le_refl 0) (by omega) (Or.inl rfl)
  have hpi := process_idle (frame_marked cam f) hp
  have he := actions_event_idle (mlp_ring_process (frame_marked cam f)) (by rw [hpi]; exact hp)
  have hring : (frame_step cam f).imgs.image_ring = (frame_marked cam f).imgs.image_ring := by
    rw [frame_step_marked, he.1, hpi]
  have hcur : (frame_step cam f).cursors = (frame_marked cam f).cursors := by
    rw [frame_step_marked, he.2]
    exact cursors_of_imgs _ _ hpi
  have h1 : (frame_step cam f).imgs.ring_size = cam.imgs.ring_size :=
    (congrArg dev_cursors.ring_size hcur).trans hs
  have h2 : (frame_step cam f).imgs.ring_in = (n : Int) + 1 :=
    (congrArg dev_cursors.ring_in hcur).trans hi
  have h3 : (frame_step cam f).imgs.ring_out = 0 :=
    (congrArg dev_cursors.ring_out hcur).trans ho
  unfold ring_fresh
  rw [hring, h1, h2, h3]
  refine ⟨by push_cast; omega, rfl, by push_cast; rfl, fun j hj0 hj1 hj => ?_⟩
  have hj2 : (n : Int) + 1 < j ∨ j = 0 := by
    rcases hj with hj | hj
    · exact Or.inr hj
    · left; push_cast at hj; omega
  rw [hfl j hj0 (by omega)]
  exact hcl j hj0 hj1 (by omega)

theorem ring_fresh_of_imgs (a b : ctx_dev) (h : b.imgs = a.imgs) (n : Nat)
    (ha : ring_fresh a n) : ring_fresh b n := by
  unfold ring_fresh at ha ⊢
  rw [h]
  exact ha

/-- One iteration keeps what holds of the ring between two frames, provided the
frame does not end flagged TRIGGER while the produce cursor has not reached
the last slot of a freshly sized ring. -/
theorem recycle_inv_step (cam : ctx_dev) (t : loop_input) (n : Nat) (h : recycle_inv cam n)
    (hq : (n : Int) + 1 < cam.imgs.ring_size → (loop_step cam t).cur.flags.trigger = false) :
    recycle_inv (loop_step cam t) (n + 1) ∧
    (loop_step cam t).imgs.ring_size = cam.imgs.ring_size := by
  obtain ⟨P, he, hi, _, _⟩ := loop_step_frame cam t
  have hbP := ring_bounds_of_imgs cam P hi h.1
  have hok : ring_ok P := ⟨hbP.2, hbP.1.2.1⟩
  have hsz : (loop_step cam t).imgs.ring_size = cam.imgs.ring_size := by
    rw [he, (frame_keeps P t.tick.frame hok).2.2.1, hi]
  refine ⟨⟨ring_bounds_loop cam t h.1, ?_⟩, hsz⟩
  rcases h.2 with ⟨hw, _⟩ | hf
  · rw [he]
    exact Or.inl (frame_window P _ hbP
      (Or.inl ((window_transfer cam P (by rw [hi]) (cursors_of_imgs _ _ hi)).1 hw)))
  · by_cases hn : (n : Int) + 1 < cam.imgs.ring_size
    · have ht := hq hn
      rw [he] at ht ⊢
      exact Or.inr (frame_fresh P _ n hbP (ring_fresh_of_imgs cam P hi n hf)
        (by rw [hi]; exact hn) ht)
    · rw [he]
      refine Or.inl (frame_window P _ hbP (Or.inr ?_))
      rw [hi]
      obtain ⟨hn0, hout, hin, _⟩ := hf
      rcases next_slot_cases cam.imgs.ring_size cam.imgs.ring_in with ⟨a1, a2⟩ | ⟨a1, a2⟩ <;>
        omega

/-- Between two frames the slot `mlp_resetimages` recycles next is not flagged
SAVE without SAVED. -/
theorem recycle_safe (cam : ctx_dev) (n : Nat) (h : recycle_inv cam n) :
    slot_pending (ring_at cam.imgs.image_ring
      (next_slot cam.imgs.ring_size cam.imgs.ring_in)) = false := by
  obtain ⟨⟨⟨hsz, hi01, ho01⟩, hlen⟩, hc⟩ := h
  have hr := next_slot_range _ _ hi01.1 hi01.2
  rcases hc with ⟨hw, hd⟩ | ⟨hn0, hout, hin, hcl⟩
  · by_cases hin : ring_window cam (next_slot cam.imgs.ring_size cam.imgs.ring_in)
    · have hro : next_slot cam.imgs.ring_size cam.imgs.ring_in = cam.imgs.ring_out := by
        unfold ring_window at hin
        rcases next_slot_cases cam.imgs.ring_size cam.imgs.ring_in with ⟨a1, a2⟩ | ⟨a1, a2⟩ <;>
          omega
      rcases hd with hd | ⟨hd1, hd2⟩
      · rw [hro]
        exact hd
      · exfalso
        rcases next_slot_cases cam.imgs.ring_size cam.imgs.ring_in with ⟨a1, a2⟩ | ⟨a1, a2⟩ <;>
          omega
    · exact saved_not_pending _ (hw _ hr.1 hr.2 hin)
  · apply clear_not_pending
    apply hcl _ hr.1 hr.2
    rcases next_slot_cases cam.imgs.ring_size cam.imgs.ring_in with ⟨a1, a2⟩ | ⟨a1, a2⟩ <;>
      omega

theorem ring_at_clear (ring : List ctx_image_data)
    (h : ∀ img ∈ ring, img.flags = IMAGE_NONE) (j : Int) :
    (ring_at ring j).flags = IMAGE_NONE := by
  unfold ring_at
  by_cases hj : j.toNat < ring.length
  · rw [List.getD_eq_getElem _ _ hj]
    exact h _ (List.getElem_mem _)
  · rw [List.getD_eq_default _ _ (by omega)]
    rfl

/-- Along a run from a freshly sized ring whose first frames, up to the one
before the produce cursor wraps, do not end flagged TRIGGER, the ring keeps
what `recycle_inv` says and its size. -/
theorem recycle_inv_run (cam : ctx_dev) (ts : List loop_input) (hb : ring_bounds cam)
    (hin : cam.imgs.ring_in = 0) (hout : cam.imgs.ring_out = 0)
    (hclear : ∀ img ∈ cam.imgs.image_ring, img.flags = IMAGE_NONE)
    (hquiet : ∀ k : Nat, k < ts.length → (k : Int) + 1 < cam.imgs.ring_size →
      (frame_tag cam ts k).trigger = false) :
    ∀ k : Nat, k ≤ ts.length → recycle_inv (run_loop cam (ts.take k)) k ∧
      (run_loop cam (ts.take k)).imgs.ring_size = cam.imgs.ring_size := by
  intro k
  induction k with
  | zero =>
    intro _
    refine ⟨⟨hb, Or.inr ⟨?_, hout, hin, fun j _ _ _ => ring_at_clear _ hclear j⟩⟩, rfl⟩
    have := hb.1.1
    show ((0 : Nat) : Int) < cam.imgs.ring_size
    omega
  | succ k ih =>
    intro hk
    have ihk := ih (by omega)
    have hq := hquiet k (by omega)
    unfold frame_tag at hq
    rw [run_loop_take cam ts k (by omega)] at hq ⊢
    have hs := recycle_inv_step (run_loop cam (ts.take k)) (ts.get ⟨k, by omega⟩) k ihk.1
      (by rw [ihk.2]; exact hq)
    exact ⟨hs.1, hs.2.trans ihk.2⟩

/-- C29: in a run of the loop (`mlp_prepare`, `mlp_resetimages`, the score,
`mlp_actions` on each frame, with `event_stop` possibly written from outside
between frames) that starts from a freshly sized ring (both cursors on slot 0,
all flags clear) and whose frames before the one on which the produce cursor
wraps do not end flagged TRIGGER (so a fortiori when none of the first
`ring_size` frames does), at every frame `k` the ring that `mlp_resetimages`
finds is the one frame `k - 1` left, the slot it recycles is the one after
`ring_in`, and that slot is not flagged SAVE without SAVED. -/
theorem no_pending_slot_recycled (cam : ctx_dev) (ts : List loop_input)
    (hb : ring_bounds cam) (hin : cam.imgs.ring_in = 0) (hout : cam.imgs.ring_out = 0)
    (hclear : ∀ img ∈ cam.imgs.image_ring, img.flags = IMAGE_NONE)
    (hquiet : ∀ k : Nat, k < ts.length → (k : Int) + 1 < cam.imgs.ring_size →
      (frame_tag cam ts k).trigger = false) :
    ∀ (k : Nat) (hk : k < ts.length),
      run_loop cam (ts.take (k + 1))
        = frame_step (loop_prepared (run_loop cam (ts.take k)) (ts.get ⟨k, hk⟩))
            (ts.get ⟨k, hk⟩).tick.frame ∧
      (loop_prepared (run_loop cam (ts.take k)) (ts.get ⟨k, hk⟩)).imgs
        = (run_loop cam (ts.take k)).imgs ∧
      (mlp_resetimages (loop_prepared (run_loop cam (ts.take k)) (ts.get ⟨k, hk⟩))
          (ts.get ⟨k, hk⟩).tick.frame.realtime
          (ts.get ⟨k, hk⟩).tick.frame.monotonic).current_image
        = some (next_slot (run_loop cam (ts.take k)).imgs.ring_size
            (run_loop cam (ts.take k)).imgs.ring_in) ∧
      slot_pending (ring_at (run_loop cam (ts.take k)).imgs.image_ring
        (next_slot (run_loop cam (ts.take k)).imgs.ring_size
          (run_loop cam (ts.take k)).imgs.ring_in)) = false := by
  intro k hk
  have hi : (loop_prepared (run_loop cam (ts.take k)) (ts.get ⟨k, hk⟩)).imgs
      = (run_loop cam (ts.take k)).imgs := by
    simp only [loop_prepared, mlp_prepare, apply_ite ctx_dev.imgs, ite_self]
  refine ⟨run_loop_take cam ts k hk, hi, ?_, ?_⟩
  · rw [mlp_resetimages_current, hi]
  · exact recycle_safe _ k
      (recycle_inv_run cam ts hb hin hout hclear hquiet k (by omega)).1

set_option maxRecDepth 100000 in
/-- C29 at `cam_budget` (a ring of three slots, all flags clear) and
`loop_quiet_motion`: frame 2 is flagged TRIGGER and is still to be handed over
when frame 3 begins, and the slot frame 3 recycles is not flagged SAVE without
SAVED. -/
theorem no_pending_slot_recycled_witness :
    (frame_tag cam_budget loop_quiet_motion 2).trigger = true ∧
    slot_pending (ring_at (run_loop cam_budget (loop_quiet_motion.take 3)).imgs.image_ring
      (run_loop cam_budget (loop_quiet_motion.take 3)).imgs.ring_in) = true ∧
    slot_pending (ring_at (run_loop cam_budget (loop_quiet_motion.take 3)).imgs.image_ring
      (next_slot (run_loop cam_budget (loop_quiet_motion.take 3)).imgs.ring_size
        (run_loop cam_budget (loop_quiet_motion.take 3)).imgs.ring_in)) = false :=
  ⟨by decide, by decide,
    (no_pending_slot_recycled cam_budget loop_quiet_motion ⟨by decide, by decide⟩ rfl rfl
      (by decide) (by decide) 3 (by decide)).2.2.2⟩

/-! ## A closure that leaves frames behind -/

set_option maxRecDepth 100000 in
/-- C15 at a ring state that the loop reaches.  `cam_budget` (a ring of three
slots, all flags clear) is run through `loop_stop_twice`: three quiet frames,
then four MOTION frames that are all flagged TRIGGER, with a stop requested
from outside before the second and the fourth of them.  The state handed to
`mlp_actions_event` in the last iteration, `cam_second_close`, has its cursors
in range, a stop pending and `event_nr = prev_event`; `mlp_actions_event` closes
the event (`event_end` is reported) and the TRIGGER frames in slots 0 and 1 are
still flagged SAVE without SAVED.  The first closure has left the consume
cursor one slot ahead of the produce cursor, on slots already SAVED, and
`mlp_ring_process` leaves at the first such slot.  The two frames are handed
over (flagged SAVED) by the iteration that follows, a quiet frame, after the
event has been closed. -/
theorem close_leaves_trigger_pending :
    run_loop cam_budget loop_stop_twice = mlp_actions_event cam_second_close ∧
    ring_inv cam_second_close ∧
    (cam_second_close.event_stop = true ∧
      cam_second_close.event_nr = cam_second_close.prev_event) ∧
    (mlp_actions_event cam_second_close).life.trace
      = cam_second_close.life.trace ++ [false] ∧
    ((mlp_actions_event cam_second_close).imgs.ring_in = 1 ∧
      (mlp_actions_event cam_second_close).imgs.ring_out = 2) ∧
    ((ring_at (mlp_actions_event cam_second_close).imgs.image_ring 0).flags.trigger = true ∧
      slot_pending (ring_at (mlp_actions_event cam_second_close).imgs.image_ring 0) = true) ∧
    ((ring_at (mlp_actions_event cam_second_close).imgs.image_ring 1).flags.trigger = true ∧
      slot_pending (ring_at (mlp_actions_event cam_second_close).imgs.image_ring 1) = true) ∧
    ((ring_at (loop_step (run_loop cam_budget loop_stop_twice)
        { tick := { frame := { diffs := 5 } } }).imgs.image_ring 0).flags.saved = true ∧
      (ring_at (loop_step (run_loop cam_budget loop_stop_twice)
        { tick := { frame := { diffs := 5 } } }).imgs.image_ring 1).flags.saved = true) :=
  ⟨rfl, by decide, by decide, by decide, by decide, by decide, by decide, by decide⟩

end MotionPlus
